import Mathlib

/-!
# Alfalfa player: a shallow embedding of `src/format/alfalfa_player.cc`

The development follows the source file top to bottom: the generic LRU cache,
the raster/state cache pair, the dependency tracker, the seek planners, the
execution driver and the playback planner.  Machine integers are natural
numbers or integers with explicit wrap-around, containers are lists, and every
call that can throw, run into undefined behaviour or loop is a function into
`Except Fault`.  The token costs of `src/encoder/token_costs.cc` follow the
player.
-/

namespace Alfalfa

/-! ## Machine integers and faults -/

/-- Ways in which a call fails to produce a value. -/
inductive Fault where
  /-- `std::out_of_range`, thrown by `.at()` of a map or a vector. -/
  | out_of_range
  /-- Undefined behaviour of the C++ abstract machine (erasing through an
  iterator that designates no node, signed overflow, a range of a vector that
  does not lie within it). -/
  | undefined_behaviour
  /-- The `runtime_error` thrown by `get_raster_sequential`. -/
  | runtime_error
  /-- The iteration budget given to a loop of the model ran out. -/
  | out_of_fuel
  deriving DecidableEq, Repr

/-- Largest value of `size_t` (64 bits). -/
def SIZE_MAX : Nat := 18446744073709551615

/-- Number of `size_t` values. -/
def SIZE_MOD : Nat := 18446744073709551616

/-- Smallest value of a 32-bit `int`. -/
def INT_MIN : Int := -2147483648

/-- Largest value of a 32-bit `int`. -/
def INT_MAX : Int := 2147483647

/-- Smallest value of a 64-bit `long`. -/
def LONG_MIN : Int := -9223372036854775808

/-- Largest value of a 64-bit `long`. -/
def LONG_MAX : Int := 9223372036854775807

/-- The conversion `(int) x` of a `size_t`: the low 32 bits, read in two's
complement. -/
def to_int (x : Nat) : Int :=
  if x % 4294967296 < 2147483648 then ((x % 4294967296 : Nat) : Int)
  else ((x % 4294967296 : Nat) : Int) - 4294967296

/-- The conversion `(long) x` of a `size_t`: 64 bits read in two's complement. -/
def to_long (x : Nat) : Int :=
  if x % SIZE_MOD < 9223372036854775808 then ((x % SIZE_MOD : Nat) : Int)
  else ((x % SIZE_MOD : Nat) : Int) - 18446744073709551616

/-- The conversion `(size_t) i` of a signed integer: reduction modulo `2^64`. -/
def to_size_t (i : Int) : Nat := (i % 18446744073709551616).toNat

/-- Addition of two `size_t` values. -/
def size_add (a b : Nat) : Nat := (a + b) % SIZE_MOD

/-- Subtraction of two `size_t` values. -/
def size_sub (a b : Nat) : Nat := (a % SIZE_MOD + (SIZE_MOD - b % SIZE_MOD)) % SIZE_MOD

/-! ## Associative containers

`std::unordered_map` and `std::map` are modelled by association lists in which
every key occurs at most once; the functions below are the member functions the
source uses. -/

section AssocMap

variable {κ β : Type} [DecidableEq κ]

/-- The lookup `find` / `count` / `at`: the value stored under `key`, if any. -/
def map_find : List (κ × β) → κ → Option β
  | [], _ => none
  | (k, v) :: m, key => if k = key then some v else map_find m key

/-- Assignment through a reference to the entry of `key` (no entry: no change). -/
def map_set : List (κ × β) → κ → β → List (κ × β)
  | [], _, _ => []
  | (k, v) :: m, key, b => if k = key then (k, b) :: m else (k, v) :: map_set m key b

/-- The member `erase( key )`. -/
def map_erase (m : List (κ × β)) (key : κ) : List (κ × β) :=
  m.filter (fun e => decide (e.1 ≠ key))

/-- The member `insert( make_pair( key, b ) )`: it adds the pair when `key` has
no entry and leaves the map as it is when `key` already has one. -/
def map_insert (m : List (κ × β)) (key : κ) (b : β) : List (κ × β) :=
  match map_find m key with
  | some _ => m
  | none => m ++ [(key, b)]

/-- The assignment `m[ key ] = b`: overwrite the entry, creating it if absent. -/
def map_assign (m : List (κ × β)) (key : κ) (b : β) : List (κ × β) :=
  match map_find m key with
  | some _ => map_set m key b
  | none => m ++ [(key, b)]

end AssocMap

/-! ## LRU cache (lines 13-83)

`cached_items_` is a `std::list<size_t>` of keys, most recently used first, and
`cache_` maps a key to the stored object and an iterator into that list.  A list
node is a pair of its address and the key it holds; an iterator is the address
of the node it designates, or `none` for the past-the-end iterator.  The field
`fresh_node_` is the address the next `push_front` allocates. -/

/-- An iterator of `cached_items_`. -/
abbrev ListIter := Option Nat

/-- Modelled from the spec: the class `LRUCache<ObjectType>` (section 4.1), declared in
`alfalfa_player.hh`, which is not among the sources.  The members are those the
methods in `alfalfa_player.cc` use; the capacity constant is a field. -/
structure LRUCache (α : Type) where
  /-- The capacity constant of the class. -/
  cache_capacity : Nat
  /-- Recency list of `(node address, key)`, front first. -/
  cached_items_ : List (Nat × Nat)
  /-- Map `key ↦ (object, iterator)`. -/
  cache_ : List (Nat × (α × ListIter))
  /-- Address of the next list node. -/
  fresh_node_ : Nat

namespace LRUCache

variable {α : Type}

/-- A newly constructed cache of the given capacity. -/
def empty (capacity : Nat) : LRUCache α :=
  { cache_capacity := capacity, cached_items_ := [], cache_ := [], fresh_node_ := 0 }

/-- The member `cbegin()` of the recency list. -/
def list_cbegin (l : List (Nat × Nat)) : ListIter := l.head?.map Prod.fst

/-- The member `erase( it )` of the recency list; erasing through an iterator
that designates no node of the list is undefined. -/
def list_erase (l : List (Nat × Nat)) (it : ListIter) : Except Fault (List (Nat × Nat)) :=
  match it with
  | none => Except.error Fault.undefined_behaviour
  | some n =>
    if l.any (fun e => decide (e.1 = n)) then
      Except.ok (l.filter (fun e => decide (e.1 ≠ n)))
    else Except.error Fault.undefined_behaviour

/-- The method `LRUCache::put` (lines 13-33). -/
def put (c : LRUCache α) (key : Nat) (obj : α) : Except Fault (LRUCache α) :=
  match map_find c.cache_ key with
  | some item =>
    match list_erase c.cached_items_ item.2 with
    | Except.error e => Except.error e
    | Except.ok erased =>
      let items := (c.fresh_node_, key) :: erased
      let cache := map_set c.cache_ key (item.1, list_cbegin items)
      Except.ok { cache_capacity := c.cache_capacity
                  cached_items_ := items
                  cache_ := map_insert cache key (obj, list_cbegin items)
                  fresh_node_ := c.fresh_node_ + 1 }
  | none =>
    let pushed := (c.fresh_node_, key) :: c.cached_items_
    if pushed.length > c.cache_capacity then
      match pushed.getLast? with
      | none => Except.error Fault.undefined_behaviour
      | some last =>
        let cache := map_erase c.cache_ last.2
        let items := pushed.dropLast
        Except.ok { cache_capacity := c.cache_capacity
                    cached_items_ := items
                    cache_ := map_insert cache key (obj, list_cbegin items)
                    fresh_node_ := c.fresh_node_ + 1 }
    else
      Except.ok { cache_capacity := c.cache_capacity
                  cached_items_ := pushed
                  cache_ := map_insert c.cache_ key (obj, list_cbegin pushed)
                  fresh_node_ := c.fresh_node_ + 1 }

/-- The method `LRUCache::has` (lines 44-48). -/
def has (c : LRUCache α) (key : Nat) : Bool := (map_find c.cache_ key).isSome

/-- The method `LRUCache::get` (lines 50-61): the object and the cache after
the bump. -/
def get (c : LRUCache α) (key : Nat) : Except Fault (α × LRUCache α) :=
  match map_find c.cache_ key with
  | none => Except.error Fault.out_of_range
  | some item =>
    match list_erase c.cached_items_ item.2 with
    | Except.error e => Except.error e
    | Except.ok erased =>
      let items := (c.fresh_node_, key) :: erased
      Except.ok (item.1, { cache_capacity := c.cache_capacity
                           cached_items_ := items
                           cache_ := map_set c.cache_ key (item.1, list_cbegin items)
                           fresh_node_ := c.fresh_node_ + 1 })

/-- The method `LRUCache::clear` (lines 63-68). -/
def clear (c : LRUCache α) : LRUCache α :=
  { cache_capacity := c.cache_capacity, cached_items_ := [], cache_ := []
    fresh_node_ := c.fresh_node_ }

/-- The method `LRUCache::size` (lines 70-74). -/
def size (c : LRUCache α) : Nat := c.cache_.length

/-- The keys of the recency list, most recently used first. -/
def recency (c : LRUCache α) : List Nat := c.cached_items_.map Prod.snd

/-- The keys that have an entry in the map. -/
def keys (c : LRUCache α) : List Nat := c.cache_.map Prod.fst

/-- The object stored under `key`, without touching the recency order. -/
def peek (c : LRUCache α) (key : Nat) : Option α := (map_find c.cache_ key).map Prod.fst

end LRUCache

/-- One operation of a client of the cache. -/
inductive LRUOp (α : Type) where
  | put (key : Nat) (obj : α)
  | get (key : Nat)

/-- Apply one operation. -/
def LRUOp.apply {α : Type} (c : LRUCache α) : LRUOp α → Except Fault (LRUCache α)
  | LRUOp.put key obj => c.put key obj
  | LRUOp.get key =>
    match c.get key with
    | Except.error e => Except.error e
    | Except.ok r => Except.ok r.2

/-- Apply a sequence of operations, first to last. -/
def LRUCache.run {α : Type} (c : LRUCache α) : List (LRUOp α) → Except Fault (LRUCache α)
  | [] => Except.ok c
  | op :: ops =>
    match op.apply c with
    | Except.error e => Except.error e
    | Except.ok c1 => LRUCache.run c1 ops

/-! ## Raster and state cache (lines 35-42, 864-883) -/

/-- Modelled from the spec: the class `RasterAndStateCache` (section 4.2), declared in a
header that is not among the sources: an LRU cache of rasters and one of decoder
states, both keyed by content hash. -/
structure RasterAndStateCache (R S : Type) where
  raster_cache_ : LRUCache R
  state_cache_ : LRUCache S

/-! ## Frames, switches and the metadata service -/

/-- Modelled from the spec: the source hashes of a frame (section 3, FrameInfo),
declared in a header that is not among the sources: the hashes a frame needs
before it can be decoded, each one optional. -/
structure SourceHash where
  state_hash : Option Nat
  last_hash : Option Nat
  golden_hash : Option Nat
  alt_hash : Option Nat
  deriving DecidableEq, Repr

/-- Modelled from the spec: the target hashes of a frame (section 3, FrameInfo): the
hashes a decoded frame produces. -/
structure TargetHash where
  state_hash : Nat
  output_hash : Nat
  deriving DecidableEq, Repr

/-- Modelled from the spec: the descriptor `FrameInfo` of one compressed frame
(section 3), declared in a header that is not among the sources. -/
structure FrameInfo where
  frame_id : Nat
  length : Nat
  shown : Bool
  source_hash : SourceHash
  target_hash : TargetHash
  deriving DecidableEq, Repr

/-- Modelled from the spec: the struct `TrackData` (section 6,
`get_track_data_by_frame_id`): a frame sits at `frame_index` of `track_id`. -/
structure TrackData where
  track_id : Nat
  frame_index : Nat
  deriving DecidableEq, Repr

/-- Modelled from the spec: the struct `SwitchInfo` (section 3), a switch between two
tracks with its frames. -/
structure SwitchInfo where
  from_track_id : Nat
  to_track_id : Nat
  from_frame_index : Nat
  to_frame_index : Nat
  switch_start_index : Nat
  frames : List FrameInfo
  deriving DecidableEq, Repr

/-- Modelled from the spec: the metadata service `video_` (section 6), whose
implementation is not among the sources.  A track is its size and the frame at
each index below the size; the answers of the lookup queries are fields, in the
order in which the service enumerates them. -/
structure AlfalfaVideoClient where
  /-- `get_track_ids()`. -/
  track_ids : List Nat
  /-- `get_track_size( track_id )`. -/
  track_size : Nat → Nat
  /-- The frame at an index of a track. -/
  frame_at : Nat → Nat → FrameInfo
  /-- `get_frames_by_output_hash( output_hash )`. -/
  frames_by_output_hash : Nat → List FrameInfo
  /-- `get_switches_with_frame( frame_id )`. -/
  switches_with_frame : Nat → List SwitchInfo
  /-- `get_track_data_by_frame_id( frame_id )`. -/
  track_data_by_frame_id : Nat → List TrackData
  /-- `get_frames( from_track_id, to_track_id, from_frame_index,
  switch_start_index, switch_end_index )`: the frames of a switch. -/
  switch_frames : Nat → Nat → Nat → Nat → Nat → List FrameInfo
  /-- `get_frame_index_by_displayed_raster_index( track_id, dri )`; index 0 for a
  video that is not given an answer. -/
  frame_index_by_displayed_raster_index : Nat → Nat → Nat := fun _ _ => 0
  /-- `get_all_switches_in_window( track_id, lo, hi )`; no switch for a video that
  is not given an answer. -/
  all_switches_in_window : Nat → Nat → Nat → List SwitchInfo := fun _ _ _ => []
  /-- `get_connected_track_ids( track_id )`; no track for a video that is not
  given an answer. -/
  connected_track_ids : Nat → List Nat := fun _ => []

/-- The frames `f top, f (top - 1), ...`, `count` of them. -/
def frames_down (f : Nat → FrameInfo) : Nat → Nat → List FrameInfo
  | _, 0 => []
  | top, count + 1 => f top :: frames_down f (top - 1) count

/-- The frames `f start, f (start + 1), ...`, `count` of them. -/
def frames_up (f : Nat → FrameInfo) : Nat → Nat → List FrameInfo
  | _, 0 => []
  | start, count + 1 => f start :: frames_up f (start + 1) count

/-- Modelled from the spec: `get_frames_reverse( track_id, from, to )` of the
metadata service (section 6: "inclusive both sides; caller pages using
MAX_NUM_FRAMES").  The frames of the track at the indices `from, from - 1, ...,
to`, in that order; a range that is inverted or does not start inside the track
is empty (section 4.4, "an empty backward range"). -/
def AlfalfaVideoClient.get_frames_reverse (video : AlfalfaVideoClient)
    (track_id from_frame_index to_frame_index : Nat) : List FrameInfo :=
  if to_frame_index ≤ from_frame_index ∧ from_frame_index < video.track_size track_id then
    frames_down (video.frame_at track_id) from_frame_index
      (from_frame_index - to_frame_index + 1)
  else []

/-- Modelled from the spec: `get_frames( track_id, from, to )` of the metadata
service (section 6: "half-open"): the frames of the track at the indices
`from, ..., to - 1` that lie inside the track. -/
def AlfalfaVideoClient.get_frames (video : AlfalfaVideoClient)
    (track_id from_frame_index to_frame_index : Nat) : List FrameInfo :=
  frames_up (video.frame_at track_id) from_frame_index
    (min to_frame_index (video.track_size track_id) - from_frame_index)

/-! ## Dependency tracker (lines 85-182) -/

/-- Modelled from the spec: the enumeration `DependencyType` (section 3,
DependencyVertex), declared in `alfalfa_player.hh`. -/
inductive DependencyType where
  | STATE
  | RASTER
  deriving DecidableEq, Repr

/-- Modelled from the spec: the struct `DependencyVertex` (section 3), a vertex
`(kind, hash)` of the dependency graph. -/
structure DependencyVertex where
  type : DependencyType
  hash : Nat
  deriving DecidableEq, Repr

/-- The member `insert` of a set of vertices. -/
def set_insert (s : List DependencyVertex) (v : DependencyVertex) : List DependencyVertex :=
  if v ∈ s then s else s ++ [v]

/-- The member `erase` of a set of vertices. -/
def set_erase (s : List DependencyVertex) (v : DependencyVertex) : List DependencyVertex :=
  s.filter (fun w => decide (w ≠ v))

/-- Modelled from the spec: the class `AlfalfaPlayer::FrameDependency` (section 3),
declared in `alfalfa_player.hh`: the two containers its methods in
`alfalfa_player.cc` use. -/
structure FrameDependency where
  /-- Map from a vertex to its reference count. -/
  ref_counter_ : List (DependencyVertex × Nat)
  /-- Set of unresolved vertices. -/
  unresolved_ : List DependencyVertex
  deriving DecidableEq, Repr

namespace FrameDependency

/-- A default-constructed `FrameDependency`. -/
def empty : FrameDependency := { ref_counter_ := [], unresolved_ := [] }

/-- The method `increase_count<DepType>` (lines 85-98): the new count and the
object after the call. -/
def increase_count (d : FrameDependency) (dep_type : DependencyType) (hash : Nat) :
    Nat × FrameDependency :=
  let vertex : DependencyVertex := { type := dep_type, hash := hash }
  match map_find d.ref_counter_ vertex with
  | some n =>
    (size_add n 1, { ref_counter_ := map_set d.ref_counter_ vertex (size_add n 1)
                     unresolved_ := d.unresolved_ })
  | none =>
    (1, { ref_counter_ := map_assign d.ref_counter_ vertex 1, unresolved_ := d.unresolved_ })

/-- The method `decrease_count<DepType>` (lines 100-112). -/
def decrease_count (d : FrameDependency) (dep_type : DependencyType) (hash : Nat) :
    Nat × FrameDependency :=
  let vertex : DependencyVertex := { type := dep_type, hash := hash }
  match map_find d.ref_counter_ vertex with
  | some n =>
    if n > 0 then
      (n - 1, { ref_counter_ := map_set d.ref_counter_ vertex (n - 1)
                unresolved_ := d.unresolved_ })
    else
      (0, { ref_counter_ := map_erase d.ref_counter_ vertex, unresolved_ := d.unresolved_ })
  | none =>
    (0, { ref_counter_ := map_erase d.ref_counter_ vertex, unresolved_ := d.unresolved_ })

/-- The method `get_count<DepType>` (lines 114-125). -/
def get_count (d : FrameDependency) (dep_type : DependencyType) (hash : Nat) : Nat :=
  match map_find d.ref_counter_ { type := dep_type, hash := hash } with
  | none => 0
  | some n => n

/-- One pass of the loop at lines 138-145, or the block at lines 147-153: a
present hash that `has` does not find is counted and inserted. -/
def require (d : FrameDependency) (dep_type : DependencyType) (has : Nat → Bool)
    (hash : Option Nat) : FrameDependency :=
  match hash with
  | none => d
  | some h =>
    if !has h then
      let d1 := (d.increase_count dep_type h).2
      { ref_counter_ := d1.ref_counter_
        unresolved_ := set_insert d1.unresolved_ { type := dep_type, hash := h } }
    else d

/-- The method `update_dependencies` (lines 127-154). -/
def update_dependencies {R S : Type} (d : FrameDependency) (frame : FrameInfo)
    (cache : RasterAndStateCache R S) : FrameDependency :=
  let d0 : FrameDependency :=
    { ref_counter_ := d.ref_counter_
      unresolved_ :=
        set_erase
          (set_erase d.unresolved_
            { type := DependencyType.RASTER, hash := frame.target_hash.output_hash })
          { type := DependencyType.STATE, hash := frame.target_hash.state_hash } }
  let hash : List (Option Nat) :=
    [frame.source_hash.last_hash, frame.source_hash.golden_hash, frame.source_hash.alt_hash]
  let d3 := hash.foldl (fun acc h => acc.require DependencyType.RASTER cache.raster_cache_.has h) d0
  d3.require DependencyType.STATE cache.state_cache_.has frame.source_hash.state_hash

/-- One pass of the loop at lines 164-170, or the block at lines 172-176. -/
def release (d : FrameDependency) (dep_type : DependencyType) (has : Nat → Bool)
    (hash : Option Nat) : FrameDependency :=
  match hash with
  | none => d
  | some h => if !has h then (d.decrease_count dep_type h).2 else d

/-- The method `update_dependencies_forward` (lines 156-177). -/
def update_dependencies_forward {R S : Type} (d : FrameDependency) (frame : FrameInfo)
    (cache : RasterAndStateCache R S) : FrameDependency :=
  let hash : List (Option Nat) :=
    [frame.source_hash.last_hash, frame.source_hash.golden_hash, frame.source_hash.alt_hash]
  let d3 := hash.foldl (fun acc h => acc.release DependencyType.RASTER cache.raster_cache_.has h) d
  d3.release DependencyType.STATE cache.state_cache_.has frame.source_hash.state_hash

/-- The method `all_resolved` (lines 179-182). -/
def all_resolved (d : FrameDependency) : Bool := d.unresolved_.length == 0

end FrameDependency

/-! ## Seek planners (lines 184-329) -/

/-- The constant `MAX_NUM_FRAMES` (line 8). -/
def MAX_NUM_FRAMES : Nat := 1000

/-- The constant `WINDOW_SIZE` (line 11). -/
def WINDOW_SIZE : Nat := 24 * 60

/-- Modelled from the spec: the plan `TrackPath` (section 3, Plans), declared in
`alfalfa_player.hh`. -/
structure TrackPath where
  track_id : Nat
  start_index : Nat
  end_index : Nat
  cost : Nat
  deriving DecidableEq, Repr

/-- Modelled from the spec: the plan `SwitchPath` (section 3, Plans), declared in
`alfalfa_player.hh`. -/
structure SwitchPath where
  from_track_id : Nat
  to_track_id : Nat
  from_frame_index : Nat
  to_frame_index : Nat
  switch_start_index : Nat
  switch_end_index : Nat
  cost : Nat
  deriving DecidableEq, Repr

/-- The result `(start index, dependencies, cost)` of a track seek. -/
abbrev TrackSeek := Nat × FrameDependency × Nat

/-- The expression at lines 272-273 and 293-294 that yields `to_frame_index`:
the test is `int` arithmetic on `cur_frame_index`, the value is `size_t`
arithmetic on `from_frame_index`. -/
def seek_to_frame_index (cur_frame_index : Int) (from_frame_index : Nat) : Except Fault Nat :=
  if cur_frame_index - (MAX_NUM_FRAMES : Int) < INT_MIN then
    Except.error Fault.undefined_behaviour
  else if cur_frame_index - (MAX_NUM_FRAMES : Int) + 1 ≥ 0 then
    Except.ok (size_add (size_sub from_frame_index MAX_NUM_FRAMES) 1)
  else Except.ok 0

/-- The `for` loop at lines 282-291 over one batch: either the `return` at line
288 is taken (`Sum.inl`), or the batch is used up and the loop variables are
handed back (`Sum.inr`). -/
def track_seek_batch {R S : Type} (cache : RasterAndStateCache R S) :
    List FrameInfo → Int → FrameDependency → Nat →
      Except Fault (TrackSeek ⊕ (Int × FrameDependency × Nat))
  | [], cur_frame_index, dependencies, cost =>
    Except.ok (Sum.inr (cur_frame_index, dependencies, cost))
  | frame :: rest, cur_frame_index, dependencies, cost =>
    let cost1 := size_add cost frame.length
    let dependencies1 := dependencies.update_dependencies frame cache
    if dependencies1.all_resolved then
      Except.ok (Sum.inl (to_size_t cur_frame_index, dependencies1, cost1))
    else if cur_frame_index - 1 < INT_MIN then
      Except.error Fault.undefined_behaviour
    else track_seek_batch cache rest (cur_frame_index - 1) dependencies1 cost1

/-- The `while` loop at lines 281-297 and the `return` at line 299; one unit of
fuel per pass of the `while`. -/
def track_seek_while {R S : Type} (video : AlfalfaVideoClient)
    (cache : RasterAndStateCache R S) (track_id from_frame_index : Nat) :
    Nat → List FrameInfo → Int → FrameDependency → Nat → Except Fault TrackSeek
  | 0, _, _, _, _ => Except.error Fault.out_of_fuel
  | fuel + 1, frames_backward, cur_frame_index, dependencies, cost =>
    if cur_frame_index ≥ 0 then
      match track_seek_batch cache frames_backward cur_frame_index dependencies cost with
      | Except.error e => Except.error e
      | Except.ok (Sum.inl result) => Except.ok result
      | Except.ok (Sum.inr (cur1, dependencies1, cost1)) =>
        if cur1 ≥ 0 then
          match seek_to_frame_index cur1 from_frame_index with
          | Except.error e => Except.error e
          | Except.ok to_frame_index =>
            track_seek_while video cache track_id from_frame_index fuel
              (video.get_frames_reverse track_id (to_size_t cur1) to_frame_index)
              cur1 dependencies1 cost1
        else
          track_seek_while video cache track_id from_frame_index fuel
            frames_backward cur1 dependencies1 cost1
    else Except.ok (from_frame_index, dependencies, SIZE_MAX)

/-- The method `AlfalfaPlayer::get_track_seek` (lines 265-300). -/
def get_track_seek {R S : Type} (fuel : Nat) (video : AlfalfaVideoClient)
    (cache : RasterAndStateCache R S) (track_id from_frame_index : Nat)
    (dependencies : FrameDependency) : Except Fault TrackSeek :=
  let cur_frame_index : Int := to_int from_frame_index
  match seek_to_frame_index cur_frame_index from_frame_index with
  | Except.error e => Except.error e
  | Except.ok to_frame_index =>
    let frames_backward := video.get_frames_reverse track_id from_frame_index to_frame_index
    if frames_backward.length == 0 then
      Except.ok (SIZE_MAX, dependencies, SIZE_MAX)
    else
      track_seek_while video cache track_id from_frame_index fuel frames_backward
        cur_frame_index dependencies 0

/-- The loop variables of `get_min_track_seek`: `min_cost`, `min_track_path`
and `min_frame_dependency`. -/
abbrev MinTrackState := Nat × TrackPath × FrameDependency

/-- The inner `for` loop at lines 314-325, over the track data of one frame. -/
def min_track_seek_inner {R S : Type} (fuel : Nat) (video : AlfalfaVideoClient)
    (cache : RasterAndStateCache R S) :
    List TrackData → MinTrackState → Except Fault MinTrackState
  | [], st => Except.ok st
  | track_data :: rest, (min_cost, min_track_path, min_frame_dependency) =>
    match get_track_seek fuel video cache track_data.track_id track_data.frame_index
        FrameDependency.empty with
    | Except.error e => Except.error e
    | Except.ok seek =>
      if seek.2.2 < min_cost then
        min_track_seek_inner fuel video cache rest
          (seek.2.2,
           { track_id := track_data.track_id, start_index := seek.1
             end_index := size_add track_data.frame_index 1, cost := seek.2.2 },
           seek.2.1)
      else
        min_track_seek_inner fuel video cache rest
          (min_cost, min_track_path, min_frame_dependency)

/-- The outer `for` loop at lines 313-326, over the frames with the output hash. -/
def min_track_seek_outer {R S : Type} (fuel : Nat) (video : AlfalfaVideoClient)
    (cache : RasterAndStateCache R S) :
    List FrameInfo → MinTrackState → Except Fault MinTrackState
  | [], st => Except.ok st
  | frame :: rest, st =>
    match min_track_seek_inner fuel video cache
        (video.track_data_by_frame_id frame.frame_id) st with
    | Except.error e => Except.error e
    | Except.ok st1 => min_track_seek_outer fuel video cache rest st1

/-- The method `AlfalfaPlayer::get_min_track_seek` (lines 302-329).  The fields
of `min_track_path` that the source leaves uninitialised read as 0. -/
def get_min_track_seek {R S : Type} (fuel : Nat) (video : AlfalfaVideoClient)
    (cache : RasterAndStateCache R S) (output_hash : Nat) :
    Except Fault (TrackPath × FrameDependency) :=
  match min_track_seek_outer fuel video cache (video.frames_by_output_hash output_hash)
      (SIZE_MAX, { track_id := 0, start_index := 0, end_index := 0, cost := SIZE_MAX },
       FrameDependency.empty) with
  | Except.error e => Except.error e
  | Except.ok st => Except.ok (st.2.1, st.2.2)

/-- The `for` loop at lines 204-213 over the frames of a switch: the cost, the
dependencies and `cur_switch_frame_index` when the loop is left. -/
def switch_walk {R S : Type} (cache : RasterAndStateCache R S) :
    List FrameInfo → Nat → FrameDependency → Nat → Nat × FrameDependency × Nat
  | [], cost, dependencies, cur_switch_frame_index =>
    (cost, dependencies, cur_switch_frame_index)
  | frame :: rest, cost, dependencies, cur_switch_frame_index =>
    let cost1 := size_add cost frame.length
    let dependencies1 := dependencies.update_dependencies frame cache
    if dependencies1.all_resolved then (cost1, dependencies1, cur_switch_frame_index)
    else switch_walk cache rest cost1 dependencies1 (size_add cur_switch_frame_index 1)

/-- The loop variables of `get_min_switch_seek`. -/
structure MinSwitchState where
  min_cost : Nat
  min_switch_path : SwitchPath
  min_track_path : Option TrackPath
  min_dependencies : FrameDependency
  deriving DecidableEq, Repr

/-- The assignments at lines 227-235 and 246-254. -/
def adopt_switch_path (sw : SwitchInfo) (cur_switch_frame_index cost : Nat) : SwitchPath :=
  { from_track_id := sw.from_track_id
    to_track_id := sw.to_track_id
    from_frame_index := sw.from_frame_index
    to_frame_index := sw.to_frame_index
    switch_start_index := 0
    switch_end_index := size_add cur_switch_frame_index 1
    cost := cost }

/-- The `for` loop at lines 199-259 over the switches of one target frame.  The
`break` at line 221 leaves this loop. -/
def min_switch_seek_inner {R S : Type} (fuel : Nat) (video : AlfalfaVideoClient)
    (cache : RasterAndStateCache R S) :
    List SwitchInfo → MinSwitchState → Except Fault MinSwitchState
  | [], st => Except.ok st
  | sw :: rest, st =>
    let walk := switch_walk cache sw.frames 0 FrameDependency.empty sw.switch_start_index
    if !walk.2.1.all_resolved then
      match get_track_seek fuel video cache sw.from_track_id sw.from_frame_index walk.2.1 with
      | Except.error e => Except.error e
      | Except.ok track_seek =>
        if track_seek.2.2 = SIZE_MAX then Except.ok st
        else
          let cost := size_add walk.1 track_seek.2.2
          if cost < st.min_cost then
            min_switch_seek_inner fuel video cache rest
              { min_cost := cost
                min_switch_path := adopt_switch_path sw walk.2.2 cost
                min_track_path :=
                  some { track_id := sw.from_track_id, start_index := track_seek.1
                         end_index := size_add sw.from_frame_index 1
                         cost := track_seek.2.2 }
                min_dependencies := track_seek.2.1 }
          else min_switch_seek_inner fuel video cache rest st
    else
      if walk.1 < st.min_cost then
        min_switch_seek_inner fuel video cache rest
          { min_cost := walk.1
            min_switch_path := adopt_switch_path sw walk.2.2 walk.1
            min_track_path := st.min_track_path
            min_dependencies := walk.2.1 }
      else min_switch_seek_inner fuel video cache rest st

/-- The `for` loop at lines 196-260 over the target frames. -/
def min_switch_seek_outer {R S : Type} (fuel : Nat) (video : AlfalfaVideoClient)
    (cache : RasterAndStateCache R S) :
    List FrameInfo → MinSwitchState → Except Fault MinSwitchState
  | [], st => Except.ok st
  | target_frame :: rest, st =>
    match min_switch_seek_inner fuel video cache
        (video.switches_with_frame target_frame.frame_id) st with
    | Except.error e => Except.error e
    | Except.ok st1 => min_switch_seek_outer fuel video cache rest st1

/-- The method `AlfalfaPlayer::get_min_switch_seek` (lines 184-263).  The fields
of `min_switch_path` that the source leaves uninitialised read as 0. -/
def get_min_switch_seek {R S : Type} (fuel : Nat) (video : AlfalfaVideoClient)
    (cache : RasterAndStateCache R S) (output_hash : Nat) :
    Except Fault (SwitchPath × Option TrackPath × FrameDependency) :=
  match min_switch_seek_outer fuel video cache (video.frames_by_output_hash output_hash)
      { min_cost := SIZE_MAX
        min_switch_path :=
          { from_track_id := 0, to_track_id := 0, from_frame_index := 0, to_frame_index := 0
            switch_start_index := 0, switch_end_index := 0, cost := SIZE_MAX }
        min_track_path := none
        min_dependencies := FrameDependency.empty } with
  | Except.error e => Except.error e
  | Except.ok st => Except.ok (st.min_switch_path, st.min_track_path, st.min_dependencies)

/-! ## Decoder, fetcher and player state -/

/-- Modelled from the spec: the collaborator class `Decoder` (section 6), a decoder
state and three references. -/
structure Decoder (R S : Type) where
  state : S
  last : R
  golden : R
  alternative_reference : R

/-- Modelled from the spec: the external collaborators of section 6 (decoder,
fetcher, content hashes), which are not among the sources.  `R` is the type of
raster handles, `S` of decoder states and `K` of compressed chunks. -/
structure Collaborators (R S K : Type) where
  /-- The member `hash()` of a raster handle. -/
  raster_hash : R → Nat
  /-- The member `hash()` of a decoder state. -/
  state_hash : S → Nat
  /-- A reference of a new `References( video_width_, video_height_ )`. -/
  fresh_raster : R
  /-- A new `DecoderState( video_width_, video_height_ )`. -/
  fresh_state : S
  /-- The fetcher `web_.get_chunk( frame )`. -/
  get_chunk : FrameInfo → K
  /-- The member `get_frame_output( chunk )` of a decoder: whether the frame is
  shown, its raster, and the decoder after the call. -/
  get_frame_output : Decoder R S → K → (Bool × R) × Decoder R S

/-- Modelled from the spec: the struct `FrameInfoWrapper` (section 3): a frame of a
frame sequence, with its track and displayed raster index. -/
structure FrameInfoWrapper where
  frame_info : FrameInfo
  track_id : Nat
  dri : Nat
  deriving DecidableEq, Repr

/-- Modelled from the spec: the struct `FrameSequence` (section 3), a candidate plan
and its quality.  The `double` field `min_ssim` is the
rational number the floating-point value denotes; the source only compares it
and converts it to `size_t`, and both are exact on that number. -/
structure FrameSequence where
  frame_seq : List FrameInfoWrapper
  min_ssim : ℚ
  deriving DecidableEq

/-- Modelled from the spec: the class `AlfalfaPlayer` (section 3, Player state),
declared in `alfalfa_player.hh`: the data members that the methods below read or
write. -/
structure AlfalfaPlayer (R S K : Type) where
  video_ : AlfalfaVideoClient
  cache_ : RasterAndStateCache R S
  frame_cache_ : LRUCache K
  downloaded_frame_bytes_ : Nat
  current_download_pt_index_ : Nat
  current_playhead_index_ : Nat
  current_frame_seq_ : List FrameInfoWrapper
  track_frames_ : List (Nat × List FrameInfo)
  quality_data_ : List (Nat × List (Nat × ℚ))

/-- The method `RasterAndStateCache::put` (lines 35-42). -/
def RasterAndStateCache.put {R S K : Type} (ext : Collaborators R S K)
    (cache : RasterAndStateCache R S) (decoder : Decoder R S) :
    Except Fault (RasterAndStateCache R S) :=
  match cache.raster_cache_.put (ext.raster_hash decoder.last) decoder.last with
  | Except.error e => Except.error e
  | Except.ok r1 =>
    match r1.put (ext.raster_hash decoder.golden) decoder.golden with
    | Except.error e => Except.error e
    | Except.ok r2 =>
      match r2.put (ext.raster_hash decoder.alternative_reference)
          decoder.alternative_reference with
      | Except.error e => Except.error e
      | Except.ok r3 =>
        match cache.state_cache_.put (ext.state_hash decoder.state) decoder.state with
        | Except.error e => Except.error e
        | Except.ok s1 => Except.ok { raster_cache_ := r3, state_cache_ := s1 }

/-- The method `RasterAndStateCache::size` (lines 874-877). -/
def RasterAndStateCache.size {R S : Type} (cache : RasterAndStateCache R S) : Nat :=
  size_add cache.raster_cache_.size cache.state_cache_.size

/-- The method `RasterAndStateCache::clear` (lines 879-883). -/
def RasterAndStateCache.clear {R S : Type} (cache : RasterAndStateCache R S) :
    RasterAndStateCache R S :=
  { raster_cache_ := cache.raster_cache_.clear, state_cache_ := cache.state_cache_.clear }

/-! ## Execution driver (lines 350-455) -/

/-- One of the four lookups of `get_decoder`: an initialised hash is fetched
from the LRU cache, an absent one keeps the fresh value. -/
def fetch_reference {α : Type} (c : LRUCache α) (hash : Option Nat) (fresh : α) :
    Except Fault (α × LRUCache α) :=
  match hash with
  | none => Except.ok (fresh, c)
  | some h => c.get h

/-- The method `AlfalfaPlayer::get_decoder` (lines 350-373): the decoder and the
cache after the lookups. -/
def get_decoder {R S K : Type} (ext : Collaborators R S K) (cache : RasterAndStateCache R S)
    (frame : FrameInfo) : Except Fault (Decoder R S × RasterAndStateCache R S) :=
  match fetch_reference cache.raster_cache_ frame.source_hash.last_hash ext.fresh_raster with
  | Except.error e => Except.error e
  | Except.ok (last, r1) =>
    match fetch_reference r1 frame.source_hash.golden_hash ext.fresh_raster with
    | Except.error e => Except.error e
    | Except.ok (golden, r2) =>
      match fetch_reference r2 frame.source_hash.alt_hash ext.fresh_raster with
      | Except.error e => Except.error e
      | Except.ok (alt, r3) =>
        match fetch_reference cache.state_cache_ frame.source_hash.state_hash
            ext.fresh_state with
        | Except.error e => Except.error e
        | Except.ok (state, s1) =>
          Except.ok ({ state := state, last := last, golden := golden
                       alternative_reference := alt },
                     { raster_cache_ := r3, state_cache_ := s1 })

/-- The body shared by the loops at lines 387-393 and 414-420, over a list of
frames: decode, publish to the cache, relieve the dependencies. -/
def follow_frames {R S K : Type} (ext : Collaborators R S K) :
    List FrameInfo → RasterAndStateCache R S → FrameDependency →
      Except Fault (RasterAndStateCache R S × FrameDependency)
  | [], cache, dependencies => Except.ok (cache, dependencies)
  | frame :: rest, cache, dependencies =>
    match get_decoder ext cache frame with
    | Except.error e => Except.error e
    | Except.ok (decoder, cache1) =>
      let output := ext.get_frame_output decoder (ext.get_chunk frame)
      match cache1.put ext output.2 with
      | Except.error e => Except.error e
      | Except.ok cache2 =>
        match cache2.raster_cache_.put (ext.raster_hash output.1.2) output.1.2 with
        | Except.error e => Except.error e
        | Except.ok r =>
          let cache3 : RasterAndStateCache R S :=
            { raster_cache_ := r, state_cache_ := cache2.state_cache_ }
          follow_frames ext rest cache3 (dependencies.update_dependencies_forward frame cache3)

/-- The expression at lines 382-383 and 396-397. -/
def follow_to_frame_index (from_frame_index end_index : Nat) : Nat :=
  if size_add from_frame_index MAX_NUM_FRAMES ≥ end_index then end_index
  else size_add from_frame_index MAX_NUM_FRAMES

/-- The `while` loop at lines 386-400; one unit of fuel per pass. -/
def follow_track_while {R S K : Type} (ext : Collaborators R S K)
    (video : AlfalfaVideoClient) (path : TrackPath) :
    Nat → Nat → List FrameInfo → RasterAndStateCache R S → FrameDependency →
      Except Fault (RasterAndStateCache R S × FrameDependency)
  | 0, _, _, _, _ => Except.error Fault.out_of_fuel
  | fuel + 1, from_frame_index, frames, cache, dependencies =>
    if from_frame_index < path.end_index then
      match follow_frames ext frames cache dependencies with
      | Except.error e => Except.error e
      | Except.ok (cache1, dependencies1) =>
        let from1 := size_add from_frame_index MAX_NUM_FRAMES
        if from1 < path.end_index then
          follow_track_while ext video path fuel from1
            (video.get_frames path.track_id from1 (follow_to_frame_index from1 path.end_index))
            cache1 dependencies1
        else follow_track_while ext video path fuel from1 frames cache1 dependencies1
    else Except.ok (cache, dependencies)

/-- The method `AlfalfaPlayer::follow_track_path` (lines 375-403): the cache
after the walk and the returned dependencies. -/
def follow_track_path {R S K : Type} (fuel : Nat) (ext : Collaborators R S K)
    (video : AlfalfaVideoClient) (cache : RasterAndStateCache R S) (path : TrackPath)
    (dependencies : FrameDependency) :
    Except Fault (RasterAndStateCache R S × FrameDependency) :=
  follow_track_while ext video path fuel path.start_index
    (video.get_frames path.track_id path.start_index
      (follow_to_frame_index path.start_index path.end_index))
    cache dependencies

/-- The method `AlfalfaPlayer::follow_switch_path` (lines 405-423). -/
def follow_switch_path {R S K : Type} (ext : Collaborators R S K)
    (video : AlfalfaVideoClient) (cache : RasterAndStateCache R S) (path : SwitchPath)
    (dependencies : FrameDependency) :
    Except Fault (RasterAndStateCache R S × FrameDependency) :=
  follow_frames ext
    (video.switch_frames path.from_track_id path.to_track_id path.from_frame_index
      path.switch_start_index path.switch_end_index)
    cache dependencies

/-- The final `return cache_.raster_cache().get( output_hash )` of the two
methods below. -/
def fetch_raster {R S : Type} (cache : RasterAndStateCache R S) (output_hash : Nat) :
    Except Fault (Option R × RasterAndStateCache R S) :=
  match cache.raster_cache_.get output_hash with
  | Except.error e => Except.error e
  | Except.ok (raster, r) =>
    Except.ok (some raster, { raster_cache_ := r, state_cache_ := cache.state_cache_ })

/-- The method `AlfalfaPlayer::get_raster_track_path` (lines 425-435): the
returned optional raster and the cache afterwards. -/
def get_raster_track_path {R S K : Type} (fuel : Nat) (ext : Collaborators R S K)
    (video : AlfalfaVideoClient) (cache : RasterAndStateCache R S) (output_hash : Nat) :
    Except Fault (Option R × RasterAndStateCache R S) :=
  match get_min_track_seek fuel video cache output_hash with
  | Except.error e => Except.error e
  | Except.ok track_seek =>
    if track_seek.1.cost = SIZE_MAX then Except.ok (none, cache)
    else
      match follow_track_path fuel ext video cache track_seek.1 track_seek.2 with
      | Except.error e => Except.error e
      | Except.ok (cache1, _) => fetch_raster cache1 output_hash

/-- The method `AlfalfaPlayer::get_raster_switch_path` (lines 437-455). -/
def get_raster_switch_path {R S K : Type} (fuel : Nat) (ext : Collaborators R S K)
    (video : AlfalfaVideoClient) (cache : RasterAndStateCache R S) (output_hash : Nat) :
    Except Fault (Option R × RasterAndStateCache R S) :=
  match get_min_switch_seek fuel video cache output_hash with
  | Except.error e => Except.error e
  | Except.ok switch_seek =>
    if switch_seek.1.cost = SIZE_MAX then Except.ok (none, cache)
    else
      match (match switch_seek.2.1 with
             | some extra_track_seek =>
               follow_track_path fuel ext video cache extra_track_seek switch_seek.2.2
             | none => Except.ok (cache, switch_seek.2.2)) with
      | Except.error e => Except.error e
      | Except.ok (cache1, dependencies) =>
        match follow_switch_path ext video cache1 switch_seek.1 dependencies with
        | Except.error e => Except.error e
        | Except.ok (cache2, _) => fetch_raster cache2 output_hash

/-! ## Seek surface `get_raster` (lines 457-513) -/

/-- Modelled from the spec: the enumeration `PathType` (section 4.6), declared in
`alfalfa_player.hh`. -/
inductive PathType where
  | TRACK_PATH
  | SWITCH_PATH
  | MINIMUM_PATH
  deriving DecidableEq, Repr

/-- What `get_raster` writes to `cout` when `verbose` is set. -/
inductive Printed where
  | track_seek (path : TrackPath)
  | switch_seek (extra : Option TrackPath) (path : SwitchPath)
  | no_track_paths
  | no_switch_paths
  deriving DecidableEq, Repr

/-- The block at lines 460-477: with `verbose` both planners are run and the
plans with a cost below `SIZE_MAX` are printed. -/
def get_raster_verbose {R S : Type} (fuel : Nat) (video : AlfalfaVideoClient)
    (cache : RasterAndStateCache R S) (output_hash : Nat) (verbose : Bool) :
    Except Fault (List Printed) :=
  if verbose then
    match get_min_track_seek fuel video cache output_hash with
    | Except.error e => Except.error e
    | Except.ok track_seek =>
      match get_min_switch_seek fuel video cache output_hash with
      | Except.error e => Except.error e
      | Except.ok switch_seek =>
        Except.ok
          ((if track_seek.1.cost < SIZE_MAX then [Printed.track_seek track_seek.1] else []) ++
           (if switch_seek.1.cost < SIZE_MAX then
              [Printed.switch_seek switch_seek.2.1 switch_seek.1] else []))
  else Except.ok []

/-- The case `TRACK_PATH` of the `switch` statement (lines 480-489). -/
def get_raster_case_track {R S K : Type} (fuel : Nat) (ext : Collaborators R S K)
    (video : AlfalfaVideoClient) (cache : RasterAndStateCache R S) (output_hash : Nat)
    (verbose : Bool) : Except Fault ((Option R × RasterAndStateCache R S) × List Printed) :=
  match get_raster_track_path fuel ext video cache output_hash with
  | Except.error e => Except.error e
  | Except.ok result =>
    Except.ok (result, if result.1.isNone && verbose then [Printed.no_track_paths] else [])

/-- The case `SWITCH_PATH` of the `switch` statement (lines 490-499). -/
def get_raster_case_switch {R S K : Type} (fuel : Nat) (ext : Collaborators R S K)
    (video : AlfalfaVideoClient) (cache : RasterAndStateCache R S) (output_hash : Nat)
    (verbose : Bool) : Except Fault ((Option R × RasterAndStateCache R S) × List Printed) :=
  match get_raster_switch_path fuel ext video cache output_hash with
  | Except.error e => Except.error e
  | Except.ok result =>
    Except.ok (result, if result.1.isNone && verbose then [Printed.no_switch_paths] else [])

/-- The method `AlfalfaPlayer::get_raster` (lines 457-513): the returned
optional raster, the player afterwards, and the lines printed.  The two calls
`get_raster( output_hash, TRACK_PATH, false )` and `get_raster( output_hash,
SWITCH_PATH, false )` at lines 507 and 510 run, with `verbose` unset, the
corresponding case of the `switch` statement. -/
def get_raster {R S K : Type} (fuel : Nat) (ext : Collaborators R S K)
    (player : AlfalfaPlayer R S K) (output_hash : Nat) (path_type : PathType)
    (verbose : Bool) : Except Fault ((Option R × AlfalfaPlayer R S K) × List Printed) :=
  match get_raster_verbose fuel player.video_ player.cache_ output_hash verbose with
  | Except.error e => Except.error e
  | Except.ok printed =>
    match (match path_type with
           | PathType.TRACK_PATH =>
             get_raster_case_track fuel ext player.video_ player.cache_ output_hash verbose
           | PathType.SWITCH_PATH =>
             get_raster_case_switch fuel ext player.video_ player.cache_ output_hash verbose
           | PathType.MINIMUM_PATH =>
             match get_min_track_seek fuel player.video_ player.cache_ output_hash with
             | Except.error e => Except.error e
             | Except.ok track_seek =>
               match get_min_switch_seek fuel player.video_ player.cache_ output_hash with
               | Except.error e => Except.error e
               | Except.ok switch_seek =>
                 if track_seek.1.cost ≤ switch_seek.1.cost then
                   get_raster_case_track fuel ext player.video_ player.cache_ output_hash false
                 else
                   get_raster_case_switch fuel ext player.video_ player.cache_ output_hash
                     false) with
    | Except.error e => Except.error e
    | Except.ok (result, printed1) =>
      Except.ok ((result.1, { player with cache_ := result.2 }), printed ++ printed1)

/-! ## Buffer feasibility (lines 561-598) -/

/-- The compound assignment `buffer_size += x` of a `long` and a `size_t`: the
sum is formed in `size_t` and converted back to `long`. -/
def long_add_size (buffer_size : Int) (x : Nat) : Int :=
  to_long (size_add (to_size_t buffer_size) x)

/-- The compound assignment `buffer_size -= x` of a `long` and a `size_t`. -/
def long_sub_size (buffer_size : Int) (x : Nat) : Int :=
  to_long (size_sub (to_size_t buffer_size) x)

/-- Lines 588-591: credit the throughput, charge a frame that is not in the
chunk cache. -/
def feasibility_step {K : Type} (frame_cache : LRUCache K) (throughput_estimate : Nat)
    (buffer_size : Int) (frame_id frame_length : Nat) : Int :=
  let credited := long_add_size buffer_size throughput_estimate
  if !frame_cache.has frame_id then long_sub_size credited frame_length else credited

/-- The `while` loop at lines 572-596 and the `return true` at line 597; one
unit of fuel per pass. -/
def feasibility_while {R S K : Type} (player : AlfalfaPlayer R S K)
    (prospective_track : List FrameInfoWrapper) (throughput_estimate : Nat) :
    Nat → Int → Nat → Nat → Except Fault Bool
  | 0, _, _, _ => Except.error Fault.out_of_fuel
  | fuel + 1, buffer_size, track_index, prospective_track_index =>
    if track_index < player.current_download_pt_index_ ∨
        prospective_track_index < prospective_track.length then
      if track_index < player.current_download_pt_index_ then
        match player.current_frame_seq_[track_index]? with
        | none => Except.error Fault.out_of_range
        | some wrapper =>
          let buffer1 := feasibility_step player.frame_cache_ throughput_estimate buffer_size
            wrapper.frame_info.frame_id wrapper.frame_info.length
          if buffer1 < 0 then Except.ok false
          else feasibility_while player prospective_track throughput_estimate fuel buffer1
            (track_index + 1) prospective_track_index
      else
        match prospective_track[prospective_track_index]? with
        | none => Except.error Fault.out_of_range
        | some wrapper =>
          let buffer1 := feasibility_step player.frame_cache_ throughput_estimate buffer_size
            wrapper.frame_info.frame_id wrapper.frame_info.length
          if buffer1 < 0 then Except.ok false
          else feasibility_while player prospective_track throughput_estimate fuel buffer1
            track_index (prospective_track_index + 1)
    else Except.ok true

/-- The method `AlfalfaPlayer::determine_feasibility` (lines 561-598).  Every
pass of the loop advances one of the two indices, so the fuel handed to the loop
is never used up. -/
def determine_feasibility {R S K : Type} (player : AlfalfaPlayer R S K)
    (prospective_track : List FrameInfoWrapper) (throughput_estimate : Nat) :
    Except Fault Bool :=
  feasibility_while player prospective_track throughput_estimate
    ((player.current_download_pt_index_ - player.current_playhead_index_) +
      prospective_track.length + 1)
    (to_long player.downloaded_frame_bytes_) player.current_playhead_index_ 0

/-! ## Choice of the frame sequence (lines 818-852) -/

/-- The spacing of the `double` values around `n`: the least power of two
`unit`, among the first `fuel + 1`, with `n < 2^53 * unit`. -/
def double_spacing : Nat → Nat → Nat → Nat
  | 0, _, unit => unit
  | fuel + 1, n, unit =>
    if n < 9007199254740992 * unit then unit else double_spacing fuel n (2 * unit)

/-- The conversion of a `size_t` to `double` in the comparison at line 825: a
value below `2^53` is kept, a larger one is rounded to 53 significant bits, to
the nearest and to the even one of two nearest.  A `size_t` is below `2^64`, so
the spacing is one of the 12 powers of two up to `2^11`. -/
def size_t_to_double (n : Nat) : ℚ :=
  let unit := double_spacing 11 n 1
  let quotient := n / unit
  let remainder := n % unit
  if 2 * remainder > unit ∨ (2 * remainder = unit ∧ quotient % 2 = 1) then
    (((quotient + 1) * unit : Nat) : ℚ)
  else ((quotient * unit : Nat) : ℚ)

/-- The conversion of a `double` to `size_t` in the assignment at line 827: the
value is truncated toward zero.  When the truncated value is not a `size_t` the
behaviour is undefined: the compiled code stores some `size_t` and goes on, and
`out_of_range` gives that value. -/
def double_to_size_t (out_of_range : ℚ → Nat) (x : ℚ) : Nat :=
  let truncated : Int := if 0 ≤ x then Int.floor x else -Int.floor (-x)
  if 0 ≤ truncated ∧ truncated ≤ (SIZE_MAX : Int) then truncated.toNat
  else out_of_range x % SIZE_MOD

/-- The `for` loop at lines 824-829, from index `i` on: the final
`optimal_frame_sequence_index` and `optimal_cost`.  The comparison converts the
`size_t` variable `optimal_cost` to `double`. -/
def optimal_frame_sequence (out_of_range : ℚ → Nat) :
    List FrameSequence → Nat → Nat → Nat → Nat × Nat
  | [], _, optimal_frame_sequence_index, optimal_cost =>
    (optimal_frame_sequence_index, optimal_cost)
  | option :: rest, i, optimal_frame_sequence_index, optimal_cost =>
    if option.min_ssim > size_t_to_double optimal_cost then
      optimal_frame_sequence out_of_range rest (i + 1) i
        (double_to_size_t out_of_range option.min_ssim)
    else
      optimal_frame_sequence out_of_range rest (i + 1) optimal_frame_sequence_index
        optimal_cost

/-- Lines 818-852 of `AlfalfaPlayer::set_current_frame_seq`: the choice among
the play options and the swap-in, given the play options that lines 811-816
have gathered. -/
def set_current_frame_seq_from {R S K : Type} (out_of_range : ℚ → Nat)
    (player : AlfalfaPlayer R S K) (play_options : List FrameSequence)
    (dri_to_seek : Option Nat) : Except Fault (AlfalfaPlayer R S K) :=
  let optimal := optimal_frame_sequence out_of_range play_options 0 0 0
  if play_options.length = 0 then Except.ok player
  else
    match play_options[optimal.1]? with
    | none => Except.error Fault.out_of_range
    | some chosen =>
      if dri_to_seek.isSome then
        Except.ok { player with current_frame_seq_ := chosen.frame_seq
                                current_download_pt_index_ := 0
                                current_playhead_index_ := 0 }
      else
        Except.ok { player with
          current_frame_seq_ :=
            player.current_frame_seq_.take player.current_download_pt_index_ ++
              chosen.frame_seq }

/-! ## Sequential playback and play options (lines 515-535 and 600-852) -/

/-- The four statements at lines 524-527 and 530-533: build the decoder of a
frame from the cache, decode the chunk, publish the decoder and the output
raster.  The output raster and the cache afterwards. -/
def decode_and_publish {R S K : Type} (ext : Collaborators R S K)
    (cache : RasterAndStateCache R S) (frame : FrameInfo) :
    Except Fault (R × RasterAndStateCache R S) :=
  match get_decoder ext cache frame with
  | Except.error e => Except.error e
  | Except.ok (decoder, cache1) =>
    let output := ext.get_frame_output decoder (ext.get_chunk frame)
    match cache1.put ext output.2 with
    | Except.error e => Except.error e
    | Except.ok cache2 =>
      match cache2.raster_cache_.put (ext.raster_hash output.1.2) output.1.2 with
      | Except.error e => Except.error e
      | Except.ok r =>
        Except.ok (output.1.2, { raster_cache_ := r, state_cache_ := cache2.state_cache_ })

/-- The `while` loop at lines 523-529 and the statements after it (lines
530-534), from the wrapper last read: the returned raster, or the fault, and the
player at the `return` or at a `throw` of this method (`none` when the fault
comes from a callee).  One unit of fuel per pass. -/
def raster_sequential_while {R S K : Type} (ext : Collaborators R S K) (dri : Nat) :
    Nat → AlfalfaPlayer R S K → FrameInfoWrapper →
      Except Fault R × Option (AlfalfaPlayer R S K)
  | 0, _, _ => (Except.error Fault.out_of_fuel, none)
  | fuel + 1, player, frame_info_wrapper =>
    if frame_info_wrapper.dri ≤ dri ∧ frame_info_wrapper.frame_info.shown = false then
      match decode_and_publish ext player.cache_ frame_info_wrapper.frame_info with
      | Except.error e => (Except.error e, none)
      | Except.ok (_, cache1) =>
        let player1 : AlfalfaPlayer R S K :=
          { player with cache_ := cache1
                        current_playhead_index_ := size_add player.current_playhead_index_ 1 }
        match player.current_frame_seq_[player.current_playhead_index_]? with
        | none => (Except.error Fault.out_of_range, some player1)
        | some next => raster_sequential_while ext dri fuel player1 next
    else
      match decode_and_publish ext player.cache_ frame_info_wrapper.frame_info with
      | Except.error e => (Except.error e, none)
      | Except.ok (raster, cache1) =>
        (Except.ok raster, some { player with cache_ := cache1 })

/-- The method `AlfalfaPlayer::get_raster_sequential` (lines 515-535): the
returned raster, or the fault, and the player afterwards.  The argument
`current_playhead_index_++` of `at` is evaluated before `at` is called, so the
playhead is advanced also when `at` throws.  Every pass of the loop advances
the playhead and `at` throws at the end of the sequence, so the fuel handed to
the loop is never used up. -/
def get_raster_sequential {R S K : Type} (ext : Collaborators R S K)
    (player : AlfalfaPlayer R S K) (dri : Nat) :
    Except Fault R × Option (AlfalfaPlayer R S K) :=
  let player1 : AlfalfaPlayer R S K :=
    { player with current_playhead_index_ := size_add player.current_playhead_index_ 1 }
  match player.current_frame_seq_[player.current_playhead_index_]? with
  | none => (Except.error Fault.out_of_range, some player1)
  | some frame_info_wrapper =>
    if frame_info_wrapper.dri > dri then (Except.error Fault.runtime_error, some player1)
    else
      raster_sequential_while ext dri (player.current_frame_seq_.length + 1) player1
        frame_info_wrapper

/-- The value of `double min_ssim = SIZE_MAX` (lines 608, 659 and 683): the
conversion of `2^64 - 1` to `double` rounds to `2^64`. -/
def SIZE_MAX_AS_DOUBLE : ℚ := 18446744073709551616

/-- The expression `track_frames_[ track_id ]`.  For an absent key `operator[]`
inserts an empty vector and yields it; the inserted entry reads as an absent one
does, so the map is modelled as read only. -/
def track_frames_at (track_frames : List (Nat × List FrameInfo)) (track_id : Nat) :
    List FrameInfo :=
  match map_find track_frames track_id with
  | some frames => frames
  | none => []

/-- The expression `quality_data_[ output_hash ][ dri ]`.  For an absent key
`operator[]` inserts a zero and yields it; the inserted entry reads as an absent
one does, so the table is modelled as read only. -/
def quality_at (quality_data : List (Nat × List (Nat × ℚ))) (output_hash dri : Nat) : ℚ :=
  match map_find quality_data output_hash with
  | none => 0
  | some row =>
    match map_find row dri with
    | none => 0
    | some quality => quality

/-- The constructor `vector( v.begin() + first, v.begin() + last )` of a range
of a vector: the behaviour is undefined unless `first <= last <= v.size()`. -/
def vector_range {α : Type} (v : List α) (first last : Nat) : Except Fault (List α) :=
  if first ≤ last ∧ last ≤ v.length then Except.ok ((v.drop first).take (last - first))
  else Except.error Fault.undefined_behaviour

/-- The loops at lines 610-620, 622-633, 639-649 and 685-693: wrap the frames
with a track id and the running `dri`, which advances on shown frames, and
lower `min_ssim` to the quality of each shown frame.  The wrappers, the final
`dri` and the final `min_ssim`. -/
def wrap_frames (quality_data : List (Nat × List (Nat × ℚ))) (track_id : Nat) :
    List FrameInfo → Nat → ℚ → List FrameInfoWrapper × Nat × ℚ
  | [], dri, min_ssim => ([], dri, min_ssim)
  | frame :: rest, dri, min_ssim =>
    let wrapper : FrameInfoWrapper := { frame_info := frame, track_id := track_id, dri := dri }
    if frame.shown then
      let ssim := quality_at quality_data frame.target_hash.output_hash dri
      let wrapped := wrap_frames quality_data track_id rest (size_add dri 1)
        (if ssim < min_ssim then ssim else min_ssim)
      (wrapper :: wrapped.1, wrapped.2)
    else
      let wrapped := wrap_frames quality_data track_id rest dri min_ssim
      (wrapper :: wrapped.1, wrapped.2)

/-- The method `AlfalfaPlayer::get_frame_seq( const SwitchInfo & )` (lines
600-652). -/
def get_frame_seq_of_switch {R S K : Type} (player : AlfalfaPlayer R S K)
    (switch_info : SwitchInfo) : Except Fault FrameSequence :=
  let cur_track := track_frames_at player.track_frames_ switch_info.from_track_id
  match vector_range cur_track player.current_download_pt_index_
      switch_info.from_frame_index with
  | Except.error e => Except.error e
  | Except.ok cur_track_frames =>
    match player.current_frame_seq_[player.current_download_pt_index_]? with
    | none => Except.error Fault.out_of_range
    | some wrapper =>
      let before := wrap_frames player.quality_data_ switch_info.from_track_id
        cur_track_frames wrapper.dri SIZE_MAX_AS_DOUBLE
      let during := wrap_frames player.quality_data_ SIZE_MAX switch_info.frames
        before.2.1 before.2.2
      let new_track := track_frames_at player.track_frames_ switch_info.to_track_id
      match vector_range new_track switch_info.to_frame_index new_track.length with
      | Except.error e => Except.error e
      | Except.ok new_track_frames =>
        let after := wrap_frames player.quality_data_ switch_info.to_track_id
          new_track_frames during.2.1 during.2.2
        Except.ok { frame_seq := before.1 ++ during.1 ++ after.1, min_ssim := after.2.2 }

/-- The loop at lines 660-667 of `get_frame_seq()`. -/
def stay_min_ssim (quality_data : List (Nat × List (Nat × ℚ))) :
    List FrameInfoWrapper → ℚ → ℚ
  | [], min_ssim => min_ssim
  | frame :: rest, min_ssim =>
    if frame.frame_info.shown then
      let ssim := quality_at quality_data frame.frame_info.target_hash.output_hash frame.dri
      stay_min_ssim quality_data rest (if ssim < min_ssim then ssim else min_ssim)
    else stay_min_ssim quality_data rest min_ssim

/-- The method `AlfalfaPlayer::get_frame_seq()` (lines 654-670): the rest of the
current frame sequence from the download point. -/
def get_frame_seq {R S K : Type} (player : AlfalfaPlayer R S K) : Except Fault FrameSequence :=
  match vector_range player.current_frame_seq_ player.current_download_pt_index_
      player.current_frame_seq_.length with
  | Except.error e => Except.error e
  | Except.ok frame_seq =>
    Except.ok { frame_seq := frame_seq
                min_ssim := stay_min_ssim player.quality_data_ frame_seq SIZE_MAX_AS_DOUBLE }

/-- The method `AlfalfaPlayer::get_frame_seq( track_id, dri )` (lines 672-696);
`get_track_seek` is called with its default, empty dependencies. -/
def get_frame_seq_of_track {R S K : Type} (fuel : Nat) (player : AlfalfaPlayer R S K)
    (track_id dri : Nat) : Except Fault FrameSequence :=
  let frame_index := player.video_.frame_index_by_displayed_raster_index track_id dri
  match get_track_seek fuel player.video_ player.cache_ track_id frame_index
      FrameDependency.empty with
  | Except.error e => Except.error e
  | Except.ok track_seek =>
    let track_frames := track_frames_at player.track_frames_ track_id
    match vector_range track_frames track_seek.1 track_frames.length with
    | Except.error e => Except.error e
    | Except.ok relevant_track_frames =>
      let wrapped := wrap_frames player.quality_data_ track_id relevant_track_frames dri
        SIZE_MAX_AS_DOUBLE
      Except.ok { frame_seq := wrapped.1, min_ssim := wrapped.2.2 }

/-- The loop at lines 709-718 of `get_frame_seqs_with_switch`. -/
def frame_seqs_of_switches {R S K : Type} (player : AlfalfaPlayer R S K)
    (from_track_id to_track_id frame_index : Nat) :
    List SwitchInfo → Except Fault (List FrameSequence)
  | [] => Except.ok []
  | switch_info :: rest =>
    if switch_info.from_track_id ≠ from_track_id ∨ switch_info.to_track_id ≠ to_track_id ∨
        switch_info.from_frame_index < frame_index ∨
        switch_info.from_frame_index > size_add frame_index WINDOW_SIZE then
      frame_seqs_of_switches player from_track_id to_track_id frame_index rest
    else
      match get_frame_seq_of_switch player switch_info with
      | Except.error e => Except.error e
      | Except.ok frame_seq =>
        match frame_seqs_of_switches player from_track_id to_track_id frame_index rest with
        | Except.error e => Except.error e
        | Except.ok frame_seqs => Except.ok (frame_seq :: frame_seqs)

/-- The method `AlfalfaPlayer::get_frame_seqs_with_switch` (lines 698-720). -/
def get_frame_seqs_with_switch {R S K : Type} (player : AlfalfaPlayer R S K)
    (from_track_id dri to_track_id : Nat) : Except Fault (List FrameSequence) :=
  let frame_index := player.video_.frame_index_by_displayed_raster_index from_track_id dri
  let switch_infos := player.video_.all_switches_in_window from_track_id frame_index
    (min (size_add frame_index WINDOW_SIZE)
      (track_frames_at player.track_frames_ from_track_id).length)
  frame_seqs_of_switches player from_track_id to_track_id frame_index switch_infos

/-- The loop at lines 730-735 of `get_sequential_play_options`: the feasible
track candidates, and, as a record of the run, the candidates that
`determine_feasibility` was applied to. -/
def initial_track_options {R S K : Type} (fuel : Nat) (player : AlfalfaPlayer R S K)
    (throughput_estimate : Nat) :
    List Nat → Except Fault (List FrameSequence × List (List FrameInfoWrapper))
  | [] => Except.ok ([], [])
  | track_id :: rest =>
    match get_frame_seq_of_track fuel player track_id 0 with
    | Except.error e => Except.error e
    | Except.ok frame_seq =>
      match determine_feasibility player frame_seq.frame_seq throughput_estimate with
      | Except.error e => Except.error e
      | Except.ok feasible =>
        match initial_track_options fuel player throughput_estimate rest with
        | Except.error e => Except.error e
        | Except.ok (frame_seqs, tested) =>
          Except.ok (if feasible then frame_seq :: frame_seqs else frame_seqs,
                     frame_seq.frame_seq :: tested)

/-- The loop at lines 751-758 of `get_sequential_play_options`: the feasible
candidates on the tracks other than `cur_track_id`, and the candidates that
`determine_feasibility` was applied to. -/
def track_jump_options {R S K : Type} (fuel : Nat) (player : AlfalfaPlayer R S K)
    (throughput_estimate dri cur_track_id : Nat) :
    List Nat → Except Fault (List FrameSequence × List (List FrameInfoWrapper))
  | [] => Except.ok ([], [])
  | track_id :: rest =>
    if track_id ≠ cur_track_id then
      match get_frame_seq_of_track fuel player track_id dri with
      | Except.error e => Except.error e
      | Except.ok frame_seq =>
        match determine_feasibility player frame_seq.frame_seq throughput_estimate with
        | Except.error e => Except.error e
        | Except.ok feasible =>
          match track_jump_options fuel player throughput_estimate dri cur_track_id rest with
          | Except.error e => Except.error e
          | Except.ok (frame_seqs, tested) =>
            Except.ok (if feasible then frame_seq :: frame_seqs else frame_seqs,
                       frame_seq.frame_seq :: tested)
    else track_jump_options fuel player throughput_estimate dri cur_track_id rest

/-- The inner loop at lines 780-786, over the elements of the vector
`frame_seqs` declared at line 777: that vector after the loop, and the
candidates that `determine_feasibility` was applied to.  The `push_back` at line
783 names the vector of line 777, which hides the one of line 725. -/
def switch_options_scan {R S K : Type} (player : AlfalfaPlayer R S K)
    (throughput_estimate : Nat) :
    List FrameSequence → List FrameSequence →
      Except Fault (List FrameSequence × List (List FrameInfoWrapper))
  | [], frame_seqs => Except.ok (frame_seqs, [])
  | frame_seq :: rest, frame_seqs =>
    match determine_feasibility player frame_seq.frame_seq throughput_estimate with
    | Except.error e => Except.error e
    | Except.ok feasible =>
      if feasible then Except.ok (frame_seqs ++ [frame_seq], [frame_seq.frame_seq])
      else
        match switch_options_scan player throughput_estimate rest frame_seqs with
        | Except.error e => Except.error e
        | Except.ok (frame_seqs1, tested) => Except.ok (frame_seqs1, frame_seq.frame_seq :: tested)

/-- The loop at lines 776-787 over the connected tracks.  The vector of line
777 ends with each pass, so the loop leaves only the record of the candidates
that `determine_feasibility` was applied to. -/
def switch_options {R S K : Type} (player : AlfalfaPlayer R S K)
    (throughput_estimate dri current_track_id : Nat) :
    List Nat → Except Fault (List (List FrameInfoWrapper))
  | [] => Except.ok []
  | to_track_id :: rest =>
    match get_frame_seqs_with_switch player current_track_id dri to_track_id with
    | Except.error e => Except.error e
    | Except.ok frame_seqs =>
      match switch_options_scan player throughput_estimate frame_seqs frame_seqs with
      | Except.error e => Except.error e
      | Except.ok (_, tested) =>
        match switch_options player throughput_estimate dri current_track_id rest with
        | Except.error e => Except.error e
        | Except.ok tested_rest => Except.ok (tested ++ tested_rest)

/-- The method `AlfalfaPlayer::get_sequential_play_options` (lines 722-790)
with a record of its run: the returned vector, and the candidates that
`determine_feasibility` was applied to, in order. -/
def sequential_play_options_run {R S K : Type} (fuel : Nat) (player : AlfalfaPlayer R S K)
    (throughput_estimate : Nat) :
    Except Fault (List FrameSequence × List (List FrameInfoWrapper)) :=
  if player.current_frame_seq_.length == 0 then
    initial_track_options fuel player throughput_estimate player.video_.track_ids
  else if player.current_download_pt_index_ ≥ player.current_frame_seq_.length then
    Except.ok ([], [])
  else
    match player.current_frame_seq_[player.current_download_pt_index_]? with
    | none => Except.error Fault.out_of_range
    | some wrapper =>
      match get_frame_seq player with
      | Except.error e => Except.error e
      | Except.ok stay =>
        match track_jump_options fuel player throughput_estimate wrapper.dri wrapper.track_id
            player.video_.track_ids with
        | Except.error e => Except.error e
        | Except.ok (jumps, tested) =>
          if player.current_download_pt_index_ = 0 ∨
              size_sub player.current_download_pt_index_ 1 ≥
                player.current_frame_seq_.length then
            Except.ok (stay :: jumps, tested)
          else
            match player.current_frame_seq_[player.current_download_pt_index_ - 1]? with
            | none => Except.error Fault.out_of_range
            | some previous =>
              if previous.track_id = SIZE_MAX then Except.ok (stay :: jumps, tested)
              else
                match switch_options player throughput_estimate wrapper.dri previous.track_id
                    (player.video_.connected_track_ids previous.track_id) with
                | Except.error e => Except.error e
                | Except.ok tested_switches =>
                  Except.ok (stay :: jumps, tested ++ tested_switches)

/-- The method `AlfalfaPlayer::get_sequential_play_options` (lines 722-790):
the returned vector. -/
def get_sequential_play_options {R S K : Type} (fuel : Nat) (player : AlfalfaPlayer R S K)
    (throughput_estimate : Nat) : Except Fault (List FrameSequence) :=
  (sequential_play_options_run fuel player throughput_estimate).map Prod.fst

/-- The method `AlfalfaPlayer::get_random_seek_play_options` (lines 792-804),
over the track ids. -/
def get_random_seek_play_options {R S K : Type} (fuel : Nat) (player : AlfalfaPlayer R S K)
    (dri : Nat) : List Nat → Except Fault (List FrameSequence)
  | [] => Except.ok []
  | track_id :: rest =>
    match get_frame_seq_of_track fuel player track_id dri with
    | Except.error e => Except.error e
    | Except.ok frame_seq =>
      match get_random_seek_play_options fuel player dri rest with
      | Except.error e => Except.error e
      | Except.ok frame_seqs => Except.ok (frame_seq :: frame_seqs)

/-- The method `AlfalfaPlayer::set_current_frame_seq` (lines 806-852);
`out_of_range` is the value that the conversion at line 827 stores for a
`min_ssim` that is not a `size_t`. -/
def set_current_frame_seq {R S K : Type} (out_of_range : ℚ → Nat) (fuel : Nat)
    (player : AlfalfaPlayer R S K) (dri_to_seek : Option Nat) (throughput_estimate : Nat) :
    Except Fault (AlfalfaPlayer R S K) :=
  match (match dri_to_seek with
         | some dri => get_random_seek_play_options fuel player dri player.video_.track_ids
         | none => get_sequential_play_options fuel player throughput_estimate) with
  | Except.error e => Except.error e
  | Except.ok play_options =>
    set_current_frame_seq_from out_of_range player play_options dri_to_seek

/-! ## Token costs (`token_costs.cc`) -/

/-- The table `vp8_prob_cost` (lines 10-28): the cost of coding a zero with a
probability of `prob / 256`. -/
def vp8_prob_cost : List Nat :=
  [2047, 2047, 1791, 1641, 1535, 1452, 1385, 1328, 1279, 1235, 1196, 1161, 1129, 1099, 1072, 1046,
   1023, 1000, 979, 959, 940, 922, 905, 889, 873, 858, 843, 829, 816, 803, 790, 778,
   767, 755, 744, 733, 723, 713, 703, 693, 684, 675, 666, 657, 649, 641, 633, 625,
   617, 609, 602, 594, 587, 580, 573, 567, 560, 553, 547, 541, 534, 528, 522, 516,
   511, 505, 499, 494, 488, 483, 477, 472, 467, 462, 457, 452, 447, 442, 437, 433,
   428, 424, 419, 415, 410, 406, 401, 397, 393, 389, 385, 381, 377, 373, 369, 365,
   361, 357, 353, 349, 346, 342, 338, 335, 331, 328, 324, 321, 317, 314, 311, 307,
   304, 301, 297, 294, 291, 288, 285, 281, 278, 275, 272, 269, 266, 263, 260, 257,
   255, 252, 249, 246, 243, 240, 238, 235, 232, 229, 227, 224, 221, 219, 216, 214,
   211, 208, 206, 203, 201, 198, 196, 194, 191, 189, 186, 184, 181, 179, 177, 174,
   172, 170, 168, 165, 163, 161, 159, 156, 154, 152, 150, 148, 145, 143, 141, 139,
   137, 135, 133, 131, 129, 127, 125, 123, 121, 119, 117, 115, 113, 111, 109, 107,
   105, 103, 101, 99, 97, 95, 93, 92, 90, 88, 86, 84, 82, 81, 79, 77,
   75, 73, 72, 70, 68, 66, 65, 63, 61, 60, 58, 56, 55, 53, 51, 50,
   48, 46, 45, 43, 41, 40, 38, 37, 35, 33, 32, 30, 29, 27, 25, 24,
   22, 21, 19, 18, 16, 15, 13, 12, 10, 9, 7, 6, 4, 3, 1, 1]

/-- The conversion of an `int` to `uint8_t`. -/
def to_uint8 (x : Int) : Nat := (x % 256).toNat

/-- The conversion of an `int` to `uint16_t`. -/
def to_uint16 (x : Int) : Nat := (x % 65536).toNat

/-- The conversion of an `int` to `int16_t`: 16 bits read in two's complement. -/
def to_int16 (x : Int) : Int := (x + 32768) % 65536 - 32768

/-- The method `TokenCosts::complement` (line 30); `prob` is a `uint8_t`. -/
def complement (prob : Nat) : Nat := to_uint8 (255 - (prob : Int))

/-- The method `TokenCosts::cost_zero` (line 31); `prob` is a `uint8_t`, an
index within the 256 entries of the table. -/
def cost_zero (prob : Nat) : Nat := vp8_prob_cost.getD prob 0

/-- The method `TokenCosts::cost_one` (line 32). -/
def cost_one (prob : Nat) : Nat := vp8_prob_cost.getD (complement prob) 0

/-- The method `TokenCosts::cost_bit` (line 33). -/
def cost_bit (prob : Nat) (b : Bool) : Nat := cost_zero (if b then complement prob else prob)

/-- Modelled from the spec: the token enumeration is declared in a header that is
not among the sources.  `token_costs.cc` is based on libvpx, whose
`vp8/common/entropy.h` numbers the 12 tokens in this order, from `ZERO_TOKEN` as
0 to `DCT_EOB_TOKEN` as 11. -/
def ZERO_TOKEN : Int := 0

/-- Modelled from the spec: see `ZERO_TOKEN`. -/
def ONE_TOKEN : Int := 1

/-- Modelled from the spec: see `ZERO_TOKEN`. -/
def TWO_TOKEN : Int := 2

/-- Modelled from the spec: see `ZERO_TOKEN`. -/
def THREE_TOKEN : Int := 3

/-- Modelled from the spec: see `ZERO_TOKEN`. -/
def FOUR_TOKEN : Int := 4

/-- Modelled from the spec: see `ZERO_TOKEN`. -/
def DCT_VAL_CATEGORY1 : Int := 5

/-- Modelled from the spec: see `ZERO_TOKEN`. -/
def DCT_VAL_CATEGORY2 : Int := 6

/-- Modelled from the spec: see `ZERO_TOKEN`. -/
def DCT_VAL_CATEGORY3 : Int := 7

/-- Modelled from the spec: see `ZERO_TOKEN`. -/
def DCT_VAL_CATEGORY4 : Int := 8

/-- Modelled from the spec: see `ZERO_TOKEN`. -/
def DCT_VAL_CATEGORY5 : Int := 9

/-- Modelled from the spec: see `ZERO_TOKEN`. -/
def DCT_VAL_CATEGORY6 : Int := 10

/-- Modelled from the spec: see `ZERO_TOKEN`. -/
def DCT_EOB_TOKEN : Int := 11

/-- The table `vp8_coef_tree` (lines 38-51): the two children of the node `n`
are the entries `2 n` and `2 n + 1`; an entry that is zero or negative is the
leaf of the token it negates, a positive entry is the index of the pair of
another node. -/
def vp8_coef_tree : List Int :=
  [-DCT_EOB_TOKEN, 2,
   -ZERO_TOKEN, 4,
   -ONE_TOKEN, 6,
   8, 12,
   -TWO_TOKEN, 10,
   -THREE_TOKEN, -FOUR_TOKEN,
   14, 16,
   -DCT_VAL_CATEGORY1, -DCT_VAL_CATEGORY2,
   18, 20,
   -DCT_VAL_CATEGORY3, -DCT_VAL_CATEGORY4,
   -DCT_VAL_CATEGORY5, -DCT_VAL_CATEGORY6]

/-- The state of a run of `compute_cost`: the array `costs_nodes` and, in the
order of the assignments, the indices of the entries assigned so far. -/
structure CostRun where
  costs_nodes : List Nat
  written : List Nat
  deriving DecidableEq, Repr

/-- The assignment `costs_nodes.at( -tree_entry ) = cost` of line 64:
`SafeArray::at` checks the index against the size of the array, and the
`int16_t` is stored as a `uint16_t`. -/
def CostRun.assign (run : CostRun) (tree_entry : Int) (cost : Int) : Except Fault CostRun :=
  if (-tree_entry).toNat < run.costs_nodes.length then
    Except.ok { costs_nodes := run.costs_nodes.set (-tree_entry).toNat (to_uint16 cost)
                written := run.written ++ [(-tree_entry).toNat] }
  else Except.error Fault.out_of_range

/-- The method `TokenCosts::compute_cost` (lines 53-70), with the assignments
it makes recorded.  The recursion is bounded by `fuel`; `probabilities.at`
checks its index, the read of `vp8_coef_tree` does not; `cost` is an `int16_t`
and is passed on as the `uint16_t current_cost`. -/
def compute_cost_run : Nat → CostRun → List Nat → Nat → Nat → Except Fault CostRun
  | 0, _, _, _, _ => Except.error Fault.out_of_fuel
  | fuel + 1, run, probabilities, tree_index, current_cost =>
    match probabilities[tree_index / 2]? with
    | none => Except.error Fault.out_of_range
    | some prob =>
      match vp8_coef_tree[size_add tree_index 0]? with
      | none => Except.error Fault.undefined_behaviour
      | some tree_entry =>
        let cost := to_int16 ((current_cost : Int) + (cost_bit prob false : Int))
        match (if tree_entry ≤ 0 then run.assign tree_entry cost
            else compute_cost_run fuel run probabilities (to_size_t tree_entry)
              (to_uint16 cost)) with
        | Except.error e => Except.error e
        | Except.ok run1 =>
          match vp8_coef_tree[size_add tree_index 1]? with
          | none => Except.error Fault.undefined_behaviour
          | some tree_entry1 =>
            let cost1 := to_int16 ((current_cost : Int) + (cost_bit prob true : Int))
            if tree_entry1 ≤ 0 then run1.assign tree_entry1 cost1
            else compute_cost_run fuel run1 probabilities (to_size_t tree_entry1)
              (to_uint16 cost1)

/-- The method `TokenCosts::compute_cost`: the array `costs_nodes` when the
call returns. -/
def compute_cost (fuel : Nat) (costs_nodes : List Nat) (probabilities : List Nat)
    (tree_index current_cost : Nat) : Except Fault (List Nat) :=
  (compute_cost_run fuel { costs_nodes := costs_nodes, written := [] } probabilities
    tree_index current_cost).map (fun run => run.costs_nodes)

/-- The entries of `dct_value_cost` written at lines 96-127 of the source. -/
def dct_value_cost_lines_96_127 : List Nat :=
  [8285, 8277, 8267, 8259, 8253, 8245, 8226, 8218, 8212, 8204, 8194, 8186,
   8180, 8172, 8150, 8142, 8136, 8128, 8118, 8110, 8104, 8096, 8077, 8069,
   8063, 8055, 8045, 8037, 8031, 8023, 7997, 7989, 7983, 7975, 7965, 7957,
   7951, 7943, 7924, 7916, 7910, 7902, 7892, 7884, 7878, 7870, 7848, 7840,
   7834, 7826, 7816, 7808, 7802, 7794, 7775, 7767, 7761, 7753, 7743, 7735,
   7729, 7721, 7923, 7915, 7909, 7901, 7891, 7883, 7877, 7869, 7850, 7842,
   7836, 7828, 7818, 7810, 7804, 7796, 7774, 7766, 7760, 7752, 7742, 7734,
   7728, 7720, 7701, 7693, 7687, 7679, 7669, 7661, 7655, 7647, 7621, 7613,
   7607, 7599, 7589, 7581, 7575, 7567, 7548, 7540, 7534, 7526, 7516, 7508,
   7502, 7494, 7472, 7464, 7458, 7450, 7440, 7432, 7426, 7418, 7399, 7391,
   7385, 7377, 7367, 7359, 7353, 7345, 7479, 7471, 7465, 7457, 7447, 7439,
   7433, 7425, 7406, 7398, 7392, 7384, 7374, 7366, 7360, 7352, 7330, 7322,
   7316, 7308, 7298, 7290, 7284, 7276, 7257, 7249, 7243, 7235, 7225, 7217,
   7211, 7203, 7177, 7169, 7163, 7155, 7145, 7137, 7131, 7123, 7104, 7096,
   7090, 7082, 7072, 7064, 7058, 7050, 7028, 7020, 7014, 7006, 6996, 6988,
   6982, 6974, 6955, 6947, 6941, 6933, 6923, 6915, 6909, 6901, 7632, 7624,
   7618, 7610, 7600, 7592, 7586, 7578, 7559, 7551, 7545, 7537, 7527, 7519,
   7513, 7505, 7483, 7475, 7469, 7461, 7451, 7443, 7437, 7429, 7410, 7402,
   7396, 7388, 7378, 7370, 7364, 7356, 7330, 7322, 7316, 7308, 7298, 7290,
   7284, 7276, 7257, 7249, 7243, 7235, 7225, 7217, 7211, 7203, 7181, 7173,
   7167, 7159, 7149, 7141, 7135, 7127, 7108, 7100, 7094, 7086, 7076, 7068,
   7062, 7054, 7188, 7180, 7174, 7166, 7156, 7148, 7142, 7134, 7115, 7107,
   7101, 7093, 7083, 7075, 7069, 7061, 7039, 7031, 7025, 7017, 7007, 6999,
   6993, 6985, 6966, 6958, 6952, 6944, 6934, 6926, 6920, 6912, 6886, 6878,
   6872, 6864, 6854, 6846, 6840, 6832, 6813, 6805, 6799, 6791, 6781, 6773,
   6767, 6759, 6737, 6729, 6723, 6715, 6705, 6697, 6691, 6683, 6664, 6656,
   6650, 6642, 6632, 6624, 6618, 6610, 6812, 6804, 6798, 6790, 6780, 6772,
   6766, 6758, 6739, 6731, 6725, 6717, 6707, 6699, 6693, 6685, 6663, 6655,
   6649, 6641, 6631, 6623, 6617, 6609, 6590, 6582, 6576, 6568, 6558, 6550,
   6544, 6536, 6510, 6502, 6496, 6488, 6478, 6470, 6464, 6456, 6437, 6429,
   6423, 6415, 6405, 6397, 6391, 6383, 6361, 6353, 6347, 6339, 6329, 6321,
   6315, 6307, 6288, 6280, 6274, 6266, 6256, 6248, 6242, 6234, 6368, 6360]

/-- The entries of `dct_value_cost` written at lines 128-159 of the source. -/
def dct_value_cost_lines_128_159 : List Nat :=
  [6354, 6346, 6336, 6328, 6322, 6314, 6295, 6287, 6281, 6273, 6263, 6255,
   6249, 6241, 6219, 6211, 6205, 6197, 6187, 6179, 6173, 6165, 6146, 6138,
   6132, 6124, 6114, 6106, 6100, 6092, 6066, 6058, 6052, 6044, 6034, 6026,
   6020, 6012, 5993, 5985, 5979, 5971, 5961, 5953, 5947, 5939, 5917, 5909,
   5903, 5895, 5885, 5877, 5871, 5863, 5844, 5836, 5830, 5822, 5812, 5804,
   5798, 5790, 6697, 6689, 6683, 6675, 6665, 6657, 6651, 6643, 6624, 6616,
   6610, 6602, 6592, 6584, 6578, 6570, 6548, 6540, 6534, 6526, 6516, 6508,
   6502, 6494, 6475, 6467, 6461, 6453, 6443, 6435, 6429, 6421, 6395, 6387,
   6381, 6373, 6363, 6355, 6349, 6341, 6322, 6314, 6308, 6300, 6290, 6282,
   6276, 6268, 6246, 6238, 6232, 6224, 6214, 6206, 6200, 6192, 6173, 6165,
   6159, 6151, 6141, 6133, 6127, 6119, 6253, 6245, 6239, 6231, 6221, 6213,
   6207, 6199, 6180, 6172, 6166, 6158, 6148, 6140, 6134, 6126, 6104, 6096,
   6090, 6082, 6072, 6064, 6058, 6050, 6031, 6023, 6017, 6009, 5999, 5991,
   5985, 5977, 5951, 5943, 5937, 5929, 5919, 5911, 5905, 5897, 5878, 5870,
   5864, 5856, 5846, 5838, 5832, 5824, 5802, 5794, 5788, 5780, 5770, 5762,
   5756, 5748, 5729, 5721, 5715, 5707, 5697, 5689, 5683, 5675, 5877, 5869,
   5863, 5855, 5845, 5837, 5831, 5823, 5804, 5796, 5790, 5782, 5772, 5764,
   5758, 5750, 5728, 5720, 5714, 5706, 5696, 5688, 5682, 5674, 5655, 5647,
   5641, 5633, 5623, 5615, 5609, 5601, 5575, 5567, 5561, 5553, 5543, 5535,
   5529, 5521, 5502, 5494, 5488, 5480, 5470, 5462, 5456, 5448, 5426, 5418,
   5412, 5404, 5394, 5386, 5380, 5372, 5353, 5345, 5339, 5331, 5321, 5313,
   5307, 5299, 5433, 5425, 5419, 5411, 5401, 5393, 5387, 5379, 5360, 5352,
   5346, 5338, 5328, 5320, 5314, 5306, 5284, 5276, 5270, 5262, 5252, 5244,
   5238, 5230, 5211, 5203, 5197, 5189, 5179, 5171, 5165, 5157, 5131, 5123,
   5117, 5109, 5099, 5091, 5085, 5077, 5058, 5050, 5044, 5036, 5026, 5018,
   5012, 5004, 4982, 4974, 4968, 4960, 4950, 4942, 4936, 4928, 4909, 4901,
   4895, 4887, 4877, 4869, 4863, 4855, 5586, 5578, 5572, 5564, 5554, 5546,
   5540, 5532, 5513, 5505, 5499, 5491, 5481, 5473, 5467, 5459, 5437, 5429,
   5423, 5415, 5405, 5397, 5391, 5383, 5364, 5356, 5350, 5342, 5332, 5324,
   5318, 5310, 5284, 5276, 5270, 5262, 5252, 5244, 5238, 5230, 5211, 5203,
   5197, 5189, 5179, 5171, 5165, 5157, 5135, 5127, 5121, 5113, 5103, 5095,
   5089, 5081, 5062, 5054, 5048, 5040, 5030, 5022, 5016, 5008, 5142, 5134]

/-- The entries of `dct_value_cost` written at lines 160-191 of the source. -/
def dct_value_cost_lines_160_191 : List Nat :=
  [5128, 5120, 5110, 5102, 5096, 5088, 5069, 5061, 5055, 5047, 5037, 5029,
   5023, 5015, 4993, 4985, 4979, 4971, 4961, 4953, 4947, 4939, 4920, 4912,
   4906, 4898, 4888, 4880, 4874, 4866, 4840, 4832, 4826, 4818, 4808, 4800,
   4794, 4786, 4767, 4759, 4753, 4745, 4735, 4727, 4721, 4713, 4691, 4683,
   4677, 4669, 4659, 4651, 4645, 4637, 4618, 4610, 4604, 4596, 4586, 4578,
   4572, 4564, 4766, 4758, 4752, 4744, 4734, 4726, 4720, 4712, 4693, 4685,
   4679, 4671, 4661, 4653, 4647, 4639, 4617, 4609, 4603, 4595, 4585, 4577,
   4571, 4563, 4544, 4536, 4530, 4522, 4512, 4504, 4498, 4490, 4464, 4456,
   4450, 4442, 4432, 4424, 4418, 4410, 4391, 4383, 4377, 4369, 4359, 4351,
   4345, 4337, 4315, 4307, 4301, 4293, 4283, 4275, 4269, 4261, 4242, 4234,
   4228, 4220, 4210, 4202, 4196, 4188, 4322, 4314, 4308, 4300, 4290, 4282,
   4276, 4268, 4249, 4241, 4235, 4227, 4217, 4209, 4203, 4195, 4173, 4165,
   4159, 4151, 4141, 4133, 4127, 4119, 4100, 4092, 4086, 4078, 4068, 4060,
   4054, 4046, 4020, 4012, 4006, 3998, 3988, 3980, 3974, 3966, 3947, 3939,
   3933, 3925, 3915, 3907, 3901, 3893, 3871, 3863, 3857, 3849, 3839, 3831,
   3825, 3817, 3798, 3790, 3784, 3776, 3766, 3758, 3752, 3744, 6697, 6689,
   6683, 6675, 6665, 6657, 6651, 6643, 6624, 6616, 6610, 6602, 6592, 6584,
   6578, 6570, 6548, 6540, 6534, 6526, 6516, 6508, 6502, 6494, 6475, 6467,
   6461, 6453, 6443, 6435, 6429, 6421, 6395, 6387, 6381, 6373, 6363, 6355,
   6349, 6341, 6322, 6314, 6308, 6300, 6290, 6282, 6276, 6268, 6246, 6238,
   6232, 6224, 6214, 6206, 6200, 6192, 6173, 6165, 6159, 6151, 6141, 6133,
   6127, 6119, 6253, 6245, 6239, 6231, 6221, 6213, 6207, 6199, 6180, 6172,
   6166, 6158, 6148, 6140, 6134, 6126, 6104, 6096, 6090, 6082, 6072, 6064,
   6058, 6050, 6031, 6023, 6017, 6009, 5999, 5991, 5985, 5977, 5951, 5943,
   5937, 5929, 5919, 5911, 5905, 5897, 5878, 5870, 5864, 5856, 5846, 5838,
   5832, 5824, 5802, 5794, 5788, 5780, 5770, 5762, 5756, 5748, 5729, 5721,
   5715, 5707, 5697, 5689, 5683, 5675, 5877, 5869, 5863, 5855, 5845, 5837,
   5831, 5823, 5804, 5796, 5790, 5782, 5772, 5764, 5758, 5750, 5728, 5720,
   5714, 5706, 5696, 5688, 5682, 5674, 5655, 5647, 5641, 5633, 5623, 5615,
   5609, 5601, 5575, 5567, 5561, 5553, 5543, 5535, 5529, 5521, 5502, 5494,
   5488, 5480, 5470, 5462, 5456, 5448, 5426, 5418, 5412, 5404, 5394, 5386,
   5380, 5372, 5353, 5345, 5339, 5331, 5321, 5313, 5307, 5299, 5433, 5425]

/-- The entries of `dct_value_cost` written at lines 192-223 of the source. -/
def dct_value_cost_lines_192_223 : List Nat :=
  [5419, 5411, 5401, 5393, 5387, 5379, 5360, 5352, 5346, 5338, 5328, 5320,
   5314, 5306, 5284, 5276, 5270, 5262, 5252, 5244, 5238, 5230, 5211, 5203,
   5197, 5189, 5179, 5171, 5165, 5157, 5131, 5123, 5117, 5109, 5099, 5091,
   5085, 5077, 5058, 5050, 5044, 5036, 5026, 5018, 5012, 5004, 4982, 4974,
   4968, 4960, 4950, 4942, 4936, 4928, 4909, 4901, 4895, 4887, 4877, 4869,
   4863, 4855, 5586, 5578, 5572, 5564, 5554, 5546, 5540, 5532, 5513, 5505,
   5499, 5491, 5481, 5473, 5467, 5459, 5437, 5429, 5423, 5415, 5405, 5397,
   5391, 5383, 5364, 5356, 5350, 5342, 5332, 5324, 5318, 5310, 5284, 5276,
   5270, 5262, 5252, 5244, 5238, 5230, 5211, 5203, 5197, 5189, 5179, 5171,
   5165, 5157, 5135, 5127, 5121, 5113, 5103, 5095, 5089, 5081, 5062, 5054,
   5048, 5040, 5030, 5022, 5016, 5008, 5142, 5134, 5128, 5120, 5110, 5102,
   5096, 5088, 5069, 5061, 5055, 5047, 5037, 5029, 5023, 5015, 4993, 4985,
   4979, 4971, 4961, 4953, 4947, 4939, 4920, 4912, 4906, 4898, 4888, 4880,
   4874, 4866, 4840, 4832, 4826, 4818, 4808, 4800, 4794, 4786, 4767, 4759,
   4753, 4745, 4735, 4727, 4721, 4713, 4691, 4683, 4677, 4669, 4659, 4651,
   4645, 4637, 4618, 4610, 4604, 4596, 4586, 4578, 4572, 4564, 4766, 4758,
   4752, 4744, 4734, 4726, 4720, 4712, 4693, 4685, 4679, 4671, 4661, 4653,
   4647, 4639, 4617, 4609, 4603, 4595, 4585, 4577, 4571, 4563, 4544, 4536,
   4530, 4522, 4512, 4504, 4498, 4490, 4464, 4456, 4450, 4442, 4432, 4424,
   4418, 4410, 4391, 4383, 4377, 4369, 4359, 4351, 4345, 4337, 4315, 4307,
   4301, 4293, 4283, 4275, 4269, 4261, 4242, 4234, 4228, 4220, 4210, 4202,
   4196, 4188, 4322, 4314, 4308, 4300, 4290, 4282, 4276, 4268, 4249, 4241,
   4235, 4227, 4217, 4209, 4203, 4195, 4173, 4165, 4159, 4151, 4141, 4133,
   4127, 4119, 4100, 4092, 4086, 4078, 4068, 4060, 4054, 4046, 4020, 4012,
   4006, 3998, 3988, 3980, 3974, 3966, 3947, 3939, 3933, 3925, 3915, 3907,
   3901, 3893, 3871, 3863, 3857, 3849, 3839, 3831, 3825, 3817, 3798, 3790,
   3784, 3776, 3766, 3758, 3752, 3744, 4651, 4643, 4637, 4629, 4619, 4611,
   4605, 4597, 4578, 4570, 4564, 4556, 4546, 4538, 4532, 4524, 4502, 4494,
   4488, 4480, 4470, 4462, 4456, 4448, 4429, 4421, 4415, 4407, 4397, 4389,
   4383, 4375, 4349, 4341, 4335, 4327, 4317, 4309, 4303, 4295, 4276, 4268,
   4262, 4254, 4244, 4236, 4230, 4222, 4200, 4192, 4186, 4178, 4168, 4160,
   4154, 4146, 4127, 4119, 4113, 4105, 4095, 4087, 4081, 4073, 4207, 4199]

/-- The entries of `dct_value_cost` written at lines 224-255 of the source. -/
def dct_value_cost_lines_224_255 : List Nat :=
  [4193, 4185, 4175, 4167, 4161, 4153, 4134, 4126, 4120, 4112, 4102, 4094,
   4088, 4080, 4058, 4050, 4044, 4036, 4026, 4018, 4012, 4004, 3985, 3977,
   3971, 3963, 3953, 3945, 3939, 3931, 3905, 3897, 3891, 3883, 3873, 3865,
   3859, 3851, 3832, 3824, 3818, 3810, 3800, 3792, 3786, 3778, 3756, 3748,
   3742, 3734, 3724, 3716, 3710, 3702, 3683, 3675, 3669, 3661, 3651, 3643,
   3637, 3629, 3831, 3823, 3817, 3809, 3799, 3791, 3785, 3777, 3758, 3750,
   3744, 3736, 3726, 3718, 3712, 3704, 3682, 3674, 3668, 3660, 3650, 3642,
   3636, 3628, 3609, 3601, 3595, 3587, 3577, 3569, 3563, 3555, 3529, 3521,
   3515, 3507, 3497, 3489, 3483, 3475, 3456, 3448, 3442, 3434, 3424, 3416,
   3410, 3402, 3380, 3372, 3366, 3358, 3348, 3340, 3334, 3326, 3307, 3299,
   3293, 3285, 3275, 3267, 3261, 3253, 3387, 3379, 3373, 3365, 3355, 3347,
   3341, 3333, 3314, 3306, 3300, 3292, 3282, 3274, 3268, 3260, 3238, 3230,
   3224, 3216, 3206, 3198, 3192, 3184, 3165, 3157, 3151, 3143, 3133, 3125,
   3119, 3111, 3085, 3077, 3071, 3063, 3053, 3045, 3039, 3031, 3012, 3004,
   2998, 2990, 2980, 2972, 2966, 2958, 2936, 2928, 2922, 2914, 2904, 2896,
   2890, 2882, 2863, 2855, 2849, 2841, 2831, 2823, 2817, 2809, 3540, 3532,
   3526, 3518, 3508, 3500, 3494, 3486, 3467, 3459, 3453, 3445, 3435, 3427,
   3421, 3413, 3391, 3383, 3377, 3369, 3359, 3351, 3345, 3337, 3318, 3310,
   3304, 3296, 3286, 3278, 3272, 3264, 3238, 3230, 3224, 3216, 3206, 3198,
   3192, 3184, 3165, 3157, 3151, 3143, 3133, 3125, 3119, 3111, 3089, 3081,
   3075, 3067, 3057, 3049, 3043, 3035, 3016, 3008, 3002, 2994, 2984, 2976,
   2970, 2962, 3096, 3088, 3082, 3074, 3064, 3056, 3050, 3042, 3023, 3015,
   3009, 3001, 2991, 2983, 2977, 2969, 2947, 2939, 2933, 2925, 2915, 2907,
   2901, 2893, 2874, 2866, 2860, 2852, 2842, 2834, 2828, 2820, 2794, 2786,
   2780, 2772, 2762, 2754, 2748, 2740, 2721, 2713, 2707, 2699, 2689, 2681,
   2675, 2667, 2645, 2637, 2631, 2623, 2613, 2605, 2599, 2591, 2572, 2564,
   2558, 2550, 2540, 2532, 2526, 2518, 2720, 2712, 2706, 2698, 2688, 2680,
   2674, 2666, 2647, 2639, 2633, 2625, 2615, 2607, 2601, 2593, 2571, 2563,
   2557, 2549, 2539, 2531, 2525, 2517, 2498, 2490, 2484, 2476, 2466, 2458,
   2452, 2444, 2418, 2410, 2404, 2396, 2386, 2378, 2372, 2364, 2345, 2337,
   2331, 2323, 2313, 2305, 2299, 2291, 2269, 2261, 2255, 2247, 2237, 2229,
   2223, 2215, 2196, 2188, 2182, 2174, 2164, 2156, 2150, 2142, 2276, 2268]

/-- The entries of `dct_value_cost` written at lines 256-287 of the source. -/
def dct_value_cost_lines_256_287 : List Nat :=
  [2262, 2254, 2244, 2236, 2230, 2222, 2203, 2195, 2189, 2181, 2171, 2163,
   2157, 2149, 2127, 2119, 2113, 2105, 2095, 2087, 2081, 2073, 2054, 2046,
   2040, 2032, 2022, 2014, 2008, 2000, 1974, 1966, 1960, 1952, 1942, 1934,
   1928, 1920, 1901, 1893, 1887, 1879, 1869, 1861, 1855, 1847, 1825, 1817,
   1811, 1803, 1793, 1785, 1779, 1771, 1752, 1744, 1738, 1730, 1720, 1712,
   1706, 1698, 1897, 1883, 1860, 1846, 1819, 1805, 1782, 1768, 1723, 1709,
   1686, 1672, 1645, 1631, 1608, 1594, 1574, 1560, 1537, 1523, 1496, 1482,
   1459, 1445, 1400, 1386, 1363, 1349, 1322, 1308, 1285, 1271, 1608, 1565,
   1535, 1492, 1446, 1403, 1373, 1330, 1312, 1269, 1239, 1196, 1150, 1107,
   1077, 1034, 1291, 1218, 1171, 1098, 1015, 942, 895, 822, 953, 850,
   729, 626, 618, 431, 257, 257, 257, 257, 0, 255, 255, 255,
   255, 429, 616, 624, 727, 848, 951, 820, 893, 940, 1013, 1096,
   1169, 1216, 1289, 1032, 1075, 1105, 1148, 1194, 1237, 1267, 1310, 1328,
   1371, 1401, 1444, 1490, 1533, 1563, 1606, 1269, 1283, 1306, 1320, 1347,
   1361, 1384, 1398, 1443, 1457, 1480, 1494, 1521, 1535, 1558, 1572, 1592,
   1606, 1629, 1643, 1670, 1684, 1707, 1721, 1766, 1780, 1803, 1817, 1844,
   1858, 1881, 1895, 1696, 1704, 1710, 1718, 1728, 1736, 1742, 1750, 1769,
   1777, 1783, 1791, 1801, 1809, 1815, 1823, 1845, 1853, 1859, 1867, 1877,
   1885, 1891, 1899, 1918, 1926, 1932, 1940, 1950, 1958, 1964, 1972, 1998,
   2006, 2012, 2020, 2030, 2038, 2044, 2052, 2071, 2079, 2085, 2093, 2103,
   2111, 2117, 2125, 2147, 2155, 2161, 2169, 2179, 2187, 2193, 2201, 2220,
   2228, 2234, 2242, 2252, 2260, 2266, 2274, 2140, 2148, 2154, 2162, 2172,
   2180, 2186, 2194, 2213, 2221, 2227, 2235, 2245, 2253, 2259, 2267, 2289,
   2297, 2303, 2311, 2321, 2329, 2335, 2343, 2362, 2370, 2376, 2384, 2394,
   2402, 2408, 2416, 2442, 2450, 2456, 2464, 2474, 2482, 2488, 2496, 2515,
   2523, 2529, 2537, 2547, 2555, 2561, 2569, 2591, 2599, 2605, 2613, 2623,
   2631, 2637, 2645, 2664, 2672, 2678, 2686, 2696, 2704, 2710, 2718, 2516,
   2524, 2530, 2538, 2548, 2556, 2562, 2570, 2589, 2597, 2603, 2611, 2621,
   2629, 2635, 2643, 2665, 2673, 2679, 2687, 2697, 2705, 2711, 2719, 2738,
   2746, 2752, 2760, 2770, 2778, 2784, 2792, 2818, 2826, 2832, 2840, 2850,
   2858, 2864, 2872, 2891, 2899, 2905, 2913, 2923, 2931, 2937, 2945, 2967,
   2975, 2981, 2989, 2999, 3007, 3013, 3021, 3040, 3048, 3054, 3062, 3072]

/-- The entries of `dct_value_cost` written at lines 288-319 of the source. -/
def dct_value_cost_lines_288_319 : List Nat :=
  [3080, 3086, 3094, 2960, 2968, 2974, 2982, 2992, 3000, 3006, 3014, 3033,
   3041, 3047, 3055, 3065, 3073, 3079, 3087, 3109, 3117, 3123, 3131, 3141,
   3149, 3155, 3163, 3182, 3190, 3196, 3204, 3214, 3222, 3228, 3236, 3262,
   3270, 3276, 3284, 3294, 3302, 3308, 3316, 3335, 3343, 3349, 3357, 3367,
   3375, 3381, 3389, 3411, 3419, 3425, 3433, 3443, 3451, 3457, 3465, 3484,
   3492, 3498, 3506, 3516, 3524, 3530, 3538, 2807, 2815, 2821, 2829, 2839,
   2847, 2853, 2861, 2880, 2888, 2894, 2902, 2912, 2920, 2926, 2934, 2956,
   2964, 2970, 2978, 2988, 2996, 3002, 3010, 3029, 3037, 3043, 3051, 3061,
   3069, 3075, 3083, 3109, 3117, 3123, 3131, 3141, 3149, 3155, 3163, 3182,
   3190, 3196, 3204, 3214, 3222, 3228, 3236, 3258, 3266, 3272, 3280, 3290,
   3298, 3304, 3312, 3331, 3339, 3345, 3353, 3363, 3371, 3377, 3385, 3251,
   3259, 3265, 3273, 3283, 3291, 3297, 3305, 3324, 3332, 3338, 3346, 3356,
   3364, 3370, 3378, 3400, 3408, 3414, 3422, 3432, 3440, 3446, 3454, 3473,
   3481, 3487, 3495, 3505, 3513, 3519, 3527, 3553, 3561, 3567, 3575, 3585,
   3593, 3599, 3607, 3626, 3634, 3640, 3648, 3658, 3666, 3672, 3680, 3702,
   3710, 3716, 3724, 3734, 3742, 3748, 3756, 3775, 3783, 3789, 3797, 3807,
   3815, 3821, 3829, 3627, 3635, 3641, 3649, 3659, 3667, 3673, 3681, 3700,
   3708, 3714, 3722, 3732, 3740, 3746, 3754, 3776, 3784, 3790, 3798, 3808,
   3816, 3822, 3830, 3849, 3857, 3863, 3871, 3881, 3889, 3895, 3903, 3929,
   3937, 3943, 3951, 3961, 3969, 3975, 3983, 4002, 4010, 4016, 4024, 4034,
   4042, 4048, 4056, 4078, 4086, 4092, 4100, 4110, 4118, 4124, 4132, 4151,
   4159, 4165, 4173, 4183, 4191, 4197, 4205, 4071, 4079, 4085, 4093, 4103,
   4111, 4117, 4125, 4144, 4152, 4158, 4166, 4176, 4184, 4190, 4198, 4220,
   4228, 4234, 4242, 4252, 4260, 4266, 4274, 4293, 4301, 4307, 4315, 4325,
   4333, 4339, 4347, 4373, 4381, 4387, 4395, 4405, 4413, 4419, 4427, 4446,
   4454, 4460, 4468, 4478, 4486, 4492, 4500, 4522, 4530, 4536, 4544, 4554,
   4562, 4568, 4576, 4595, 4603, 4609, 4617, 4627, 4635, 4641, 4649, 3742,
   3750, 3756, 3764, 3774, 3782, 3788, 3796, 3815, 3823, 3829, 3837, 3847,
   3855, 3861, 3869, 3891, 3899, 3905, 3913, 3923, 3931, 3937, 3945, 3964,
   3972, 3978, 3986, 3996, 4004, 4010, 4018, 4044, 4052, 4058, 4066, 4076,
   4084, 4090, 4098, 4117, 4125, 4131, 4139, 4149, 4157, 4163, 4171, 4193,
   4201, 4207, 4215, 4225, 4233, 4239, 4247, 4266, 4274, 4280, 4288, 4298]

/-- The entries of `dct_value_cost` written at lines 320-351 of the source. -/
def dct_value_cost_lines_320_351 : List Nat :=
  [4306, 4312, 4320, 4186, 4194, 4200, 4208, 4218, 4226, 4232, 4240, 4259,
   4267, 4273, 4281, 4291, 4299, 4305, 4313, 4335, 4343, 4349, 4357, 4367,
   4375, 4381, 4389, 4408, 4416, 4422, 4430, 4440, 4448, 4454, 4462, 4488,
   4496, 4502, 4510, 4520, 4528, 4534, 4542, 4561, 4569, 4575, 4583, 4593,
   4601, 4607, 4615, 4637, 4645, 4651, 4659, 4669, 4677, 4683, 4691, 4710,
   4718, 4724, 4732, 4742, 4750, 4756, 4764, 4562, 4570, 4576, 4584, 4594,
   4602, 4608, 4616, 4635, 4643, 4649, 4657, 4667, 4675, 4681, 4689, 4711,
   4719, 4725, 4733, 4743, 4751, 4757, 4765, 4784, 4792, 4798, 4806, 4816,
   4824, 4830, 4838, 4864, 4872, 4878, 4886, 4896, 4904, 4910, 4918, 4937,
   4945, 4951, 4959, 4969, 4977, 4983, 4991, 5013, 5021, 5027, 5035, 5045,
   5053, 5059, 5067, 5086, 5094, 5100, 5108, 5118, 5126, 5132, 5140, 5006,
   5014, 5020, 5028, 5038, 5046, 5052, 5060, 5079, 5087, 5093, 5101, 5111,
   5119, 5125, 5133, 5155, 5163, 5169, 5177, 5187, 5195, 5201, 5209, 5228,
   5236, 5242, 5250, 5260, 5268, 5274, 5282, 5308, 5316, 5322, 5330, 5340,
   5348, 5354, 5362, 5381, 5389, 5395, 5403, 5413, 5421, 5427, 5435, 5457,
   5465, 5471, 5479, 5489, 5497, 5503, 5511, 5530, 5538, 5544, 5552, 5562,
   5570, 5576, 5584, 4853, 4861, 4867, 4875, 4885, 4893, 4899, 4907, 4926,
   4934, 4940, 4948, 4958, 4966, 4972, 4980, 5002, 5010, 5016, 5024, 5034,
   5042, 5048, 5056, 5075, 5083, 5089, 5097, 5107, 5115, 5121, 5129, 5155,
   5163, 5169, 5177, 5187, 5195, 5201, 5209, 5228, 5236, 5242, 5250, 5260,
   5268, 5274, 5282, 5304, 5312, 5318, 5326, 5336, 5344, 5350, 5358, 5377,
   5385, 5391, 5399, 5409, 5417, 5423, 5431, 5297, 5305, 5311, 5319, 5329,
   5337, 5343, 5351, 5370, 5378, 5384, 5392, 5402, 5410, 5416, 5424, 5446,
   5454, 5460, 5468, 5478, 5486, 5492, 5500, 5519, 5527, 5533, 5541, 5551,
   5559, 5565, 5573, 5599, 5607, 5613, 5621, 5631, 5639, 5645, 5653, 5672,
   5680, 5686, 5694, 5704, 5712, 5718, 5726, 5748, 5756, 5762, 5770, 5780,
   5788, 5794, 5802, 5821, 5829, 5835, 5843, 5853, 5861, 5867, 5875, 5673,
   5681, 5687, 5695, 5705, 5713, 5719, 5727, 5746, 5754, 5760, 5768, 5778,
   5786, 5792, 5800, 5822, 5830, 5836, 5844, 5854, 5862, 5868, 5876, 5895,
   5903, 5909, 5917, 5927, 5935, 5941, 5949, 5975, 5983, 5989, 5997, 6007,
   6015, 6021, 6029, 6048, 6056, 6062, 6070, 6080, 6088, 6094, 6102, 6124,
   6132, 6138, 6146, 6156, 6164, 6170, 6178, 6197, 6205, 6211, 6219, 6229]

/-- The entries of `dct_value_cost` written at lines 352-383 of the source. -/
def dct_value_cost_lines_352_383 : List Nat :=
  [6237, 6243, 6251, 6117, 6125, 6131, 6139, 6149, 6157, 6163, 6171, 6190,
   6198, 6204, 6212, 6222, 6230, 6236, 6244, 6266, 6274, 6280, 6288, 6298,
   6306, 6312, 6320, 6339, 6347, 6353, 6361, 6371, 6379, 6385, 6393, 6419,
   6427, 6433, 6441, 6451, 6459, 6465, 6473, 6492, 6500, 6506, 6514, 6524,
   6532, 6538, 6546, 6568, 6576, 6582, 6590, 6600, 6608, 6614, 6622, 6641,
   6649, 6655, 6663, 6673, 6681, 6687, 6695, 3742, 3750, 3756, 3764, 3774,
   3782, 3788, 3796, 3815, 3823, 3829, 3837, 3847, 3855, 3861, 3869, 3891,
   3899, 3905, 3913, 3923, 3931, 3937, 3945, 3964, 3972, 3978, 3986, 3996,
   4004, 4010, 4018, 4044, 4052, 4058, 4066, 4076, 4084, 4090, 4098, 4117,
   4125, 4131, 4139, 4149, 4157, 4163, 4171, 4193, 4201, 4207, 4215, 4225,
   4233, 4239, 4247, 4266, 4274, 4280, 4288, 4298, 4306, 4312, 4320, 4186,
   4194, 4200, 4208, 4218, 4226, 4232, 4240, 4259, 4267, 4273, 4281, 4291,
   4299, 4305, 4313, 4335, 4343, 4349, 4357, 4367, 4375, 4381, 4389, 4408,
   4416, 4422, 4430, 4440, 4448, 4454, 4462, 4488, 4496, 4502, 4510, 4520,
   4528, 4534, 4542, 4561, 4569, 4575, 4583, 4593, 4601, 4607, 4615, 4637,
   4645, 4651, 4659, 4669, 4677, 4683, 4691, 4710, 4718, 4724, 4732, 4742,
   4750, 4756, 4764, 4562, 4570, 4576, 4584, 4594, 4602, 4608, 4616, 4635,
   4643, 4649, 4657, 4667, 4675, 4681, 4689, 4711, 4719, 4725, 4733, 4743,
   4751, 4757, 4765, 4784, 4792, 4798, 4806, 4816, 4824, 4830, 4838, 4864,
   4872, 4878, 4886, 4896, 4904, 4910, 4918, 4937, 4945, 4951, 4959, 4969,
   4977, 4983, 4991, 5013, 5021, 5027, 5035, 5045, 5053, 5059, 5067, 5086,
   5094, 5100, 5108, 5118, 5126, 5132, 5140, 5006, 5014, 5020, 5028, 5038,
   5046, 5052, 5060, 5079, 5087, 5093, 5101, 5111, 5119, 5125, 5133, 5155,
   5163, 5169, 5177, 5187, 5195, 5201, 5209, 5228, 5236, 5242, 5250, 5260,
   5268, 5274, 5282, 5308, 5316, 5322, 5330, 5340, 5348, 5354, 5362, 5381,
   5389, 5395, 5403, 5413, 5421, 5427, 5435, 5457, 5465, 5471, 5479, 5489,
   5497, 5503, 5511, 5530, 5538, 5544, 5552, 5562, 5570, 5576, 5584, 4853,
   4861, 4867, 4875, 4885, 4893, 4899, 4907, 4926, 4934, 4940, 4948, 4958,
   4966, 4972, 4980, 5002, 5010, 5016, 5024, 5034, 5042, 5048, 5056, 5075,
   5083, 5089, 5097, 5107, 5115, 5121, 5129, 5155, 5163, 5169, 5177, 5187,
   5195, 5201, 5209, 5228, 5236, 5242, 5250, 5260, 5268, 5274, 5282, 5304,
   5312, 5318, 5326, 5336, 5344, 5350, 5358, 5377, 5385, 5391, 5399, 5409]

/-- The entries of `dct_value_cost` written at lines 384-415 of the source. -/
def dct_value_cost_lines_384_415 : List Nat :=
  [5417, 5423, 5431, 5297, 5305, 5311, 5319, 5329, 5337, 5343, 5351, 5370,
   5378, 5384, 5392, 5402, 5410, 5416, 5424, 5446, 5454, 5460, 5468, 5478,
   5486, 5492, 5500, 5519, 5527, 5533, 5541, 5551, 5559, 5565, 5573, 5599,
   5607, 5613, 5621, 5631, 5639, 5645, 5653, 5672, 5680, 5686, 5694, 5704,
   5712, 5718, 5726, 5748, 5756, 5762, 5770, 5780, 5788, 5794, 5802, 5821,
   5829, 5835, 5843, 5853, 5861, 5867, 5875, 5673, 5681, 5687, 5695, 5705,
   5713, 5719, 5727, 5746, 5754, 5760, 5768, 5778, 5786, 5792, 5800, 5822,
   5830, 5836, 5844, 5854, 5862, 5868, 5876, 5895, 5903, 5909, 5917, 5927,
   5935, 5941, 5949, 5975, 5983, 5989, 5997, 6007, 6015, 6021, 6029, 6048,
   6056, 6062, 6070, 6080, 6088, 6094, 6102, 6124, 6132, 6138, 6146, 6156,
   6164, 6170, 6178, 6197, 6205, 6211, 6219, 6229, 6237, 6243, 6251, 6117,
   6125, 6131, 6139, 6149, 6157, 6163, 6171, 6190, 6198, 6204, 6212, 6222,
   6230, 6236, 6244, 6266, 6274, 6280, 6288, 6298, 6306, 6312, 6320, 6339,
   6347, 6353, 6361, 6371, 6379, 6385, 6393, 6419, 6427, 6433, 6441, 6451,
   6459, 6465, 6473, 6492, 6500, 6506, 6514, 6524, 6532, 6538, 6546, 6568,
   6576, 6582, 6590, 6600, 6608, 6614, 6622, 6641, 6649, 6655, 6663, 6673,
   6681, 6687, 6695, 5788, 5796, 5802, 5810, 5820, 5828, 5834, 5842, 5861,
   5869, 5875, 5883, 5893, 5901, 5907, 5915, 5937, 5945, 5951, 5959, 5969,
   5977, 5983, 5991, 6010, 6018, 6024, 6032, 6042, 6050, 6056, 6064, 6090,
   6098, 6104, 6112, 6122, 6130, 6136, 6144, 6163, 6171, 6177, 6185, 6195,
   6203, 6209, 6217, 6239, 6247, 6253, 6261, 6271, 6279, 6285, 6293, 6312,
   6320, 6326, 6334, 6344, 6352, 6358, 6366, 6232, 6240, 6246, 6254, 6264,
   6272, 6278, 6286, 6305, 6313, 6319, 6327, 6337, 6345, 6351, 6359, 6381,
   6389, 6395, 6403, 6413, 6421, 6427, 6435, 6454, 6462, 6468, 6476, 6486,
   6494, 6500, 6508, 6534, 6542, 6548, 6556, 6566, 6574, 6580, 6588, 6607,
   6615, 6621, 6629, 6639, 6647, 6653, 6661, 6683, 6691, 6697, 6705, 6715,
   6723, 6729, 6737, 6756, 6764, 6770, 6778, 6788, 6796, 6802, 6810, 6608,
   6616, 6622, 6630, 6640, 6648, 6654, 6662, 6681, 6689, 6695, 6703, 6713,
   6721, 6727, 6735, 6757, 6765, 6771, 6779, 6789, 6797, 6803, 6811, 6830,
   6838, 6844, 6852, 6862, 6870, 6876, 6884, 6910, 6918, 6924, 6932, 6942,
   6950, 6956, 6964, 6983, 6991, 6997, 7005, 7015, 7023, 7029, 7037, 7059,
   7067, 7073, 7081, 7091, 7099, 7105, 7113, 7132, 7140, 7146, 7154, 7164]

/-- The entries of `dct_value_cost` written at lines 416-437 of the source. -/
def dct_value_cost_lines_416_437 : List Nat :=
  [7172, 7178, 7186, 7052, 7060, 7066, 7074, 7084, 7092, 7098, 7106, 7125,
   7133, 7139, 7147, 7157, 7165, 7171, 7179, 7201, 7209, 7215, 7223, 7233,
   7241, 7247, 7255, 7274, 7282, 7288, 7296, 7306, 7314, 7320, 7328, 7354,
   7362, 7368, 7376, 7386, 7394, 7400, 7408, 7427, 7435, 7441, 7449, 7459,
   7467, 7473, 7481, 7503, 7511, 7517, 7525, 7535, 7543, 7549, 7557, 7576,
   7584, 7590, 7598, 7608, 7616, 7622, 7630, 6899, 6907, 6913, 6921, 6931,
   6939, 6945, 6953, 6972, 6980, 6986, 6994, 7004, 7012, 7018, 7026, 7048,
   7056, 7062, 7070, 7080, 7088, 7094, 7102, 7121, 7129, 7135, 7143, 7153,
   7161, 7167, 7175, 7201, 7209, 7215, 7223, 7233, 7241, 7247, 7255, 7274,
   7282, 7288, 7296, 7306, 7314, 7320, 7328, 7350, 7358, 7364, 7372, 7382,
   7390, 7396, 7404, 7423, 7431, 7437, 7445, 7455, 7463, 7469, 7477, 7343,
   7351, 7357, 7365, 7375, 7383, 7389, 7397, 7416, 7424, 7430, 7438, 7448,
   7456, 7462, 7470, 7492, 7500, 7506, 7514, 7524, 7532, 7538, 7546, 7565,
   7573, 7579, 7587, 7597, 7605, 7611, 7619, 7645, 7653, 7659, 7667, 7677,
   7685, 7691, 7699, 7718, 7726, 7732, 7740, 7750, 7758, 7764, 7772, 7794,
   7802, 7808, 7816, 7826, 7834, 7840, 7848, 7867, 7875, 7881, 7889, 7899,
   7907, 7913, 7921, 7719, 7727, 7733, 7741, 7751, 7759, 7765, 7773, 7792,
   7800, 7806, 7814, 7824, 7832, 7838, 7846, 7868, 7876, 7882, 7890, 7900,
   7908, 7914, 7922, 7941, 7949, 7955, 7963, 7973, 7981, 7987, 7995, 8021,
   8029, 8035, 8043, 8053, 8061, 8067, 8075, 8094, 8102, 8108, 8116, 8126,
   8134, 8140, 8148, 8170, 8178, 8184, 8192, 8202, 8210, 8216, 8224, 8243,
   8251, 8257, 8265, 8275]

/-- The table `dct_value_cost` (lines 94-438), taken from libvpx: the entry at
`2048 + coeff` is the base cost of the coefficient `coeff`. -/
def dct_value_cost : List Nat :=
  dct_value_cost_lines_96_127 ++ dct_value_cost_lines_128_159 ++
  dct_value_cost_lines_160_191 ++ dct_value_cost_lines_192_223 ++
  dct_value_cost_lines_224_255 ++ dct_value_cost_lines_256_287 ++
  dct_value_cost_lines_288_319 ++ dct_value_cost_lines_320_351 ++
  dct_value_cost_lines_352_383 ++ dct_value_cost_lines_384_415 ++
  dct_value_cost_lines_416_437

/-- The method `TokenCosts::coeff_base_cost` (lines 440-444): the entry of
`dct_value_cost` at `2048 + coeff`; no value when the assertion
`coeff >= -2048 && coeff <= 2047` fails or the address leaves the table. -/
def coeff_base_cost (coeff : Int) : Option Nat :=
  if coeff ≥ -2048 ∧ coeff ≤ 2047 then dct_value_cost[(2048 + coeff).toNat]? else none

/-! ## Predicates and reference definitions used by the theorems -/

/-- Representation invariant of an `LRUCache`: the capacity is positive, the
list nodes have distinct addresses below the next fresh one and hold distinct
keys, the map has one entry per key, the keys of the list are the keys of the
map, every stored iterator designates the list node of its key, and the list
is no longer than the capacity. -/
structure LRUCache.WF {α : Type} (c : LRUCache α) : Prop where
  cap_pos : 1 ≤ c.cache_capacity
  nodes_nodup : (c.cached_items_.map Prod.fst).Nodup
  recency_nodup : c.recency.Nodup
  keys_nodup : c.keys.Nodup
  nodes_fresh : ∀ e ∈ c.cached_items_, e.1 < c.fresh_node_
  listed : ∀ e ∈ c.cached_items_, (map_find c.cache_ e.2).isSome = true
  iter_ok : ∀ key item, map_find c.cache_ key = some item →
    ∃ n, item.2 = some n ∧ (n, key) ∈ c.cached_items_
  bounded : c.cached_items_.length ≤ c.cache_capacity

/-- The key an operation touches. -/
def LRUOp.key {α : Type} : LRUOp α → Nat
  | LRUOp.put key _ => key
  | LRUOp.get key => key

/-- The number of operations of the history `ops` that come after the latest
one touching `key` (the length of the history when none touches it): the larger,
the longer ago `key` was last used. -/
def last_use_age {α : Type} (ops : List (LRUOp α)) (key : Nat) : Nat :=
  ((ops.map LRUOp.key).reverse).indexOf key

/-- The vertices a frame consumes: its present source hashes, rasters first. -/
def source_vertices (frame : FrameInfo) : List DependencyVertex :=
  ([frame.source_hash.last_hash, frame.source_hash.golden_hash,
      frame.source_hash.alt_hash].filterMap
    (fun h => h.map (fun x => { type := DependencyType.RASTER, hash := x }))) ++
  (match frame.source_hash.state_hash with
   | some x => [{ type := DependencyType.STATE, hash := x }]
   | none => [])

/-- The vertices a frame produces: its output raster and its decoder state. -/
def target_vertices (frame : FrameInfo) : List DependencyVertex :=
  [{ type := DependencyType.RASTER, hash := frame.target_hash.output_hash },
   { type := DependencyType.STATE, hash := frame.target_hash.state_hash }]

/-- Whether the cache of the vertex's kind has its hash. -/
def RasterAndStateCache.has_vertex {R S : Type} (cache : RasterAndStateCache R S)
    (v : DependencyVertex) : Bool :=
  match v.type with
  | DependencyType.RASTER => cache.raster_cache_.has v.hash
  | DependencyType.STATE => cache.state_cache_.has v.hash

/-- A backward walk over the frames `lo, ..., hi` of a track is sound for the
set `unresolved` when every source vertex of a covered frame that the cache
lacks is in `unresolved` or is produced by a covered frame of smaller index. -/
def WalkSound {R S : Type} (video : AlfalfaVideoClient) (track_id : Nat)
    (cache : RasterAndStateCache R S) (lo hi : Nat) (unresolved : List DependencyVertex) :
    Prop :=
  ∀ j, lo ≤ j → j ≤ hi → ∀ v ∈ source_vertices (video.frame_at track_id j),
    cache.has_vertex v = false →
      v ∈ unresolved ∨
        ∃ k, lo ≤ k ∧ k < j ∧ v ∈ target_vertices (video.frame_at track_id k)

/-- The candidates of `get_min_track_seek` in the order in which the two nested
loops at lines 313-314 enumerate them. -/
def track_seek_candidates (video : AlfalfaVideoClient) (output_hash : Nat) : List TrackData :=
  ((video.frames_by_output_hash output_hash).map
    (fun frame => video.track_data_by_frame_id frame.frame_id)).flatten

/-- State of the search of `get_min_track_seek` after the candidates `seen`:
`min_cost` is the cost of the path, at most `SIZE_MAX` and at most the cost of
every candidate seen, and when it is below `SIZE_MAX` the path and the
dependencies are those of the first candidate seen that attains it. -/
def MinTrackInv {R S : Type} (fuel : Nat) (video : AlfalfaVideoClient)
    (cache : RasterAndStateCache R S) (seen : List TrackData) (st : MinTrackState) : Prop :=
  st.2.1.cost = st.1 ∧ st.1 ≤ SIZE_MAX ∧
  (∀ td ∈ seen, ∀ r, get_track_seek fuel video cache td.track_id td.frame_index
      FrameDependency.empty = Except.ok r → st.1 ≤ r.2.2) ∧
  (st.1 < SIZE_MAX → ∃ before td after r, seen = before ++ td :: after ∧
    get_track_seek fuel video cache td.track_id td.frame_index FrameDependency.empty =
      Except.ok r ∧
    r.2.2 = st.1 ∧
    (∀ td1 ∈ before, ∀ r1, get_track_seek fuel video cache td1.track_id td1.frame_index
        FrameDependency.empty = Except.ok r1 → st.1 < r1.2.2) ∧
    st.2.1 = { track_id := td.track_id, start_index := r.1
               end_index := size_add td.frame_index 1, cost := r.2.2 } ∧
    st.2.2 = r.2.1)

/-- The frames `F_1, ..., F_n` of the feasibility check: those of
`current_frame_seq_` at the indices from `current_playhead_index_` up to, not
including, `current_download_pt_index_`, followed by those of the candidate. -/
def feasibility_frames {R S K : Type} (player : AlfalfaPlayer R S K)
    (prospective_track : List FrameInfoWrapper) : List FrameInfo :=
  ((player.current_frame_seq_.drop player.current_playhead_index_).take
      (player.current_download_pt_index_ - player.current_playhead_index_)).map
    (fun w => w.frame_info) ++
  prospective_track.map (fun w => w.frame_info)

/-- The bytes a frame takes from the buffer: its length, or nothing when its
chunk is in the compressed-chunk cache. -/
def frame_charge {K : Type} (frame_cache : LRUCache K) (frame : FrameInfo) : Nat :=
  if frame_cache.has frame.frame_id then 0 else frame.length

/-- The reference buffer level after the first `k` of `frames`, from the level
`start`, in unbounded integers: `start + k * t - (charges of F_1 .. F_k)`. -/
def buffer_after {K : Type} (frame_cache : LRUCache K) (throughput_estimate : Nat)
    (start : Int) (frames : List FrameInfo) (k : Nat) : Int :=
  start + (k : Int) * (throughput_estimate : Int) -
    (((frames.take k).map (frame_charge frame_cache)).sum : Nat)

/-- No overflow in the check of `frames` from the level `start`: the level
before the first frame, every level after the throughput credit and every level
after a frame are values of a `long`. -/
def FeasibilityNoOverflow {K : Type} (frame_cache : LRUCache K) (throughput_estimate : Nat)
    (start : Int) (frames : List FrameInfo) : Prop :=
  LONG_MIN ≤ start ∧ start ≤ LONG_MAX ∧
  ∀ k, k < frames.length →
    buffer_after frame_cache throughput_estimate start frames k + throughput_estimate
      ≤ LONG_MAX ∧
    LONG_MIN ≤ buffer_after frame_cache throughput_estimate start frames (k + 1) ∧
    buffer_after frame_cache throughput_estimate start frames (k + 1) ≤ LONG_MAX

/-- The loop of `determine_feasibility` as a recursion over the frames it
visits, from the buffer level `buffer_size`. -/
def feasibility_scan {K : Type} (frame_cache : LRUCache K) (throughput_estimate : Nat) :
    List FrameInfo → Int → Bool
  | [], _ => true
  | frame :: rest, buffer_size =>
    if feasibility_step frame_cache throughput_estimate buffer_size frame.frame_id
        frame.length < 0 then false
    else feasibility_scan frame_cache throughput_estimate rest
      (feasibility_step frame_cache throughput_estimate buffer_size frame.frame_id frame.length)

deriving instance DecidableEq for Except
/-! ## Concrete inputs used by the witnesses -/

/-- A frame without source hashes (a key frame). -/
def key_frame (frame_id length output_hash state_hash : Nat) : FrameInfo :=
  { frame_id := frame_id, length := length, shown := true
    source_hash := { state_hash := none, last_hash := none, golden_hash := none
                     alt_hash := none }
    target_hash := { state_hash := state_hash, output_hash := output_hash } }

/-- A frame whose only source hash is the `last` raster. -/
def inter_frame (frame_id length last_hash output_hash state_hash : Nat) : FrameInfo :=
  { frame_id := frame_id, length := length, shown := true
    source_hash := { state_hash := none, last_hash := some last_hash, golden_hash := none
                     alt_hash := none }
    target_hash := { state_hash := state_hash, output_hash := output_hash } }

/-- A raster/state cache with nothing in it. -/
def empty_cache : RasterAndStateCache Nat Nat :=
  { raster_cache_ := LRUCache.empty 8, state_cache_ := LRUCache.empty 8 }

/-- One track of five frames: a key frame of 10 bytes producing raster 100, then
four frames of 5 bytes, frame `i` consuming raster `100 + i - 1` and producing
raster `100 + i`. -/
def chain_video : AlfalfaVideoClient :=
  { track_ids := [0]
    track_size := fun _ => 5
    frame_at := fun _ i =>
      if i = 0 then key_frame 0 10 100 200
      else inter_frame i 5 (100 + i - 1) (100 + i) (200 + i)
    frames_by_output_hash := fun h =>
      if h = 103 then [inter_frame 3 5 102 103 203] else []
    switches_with_frame := fun _ => []
    track_data_by_frame_id := fun id =>
      if id = 3 then [{ track_id := 0, frame_index := 3 }] else []
    switch_frames := fun _ _ _ _ _ => [] }

/-- One track of `2^32 + 1000` frames, all key frames of 3 bytes except the frame
at index 999, which consumes raster 7 that no frame produces. -/
def long_video : AlfalfaVideoClient :=
  { track_ids := [0]
    track_size := fun _ => 4294967296 + 1000
    frame_at := fun _ i => if i = 999 then inter_frame 1 5 7 8 9 else key_frame 0 3 1 2
    frames_by_output_hash := fun _ => []
    switches_with_frame := fun _ => []
    track_data_by_frame_id := fun _ => []
    switch_frames := fun _ _ _ _ _ => [] }

/-- A switch from index 0 of track 0 whose single frame consumes raster 7,
which nothing produces: its walk stays unresolved. -/
def unresolvable_switch : SwitchInfo :=
  { from_track_id := 0, to_track_id := 1, from_frame_index := 0, to_frame_index := 3
    switch_start_index := 0, frames := [inter_frame 20 4 7 50 51] }

/-- A switch whose single frame is a key frame of 10 bytes producing raster 50:
its walk resolves at once. -/
def key_switch : SwitchInfo :=
  { from_track_id := 0, to_track_id := 1, from_frame_index := 0, to_frame_index := 3
    switch_start_index := 0, frames := [key_frame 21 10 50 51] }

/-- A video in which raster 50 is the output of frame 7, reached by the given
switches in the given order; track 0 is one frame that consumes raster 9, which
nothing produces, so every track seek on it fails. -/
def switch_video (switches : List SwitchInfo) : AlfalfaVideoClient :=
  { track_ids := [0, 1]
    track_size := fun _ => 1
    frame_at := fun _ _ => inter_frame 1 5 9 10 11
    frames_by_output_hash := fun h => if h = 50 then [key_frame 7 10 50 51] else []
    switches_with_frame := fun id => if id = 7 then switches else []
    track_data_by_frame_id := fun _ => []
    switch_frames := fun _ _ _ _ _ => [] }

/-- Collaborators for the witnesses: a raster and a decoder state are their
hashes, a chunk is the frame it encodes, and decoding a frame yields its target
raster and state, the raster becoming the `last` reference. -/
def hash_collaborators : Collaborators Nat Nat FrameInfo :=
  { raster_hash := fun r => r
    state_hash := fun s => s
    fresh_raster := 0
    fresh_state := 0
    get_chunk := fun frame => frame
    get_frame_output := fun decoder frame =>
      ((frame.shown, frame.target_hash.output_hash),
       { state := frame.target_hash.state_hash, last := frame.target_hash.output_hash
         golden := decoder.golden, alternative_reference := decoder.alternative_reference }) }

/-- A player on the five-frame chain with empty caches and no frame sequence. -/
def chain_player : AlfalfaPlayer Nat Nat FrameInfo :=
  { video_ := chain_video
    cache_ := empty_cache
    frame_cache_ := LRUCache.empty 8
    downloaded_frame_bytes_ := 0
    current_download_pt_index_ := 0
    current_playhead_index_ := 0
    current_frame_seq_ := []
    track_frames_ := []
    quality_data_ := [] }

/-- The play option `A` of scenario S5: one frame, `min_ssim = 0.82`. -/
def option_a : FrameSequence :=
  { frame_seq := [{ frame_info := key_frame 1 10 100 200, track_id := 0, dri := 0 }]
    min_ssim := 82 / 100 }

/-- The play option `B` of scenario S5: one frame, `min_ssim = 0.91`. -/
def option_b : FrameSequence :=
  { frame_seq := [{ frame_info := key_frame 2 10 101 201, track_id := 1, dri := 0 }]
    min_ssim := 91 / 100 }

/-- The candidate of scenario S4: frames of 5000, 100 and 100 bytes. -/
def heavy_candidate : List FrameInfoWrapper :=
  [{ frame_info := key_frame 1 5000 100 200, track_id := 1, dri := 0 },
   { frame_info := key_frame 2 100 101 201, track_id := 1, dri := 1 },
   { frame_info := key_frame 3 100 102 202, track_id := 1, dri := 2 }]

/-- A candidate that a throughput of 1000 bytes per frame sustains: frames of
900, 100 and 100 bytes. -/
def light_candidate : List FrameInfoWrapper :=
  [{ frame_info := key_frame 1 900 100 200, track_id := 1, dri := 0 },
   { frame_info := key_frame 2 100 101 201, track_id := 1, dri := 1 },
   { frame_info := key_frame 3 100 102 202, track_id := 1, dri := 2 }]

/-- The caches of capacity `capacity` that a client can have in hand: the newly
constructed one, and those that `put`, a successful `get` or `clear` yield from
such a cache. -/
inductive LRUCache.Reachable {α : Type} (capacity : Nat) : LRUCache α → Prop
  | empty : LRUCache.Reachable capacity (LRUCache.empty capacity)
  | put (c c1 : LRUCache α) (key : Nat) (obj : α) :
      LRUCache.Reachable capacity c → c.put key obj = Except.ok c1 →
      LRUCache.Reachable capacity c1
  | get (c c1 : LRUCache α) (key : Nat) (obj : α) :
      LRUCache.Reachable capacity c → c.get key = Except.ok (obj, c1) →
      LRUCache.Reachable capacity c1
  | clear (c : LRUCache α) :
      LRUCache.Reachable capacity c → LRUCache.Reachable capacity c.clear

/-- The outcome of `LRUCache::get` (lines 50-61) together with the cache after
the call, also when the call fails: `cache_.at( key )` at line 54 throws before
any statement has changed the cache, and so does an `erase` through an iterator
that designates no node. -/
def LRUCache.get_effect {α : Type} (c : LRUCache α) (key : Nat) :
    Except Fault α × LRUCache α :=
  match map_find c.cache_ key with
  | none => (Except.error Fault.out_of_range, c)
  | some item =>
    match LRUCache.list_erase c.cached_items_ item.2 with
    | Except.error e => (Except.error e, c)
    | Except.ok erased =>
      let items := (c.fresh_node_, key) :: erased
      (Except.ok item.1,
       { cache_capacity := c.cache_capacity
         cached_items_ := items
         cache_ := map_set c.cache_ key (item.1, LRUCache.list_cbegin items)
         fresh_node_ := c.fresh_node_ + 1 })

/-- The dependencies after `update_dependencies` with each of `frames`, first to
last. -/
def FrameDependency.update_all {R S : Type} (d : FrameDependency) (frames : List FrameInfo)
    (cache : RasterAndStateCache R S) : FrameDependency :=
  frames.foldl (fun acc frame => acc.update_dependencies frame cache) d

/-- The frames of a track at the indices `from_frame_index, from_frame_index - 1,
..., i`, in that order (for `i <= from_frame_index`). -/
def walk_frames (video : AlfalfaVideoClient) (track_id from_frame_index i : Nat) :
    List FrameInfo :=
  frames_down (video.frame_at track_id) from_frame_index (from_frame_index + 1 - i)

/-- The sum of the lengths of the frames, in unbounded natural numbers. -/
def total_length (frames : List FrameInfo) : Nat := (frames.map (fun f => f.length)).sum

/-- One track of 2000 frames, each consuming raster 7, which no frame produces
and no cache has. -/
def stuck_video : AlfalfaVideoClient :=
  { track_ids := [0]
    track_size := fun _ => 2000
    frame_at := fun _ _ => inter_frame 1 5 7 8 9
    frames_by_output_hash := fun _ => []
    switches_with_frame := fun _ => []
    track_data_by_frame_id := fun _ => []
    switch_frames := fun _ _ _ _ _ => [] }

/-- One track of two frames of `2^63` bytes each: a key frame producing raster
100 and a frame consuming it. -/
def huge_video : AlfalfaVideoClient :=
  { track_ids := [0]
    track_size := fun _ => 2
    frame_at := fun _ i =>
      if i = 0 then key_frame 0 9223372036854775808 100 200
      else inter_frame 1 9223372036854775808 100 101 201
    frames_by_output_hash := fun _ => []
    switches_with_frame := fun _ => []
    track_data_by_frame_id := fun _ => []
    switch_frames := fun _ _ _ _ _ => [] }

/-- The execution order of a switch plan: the frames of the track path at the
indices from `start_index` up to, not including, `end_index` (if there is a
track path), followed by the frames of the switch at the indices from
`switch_start_index` up to, not including, `switch_end_index`. -/
def plan_frames (video : AlfalfaVideoClient) (switch_path : SwitchPath)
    (track_path : Option TrackPath) : List FrameInfo :=
  (match track_path with
   | some path =>
     frames_up (video.frame_at path.track_id) path.start_index
       (path.end_index - path.start_index)
   | none => []) ++
  video.switch_frames switch_path.from_track_id switch_path.to_track_id
    switch_path.from_frame_index switch_path.switch_start_index switch_path.switch_end_index

/-- Whether the frames can be decoded in the given order after the frames
`earlier`: every source vertex of a frame is in the cache or is a target vertex
of a frame before it. -/
def decodable_after {R S : Type} (cache : RasterAndStateCache R S) :
    List FrameInfo → List FrameInfo → Bool
  | _, [] => true
  | earlier, frame :: rest =>
    (source_vertices frame).all
        (fun v => cache.has_vertex v ||
          earlier.any (fun e => decide (v ∈ target_vertices e))) &&
      decodable_after cache (earlier ++ [frame]) rest

/-- A switch of two frames in the wrong order for decoding: the first consumes
raster 60, the second is a key frame that produces it. -/
def backward_switch : SwitchInfo :=
  { from_track_id := 0, to_track_id := 1, from_frame_index := 0, to_frame_index := 3
    switch_start_index := 0
    frames := [inter_frame 20 4 60 61 71, key_frame 21 6 60 70] }

/-- A video in which raster 60 is the output of frame 21, the second frame of
`backward_switch`; track 0 is one key frame. -/
def backward_switch_video : AlfalfaVideoClient :=
  { track_ids := [0, 1]
    track_size := fun _ => 1
    frame_at := fun _ _ => key_frame 1 5 10 11
    frames_by_output_hash := fun h => if h = 60 then [key_frame 21 6 60 70] else []
    switches_with_frame := fun id => if id = 21 then [backward_switch] else []
    track_data_by_frame_id := fun _ => []
    switch_frames := fun from_track_id to_track_id from_frame_index switch_start switch_end =>
      if from_track_id = 0 ∧ to_track_id = 1 ∧ from_frame_index = 0 then
        (backward_switch.frames.drop switch_start).take (switch_end - switch_start)
      else [] }

/-! ## The planners as calls on the cache object

The planners above read the caches through `has` only and take the caches as an
argument.  The definitions below follow the same source lines with the cache
object handed from call to call, so that what a planner leaves in the caches
can be stated. -/

/-- The method `LRUCache::has` (lines 44-48) as a call on the cache object: the
answer and the object after the call.  The method is `const`; its body reads
`cache_` and assigns nothing. -/
def LRUCache.has_call {α : Type} (c : LRUCache α) (key : Nat) : Bool × LRUCache α :=
  ((map_find c.cache_ key).isSome, c)

/-- One pass of the loop at lines 138-145, with the cache handed on. -/
def FrameDependency.require_raster_call {R S : Type} (d : FrameDependency)
    (cache : RasterAndStateCache R S) (hash : Option Nat) :
    FrameDependency × RasterAndStateCache R S :=
  match hash with
  | none => (d, cache)
  | some h =>
    let answer := cache.raster_cache_.has_call h
    let cache1 : RasterAndStateCache R S :=
      { raster_cache_ := answer.2, state_cache_ := cache.state_cache_ }
    if !answer.1 then
      let d1 := (d.increase_count DependencyType.RASTER h).2
      ({ ref_counter_ := d1.ref_counter_
         unresolved_ := set_insert d1.unresolved_ { type := DependencyType.RASTER, hash := h } },
       cache1)
    else (d, cache1)

/-- The block at lines 147-153, with the cache handed on. -/
def FrameDependency.require_state_call {R S : Type} (d : FrameDependency)
    (cache : RasterAndStateCache R S) (hash : Option Nat) :
    FrameDependency × RasterAndStateCache R S :=
  match hash with
  | none => (d, cache)
  | some h =>
    let answer := cache.state_cache_.has_call h
    let cache1 : RasterAndStateCache R S :=
      { raster_cache_ := cache.raster_cache_, state_cache_ := answer.2 }
    if !answer.1 then
      let d1 := (d.increase_count DependencyType.STATE h).2
      ({ ref_counter_ := d1.ref_counter_
         unresolved_ := set_insert d1.unresolved_ { type := DependencyType.STATE, hash := h } },
       cache1)
    else (d, cache1)

/-- The method `update_dependencies` (lines 127-154) as a call on its two
objects: the `FrameDependency` and the cache after the call. -/
def FrameDependency.update_dependencies_call {R S : Type} (d : FrameDependency)
    (frame : FrameInfo) (cache : RasterAndStateCache R S) :
    FrameDependency × RasterAndStateCache R S :=
  let d0 : FrameDependency :=
    { ref_counter_ := d.ref_counter_
      unresolved_ :=
        set_erase
          (set_erase d.unresolved_
            { type := DependencyType.RASTER, hash := frame.target_hash.output_hash })
          { type := DependencyType.STATE, hash := frame.target_hash.state_hash } }
  let hash : List (Option Nat) :=
    [frame.source_hash.last_hash, frame.source_hash.golden_hash, frame.source_hash.alt_hash]
  let after := hash.foldl (fun acc h => acc.1.require_raster_call acc.2 h) (d0, cache)
  after.1.require_state_call after.2 frame.source_hash.state_hash

/-- The `for` loop at lines 282-291 over one batch, with the cache handed on. -/
def track_seek_batch_call {R S : Type} :
    List FrameInfo → Int → FrameDependency → Nat → RasterAndStateCache R S →
      Except Fault ((TrackSeek ⊕ (Int × FrameDependency × Nat)) × RasterAndStateCache R S)
  | [], cur_frame_index, dependencies, cost, cache =>
    Except.ok (Sum.inr (cur_frame_index, dependencies, cost), cache)
  | frame :: rest, cur_frame_index, dependencies, cost, cache =>
    let cost1 := size_add cost frame.length
    let updated := dependencies.update_dependencies_call frame cache
    if updated.1.all_resolved then
      Except.ok (Sum.inl (to_size_t cur_frame_index, updated.1, cost1), updated.2)
    else if cur_frame_index - 1 < INT_MIN then
      Except.error Fault.undefined_behaviour
    else track_seek_batch_call rest (cur_frame_index - 1) updated.1 cost1 updated.2

/-- The `while` loop at lines 281-297 and the `return` at line 299, with the
cache handed on. -/
def track_seek_while_call {R S : Type} (video : AlfalfaVideoClient)
    (track_id from_frame_index : Nat) :
    Nat → List FrameInfo → Int → FrameDependency → Nat → RasterAndStateCache R S →
      Except Fault (TrackSeek × RasterAndStateCache R S)
  | 0, _, _, _, _, _ => Except.error Fault.out_of_fuel
  | fuel + 1, frames_backward, cur_frame_index, dependencies, cost, cache =>
    if cur_frame_index ≥ 0 then
      match track_seek_batch_call frames_backward cur_frame_index dependencies cost cache with
      | Except.error e => Except.error e
      | Except.ok (Sum.inl result, cache1) => Except.ok (result, cache1)
      | Except.ok (Sum.inr (cur1, dependencies1, cost1), cache1) =>
        if cur1 ≥ 0 then
          match seek_to_frame_index cur1 from_frame_index with
          | Except.error e => Except.error e
          | Except.ok to_frame_index =>
            track_seek_while_call video track_id from_frame_index fuel
              (video.get_frames_reverse track_id (to_size_t cur1) to_frame_index)
              cur1 dependencies1 cost1 cache1
        else
          track_seek_while_call video track_id from_frame_index fuel
            frames_backward cur1 dependencies1 cost1 cache1
    else Except.ok ((from_frame_index, dependencies, SIZE_MAX), cache)

/-- The method `AlfalfaPlayer::get_track_seek` (lines 265-300) as a call on the
player: the result and the cache `cache_` after the call. -/
def get_track_seek_call {R S : Type} (fuel : Nat) (video : AlfalfaVideoClient)
    (cache : RasterAndStateCache R S) (track_id from_frame_index : Nat)
    (dependencies : FrameDependency) : Except Fault (TrackSeek × RasterAndStateCache R S) :=
  let cur_frame_index : Int := to_int from_frame_index
  match seek_to_frame_index cur_frame_index from_frame_index with
  | Except.error e => Except.error e
  | Except.ok to_frame_index =>
    let frames_backward := video.get_frames_reverse track_id from_frame_index to_frame_index
    if frames_backward.length == 0 then
      Except.ok ((SIZE_MAX, dependencies, SIZE_MAX), cache)
    else
      track_seek_while_call video track_id from_frame_index fuel frames_backward
        cur_frame_index dependencies 0 cache

/-- The inner `for` loop at lines 314-325, with the cache handed on. -/
def min_track_seek_inner_call {R S : Type} (fuel : Nat) (video : AlfalfaVideoClient) :
    List TrackData → MinTrackState → RasterAndStateCache R S →
      Except Fault (MinTrackState × RasterAndStateCache R S)
  | [], st, cache => Except.ok (st, cache)
  | track_data :: rest, (min_cost, min_track_path, min_frame_dependency), cache =>
    match get_track_seek_call fuel video cache track_data.track_id track_data.frame_index
        FrameDependency.empty with
    | Except.error e => Except.error e
    | Except.ok (seek, cache1) =>
      if seek.2.2 < min_cost then
        min_track_seek_inner_call fuel video rest
          (seek.2.2,
           { track_id := track_data.track_id, start_index := seek.1
             end_index := size_add track_data.frame_index 1, cost := seek.2.2 },
           seek.2.1) cache1
      else
        min_track_seek_inner_call fuel video rest
          (min_cost, min_track_path, min_frame_dependency) cache1

/-- The outer `for` loop at lines 313-326, with the cache handed on. -/
def min_track_seek_outer_call {R S : Type} (fuel : Nat) (video : AlfalfaVideoClient) :
    List FrameInfo → MinTrackState → RasterAndStateCache R S →
      Except Fault (MinTrackState × RasterAndStateCache R S)
  | [], st, cache => Except.ok (st, cache)
  | frame :: rest, st, cache =>
    match min_track_seek_inner_call fuel video
        (video.track_data_by_frame_id frame.frame_id) st cache with
    | Except.error e => Except.error e
    | Except.ok (st1, cache1) => min_track_seek_outer_call fuel video rest st1 cache1

/-- The method `AlfalfaPlayer::get_min_track_seek` (lines 302-329) as a call on
the player: the result and the cache `cache_` after the call. -/
def get_min_track_seek_call {R S : Type} (fuel : Nat) (video : AlfalfaVideoClient)
    (cache : RasterAndStateCache R S) (output_hash : Nat) :
    Except Fault ((TrackPath × FrameDependency) × RasterAndStateCache R S) :=
  match min_track_seek_outer_call fuel video (video.frames_by_output_hash output_hash)
      (SIZE_MAX, { track_id := 0, start_index := 0, end_index := 0, cost := SIZE_MAX },
       FrameDependency.empty) cache with
  | Except.error e => Except.error e
  | Except.ok (st, cache1) => Except.ok ((st.2.1, st.2.2), cache1)

/-- The `for` loop at lines 204-213 over the frames of a switch, with the cache
handed on. -/
def switch_walk_call {R S : Type} :
    List FrameInfo → Nat → FrameDependency → Nat → RasterAndStateCache R S →
      (Nat × FrameDependency × Nat) × RasterAndStateCache R S
  | [], cost, dependencies, cur_switch_frame_index, cache =>
    ((cost, dependencies, cur_switch_frame_index), cache)
  | frame :: rest, cost, dependencies, cur_switch_frame_index, cache =>
    let cost1 := size_add cost frame.length
    let updated := dependencies.update_dependencies_call frame cache
    if updated.1.all_resolved then ((cost1, updated.1, cur_switch_frame_index), updated.2)
    else switch_walk_call rest cost1 updated.1 (size_add cur_switch_frame_index 1) updated.2

/-- The `for` loop at lines 199-259 over the switches of one target frame, with
the cache handed on. -/
def min_switch_seek_inner_call {R S : Type} (fuel : Nat) (video : AlfalfaVideoClient) :
    List SwitchInfo → MinSwitchState → RasterAndStateCache R S →
      Except Fault (MinSwitchState × RasterAndStateCache R S)
  | [], st, cache => Except.ok (st, cache)
  | sw :: rest, st, cache =>
    let walked := switch_walk_call sw.frames 0 FrameDependency.empty sw.switch_start_index cache
    let walk := walked.1
    if !walk.2.1.all_resolved then
      match get_track_seek_call fuel video walked.2 sw.from_track_id sw.from_frame_index
          walk.2.1 with
      | Except.error e => Except.error e
      | Except.ok (track_seek, cache1) =>
        if track_seek.2.2 = SIZE_MAX then Except.ok (st, cache1)
        else
          let cost := size_add walk.1 track_seek.2.2
          if cost < st.min_cost then
            min_switch_seek_inner_call fuel video rest
              { min_cost := cost
                min_switch_path := adopt_switch_path sw walk.2.2 cost
                min_track_path :=
                  some { track_id := sw.from_track_id, start_index := track_seek.1
                         end_index := size_add sw.from_frame_index 1
                         cost := track_seek.2.2 }
                min_dependencies := track_seek.2.1 } cache1
          else min_switch_seek_inner_call fuel video rest st cache1
    else
      if walk.1 < st.min_cost then
        min_switch_seek_inner_call fuel video rest
          { min_cost := walk.1
            min_switch_path := adopt_switch_path sw walk.2.2 walk.1
            min_track_path := st.min_track_path
            min_dependencies := walk.2.1 } walked.2
      else min_switch_seek_inner_call fuel video rest st walked.2

/-- The `for` loop at lines 196-260 over the target frames, with the cache
handed on. -/
def min_switch_seek_outer_call {R S : Type} (fuel : Nat) (video : AlfalfaVideoClient) :
    List FrameInfo → MinSwitchState → RasterAndStateCache R S →
      Except Fault (MinSwitchState × RasterAndStateCache R S)
  | [], st, cache => Except.ok (st, cache)
  | target_frame :: rest, st, cache =>
    match min_switch_seek_inner_call fuel video
        (video.switches_with_frame target_frame.frame_id) st cache with
    | Except.error e => Except.error e
    | Except.ok (st1, cache1) => min_switch_seek_outer_call fuel video rest st1 cache1

/-- The method `AlfalfaPlayer::get_min_switch_seek` (lines 184-263) as a call on
the player: the result and the cache `cache_` after the call. -/
def get_min_switch_seek_call {R S : Type} (fuel : Nat) (video : AlfalfaVideoClient)
    (cache : RasterAndStateCache R S) (output_hash : Nat) :
    Except Fault ((SwitchPath × Option TrackPath × FrameDependency) ×
      RasterAndStateCache R S) :=
  match min_switch_seek_outer_call fuel video (video.frames_by_output_hash output_hash)
      { min_cost := SIZE_MAX
        min_switch_path :=
          { from_track_id := 0, to_track_id := 0, from_frame_index := 0, to_frame_index := 0
            switch_start_index := 0, switch_end_index := 0, cost := SIZE_MAX }
        min_track_path := none
        min_dependencies := FrameDependency.empty } cache with
  | Except.error e => Except.error e
  | Except.ok (st, cache1) =>
    Except.ok ((st.min_switch_path, st.min_track_path, st.min_dependencies), cache1)

/-- A player in the middle of the five-frame chain: the current frame sequence
is the frames 0 to 3 of track 0, all shown, with the displayed raster indices 0
to 3; nothing is downloaded or cached. -/
def playing_player (playhead : Nat) : AlfalfaPlayer Nat Nat FrameInfo :=
  { video_ := chain_video
    cache_ := empty_cache
    frame_cache_ := LRUCache.empty 8
    downloaded_frame_bytes_ := 0
    current_download_pt_index_ := 0
    current_playhead_index_ := playhead
    current_frame_seq_ :=
      [{ frame_info := key_frame 0 10 100 200, track_id := 0, dri := 0 },
       { frame_info := inter_frame 1 5 100 101 201, track_id := 0, dri := 1 },
       { frame_info := inter_frame 2 5 101 102 202, track_id := 0, dri := 2 },
       { frame_info := inter_frame 3 5 102 103 203, track_id := 0, dri := 3 }]
    track_frames_ := []
    quality_data_ := [] }

/-- Reference for C29, in the words of the claim: one backward walk over the
given frames, of which the first has the index `index`, that stops at the first
frame after which `all_resolved()` holds; `none` when the frames are used up,
with the dependencies reached. -/
def unbatched_walk {R S : Type} (cache : RasterAndStateCache R S) :
    List FrameInfo → Nat → FrameDependency → Nat → TrackSeek ⊕ FrameDependency
  | [], _, dependencies, _ => Sum.inr dependencies
  | frame :: rest, index, dependencies, cost =>
    let dependencies1 := dependencies.update_dependencies frame cache
    if dependencies1.all_resolved then
      Sum.inl (index, dependencies1, size_add cost frame.length)
    else unbatched_walk cache rest (index - 1) dependencies1 (size_add cost frame.length)

/-- Reference for C29: the result of the single unbatched backward walk over the
frames `from_frame_index, from_frame_index - 1, ..., 0` of the track, which is
`(from_frame_index, dependencies, SIZE_MAX)` when no frame resolves. -/
def unbatched_track_seek {R S : Type} (video : AlfalfaVideoClient)
    (cache : RasterAndStateCache R S) (track_id from_frame_index : Nat)
    (dependencies : FrameDependency) : TrackSeek :=
  match unbatched_walk cache (walk_frames video track_id from_frame_index 0)
      from_frame_index dependencies 0 with
  | Sum.inl result => result
  | Sum.inr dependencies1 => (from_frame_index, dependencies1, SIZE_MAX)

/-- One track of 2000 frames: frame 0 is a key frame of 10 bytes that produces
raster 7, and every other frame has 5 bytes and consumes raster 7. -/
def paged_video : AlfalfaVideoClient :=
  { track_ids := [0]
    track_size := fun _ => 2000
    frame_at := fun _ i => if i = 0 then key_frame 0 10 7 9 else inter_frame 1 5 7 8 9
    frames_by_output_hash := fun _ => []
    switches_with_frame := fun _ => []
    track_data_by_frame_id := fun _ => []
    switch_frames := fun _ _ _ _ _ => [] }

/-- A switch from index 0 of track 0 whose single frame consumes raster 100 and
produces raster 70. -/
def residual_switch : SwitchInfo :=
  { from_track_id := 0, to_track_id := 1, from_frame_index := 0, to_frame_index := 1
    switch_start_index := 0, frames := [inter_frame 30 4 100 70 80] }

/-- The five-frame chain as track 0, whose frame 0 is a key frame producing
raster 100, with raster 70 the output of frame 30, the frame of `residual_switch`. -/
def residual_switch_video : AlfalfaVideoClient :=
  { track_ids := [0, 1]
    track_size := fun _ => 5
    frame_at := chain_video.frame_at
    frames_by_output_hash := fun h => if h = 70 then [inter_frame 30 4 100 70 80] else []
    switches_with_frame := fun id => if id = 30 then [residual_switch] else []
    track_data_by_frame_id := fun _ => []
    switch_frames := fun from_track_id to_track_id from_frame_index switch_start switch_end =>
      if from_track_id = 0 ∧ to_track_id = 1 ∧ from_frame_index = 0 then
        (residual_switch.frames.drop switch_start).take (switch_end - switch_start)
      else [] }

/-- A frame without sources that is decoded but not shown. -/
def hidden_frame (frame_id length output_hash state_hash : Nat) : FrameInfo :=
  { frame_id := frame_id, length := length, shown := false
    source_hash := { state_hash := none, last_hash := none, golden_hash := none
                     alt_hash := none }
    target_hash := { state_hash := state_hash, output_hash := output_hash } }

/-- A switch from track 0 to track 1 that leaves track 0 before index 2 and
enters track 1 at index 3; its single frame is a key frame of 6 bytes. -/
def track_switch : SwitchInfo :=
  { from_track_id := 0, to_track_id := 1, from_frame_index := 2, to_frame_index := 3
    switch_start_index := 0, frames := [key_frame 40 6 150 250] }

/-- Two tracks with the frames of the five-frame chain, connected from track 0
to track 1 by `track_switch`; the frame at a displayed raster index has that
index. -/
def two_track_video : AlfalfaVideoClient :=
  { track_ids := [0, 1]
    track_size := fun _ => 5
    frame_at := chain_video.frame_at
    frames_by_output_hash := fun _ => []
    switches_with_frame := fun _ => []
    track_data_by_frame_id := fun _ => []
    switch_frames := fun _ _ _ _ _ => []
    frame_index_by_displayed_raster_index := fun _ dri => dri
    all_switches_in_window := fun track_id lo hi =>
      if track_id = 0 ∧ lo ≤ 2 ∧ 2 ≤ hi then [track_switch] else []
    connected_track_ids := fun track_id => if track_id = 0 then [1] else [] }

/-- The five frames of the chain. -/
def chain_frames : List FrameInfo := (List.range 5).map (chain_video.frame_at 0)

/-- The frames of `frames` as wrappers on a track, with the displayed raster
indices `dri, dri + 1, ...`. -/
def wrappers_from (track_id dri : Nat) (frames : List FrameInfo) : List FrameInfoWrapper :=
  (List.range frames.length).zip frames |>.map
    (fun p => { frame_info := p.2, track_id := track_id, dri := dri + p.1 })

/-- A player on `two_track_video` with the given frame sequence and download
point: the playhead is at the download point, so that no frame is queued, 1000
bytes are downloaded, and the caches and the quality table are empty. -/
def two_track_player (frame_seq : List FrameInfoWrapper) (download_pt : Nat) :
    AlfalfaPlayer Nat Nat FrameInfo :=
  { video_ := two_track_video
    cache_ := empty_cache
    frame_cache_ := LRUCache.empty 8
    downloaded_frame_bytes_ := 1000
    current_download_pt_index_ := download_pt
    current_playhead_index_ := download_pt
    current_frame_seq_ := frame_seq
    track_frames_ := [(0, chain_frames), (1, chain_frames)]
    quality_data_ := [] }

/-- A player on track 0 of `two_track_video` whose frame 0 is downloaded. -/
def on_track_player : AlfalfaPlayer Nat Nat FrameInfo :=
  two_track_player (wrappers_from 0 0 chain_frames) 1

/-- The player `on_track_player` with frame 0 queued and no byte downloaded. -/
def unpaid_player : AlfalfaPlayer Nat Nat FrameInfo :=
  { on_track_player with downloaded_frame_bytes_ := 0, current_playhead_index_ := 0 }

/-- A player that has left a switch: the frame before the download point is a
switch frame, with the track id `SIZE_MAX`, and the frames 3 and 4 of track 1
follow. -/
def in_switch_player : AlfalfaPlayer Nat Nat FrameInfo :=
  two_track_player
    ({ frame_info := key_frame 40 6 150 250, track_id := SIZE_MAX, dri := 0 } ::
      wrappers_from 1 1 (chain_frames.drop 3)) 1

/-- The player `on_track_player` with a quality table in which the frames of
the jump to track 1 score 0.9 and those of the rest of track 0 score 0.5. -/
def rated_player : AlfalfaPlayer Nat Nat FrameInfo :=
  { on_track_player with
    quality_data_ :=
      [(100, [(1, 9 / 10)]),
       (101, [(1, 1 / 2), (2, 9 / 10)]),
       (102, [(2, 1 / 2), (3, 9 / 10)]),
       (103, [(3, 1 / 2), (4, 9 / 10)]),
       (104, [(4, 1 / 2), (5, 9 / 10)])] }

/-- Two tracks of two frames each, a key frame of 10 bytes and a frame of 5
bytes that is not shown; the frame at a displayed raster index has that index. -/
def hidden_tail_video : AlfalfaVideoClient :=
  { track_ids := [0, 1]
    track_size := fun _ => 2
    frame_at := fun _ i => if i = 0 then key_frame 0 10 100 200 else hidden_frame 9 5 110 210
    frames_by_output_hash := fun _ => []
    switches_with_frame := fun _ => []
    track_data_by_frame_id := fun _ => []
    switch_frames := fun _ _ _ _ _ => []
    frame_index_by_displayed_raster_index := fun _ dri => dri }

/-- A player on track 0 of `hidden_tail_video` whose frame 0 is queued, with no
byte downloaded for it, and whose only remaining frame is the one that is not
shown. -/
def hidden_tail_player : AlfalfaPlayer Nat Nat FrameInfo :=
  { video_ := hidden_tail_video
    cache_ := empty_cache
    frame_cache_ := LRUCache.empty 8
    downloaded_frame_bytes_ := 0
    current_download_pt_index_ := 1
    current_playhead_index_ := 0
    current_frame_seq_ :=
      [{ frame_info := key_frame 0 10 100 200, track_id := 0, dri := 0 },
       { frame_info := hidden_frame 9 5 110 210, track_id := 0, dri := 1 }]
    track_frames_ :=
      [(0, [key_frame 0 10 100 200, hidden_frame 9 5 110 210]),
       (1, [key_frame 0 10 100 200, hidden_frame 9 5 110 210])]
    quality_data_ := [] }

/-- A switch from index 2 of track 0 whose single frame is a key frame of 3
bytes producing raster 70: its walk resolves at once. -/
def cheap_switch : SwitchInfo :=
  { from_track_id := 0, to_track_id := 1, from_frame_index := 2, to_frame_index := 1
    switch_start_index := 0, frames := [key_frame 31 3 70 81] }

/-- The five-frame chain as track 0, with raster 70 the output of two frames:
frame 30, the frame of `residual_switch`, and frame 31, the frame of
`cheap_switch`, in this order. -/
def stale_path_video : AlfalfaVideoClient :=
  { track_ids := [0, 1]
    track_size := fun _ => 5
    frame_at := chain_video.frame_at
    frames_by_output_hash := fun h =>
      if h = 70 then [inter_frame 30 4 100 70 80, key_frame 31 3 70 81] else []
    switches_with_frame := fun id =>
      if id = 30 then [residual_switch] else if id = 31 then [cheap_switch] else []
    track_data_by_frame_id := fun _ => []
    switch_frames := fun _ _ _ _ _ => [] }

/-- The qualities `quality_data[ output_hash ][ dri ]` of the shown frames of a
frame sequence, in order; a missing table entry reads as 0. -/
def shown_qualities (quality_data : List (Nat × List (Nat × ℚ)))
    (frame_seq : List FrameInfoWrapper) : List ℚ :=
  (frame_seq.filter (fun w => w.frame_info.shown)).map
    (fun w => quality_at quality_data w.frame_info.target_hash.output_hash w.dri)

/-- Every entry of the quality table is at most the initial `min_ssim`, the
value of `(double) SIZE_MAX`; SSIM values lie between 0 and 1. -/
def quality_bounded (quality_data : List (Nat × List (Nat × ℚ))) : Prop :=
  ∀ row ∈ quality_data, ∀ entry ∈ row.2, entry.2 ≤ SIZE_MAX_AS_DOUBLE

instance (quality_data : List (Nat × List (Nat × ℚ))) :
    Decidable (quality_bounded quality_data) := by
  unfold quality_bounded
  infer_instance

/-- The displayed raster indices that a wrapping loop gives to the frames of a
list when it starts at `dri`: the index advances, in `size_t` arithmetic, after
every shown frame. -/
def running_dri : List FrameInfo → Nat → List Nat
  | [], _ => []
  | frame :: rest, dri => dri :: running_dri rest (if frame.shown then size_add dri 1 else dri)

/-- The displayed raster index that a wrapping loop started at `dri` ends
with. -/
def final_dri : List FrameInfo → Nat → Nat
  | [], dri => dri
  | frame :: rest, dri => final_dri rest (if frame.shown then size_add dri 1 else dri)

/-- The vertex of a source slot that `update_dependencies_forward` lowers the
counter of: the slot is present and the cache of its kind does not have the
hash. -/
def uncached_slot (dep_type : DependencyType) (has : Nat → Bool) (hash : Option Nat) :
    List DependencyVertex :=
  match hash with
  | none => []
  | some h => if !has h then [{ type := dep_type, hash := h }] else []

/-- The vertices of the present source slots of a frame (last, golden, alt,
state) that the cache does not have, one per slot. -/
def uncached_source_slots {R S : Type} (frame : FrameInfo) (cache : RasterAndStateCache R S) :
    List DependencyVertex :=
  uncached_slot DependencyType.RASTER cache.raster_cache_.has frame.source_hash.last_hash ++
  uncached_slot DependencyType.RASTER cache.raster_cache_.has frame.source_hash.golden_hash ++
  uncached_slot DependencyType.RASTER cache.raster_cache_.has frame.source_hash.alt_hash ++
  uncached_slot DependencyType.STATE cache.state_cache_.has frame.source_hash.state_hash

/-- The assignment of line 64 with the cost stored as it is, without a
conversion. -/
def CostRun.assign_exact (run : CostRun) (tree_entry : Int) (cost : Nat) : Except Fault CostRun :=
  if (-tree_entry).toNat < run.costs_nodes.length then
    Except.ok { costs_nodes := run.costs_nodes.set (-tree_entry).toNat cost
                written := run.written ++ [(-tree_entry).toNat] }
  else Except.error Fault.out_of_range

/-- The method `compute_cost` with the sums taken in the natural numbers, the
conversions to `int16_t` and `uint16_t` left out. -/
def compute_cost_exact : Nat → CostRun → List Nat → Nat → Nat → Except Fault CostRun
  | 0, _, _, _, _ => Except.error Fault.out_of_fuel
  | fuel + 1, run, probabilities, tree_index, current_cost =>
    match probabilities[tree_index / 2]? with
    | none => Except.error Fault.out_of_range
    | some prob =>
      match vp8_coef_tree[size_add tree_index 0]? with
      | none => Except.error Fault.undefined_behaviour
      | some tree_entry =>
        match (if tree_entry ≤ 0 then
              run.assign_exact tree_entry (current_cost + cost_bit prob false)
            else compute_cost_exact fuel run probabilities (to_size_t tree_entry)
              (current_cost + cost_bit prob false)) with
        | Except.error e => Except.error e
        | Except.ok run1 =>
          match vp8_coef_tree[size_add tree_index 1]? with
          | none => Except.error Fault.undefined_behaviour
          | some tree_entry1 =>
            if tree_entry1 ≤ 0 then
              run1.assign_exact tree_entry1 (current_cost + cost_bit prob true)
            else compute_cost_exact fuel run1 probabilities (to_size_t tree_entry1)
              (current_cost + cost_bit prob true)

/-- The leaves of `vp8_coef_tree` below the pair at `tree_index`, in the order
of a walk that takes the first child first: each token with the path to its
leaf, the nodes passed and the branch taken at each of them, after `path`. -/
def leaf_paths : Nat → Nat → List (Nat × Bool) → List (Nat × List (Nat × Bool))
  | 0, _, _ => []
  | fuel + 1, tree_index, path =>
    (match vp8_coef_tree[tree_index]? with
      | none => []
      | some tree_entry =>
        if tree_entry ≤ 0 then [((-tree_entry).toNat, path ++ [(tree_index / 2, false)])]
        else leaf_paths fuel tree_entry.toNat (path ++ [(tree_index / 2, false)])) ++
    (match vp8_coef_tree[tree_index + 1]? with
      | none => []
      | some tree_entry =>
        if tree_entry ≤ 0 then [((-tree_entry).toNat, path ++ [(tree_index / 2, true)])]
        else leaf_paths fuel tree_entry.toNat (path ++ [(tree_index / 2, true)]))

/-- The sum of `cost_bit( prob[ node ], branch )` over the nodes and branches of
a path. -/
def path_cost (probabilities : List Nat) (path : List (Nat × Bool)) : Nat :=
  (path.map (fun step => cost_bit (probabilities.getD step.1 0) step.2)).sum

/-- The video `paged_video`, in which raster 8 is the output of the frame with
the id 1, which sits at index 1999 of track 0. -/
def paged_candidate_video : AlfalfaVideoClient :=
  { paged_video with
    frames_by_output_hash := fun h => if h = 8 then [inter_frame 1 5 7 8 9] else []
    track_data_by_frame_id := fun id =>
      if id = 1 then [{ track_id := 0, frame_index := 1999 }] else [] }

/-- Two tracks with the 2000 frames of `paged_video` each, all shown: the frame
at a displayed raster index has that index. -/
def paged_jump_video : AlfalfaVideoClient :=
  { paged_video with
    track_ids := [0, 1]
    frame_index_by_displayed_raster_index := fun _ dri => dri }

/-- A player on `paged_jump_video` with the given frame sequence and download
point: the playhead is at the download point, 1000 bytes are downloaded, and the
caches and the quality table are empty. -/
def paged_jump_player (frame_seq : List FrameInfoWrapper) (download_pt : Nat) :
    AlfalfaPlayer Nat Nat FrameInfo :=
  { video_ := paged_jump_video
    cache_ := empty_cache
    frame_cache_ := LRUCache.empty 8
    downloaded_frame_bytes_ := 1000
    current_download_pt_index_ := download_pt
    current_playhead_index_ := download_pt
    current_frame_seq_ := frame_seq
    track_frames_ := []
    quality_data_ := [] }

/-- A player whose sequence is the last frame of track 0, with the displayed
raster index 1999, not yet downloaded. -/
def last_frame_player : AlfalfaPlayer Nat Nat FrameInfo :=
  paged_jump_player [{ frame_info := inter_frame 1 5 7 8 9, track_id := 0, dri := 1999 }] 0

section AssocMapLemmas
variable {κ β : Type} [DecidableEq κ]

theorem map_find_isSome_iff (m : List (κ × β)) (key : κ) :
    (map_find m key).isSome = true ↔ key ∈ m.map Prod.fst := by
  induction m with
  | nil => simp [map_find]
  | cons e m ih =>
    obtain ⟨k, v⟩ := e
    by_cases h : k = key
    · simp [map_find, h]
    · have h2 : ¬ key = k := fun e => h e.symm
      simp [map_find, h, h2, ih]

theorem map_find_eq_none_iff (m : List (κ × β)) (key : κ) :
    map_find m key = none ↔ key ∉ m.map Prod.fst := by
  rw [← map_find_isSome_iff]
  cases map_find m key <;> simp

theorem map_set_keys (m : List (κ × β)) (key : κ) (b : β) :
    (map_set m key b).map Prod.fst = m.map Prod.fst := by
  induction m with
  | nil => simp [map_set]
  | cons e m ih =>
    obtain ⟨k, v⟩ := e
    by_cases h : k = key
    · simp [map_set, h]
    · simp [map_set, h, ih]

theorem map_find_set (m : List (κ × β)) (key : κ) (b : β) (k2 : κ) :
    map_find (map_set m key b) k2 =
      if k2 = key then (map_find m key).map (fun _ => b) else map_find m k2 := by
  induction m with
  | nil => simp [map_set, map_find]
  | cons e m ih =>
    obtain ⟨k, v⟩ := e
    by_cases h : k = key
    · subst h
      by_cases h2 : k2 = k
      · simp [map_set, map_find, h2]
      · have h3 : ¬ k = k2 := fun e => h2 e.symm
        simp [map_set, map_find, h2, h3]
    · by_cases h2 : k2 = key
      · subst h2
        simp [map_set, map_find, h, ih]
      · by_cases h3 : k = k2
        · simp [map_set, map_find, h, h2, h3]
        · simp [map_set, map_find, h, h2, h3, ih]

theorem map_erase_keys (m : List (κ × β)) (key : κ) :
    (map_erase m key).map Prod.fst = (m.map Prod.fst).filter (fun k => decide (k ≠ key)) := by
  induction m with
  | nil => simp [map_erase]
  | cons e m ih =>
    obtain ⟨k, v⟩ := e
    by_cases h : k = key
    · simpa [map_erase, List.filter_cons, h] using ih
    · simpa [map_erase, List.filter_cons, h] using ih

theorem map_erase_cons (e : κ × β) (m : List (κ × β)) (key : κ) :
    map_erase (e :: m) key = if e.1 = key then map_erase m key else e :: map_erase m key := by
  unfold map_erase
  by_cases h : e.1 = key
  · simp [List.filter_cons, h]
  · simp [List.filter_cons, h]

theorem map_find_erase (m : List (κ × β)) (key : κ) (k2 : κ) :
    map_find (map_erase m key) k2 = if k2 = key then none else map_find m k2 := by
  induction m with
  | nil => simp [map_erase, map_find]
  | cons e m ih =>
    obtain ⟨k, v⟩ := e
    rw [map_erase_cons]
    by_cases h : k = key
    · subst h
      by_cases h2 : k2 = k
      · subst h2
        simpa using ih
      · have h3 : ¬ k = k2 := fun e => h2 e.symm
        simp [map_find, h2, h3, ih]
    · by_cases h2 : k2 = key
      · subst h2
        simp [map_find, h, ih]
      · by_cases h3 : k = k2
        · subst h3
          simp [map_find, h2]
        · simp [map_find, h, h2, h3, ih]

theorem map_find_append_single (m : List (κ × β)) (key : κ) (b : β) (k2 : κ) :
    map_find (m ++ [(key, b)]) k2 =
      match map_find m k2 with
      | some v => some v
      | none => if key = k2 then some b else none := by
  induction m with
  | nil => simp [map_find]
  | cons e m ih =>
    obtain ⟨k, v⟩ := e
    by_cases h : k = k2
    · simp [map_find, h]
    · simp [map_find, h, ih]

theorem map_find_insert (m : List (κ × β)) (key : κ) (b : β) (k2 : κ) :
    map_find (map_insert m key b) k2 =
      match map_find m k2 with
      | some v => some v
      | none => if key = k2 then some b else none := by
  unfold map_insert
  cases hk : map_find m key with
  | some v =>
    cases h2 : map_find m k2 with
    | some w => simp
    | none =>
      have : ¬ key = k2 := by
        intro e; subst e; rw [hk] at h2; cases h2
      simp [this]
  | none => simp [map_find_append_single]

theorem map_insert_keys (m : List (κ × β)) (key : κ) (b : β) :
    (map_insert m key b).map Prod.fst =
      if key ∈ m.map Prod.fst then m.map Prod.fst else m.map Prod.fst ++ [key] := by
  unfold map_insert
  cases hk : map_find m key with
  | some v =>
    have : key ∈ m.map Prod.fst := (map_find_isSome_iff m key).1 (by simp [hk])
    simp only [this, if_true]
  | none =>
    have : key ∉ m.map Prod.fst := (map_find_eq_none_iff m key).1 hk
    simp only [this, if_false, List.map_append, List.map_cons, List.map_nil]

end AssocMapLemmas

theorem pair_fst_unique {l : List (Nat × Nat)} (h : (l.map Prod.snd).Nodup)
    {a b k : Nat} (ha : (a, k) ∈ l) (hb : (b, k) ∈ l) : a = b := by
  induction l with
  | nil => cases ha
  | cons e l ih =>
    rw [List.map_cons, List.nodup_cons] at h
    rcases List.mem_cons.1 ha with ha | ha <;> rcases List.mem_cons.1 hb with hb | hb
    · rw [← ha] at hb; exact (Prod.mk.inj hb).1.symm
    · exfalso; apply h.1; rw [← ha]; exact List.mem_map.2 ⟨(b, k), hb, rfl⟩
    · exfalso; apply h.1; rw [← hb]; exact List.mem_map.2 ⟨(a, k), ha, rfl⟩
    · exact ih h.2 ha hb

theorem pair_snd_unique {l : List (Nat × Nat)} (h : (l.map Prod.fst).Nodup)
    {n a b : Nat} (ha : (n, a) ∈ l) (hb : (n, b) ∈ l) : a = b := by
  induction l with
  | nil => cases ha
  | cons e l ih =>
    rw [List.map_cons, List.nodup_cons] at h
    rcases List.mem_cons.1 ha with ha | ha <;> rcases List.mem_cons.1 hb with hb | hb
    · rw [← ha] at hb; exact (Prod.mk.inj hb).2.symm
    · exfalso; apply h.1; rw [← ha]; exact List.mem_map.2 ⟨(n, b), hb, rfl⟩
    · exfalso; apply h.1; rw [← hb]; exact List.mem_map.2 ⟨(n, a), ha, rfl⟩
    · exact ih h.2 ha hb

/-- Erasing the node of `key` from a well-formed recency list removes exactly
the key `key`. -/
theorem filter_node_recency {l : List (Nat × Nat)} (h1 : (l.map Prod.fst).Nodup)
    (h2 : (l.map Prod.snd).Nodup) {n key : Nat} (hm : (n, key) ∈ l) :
    (l.filter (fun e => decide (e.1 ≠ n))).map Prod.snd =
      (l.map Prod.snd).filter (fun k => decide (k ≠ key)) := by
  rw [List.filter_map]
  congr 1
  apply List.filter_congr
  intro e he
  obtain ⟨a, b⟩ := e
  by_cases ha : a = n
  · subst ha
    have : b = key := pair_snd_unique h1 he hm
    simp [this]
  · have : b ≠ key := by
      intro hb; subst hb
      exact ha (pair_fst_unique h2 he hm)
    simp [ha, this]

theorem filter_node_length {l : List (Nat × Nat)} {n key : Nat} (hm : (n, key) ∈ l) :
    (l.filter (fun e => decide (e.1 ≠ n))).length + 1 ≤ l.length := by
  have : (l.filter (fun e => decide (e.1 ≠ n))).length < l.length := by
    rw [List.length_filter_lt_length_iff_exists]
    exact ⟨(n, key), hm, by simp⟩
  omega

namespace LRUCache
variable {α : Type}

theorem has_iff_mem_keys (c : LRUCache α) (key : Nat) : c.has key = true ↔ key ∈ c.keys :=
  map_find_isSome_iff c.cache_ key

theorem peek_isSome (c : LRUCache α) (key : Nat) : (c.peek key).isSome = c.has key := by
  unfold peek has
  cases map_find c.cache_ key <;> rfl

theorem WF.mem_recency_iff {c : LRUCache α} (h : c.WF) (key : Nat) :
    key ∈ c.recency ↔ key ∈ c.keys := by
  constructor
  · intro hk
    obtain ⟨e, he, rfl⟩ := List.mem_map.1 hk
    exact (map_find_isSome_iff _ _).1 (h.listed e he)
  · intro hk
    have hs := (map_find_isSome_iff c.cache_ key).2 hk
    cases hf : map_find c.cache_ key with
    | none => rw [hf] at hs; cases hs
    | some item =>
      obtain ⟨n, _, hn⟩ := h.iter_ok key item hf
      exact List.mem_map.2 ⟨(n, key), hn, rfl⟩

theorem WF.size_eq {c : LRUCache α} (h : c.WF) : c.size = c.cached_items_.length := by
  have hp : c.keys.Perm c.recency :=
    (List.perm_ext_iff_of_nodup h.keys_nodup h.recency_nodup).2
      (fun k => (h.mem_recency_iff k).symm)
  have := hp.length_eq
  simpa [keys, recency, size] using this

theorem WF.size_le {c : LRUCache α} (h : c.WF) : c.size ≤ c.cache_capacity := by
  rw [h.size_eq]; exact h.bounded

theorem empty_wf (capacity : Nat) (h : 1 ≤ capacity) : (empty capacity : LRUCache α).WF :=
  { cap_pos := h
    nodes_nodup := by simp [empty]
    recency_nodup := by simp [empty, recency]
    keys_nodup := by simp [empty, keys]
    nodes_fresh := by simp [empty]
    listed := by simp [empty]
    iter_ok := by simp [empty, map_find]
    bounded := by simp [empty] }

theorem get_spec (c : LRUCache α) (h : c.WF) (key : Nat) (item : α × ListIter)
    (hf : map_find c.cache_ key = some item) :
    ∃ c1, c.get key = Except.ok (item.1, c1) ∧ c1.WF ∧
      c1.cache_capacity = c.cache_capacity ∧
      c1.recency = key :: c.recency.filter (fun k => decide (k ≠ key)) ∧
      c1.keys = c.keys ∧ (∀ k, c1.peek k = c.peek k) := by
  obtain ⟨n, hn, hmem⟩ := h.iter_ok key item hf
  have hany : c.cached_items_.any (fun e => decide (e.1 = n)) = true :=
    List.any_eq_true.2 ⟨(n, key), hmem, by simp⟩
  have herase : list_erase c.cached_items_ item.2 =
      Except.ok (c.cached_items_.filter (fun e => decide (e.1 ≠ n))) := by
    rw [hn]; simp only [list_erase, hany, if_true]
  have hsub : ∀ e, e ∈ c.cached_items_.filter (fun e => decide (e.1 ≠ n)) →
      e ∈ c.cached_items_ := fun e he => (List.mem_filter.1 he).1
  refine ⟨{ cache_capacity := c.cache_capacity
            cached_items_ := (c.fresh_node_, key) ::
              c.cached_items_.filter (fun e => decide (e.1 ≠ n))
            cache_ := map_set c.cache_ key (item.1, some c.fresh_node_)
            fresh_node_ := c.fresh_node_ + 1 },
    by simp only [get, hf, herase, list_cbegin, List.head?_cons, Option.map_some'],
    ?_, rfl, ?_, ?_, ?_⟩
  · refine
      { cap_pos := h.cap_pos, nodes_nodup := ?_, recency_nodup := ?_, keys_nodup := ?_
        nodes_fresh := ?_, listed := ?_, iter_ok := ?_, bounded := ?_ }
    · simp only [List.map_cons, List.nodup_cons]
      constructor
      · intro hc
        obtain ⟨e, he, he2⟩ := List.mem_map.1 hc
        have := h.nodes_fresh e (hsub e he)
        omega
      · exact (h.nodes_nodup.sublist ((List.filter_sublist _).map _))
    · simp only [recency, List.map_cons, List.nodup_cons]
      rw [filter_node_recency h.nodes_nodup h.recency_nodup hmem]
      constructor
      · simp
      · exact h.recency_nodup.sublist (List.filter_sublist _)
    · simp only [keys, map_set_keys]; exact h.keys_nodup
    · intro e he
      rcases List.mem_cons.1 he with he | he
      · subst he; simp
      · have := h.nodes_fresh e (hsub e he)
        show e.1 < c.fresh_node_ + 1
        omega
    · intro e he
      have hk : e.2 ∈ c.keys := by
        rcases List.mem_cons.1 he with he | he
        · subst he; exact (map_find_isSome_iff _ _).1 (by simp [hf])
        · exact (map_find_isSome_iff _ _).1 (h.listed e (hsub e he))
      apply (map_find_isSome_iff _ _).2
      rw [map_set_keys]; exact hk
    · intro k it hk
      rw [map_find_set] at hk
      by_cases hkk : k = key
      · subst hkk
        simp only [if_true, hf, Option.map_some'] at hk
        cases hk
        exact ⟨c.fresh_node_, rfl, by simp⟩
      · simp only [hkk, if_false] at hk
        obtain ⟨m, hm, hmm⟩ := h.iter_ok k it hk
        refine ⟨m, hm, List.mem_cons_of_mem _ (List.mem_filter.2 ⟨hmm, ?_⟩)⟩
        have : m ≠ n := by
          intro e; subst e
          exact hkk (pair_snd_unique h.nodes_nodup hmm hmem)
        simp [this]
    · have := filter_node_length hmem
      have := h.bounded
      simp only [List.length_cons]
      omega
  · simp only [recency, List.map_cons]
    rw [filter_node_recency h.nodes_nodup h.recency_nodup hmem]
  · simp only [keys, map_set_keys]
  · intro k
    simp only [peek, map_find_set]
    by_cases hkk : k = key
    · subst hkk; simp [hf]
    · simp [hkk]

end LRUCache

namespace LRUCache
variable {α : Type}

theorem put_of_present (c : LRUCache α) (key : Nat) (obj : α) (item : α × ListIter)
    (hf : map_find c.cache_ key = some item) :
    c.put key obj = (LRUOp.get key : LRUOp α).apply c := by
  unfold LRUOp.apply
  simp only [put, get, hf]
  cases list_erase c.cached_items_ item.2 with
  | error e => rfl
  | ok erased =>
    simp only
    have : map_find (map_set c.cache_ key
        (item.1, list_cbegin ((c.fresh_node_, key) :: erased))) key =
        some (item.1, list_cbegin ((c.fresh_node_, key) :: erased)) := by
      rw [map_find_set]; simp [hf]
    simp only [map_insert, this]

theorem put_absent_room (c : LRUCache α) (h : c.WF) (key : Nat) (obj : α)
    (hf : map_find c.cache_ key = none) (hroom : c.cached_items_.length < c.cache_capacity) :
    ∃ c1, c.put key obj = Except.ok c1 ∧ c1.WF ∧
      c1.cache_capacity = c.cache_capacity ∧
      c1.recency = key :: c.recency ∧
      c1.keys = c.keys ++ [key] ∧
      (∀ k, c1.peek k = if k = key then some obj else c.peek k) := by
  have hnk : key ∉ c.keys := (map_find_eq_none_iff _ _).1 hf
  have hnr : key ∉ c.recency := fun hk => hnk ((h.mem_recency_iff key).1 hk)
  have hkeys : (map_insert c.cache_ key (obj, some c.fresh_node_)).map Prod.fst =
      c.keys ++ [key] := by
    rw [map_insert_keys]; simp only [keys] at hnk; simp only [hnk, if_false, keys]
  refine ⟨{ cache_capacity := c.cache_capacity
            cached_items_ := (c.fresh_node_, key) :: c.cached_items_
            cache_ := map_insert c.cache_ key (obj, some c.fresh_node_)
            fresh_node_ := c.fresh_node_ + 1 }, ?_, ?_, rfl, rfl, hkeys, ?_⟩
  · have : ¬ (c.cached_items_.length + 1 > c.cache_capacity) := by omega
    simp only [put, hf, List.length_cons, this, if_false, list_cbegin, List.head?_cons,
      Option.map_some']
  · refine
      { cap_pos := h.cap_pos, nodes_nodup := ?_, recency_nodup := ?_, keys_nodup := ?_
        nodes_fresh := ?_, listed := ?_, iter_ok := ?_, bounded := ?_ }
    · simp only [List.map_cons, List.nodup_cons]
      refine ⟨?_, h.nodes_nodup⟩
      intro hc
      obtain ⟨e, he, he2⟩ := List.mem_map.1 hc
      have := h.nodes_fresh e he
      omega
    · simp only [recency, List.map_cons, List.nodup_cons]
      exact ⟨hnr, h.recency_nodup⟩
    · show ((map_insert c.cache_ key (obj, some c.fresh_node_)).map Prod.fst).Nodup
      rw [hkeys]
      exact List.Nodup.append h.keys_nodup (List.nodup_singleton _) (by simpa using hnk)
    · intro e he
      show e.1 < c.fresh_node_ + 1
      rcases List.mem_cons.1 he with he | he
      · subst he; simp
      · have := h.nodes_fresh e he; omega
    · intro e he
      apply (map_find_isSome_iff _ _).2
      show e.2 ∈ (map_insert c.cache_ key (obj, some c.fresh_node_)).map Prod.fst
      rw [hkeys]
      rcases List.mem_cons.1 he with he | he
      · subst he; simp
      · exact List.mem_append_left _ ((map_find_isSome_iff _ _).1 (h.listed e he))
    · intro k it hk
      change map_find (map_insert c.cache_ key (obj, some c.fresh_node_)) k = some it at hk
      rw [map_find_insert] at hk
      cases hc : map_find c.cache_ k with
      | some v =>
        rw [hc] at hk
        have hv : v = it := by simpa using hk
        subst hv
        obtain ⟨m, hm, hmm⟩ := h.iter_ok k v hc
        exact ⟨m, hm, List.mem_cons_of_mem _ hmm⟩
      | none =>
        rw [hc] at hk
        by_cases hkk : key = k
        · subst hkk
          simp only [if_true] at hk
          cases hk
          exact ⟨c.fresh_node_, rfl, by simp⟩
        · simp [hkk] at hk
    · show (c.cached_items_.length + 1) ≤ c.cache_capacity
      omega
  · intro k
    show (map_find (map_insert c.cache_ key (obj, some c.fresh_node_)) k).map Prod.fst = _
    rw [map_find_insert]
    by_cases hkk : k = key
    · subst hkk; simp [hf]
    · have : ¬ key = k := fun e => hkk e.symm
      simp only [hkk, if_false, peek]
      cases map_find c.cache_ k <;> simp [this]

end LRUCache

namespace LRUCache
variable {α : Type}

theorem put_absent_full (c : LRUCache α) (h : c.WF) (key : Nat) (obj : α)
    (hf : map_find c.cache_ key = none) (hfull : c.cached_items_.length = c.cache_capacity) :
    ∃ c1 lru, c.put key obj = Except.ok c1 ∧ c1.WF ∧
      c1.cache_capacity = c.cache_capacity ∧
      c.recency.getLast? = some lru ∧ lru ≠ key ∧ lru ∈ c.keys ∧
      c1.recency = key :: c.recency.dropLast ∧
      c1.keys = c.keys.filter (fun k => decide (k ≠ lru)) ++ [key] ∧
      (∀ k, c1.peek k = if k = key then some obj else if k = lru then none else c.peek k) := by
  have hcap := h.cap_pos
  have hnk : key ∉ c.keys := (map_find_eq_none_iff _ _).1 hf
  have hnr : key ∉ c.recency := fun hk => hnk ((h.mem_recency_iff key).1 hk)
  have hne : c.cached_items_ ≠ [] := by
    intro e; rw [e] at hfull; simp at hfull; omega
  obtain ⟨last, hlast⟩ : ∃ last, c.cached_items_.getLast? = some last := by
    cases hl : c.cached_items_.getLast? with
    | none => exact absurd (List.getLast?_eq_none_iff.1 hl) hne
    | some last => exact ⟨last, rfl⟩
  have hsplit : c.cached_items_.dropLast ++ [last] = c.cached_items_ :=
    List.dropLast_append_getLast? last (by rw [hlast]; exact rfl)
  have hlen : c.cached_items_.dropLast.length + 1 = c.cached_items_.length := by
    conv_rhs => rw [← hsplit]
    simp
  have hlast_mem : last ∈ c.cached_items_ := by rw [← hsplit]; simp
  have hinit_sub : ∀ e, e ∈ c.cached_items_.dropLast → e ∈ c.cached_items_ :=
    fun e he => by rw [← hsplit]; exact List.mem_append_left _ he
  have hrec : c.recency = c.cached_items_.dropLast.map Prod.snd ++ [last.2] := by
    simp only [recency]; conv_lhs => rw [← hsplit]
    simp
  have hrn := h.recency_nodup
  rw [hrec] at hrn
  have hlast_not_init : last.2 ∉ c.cached_items_.dropLast.map Prod.snd := by
    intro hc
    have := (List.nodup_append.1 hrn).2.2
    exact this hc (by simp)
  have hlast_key : last.2 ∈ c.keys := (map_find_isSome_iff _ _).1 (h.listed last hlast_mem)
  have hlast_ne : last.2 ≠ key := fun e => hnk (e ▸ hlast_key)
  have hpushed_last : ((c.fresh_node_, key) :: c.cached_items_).getLast? = some last := by
    cases hc : c.cached_items_ with
    | nil => exact absurd hc hne
    | cons b t => rw [List.getLast?_cons_cons, ← hc, hlast]
  have hpushed_drop : ((c.fresh_node_, key) :: c.cached_items_).dropLast =
      (c.fresh_node_, key) :: c.cached_items_.dropLast := by
    cases hc : c.cached_items_ with
    | nil => exact absurd hc hne
    | cons b t => simp [List.dropLast]
  have herase_none : map_find (map_erase c.cache_ last.2) key = none := by
    rw [map_find_erase]; simp [hf]
  have hkeys : (map_insert (map_erase c.cache_ last.2) key (obj, some c.fresh_node_)).map
      Prod.fst = c.keys.filter (fun k => decide (k ≠ last.2)) ++ [key] := by
    rw [map_insert_keys, map_erase_keys]
    have : key ∉ List.filter (fun k => decide (k ≠ last.2)) (List.map Prod.fst c.cache_) :=
      fun hc => hnk (List.mem_filter.1 hc).1
    simp only [this, if_false, keys]
  refine ⟨{ cache_capacity := c.cache_capacity
            cached_items_ := (c.fresh_node_, key) :: c.cached_items_.dropLast
            cache_ := map_insert (map_erase c.cache_ last.2) key (obj, some c.fresh_node_)
            fresh_node_ := c.fresh_node_ + 1 }, last.2, ?_, ?_, rfl, ?_, hlast_ne, hlast_key,
          ?_, hkeys, ?_⟩
  · have : c.cached_items_.length + 1 > c.cache_capacity := by omega
    simp only [put, hf, List.length_cons, this, if_true, hpushed_last, hpushed_drop,
      list_cbegin, List.head?_cons, Option.map_some']
  · refine
      { cap_pos := h.cap_pos, nodes_nodup := ?_, recency_nodup := ?_, keys_nodup := ?_
        nodes_fresh := ?_, listed := ?_, iter_ok := ?_, bounded := ?_ }
    · simp only [List.map_cons, List.nodup_cons]
      constructor
      · intro hc
        obtain ⟨e, he, he2⟩ := List.mem_map.1 hc
        have := h.nodes_fresh e (hinit_sub e he)
        omega
      · exact h.nodes_nodup.sublist ((List.dropLast_sublist _).map _)
    · simp only [recency, List.map_cons, List.nodup_cons]
      constructor
      · intro hc
        obtain ⟨e, he, he2⟩ := List.mem_map.1 hc
        exact hnr (List.mem_map.2 ⟨e, hinit_sub e he, he2⟩)
      · exact (List.nodup_append.1 hrn).1
    · show ((map_insert (map_erase c.cache_ last.2) key (obj, some c.fresh_node_)).map
        Prod.fst).Nodup
      rw [hkeys]
      refine List.Nodup.append (h.keys_nodup.sublist (List.filter_sublist _))
        (List.nodup_singleton _) ?_
      intro k hk1 hk2
      have : k = key := by simpa using hk2
      subst this
      exact hnk (List.mem_filter.1 hk1).1
    · intro e he
      show e.1 < c.fresh_node_ + 1
      rcases List.mem_cons.1 he with he | he
      · subst he; simp
      · have := h.nodes_fresh e (hinit_sub e he); omega
    · intro e he
      apply (map_find_isSome_iff _ _).2
      show e.2 ∈ (map_insert (map_erase c.cache_ last.2) key (obj, some c.fresh_node_)).map
        Prod.fst
      rw [hkeys]
      rcases List.mem_cons.1 he with he | he
      · subst he; simp
      · apply List.mem_append_left
        refine List.mem_filter.2 ⟨(map_find_isSome_iff _ _).1 (h.listed e (hinit_sub e he)), ?_⟩
        have : e.2 ≠ last.2 := by
          intro heq
          exact hlast_not_init (heq ▸ List.mem_map.2 ⟨e, he, rfl⟩)
        simp [this]
    · intro k it hk
      change map_find (map_insert (map_erase c.cache_ last.2) key (obj, some c.fresh_node_)) k
        = some it at hk
      rw [map_find_insert, map_find_erase] at hk
      by_cases hkl : k = last.2
      · simp only [hkl, if_true] at hk
        have : ¬ key = last.2 := fun e => hlast_ne e.symm
        simp [this] at hk
      · simp only [hkl, if_false] at hk
        cases hc : map_find c.cache_ k with
        | some v =>
          rw [hc] at hk
          have hv : v = it := by simpa using hk
          subst hv
          obtain ⟨m, hm, hmm⟩ := h.iter_ok k v hc
          refine ⟨m, hm, List.mem_cons_of_mem _ ?_⟩
          rw [← hsplit] at hmm
          rcases List.mem_append.1 hmm with hmm | hmm
          · exact hmm
          · have : (m, k) = last := by simpa using hmm
            exact absurd (by rw [← this]) hkl
        | none =>
          rw [hc] at hk
          by_cases hkk : key = k
          · subst hkk
            simp only [if_true] at hk
            cases hk
            exact ⟨c.fresh_node_, rfl, by simp⟩
          · simp [hkk] at hk
    · show c.cached_items_.dropLast.length + 1 ≤ c.cache_capacity
      omega
  · rw [hrec]; simp
  · rw [hrec]; simp [recency]
  · intro k
    show (map_find (map_insert (map_erase c.cache_ last.2) key (obj, some c.fresh_node_)) k).map
      Prod.fst = _
    rw [map_find_insert, map_find_erase]
    by_cases hkk : k = key
    · subst hkk
      have : ¬ k = last.2 := fun e => hlast_ne e.symm
      simp [hf, this]
    · have hkk2 : ¬ key = k := fun e => hkk e.symm
      by_cases hkl : k = last.2
      · subst hkl
        simp [hkk, hkk2]
      · simp only [hkk, hkl, if_false, peek]
        cases map_find c.cache_ k <;> simp [hkk2]

end LRUCache

namespace LRUCache
variable {α : Type}

/-- What a `put` does to a well-formed cache, in terms of the observations
`recency` and `peek`. -/
theorem put_wf (c : LRUCache α) (h : c.WF) (key : Nat) (obj : α) :
    ∃ c1, c.put key obj = Except.ok c1 ∧ c1.WF ∧ c1.cache_capacity = c.cache_capacity ∧
      ∃ rest, c1.recency = key :: rest ∧ rest.Sublist c.recency ∧ key ∉ rest := by
  cases hf : map_find c.cache_ key with
  | some item =>
    obtain ⟨c1, hget, hwf, hcap, hrec, _, _⟩ := get_spec c h key item hf
    refine ⟨c1, ?_, hwf, hcap, _, hrec, List.filter_sublist _, by simp⟩
    rw [put_of_present c key obj item hf]
    simp only [LRUOp.apply, hget]
  | none =>
    by_cases hroom : c.cached_items_.length < c.cache_capacity
    · obtain ⟨c1, hput, hwf, hcap, hrec, _, _⟩ := put_absent_room c h key obj hf hroom
      refine ⟨c1, hput, hwf, hcap, _, hrec, List.Sublist.refl _, ?_⟩
      intro hk
      exact (map_find_eq_none_iff _ _).1 hf ((h.mem_recency_iff key).1 hk)
    · have hfull : c.cached_items_.length = c.cache_capacity := by
        have := h.bounded; omega
      obtain ⟨c1, lru, hput, hwf, hcap, _, _, _, hrec, _, _⟩ :=
        put_absent_full c h key obj hf hfull
      refine ⟨c1, hput, hwf, hcap, _, hrec, List.dropLast_sublist _, ?_⟩
      intro hk
      exact (map_find_eq_none_iff _ _).1 hf
        ((h.mem_recency_iff key).1 ((List.dropLast_sublist _).subset hk))

/-- One operation on a well-formed cache either succeeds, keeping the cache
well formed and moving the touched key to the front, or is a `get` of an absent
key. -/
theorem apply_wf (c : LRUCache α) (h : c.WF) (op : LRUOp α) :
    (∃ c1, op.apply c = Except.ok c1 ∧ c1.WF ∧ c1.cache_capacity = c.cache_capacity ∧
      ∃ rest, c1.recency = op.key :: rest ∧ rest.Sublist c.recency ∧ op.key ∉ rest) ∨
    (op.apply c = Except.error Fault.out_of_range ∧ ∃ key, op = LRUOp.get key ∧
      c.has key = false) := by
  cases op with
  | put key obj => exact Or.inl (put_wf c h key obj)
  | get key =>
    cases hf : map_find c.cache_ key with
    | some item =>
      obtain ⟨c1, hget, hwf, hcap, hrec, _, _⟩ := get_spec c h key item hf
      exact Or.inl ⟨c1, by simp only [LRUOp.apply, hget], hwf, hcap, _, hrec,
        List.filter_sublist _, by simp [LRUOp.key]⟩
    | none =>
      refine Or.inr ⟨?_, key, rfl, by simp [has, hf]⟩
      simp only [LRUOp.apply, get, hf]

theorem last_use_age_snoc_self (ops : List (LRUOp α)) (op : LRUOp α) :
    last_use_age (ops ++ [op]) op.key = 0 := by
  simp [last_use_age]

theorem last_use_age_snoc_ne (ops : List (LRUOp α)) (op : LRUOp α) (key : Nat)
    (h : key ≠ op.key) : last_use_age (ops ++ [op]) key = last_use_age ops key + 1 := by
  simp only [last_use_age, List.map_append, List.map_cons, List.map_nil, List.reverse_append,
    List.reverse_cons, List.reverse_nil, List.nil_append, List.singleton_append]
  rw [List.indexOf_cons_ne _ (fun e => h e.symm)]

/-- The recency list is ordered by the time of last use. -/
theorem run_aged (ops0 : List (LRUOp α)) (c : LRUCache α) (h : c.WF)
    (haged : c.recency.Pairwise (fun a b => last_use_age ops0 a < last_use_age ops0 b))
    (ops : List (LRUOp α)) (c1 : LRUCache α) (hrun : c.run ops = Except.ok c1) :
    c1.WF ∧ c1.cache_capacity = c.cache_capacity ∧
      c1.recency.Pairwise
        (fun a b => last_use_age (ops0 ++ ops) a < last_use_age (ops0 ++ ops) b) := by
  induction ops generalizing ops0 c with
  | nil =>
    simp only [run] at hrun
    cases hrun
    simpa using ⟨h, haged⟩
  | cons op ops ih =>
    rcases apply_wf c h op with ⟨c2, hap, hwf, hcap, rest, hrec, hsub, hnot⟩ | ⟨hap, _⟩
    · simp only [run, hap] at hrun
      have haged2 : c2.recency.Pairwise
          (fun a b => last_use_age (ops0 ++ [op]) a < last_use_age (ops0 ++ [op]) b) := by
        rw [hrec, List.pairwise_cons]
        constructor
        · intro b hb
          have hne : b ≠ op.key := fun e => hnot (e ▸ hb)
          rw [last_use_age_snoc_self, last_use_age_snoc_ne _ _ _ hne]
          omega
        · refine (haged.sublist hsub).imp_of_mem ?_
          intro a b ha hb hab
          have hna : a ≠ op.key := fun e => hnot (e ▸ ha)
          have hnb : b ≠ op.key := fun e => hnot (e ▸ hb)
          rw [last_use_age_snoc_ne _ _ _ hna, last_use_age_snoc_ne _ _ _ hnb]
          omega
      have := ih (ops0 ++ [op]) c2 hwf haged2 hrun
      rw [hcap] at this
      simpa using this
    · simp only [run, hap] at hrun
      cases hrun

theorem run_empty_wf (capacity : Nat) (hcap : 1 ≤ capacity) (ops : List (LRUOp α))
    (c : LRUCache α) (hrun : (empty capacity : LRUCache α).run ops = Except.ok c) :
    c.WF ∧ c.cache_capacity = capacity ∧
      c.recency.Pairwise (fun a b => last_use_age ops a < last_use_age ops b) := by
  have := run_aged [] (empty capacity : LRUCache α) (empty_wf capacity hcap)
    (by simp [empty, recency]) ops c hrun
  simpa [empty] using this

end LRUCache

theorem mem_set_erase (s : List DependencyVertex) (v w : DependencyVertex) :
    w ∈ set_erase s v ↔ w ∈ s ∧ w ≠ v := by
  simp [set_erase, List.mem_filter]

theorem mem_set_insert (s : List DependencyVertex) (v w : DependencyVertex) :
    w ∈ set_insert s v ↔ w ∈ s ∨ w = v := by
  unfold set_insert
  by_cases h : v ∈ s
  · simp only [h, if_true]
    constructor
    · exact Or.inl
    · rintro (h1 | h1)
      · exact h1
      · exact h1 ▸ h
  · simp [h]

namespace FrameDependency

theorem increase_count_unresolved (d : FrameDependency) (t : DependencyType) (h : Nat) :
    (d.increase_count t h).2.unresolved_ = d.unresolved_ := by
  simp only [increase_count]
  split <;> rfl

theorem mem_require (d : FrameDependency) (t : DependencyType) (has : Nat → Bool)
    (h : Option Nat) (w : DependencyVertex) :
    w ∈ (d.require t has h).unresolved_ ↔
      w ∈ d.unresolved_ ∨ ∃ x, h = some x ∧ has x = false ∧ w = { type := t, hash := x } := by
  cases h with
  | none => simp [require]
  | some x =>
    by_cases hx : has x = true
    · simp [require, hx]
    · have hx2 : has x = false := by simpa using hx
      simp [require, hx2, mem_set_insert, increase_count_unresolved]

theorem mem_update_dependencies {R S : Type} (d : FrameDependency) (frame : FrameInfo)
    (cache : RasterAndStateCache R S) (w : DependencyVertex) :
    w ∈ (d.update_dependencies frame cache).unresolved_ ↔
      (w ∈ d.unresolved_ ∧ w ∉ target_vertices frame) ∨
      (w ∈ source_vertices frame ∧ cache.has_vertex w = false) := by
  obtain ⟨wt, wh⟩ := w
  simp only [update_dependencies, List.foldl, mem_require, mem_set_erase, target_vertices,
    source_vertices, List.mem_cons, List.mem_append, List.mem_filterMap, List.mem_singleton,
    List.not_mem_nil, or_false]
  constructor
  · rintro ((((⟨⟨h1, h2⟩, h3⟩ | ⟨x, hx, hc, he⟩) | ⟨x, hx, hc, he⟩) | ⟨x, hx, hc, he⟩) |
      ⟨x, hx, hc, he⟩)
    · exact Or.inl ⟨h1, by simp [h2, h3]⟩
    · exact Or.inr ⟨Or.inl ⟨_, Or.inl rfl, by simp [hx, he]⟩, by
        rw [he]; simpa [RasterAndStateCache.has_vertex] using hc⟩
    · exact Or.inr ⟨Or.inl ⟨_, Or.inr (Or.inl rfl), by simp [hx, he]⟩, by
        rw [he]; simpa [RasterAndStateCache.has_vertex] using hc⟩
    · exact Or.inr ⟨Or.inl ⟨_, Or.inr (Or.inr rfl), by simp [hx, he]⟩, by
        rw [he]; simpa [RasterAndStateCache.has_vertex] using hc⟩
    · refine Or.inr ⟨Or.inr ?_, by
        rw [he]; simpa [RasterAndStateCache.has_vertex] using hc⟩
      rw [hx, he]; simp
  · rintro (⟨h1, h2⟩ | ⟨h1, h2⟩)
    · left; left; left; left
      simp only [not_or] at h2
      exact ⟨⟨h1, h2.1⟩, h2.2⟩
    · rcases h1 with ⟨a, ha, hm⟩ | hs
      · rcases ha with rfl | rfl | rfl
        · cases hl : frame.source_hash.last_hash with
          | none => rw [hl] at hm; simp at hm
          | some x =>
            rw [hl] at hm
            simp only [Option.map_some', Option.some.injEq] at hm
            left; left; left; right
            refine ⟨x, rfl, ?_, hm.symm⟩
            rw [← hm] at h2; simpa [RasterAndStateCache.has_vertex] using h2
        · cases hl : frame.source_hash.golden_hash with
          | none => rw [hl] at hm; simp at hm
          | some x =>
            rw [hl] at hm
            simp only [Option.map_some', Option.some.injEq] at hm
            left; left; right
            refine ⟨x, rfl, ?_, hm.symm⟩
            rw [← hm] at h2; simpa [RasterAndStateCache.has_vertex] using h2
        · cases hl : frame.source_hash.alt_hash with
          | none => rw [hl] at hm; simp at hm
          | some x =>
            rw [hl] at hm
            simp only [Option.map_some', Option.some.injEq] at hm
            left; right
            refine ⟨x, rfl, ?_, hm.symm⟩
            rw [← hm] at h2; simpa [RasterAndStateCache.has_vertex] using h2
      · cases hl : frame.source_hash.state_hash with
        | none => rw [hl] at hs; simp at hs
        | some x =>
          rw [hl] at hs
          simp only [List.mem_singleton] at hs
          right
          refine ⟨x, rfl, ?_, hs⟩
          rw [hs] at h2; simpa [RasterAndStateCache.has_vertex] using h2

end FrameDependency

theorem all_resolved_iff (d : FrameDependency) : d.all_resolved = true ↔ d.unresolved_ = [] := by
  simp [FrameDependency.all_resolved, List.length_eq_zero]

theorem to_size_t_natCast (n : Nat) (h : n < SIZE_MOD) : to_size_t (n : Int) = n := by
  unfold to_size_t
  unfold SIZE_MOD at h
  have : ((n : Int) % 18446744073709551616) = (n : Int) := Int.emod_eq_of_lt (by omega) (by omega)
  rw [this]; simp

theorem to_int_of_le (n : Nat) (h : n ≤ 2147483647) : to_int n = (n : Int) := by
  unfold to_int
  have h1 : n % 4294967296 = n := Nat.mod_eq_of_lt (by omega)
  rw [h1]
  have : n < 2147483648 := by omega
  simp [this]

theorem walkSound_step {R S : Type} (video : AlfalfaVideoClient) (track_id : Nat)
    (cache : RasterAndStateCache R S) (m hi : Nat) (d : FrameDependency)
    (h : WalkSound video track_id cache (m + 1) hi d.unresolved_) :
    WalkSound video track_id cache m hi
      (d.update_dependencies (video.frame_at track_id m) cache).unresolved_ := by
  intro j hj1 hj2 v hv hc
  rw [FrameDependency.mem_update_dependencies]
  by_cases hjm : j = m
  · subst hjm
    exact Or.inl (Or.inr ⟨hv, hc⟩)
  · rcases h j (by omega) hj2 v hv hc with hu | ⟨k, hk1, hk2, hk3⟩
    · by_cases ht : v ∈ target_vertices (video.frame_at track_id m)
      · exact Or.inr ⟨m, le_refl _, by omega, ht⟩
      · exact Or.inl (Or.inl ⟨hu, ht⟩)
    · exact Or.inr ⟨k, by omega, hk2, hk3⟩

theorem track_seek_batch_sound {R S : Type} (video : AlfalfaVideoClient) (track_id : Nat)
    (cache : RasterAndStateCache R S) (hi : Nat) (hhi : hi ≤ 2147483647) :
    ∀ (count top : Nat) (d : FrameDependency) (cost : Nat), count ≤ top + 1 → top ≤ hi →
      WalkSound video track_id cache (top + 1) hi d.unresolved_ →
      (∀ s d1 c1, track_seek_batch cache (frames_down (video.frame_at track_id) top count)
          (top : Int) d cost = Except.ok (Sum.inl (s, d1, c1)) →
        s ≤ top ∧ WalkSound video track_id cache s hi []) ∧
      (∀ cur1 d1 c1, track_seek_batch cache (frames_down (video.frame_at track_id) top count)
          (top : Int) d cost = Except.ok (Sum.inr (cur1, d1, c1)) →
        cur1 = (top : Int) - count ∧
          WalkSound video track_id cache (top + 1 - count) hi d1.unresolved_) := by
  intro count
  induction count with
  | zero =>
    intro top d cost _ _ hs
    constructor
    · intro s d1 c1 h
      simp [frames_down, track_seek_batch] at h
    · intro cur1 d1 c1 h
      simp only [frames_down, track_seek_batch] at h
      cases h
      exact ⟨by simp, by simpa using hs⟩
  | succ count ih =>
    intro top d cost hc ht hs
    have hstep := walkSound_step video track_id cache top hi d hs
    have hub : ¬ ((top : Int) - 1 < INT_MIN) := by unfold INT_MIN; omega
    simp only [frames_down, track_seek_batch]
    by_cases hres : (d.update_dependencies (video.frame_at track_id top) cache).all_resolved
        = true
    · simp only [hres, if_true]
      constructor
      · intro s d1 c1 h
        rw [to_size_t_natCast top (by unfold SIZE_MOD; omega)] at h
        cases h
        rw [(all_resolved_iff _).1 hres] at hstep
        exact ⟨le_refl _, hstep⟩
      · intro cur1 d1 c1 h
        simp at h
    · simp only [hres, hub, if_false]
      rcases Nat.eq_zero_or_pos count with hz | hpos
      · subst hz
        constructor
        · intro s d1 c1 h
          simp [frames_down, track_seek_batch] at h
        · intro cur1 d1 c1 h
          simp only [frames_down, track_seek_batch] at h
          cases h
          exact ⟨by simp, by simpa using hstep⟩
      · have htop : 1 ≤ top := by omega
        have hcast : (top : Int) - 1 = ((top - 1 : Nat) : Int) := by omega
        rw [hcast]
        have hs2 : WalkSound video track_id cache (top - 1 + 1) hi
            (d.update_dependencies (video.frame_at track_id top) cache).unresolved_ := by
          have : top - 1 + 1 = top := by omega
          rw [this]; exact hstep
        obtain ⟨ih1, ih2⟩ := ih (top - 1) _ (size_add cost (video.frame_at track_id top).length)
          (by omega) (by omega) hs2
        constructor
        · intro s d1 c1 h
          obtain ⟨h1, h2⟩ := ih1 s d1 c1 h
          exact ⟨by omega, h2⟩
        · intro cur1 d1 c1 h
          obtain ⟨h1, h2⟩ := ih2 cur1 d1 c1 h
          refine ⟨by rw [h1]; push_cast; omega, ?_⟩
          have : top - 1 + 1 - count = top + 1 - (count + 1) := by omega
          rw [← this]; exact h2

theorem get_frames_reverse_form (video : AlfalfaVideoClient) (track_id top to_index : Nat) :
    ∃ count, count ≤ top + 1 ∧
      video.get_frames_reverse track_id top to_index =
        frames_down (video.frame_at track_id) top count := by
  unfold AlfalfaVideoClient.get_frames_reverse
  by_cases h : to_index ≤ top ∧ top < video.track_size track_id
  · exact ⟨top - to_index + 1, by omega, by simp only [h, and_self, if_true]⟩
  · exact ⟨0, by omega, by simp only [h, if_false, frames_down]⟩

theorem track_seek_while_sound {R S : Type} (video : AlfalfaVideoClient) (track_id : Nat)
    (cache : RasterAndStateCache R S) (hi : Nat) (hhi : hi ≤ 2147483647) :
    ∀ (fuel : Nat) (frames_backward : List FrameInfo) (cur : Int) (d : FrameDependency)
      (cost : Nat),
      (cur < 0 ∨ ∃ top count : Nat, cur = (top : Int) ∧ count ≤ top + 1 ∧ top ≤ hi ∧
        frames_backward = frames_down (video.frame_at track_id) top count ∧
        WalkSound video track_id cache (top + 1) hi d.unresolved_) →
      ∀ s d1 c1, track_seek_while video cache track_id hi fuel frames_backward cur d cost =
          Except.ok (s, d1, c1) → c1 ≠ SIZE_MAX →
        s ≤ hi ∧ WalkSound video track_id cache s hi [] := by
  intro fuel
  induction fuel with
  | zero =>
    intro fb cur d cost _ s d1 c1 h
    simp [track_seek_while] at h
  | succ fuel ih =>
    intro fb cur d cost hinv s d1 c1 h hc
    rcases hinv with hneg | ⟨top, count, hcur, hcount, htop, hfb, hsound⟩
    · have : ¬ cur ≥ 0 := by omega
      simp only [track_seek_while, this, if_false] at h
      cases h
      exact absurd rfl hc
    · have hge : cur ≥ 0 := by omega
      obtain ⟨hb1, hb2⟩ := track_seek_batch_sound video track_id cache hi hhi count top d cost
        hcount htop hsound
      simp only [track_seek_while, hge, if_true] at h
      rw [hfb, hcur] at h
      cases hbatch : track_seek_batch cache (frames_down (video.frame_at track_id) top count)
          (top : Int) d cost with
      | error e => rw [hbatch] at h; cases h
      | ok r =>
        rw [hbatch] at h
        cases r with
        | inl res =>
          obtain ⟨s2, d2, c2⟩ := res
          obtain ⟨h1, h2⟩ := hb1 s2 d2 c2 hbatch
          simp only at h
          cases h
          exact ⟨by omega, h2⟩
        | inr st =>
          obtain ⟨cur1, d2, c2⟩ := st
          obtain ⟨h1, h2⟩ := hb2 cur1 d2 c2 hbatch
          simp only at h
          by_cases hc1 : cur1 ≥ 0
          · simp only [hc1, if_true] at h
            cases hto : seek_to_frame_index cur1 hi with
            | error e => rw [hto] at h; cases h
            | ok to_index =>
              rw [hto] at h
              simp only at h
              have hcur1 : cur1 = ((top - count : Nat) : Int) := by omega
              have hsz : to_size_t cur1 = top - count := by
                rw [hcur1]; exact to_size_t_natCast _ (by unfold SIZE_MOD; omega)
              rw [hsz] at h
              obtain ⟨count2, hcount2, hform⟩ :=
                get_frames_reverse_form video track_id (top - count) to_index
              refine ih _ cur1 d2 c2 (Or.inr ⟨top - count, count2, hcur1, hcount2, by omega,
                hform, ?_⟩) s d1 c1 h hc
              have : top - count + 1 = top + 1 - count := by omega
              rw [this]; exact h2
          · simp only [hc1, if_false] at h
            rw [← hfb] at h
            exact ih fb cur1 d2 c2 (Or.inl (by omega)) s d1 c1 h hc

theorem min_track_seek_inner_inv {R S : Type} (fuel : Nat) (video : AlfalfaVideoClient)
    (cache : RasterAndStateCache R S) :
    ∀ (rest seen : List TrackData) (st : MinTrackState),
      MinTrackInv fuel video cache seen st →
      (∀ td ∈ rest, ∃ r, get_track_seek fuel video cache td.track_id td.frame_index
        FrameDependency.empty = Except.ok r) →
      ∃ st1, min_track_seek_inner fuel video cache rest st = Except.ok st1 ∧
        MinTrackInv fuel video cache (seen ++ rest) st1 := by
  intro rest
  induction rest with
  | nil =>
    intro seen st hinv _
    exact ⟨st, by cases st; rfl, by simpa using hinv⟩
  | cons td rest ih =>
    intro seen st hinv hret
    obtain ⟨min_cost, path, dep⟩ := st
    obtain ⟨r, hr⟩ := hret td (List.mem_cons_self _ _)
    obtain ⟨h1, h2, h3, h4⟩ := hinv
    simp only at h1 h2 h3 h4
    have hrest : ∀ td1 ∈ rest, ∃ r, get_track_seek fuel video cache td1.track_id
        td1.frame_index FrameDependency.empty = Except.ok r :=
      fun td1 h => hret td1 (List.mem_cons_of_mem _ h)
    simp only [min_track_seek_inner, hr]
    by_cases hlt : r.2.2 < min_cost
    · simp only [hlt, if_true]
      have hinv2 : MinTrackInv fuel video cache (seen ++ [td])
          (r.2.2, { track_id := td.track_id, start_index := r.1
                    end_index := size_add td.frame_index 1, cost := r.2.2 }, r.2.1) := by
        refine ⟨rfl, by simp only; omega, ?_, ?_⟩
        · intro td1 htd1 r1 hr1
          rcases List.mem_append.1 htd1 with hm | hm
          · have := h3 td1 hm r1 hr1
            simp only; omega
          · have : td1 = td := by simpa using hm
            subst this
            rw [hr] at hr1
            cases hr1
            exact le_refl _
        · intro _
          refine ⟨seen, td, [], r, rfl, hr, rfl, ?_, rfl, rfl⟩
          intro td1 htd1 r1 hr1
          have := h3 td1 htd1 r1 hr1
          simp only; omega
      obtain ⟨st1, hs1, hs2⟩ := ih (seen ++ [td]) _ hinv2 hrest
      exact ⟨st1, hs1, by simpa using hs2⟩
    · simp only [hlt, if_false]
      have hinv2 : MinTrackInv fuel video cache (seen ++ [td]) (min_cost, path, dep) := by
        refine ⟨h1, h2, ?_, ?_⟩
        · intro td1 htd1 r1 hr1
          rcases List.mem_append.1 htd1 with hm | hm
          · exact h3 td1 hm r1 hr1
          · have : td1 = td := by simpa using hm
            subst this
            rw [hr] at hr1
            cases hr1
            simp only; omega
        · intro hc
          obtain ⟨before, td0, after, r0, e1, e2, e3, e4, e5, e6⟩ := h4 hc
          exact ⟨before, td0, after ++ [td], r0, by rw [e1]; simp, e2, e3, e4, e5, e6⟩
      obtain ⟨st1, hs1, hs2⟩ := ih (seen ++ [td]) _ hinv2 hrest
      exact ⟨st1, hs1, by simpa using hs2⟩

theorem min_track_seek_outer_inv {R S : Type} (fuel : Nat) (video : AlfalfaVideoClient)
    (cache : RasterAndStateCache R S) :
    ∀ (frames : List FrameInfo) (seen : List TrackData) (st : MinTrackState),
      MinTrackInv fuel video cache seen st →
      (∀ td ∈ (frames.map (fun frame => video.track_data_by_frame_id frame.frame_id)).flatten,
        ∃ r, get_track_seek fuel video cache td.track_id td.frame_index
          FrameDependency.empty = Except.ok r) →
      ∃ st1, min_track_seek_outer fuel video cache frames st = Except.ok st1 ∧
        MinTrackInv fuel video cache
          (seen ++ (frames.map (fun frame => video.track_data_by_frame_id frame.frame_id)).flatten)
          st1 := by
  intro frames
  induction frames with
  | nil =>
    intro seen st hinv _
    exact ⟨st, rfl, by simpa using hinv⟩
  | cons frame frames ih =>
    intro seen st hinv hret
    simp only [List.map_cons, List.flatten_cons] at hret ⊢
    obtain ⟨st1, hs1, hs2⟩ := min_track_seek_inner_inv fuel video cache
      (video.track_data_by_frame_id frame.frame_id) seen st hinv
      (fun td h => hret td (List.mem_append_left _ h))
    obtain ⟨st2, hs3, hs4⟩ := ih _ st1 hs2 (fun td h => hret td (List.mem_append_right _ h))
    refine ⟨st2, ?_, by simpa using hs4⟩
    simp only [min_track_seek_outer, hs1, hs3]

/-- A seek from an index whose `int` image is negative has cost `SIZE_MAX`. -/
theorem get_track_seek_cost_of_negative {R S : Type} (fuel : Nat) (video : AlfalfaVideoClient)
    (cache : RasterAndStateCache R S) (track_id from_frame_index : Nat) (d : FrameDependency)
    (r : TrackSeek) (hneg : to_int from_frame_index < 0)
    (h : get_track_seek fuel video cache track_id from_frame_index d = Except.ok r) :
    r.2.2 = SIZE_MAX := by
  unfold get_track_seek at h
  simp only at h
  cases hto : seek_to_frame_index (to_int from_frame_index) from_frame_index with
  | error e => rw [hto] at h; cases h
  | ok to_index =>
    rw [hto] at h
    simp only at h
    split at h
    · cases h; rfl
    · cases fuel with
      | zero => simp [track_seek_while] at h
      | succ fuel =>
        have : ¬ to_int from_frame_index ≥ 0 := by omega
        simp only [track_seek_while, this, if_false] at h
        cases h; rfl

theorem to_int_max_negative : to_int 18446744073709551615 < 0 := by decide

theorem to_long_to_size_t (x : Int) (h1 : LONG_MIN ≤ x) (h2 : x ≤ LONG_MAX) :
    to_long (to_size_t x) = x := by
  unfold LONG_MIN at h1
  unfold LONG_MAX at h2
  unfold to_long to_size_t SIZE_MOD
  have hnn : 0 ≤ x % 18446744073709551616 := Int.emod_nonneg _ (by decide)
  have hlt : x % 18446744073709551616 < 18446744073709551616 := Int.emod_lt_of_pos _ (by decide)
  have hcast : (((x % 18446744073709551616).toNat : Nat) : Int) = x % 18446744073709551616 :=
    Int.toNat_of_nonneg hnn
  have hmod : (x % 18446744073709551616).toNat % 18446744073709551616 =
      (x % 18446744073709551616).toNat := Nat.mod_eq_of_lt (by omega)
  rw [hmod]
  by_cases hx : 0 ≤ x
  · have : x % 18446744073709551616 = x := Int.emod_eq_of_lt hx (by omega)
    rw [this] at hcast ⊢
    have hlt2 : x.toNat < 9223372036854775808 := by omega
    simp only [hlt2, if_true]
    exact hcast
  · have : x % 18446744073709551616 = x + 18446744073709551616 := by
      have := Int.emod_emod_of_dvd x (dvd_refl (18446744073709551616 : Int))
      have h3 : (x + 18446744073709551616) % 18446744073709551616 = x % 18446744073709551616 := by
        simp
      rw [← h3]
      exact Int.emod_eq_of_lt (by omega) (by omega)
    rw [this] at hcast ⊢
    have hge : ¬ (x + 18446744073709551616).toNat < 9223372036854775808 := by omega
    simp only [hge, if_false]
    omega

theorem size_add_to_size_t (x : Int) (t : Nat) :
    size_add (to_size_t x) t = to_size_t (x + t) := by
  unfold size_add to_size_t SIZE_MOD
  have hnn : 0 ≤ x % 18446744073709551616 := Int.emod_nonneg _ (by decide)
  have hnn2 : 0 ≤ (x + t) % 18446744073709551616 := Int.emod_nonneg _ (by decide)
  apply Int.ofNat.inj
  show (((x % 18446744073709551616).toNat + t) % 18446744073709551616 : Nat) =
    (((x + ↑t) % 18446744073709551616).toNat : Int)
  rw [Int.toNat_of_nonneg hnn2]
  push_cast
  rw [Int.toNat_of_nonneg hnn]
  simp [Int.add_emod]

theorem size_sub_to_size_t (x : Int) (l : Nat) :
    size_sub (to_size_t x) l = to_size_t (x - l) := by
  unfold size_sub to_size_t SIZE_MOD
  have hnn : 0 ≤ x % 18446744073709551616 := Int.emod_nonneg _ (by decide)
  have hlt : x % 18446744073709551616 < 18446744073709551616 := Int.emod_lt_of_pos _ (by decide)
  have hnn2 : 0 ≤ (x - l) % 18446744073709551616 := Int.emod_nonneg _ (by decide)
  have hl : l % 18446744073709551616 < 18446744073709551616 := Nat.mod_lt _ (by decide)
  apply Int.ofNat.inj
  show ((((x % 18446744073709551616).toNat % 18446744073709551616 +
      (18446744073709551616 - l % 18446744073709551616)) % 18446744073709551616 : Nat) : Int) =
    (((x - ↑l) % 18446744073709551616).toNat : Int)
  rw [Int.toNat_of_nonneg hnn2]
  have hm : (x % 18446744073709551616).toNat % 18446744073709551616 =
      (x % 18446744073709551616).toNat := Nat.mod_eq_of_lt (by omega)
  rw [hm]
  push_cast
  rw [Int.toNat_of_nonneg hnn, Nat.cast_sub (le_of_lt hl)]
  push_cast
  have e1 : (x % 18446744073709551616 + (18446744073709551616 - (l : Int) % 18446744073709551616))
      % 18446744073709551616 = (x - l) % 18446744073709551616 := by
    omega
  exact e1

theorem to_long_natCast (n : Nat) (h : (n : Int) ≤ LONG_MAX) : to_long n = (n : Int) := by
  unfold LONG_MAX at h
  unfold to_long SIZE_MOD
  have h1 : n % 18446744073709551616 = n := Nat.mod_eq_of_lt (by omega)
  rw [h1]
  have : n < 9223372036854775808 := by omega
  simp [this]

theorem feasibility_step_exact {K : Type} (frame_cache : LRUCache K) (t : Nat) (b : Int)
    (frame : FrameInfo) (h1 : LONG_MIN ≤ b) (h2 : b + t ≤ LONG_MAX)
    (h3 : LONG_MIN ≤ b + t - frame_charge frame_cache frame) :
    feasibility_step frame_cache t b frame.frame_id frame.length =
      b + t - frame_charge frame_cache frame := by
  have hc : long_add_size b t = b + t := by
    unfold long_add_size
    rw [size_add_to_size_t]
    exact to_long_to_size_t _ (by omega) h2
  unfold feasibility_step
  simp only [hc]
  unfold frame_charge at h3 ⊢
  cases hh : frame_cache.has frame.frame_id with
  | true => simp
  | false =>
    rw [hh] at h3
    simp only [Bool.not_false, if_true, Bool.false_eq_true, if_false] at h3 ⊢
    unfold long_sub_size
    rw [size_sub_to_size_t]
    exact to_long_to_size_t _ h3 (by omega)

theorem buffer_after_zero {K : Type} (frame_cache : LRUCache K) (t : Nat) (b : Int)
    (frames : List FrameInfo) : buffer_after frame_cache t b frames 0 = b := by
  simp [buffer_after]

theorem buffer_after_cons {K : Type} (frame_cache : LRUCache K) (t : Nat) (b : Int)
    (frame : FrameInfo) (frames : List FrameInfo) (k : Nat) :
    buffer_after frame_cache t b (frame :: frames) (k + 1) =
      buffer_after frame_cache t (b + t - frame_charge frame_cache frame) frames k := by
  simp only [buffer_after, List.take_succ_cons, List.map_cons, List.sum_cons]
  push_cast
  ring

theorem feasibility_scan_iff {K : Type} (frame_cache : LRUCache K) (t : Nat) :
    ∀ (frames : List FrameInfo) (b : Int), FeasibilityNoOverflow frame_cache t b frames →
      (feasibility_scan frame_cache t frames b = true ↔
        ∀ k, 1 ≤ k → k ≤ frames.length → 0 ≤ buffer_after frame_cache t b frames k) := by
  intro frames
  induction frames with
  | nil =>
    intro b _
    simp only [feasibility_scan, List.length_nil, true_iff]
    intro k h1 h2; omega
  | cons frame frames ih =>
    intro b hno
    obtain ⟨hb1, hb2, hk⟩ := hno
    obtain ⟨h01, h02, h03⟩ := hk 0 (by simp)
    rw [buffer_after_zero] at h01
    rw [buffer_after_cons, buffer_after_zero] at h02 h03
    have hstep := feasibility_step_exact frame_cache t b frame hb1 h01 h02
    have hno2 : FeasibilityNoOverflow frame_cache t (b + t - frame_charge frame_cache frame)
        frames := by
      refine ⟨h02, h03, ?_⟩
      intro k hk2
      obtain ⟨h1, h2, h3⟩ := hk (k + 1) (by simp; omega)
      rw [buffer_after_cons] at h1 h2 h3
      exact ⟨h1, h2, h3⟩
    have ih2 := ih _ hno2
    simp only [feasibility_scan, hstep]
    by_cases hneg : b + t - frame_charge frame_cache frame < 0
    · simp only [hneg, if_true, Bool.false_eq_true, false_iff]
      intro hall
      have := hall 1 (le_refl _) (by simp)
      rw [buffer_after_cons, buffer_after_zero] at this
      omega
    · simp only [hneg, if_false]
      rw [ih2]
      constructor
      · intro hall k hk1 hk2
        cases k with
        | zero => omega
        | succ k =>
          rw [buffer_after_cons]
          rcases Nat.eq_zero_or_pos k with hz | hp
          · subst hz; rw [buffer_after_zero]; omega
          · exact hall k hp (by simpa using hk2)
      · intro hall k hk1 hk2
        have := hall (k + 1) (by omega) (by simpa using hk2)
        rw [buffer_after_cons] at this
        exact this

/-- With enough fuel, the `while` loop from the indices `ti` and `pi` is the scan
of the frames it still has to visit. -/
theorem feasibility_while_eq_scan {R S K : Type} (player : AlfalfaPlayer R S K)
    (P : List FrameInfoWrapper) (t : Nat) :
    ∀ (fuel : Nat) (b : Int) (ti pi : Nat),
      (player.current_download_pt_index_ ≤ player.current_frame_seq_.length ∨
        player.current_download_pt_index_ ≤ ti) →
      (player.current_download_pt_index_ - ti) + (P.length - pi) < fuel →
      feasibility_while player P t fuel b ti pi =
        Except.ok (feasibility_scan player.frame_cache_ t
          (((player.current_frame_seq_.drop ti).take
              (player.current_download_pt_index_ - ti)).map (fun w => w.frame_info) ++
            (P.drop pi).map (fun w => w.frame_info)) b) := by
  intro fuel
  induction fuel with
  | zero => intro b ti pi _ h; omega
  | succ fuel ih =>
    intro b ti pi hidx hfuel
    by_cases h1 : ti < player.current_download_pt_index_
    · have hlen : ti < player.current_frame_seq_.length := by omega
      have hget : player.current_frame_seq_[ti]? = some player.current_frame_seq_[ti] :=
        List.getElem?_eq_getElem hlen
      have hdrop : player.current_frame_seq_.drop ti =
          player.current_frame_seq_[ti] :: player.current_frame_seq_.drop (ti + 1) :=
        List.drop_eq_getElem_cons hlen
      have hsub : player.current_download_pt_index_ - ti =
          (player.current_download_pt_index_ - (ti + 1)) + 1 := by omega
      have hrec := ih
        (feasibility_step player.frame_cache_ t b player.current_frame_seq_[ti].frame_info.frame_id
          player.current_frame_seq_[ti].frame_info.length) (ti + 1) pi
        (by omega) (by omega)
      simp only [feasibility_while, h1, true_or, if_true, hget]
      rw [hdrop, hsub, List.take_succ_cons, List.map_cons, List.cons_append]
      simp only [feasibility_scan]
      split
      · rfl
      · exact hrec
    · by_cases h2 : pi < P.length
      · have hget : P[pi]? = some P[pi] := List.getElem?_eq_getElem h2
        have hdrop : P.drop pi = P[pi] :: P.drop (pi + 1) := List.drop_eq_getElem_cons h2
        have hz : player.current_download_pt_index_ - ti = 0 := by omega
        have hrec := ih
          (feasibility_step player.frame_cache_ t b P[pi].frame_info.frame_id
            P[pi].frame_info.length) ti (pi + 1) hidx (by omega)
        rw [hz] at hrec
        simp only [feasibility_while, h1, h2, or_true, if_true, if_false, hget]
        rw [hz, hdrop]
        simp only [List.take_zero, List.map_nil, List.nil_append, List.map_cons,
          feasibility_scan] at hrec ⊢
        split
        · rfl
        · exact hrec
      · have hz : player.current_download_pt_index_ - ti = 0 := by omega
        have hd : P.drop pi = [] := List.drop_eq_nil_of_le (by omega)
        simp only [feasibility_while, h1, h2, or_self, if_false]
        rw [hz, hd]
        simp [feasibility_scan]

namespace LRUCache
variable {α : Type}

theorem clear_wf (c : LRUCache α) (h : c.WF) : c.clear.WF :=
  { cap_pos := h.cap_pos
    nodes_nodup := by simp [clear]
    recency_nodup := by simp [clear, recency]
    keys_nodup := by simp [clear, keys]
    nodes_fresh := by simp [clear]
    listed := by simp [clear]
    iter_ok := by simp [clear, map_find]
    bounded := by simp [clear] }

/-- Every cache a client can have in hand satisfies the representation
invariant and has the capacity it was constructed with. -/
theorem Reachable.wf {capacity : Nat} (hcap : 1 ≤ capacity) {c : LRUCache α}
    (h : Reachable capacity c) : c.WF ∧ c.cache_capacity = capacity := by
  induction h with
  | empty => exact ⟨empty_wf capacity hcap, rfl⟩
  | put c c1 key obj _ hput ih =>
    obtain ⟨c2, hput2, hwf, hc, _⟩ := put_wf c ih.1 key obj
    rw [hput] at hput2
    cases hput2
    exact ⟨hwf, hc.trans ih.2⟩
  | get c c1 key obj _ hget ih =>
    cases hf : map_find c.cache_ key with
    | none =>
      unfold LRUCache.get at hget
      rw [hf] at hget
      cases hget
    | some item =>
      obtain ⟨c2, hget2, hwf, hc, _⟩ := get_spec c ih.1 key item hf
      rw [hget] at hget2
      cases hget2
      exact ⟨hwf, hc.trans ih.2⟩
  | clear c _ ih => exact ⟨clear_wf c ih.1, ih.2⟩

theorem get_eq_get_effect (c : LRUCache α) (key : Nat) :
    c.get key =
      match (c.get_effect key).1 with
      | Except.error e => Except.error e
      | Except.ok obj => Except.ok (obj, (c.get_effect key).2) := by
  unfold get get_effect
  cases map_find c.cache_ key with
  | none => rfl
  | some item =>
    simp only
    cases list_erase c.cached_items_ item.2 <;> rfl

/-- The recency list after a `put`, for a well-formed cache: the key, then the
keys that remain, in their old order. -/
theorem put_recency (c : LRUCache α) (h : c.WF) (key : Nat) (obj : α) :
    ∃ c1, c.put key obj = Except.ok c1 ∧ c1.WF ∧
      c1.recency = key :: c.recency.filter (fun k => decide (k ≠ key) && c1.has k) := by
  cases hf : map_find c.cache_ key with
  | some item =>
    obtain ⟨c1, hget, hwf, hcap, hrec, hkeys, hpeek⟩ := get_spec c h key item hf
    refine ⟨c1, ?_, hwf, ?_⟩
    · rw [put_of_present c key obj item hf]
      simp only [LRUOp.apply, hget]
    · rw [hrec]
      congr 1
      apply List.filter_congr
      intro k hk
      have : c1.has k = true := by
        rw [has_iff_mem_keys, hkeys]
        exact (h.mem_recency_iff k).1 hk
      simp [this]
  | none =>
    have hnk : key ∉ c.recency := fun hk =>
      (map_find_eq_none_iff _ _).1 hf ((h.mem_recency_iff key).1 hk)
    by_cases hroom : c.cached_items_.length < c.cache_capacity
    · obtain ⟨c1, hput, hwf, hcap, hrec, hkeys, hpeek⟩ := put_absent_room c h key obj hf hroom
      refine ⟨c1, hput, hwf, ?_⟩
      rw [hrec]
      congr 1
      symm
      rw [List.filter_eq_self]
      intro k hk
      have h1 : k ≠ key := fun e => hnk (e ▸ hk)
      have h2 : c1.has k = true := by
        rw [has_iff_mem_keys, hkeys]
        exact List.mem_append_left _ ((h.mem_recency_iff k).1 hk)
      simp [h1, h2]
    · have hfull : c.cached_items_.length = c.cache_capacity := by
        have := h.bounded; omega
      obtain ⟨c1, lru, hput, hwf, hcap, hlast, hne, hlru, hrec, hkeys, hpeek⟩ :=
        put_absent_full c h key obj hf hfull
      refine ⟨c1, hput, hwf, ?_⟩
      rw [hrec]
      congr 1
      have hsplit : c.recency.dropLast ++ [lru] = c.recency :=
        List.dropLast_append_getLast? lru (by rw [hlast]; exact rfl)
      have hnd := h.recency_nodup
      rw [← hsplit] at hnd
      have hlru_not : lru ∉ c.recency.dropLast := by
        intro hc
        exact (List.nodup_append.1 hnd).2.2 hc (by simp)
      have hhas_lru : c1.has lru = false := by
        rw [← peek_isSome, hpeek]
        simp [hne]
      conv_rhs => rw [← hsplit]
      rw [List.filter_append]
      have h1 : List.filter (fun k => decide (k ≠ key) && c1.has k) [lru] = [] := by
        simp [List.filter_cons, hhas_lru]
      rw [h1, List.append_nil]
      symm
      rw [List.filter_eq_self]
      intro k hk
      have hk1 : k ≠ key := fun e => hnk (e ▸ (List.dropLast_sublist _).subset hk)
      have hk2 : k ≠ lru := fun e => hlru_not (e ▸ hk)
      have hk3 : c1.has k = true := by
        rw [has_iff_mem_keys, hkeys]
        apply List.mem_append_left
        exact List.mem_filter.2
          ⟨(h.mem_recency_iff k).1 ((List.dropLast_sublist _).subset hk), by simp [hk2]⟩
      simp [hk1, hk3]

end LRUCache

namespace FrameDependency

theorem get_count_increase (d : FrameDependency) (t : DependencyType) (h : Nat)
    (t2 : DependencyType) (h2 : Nat) :
    (d.increase_count t h).2.get_count t2 h2 =
      if ({ type := t2, hash := h2 } : DependencyVertex) = { type := t, hash := h } then
        (match map_find d.ref_counter_ { type := t, hash := h } with
         | some n => size_add n 1
         | none => 1)
      else d.get_count t2 h2 := by
  unfold increase_count get_count
  cases hf : map_find d.ref_counter_ { type := t, hash := h } with
  | some n =>
    simp only [map_find_set, hf]
    by_cases hv : ({ type := t2, hash := h2 } : DependencyVertex) = { type := t, hash := h }
    · simp only [hv, if_true, Option.map_some']
    · simp only [hv, if_false]
  | none =>
    simp only [map_assign, hf, map_find_append_single]
    by_cases hv : ({ type := t2, hash := h2 } : DependencyVertex) = { type := t, hash := h }
    · rw [hv, hf]; simp
    · have hv2 : ¬ ({ type := t, hash := h } : DependencyVertex) = { type := t2, hash := h2 } :=
        fun e => hv e.symm
      simp only [hv, hv2, if_false]
      cases map_find d.ref_counter_ { type := t2, hash := h2 } <;> rfl

/-- Invariant of the counters along backward updates: every unresolved vertex
has a positive count, and no count exceeds `bound`. -/
theorem require_counted (d : FrameDependency) (t : DependencyType) (has : Nat → Bool)
    (h : Option Nat) (bound : Nat) (hb : bound + 1 < SIZE_MOD)
    (h1 : ∀ v ∈ d.unresolved_, 1 ≤ d.get_count v.type v.hash)
    (h2 : ∀ t2 h2, d.get_count t2 h2 ≤ bound) :
    (∀ v ∈ (d.require t has h).unresolved_, 1 ≤ (d.require t has h).get_count v.type v.hash) ∧
    (∀ t2 h2, (d.require t has h).get_count t2 h2 ≤ bound + 1) := by
  cases h with
  | none =>
    simp only [require]
    exact ⟨h1, fun t2 h2' => le_trans (h2 t2 h2') (Nat.le_succ _)⟩
  | some x =>
    by_cases hx : has x = true
    · simp only [require, hx, Bool.not_true, Bool.false_eq_true, if_false]
      exact ⟨h1, fun t2 h2' => le_trans (h2 t2 h2') (Nat.le_succ _)⟩
    · have hx2 : has x = false := by simpa using hx
      have hcount : ∀ t2 h2',
          (FrameDependency.mk (d.increase_count t x).2.ref_counter_
            (set_insert (d.increase_count t x).2.unresolved_ { type := t, hash := x })).get_count
              t2 h2' = (d.increase_count t x).2.get_count t2 h2' := fun _ _ => rfl
      have hnew : ∀ t2 h2', d.get_count t2 h2' ≤ (d.increase_count t x).2.get_count t2 h2' ∧
          (d.increase_count t x).2.get_count t2 h2' ≤ bound + 1 ∧
          (({ type := t2, hash := h2' } : DependencyVertex) = { type := t, hash := x } →
            1 ≤ (d.increase_count t x).2.get_count t2 h2') := by
        intro t2 h2'
        rw [get_count_increase]
        by_cases hv : ({ type := t2, hash := h2' } : DependencyVertex) = { type := t, hash := x }
        · simp only [hv, if_true]
          have hb2 := h2 t x
          have hd : d.get_count t2 h2' = d.get_count t x := by
            have := congrArg DependencyVertex.type hv
            have := congrArg DependencyVertex.hash hv
            simp_all
          rw [hd]
          unfold get_count at hb2 ⊢
          cases hf : map_find d.ref_counter_ { type := t, hash := x } with
          | none => simp
          | some n =>
            rw [hf] at hb2
            simp only at hb2 ⊢
            have : size_add n 1 = n + 1 := by
              unfold size_add; exact Nat.mod_eq_of_lt (by omega)
            rw [this]
            omega
        · simp only [hv, if_false]
          have := h2 t2 h2'
          exact ⟨le_refl _, by omega, fun e => False.elim e⟩
      simp only [require, hx2, Bool.not_false, if_true]
      constructor
      · intro v hv
        rw [hcount]
        rw [mem_set_insert, increase_count_unresolved] at hv
        rcases hv with hv | hv
        · exact le_trans (h1 v hv) (hnew v.type v.hash).1
        · exact (hnew v.type v.hash).2.2 (by rw [← hv])
      · intro t2 h2'
        rw [hcount]
        exact (hnew t2 h2').2.1

theorem update_dependencies_counted {R S : Type} (d : FrameDependency) (frame : FrameInfo)
    (cache : RasterAndStateCache R S) (bound : Nat) (hb : bound + 4 < SIZE_MOD)
    (h1 : ∀ v ∈ d.unresolved_, 1 ≤ d.get_count v.type v.hash)
    (h2 : ∀ t2 h2, d.get_count t2 h2 ≤ bound) :
    (∀ v ∈ (d.update_dependencies frame cache).unresolved_,
      1 ≤ (d.update_dependencies frame cache).get_count v.type v.hash) ∧
    (∀ t2 h2, (d.update_dependencies frame cache).get_count t2 h2 ≤ bound + 4) := by
  unfold update_dependencies
  simp only [List.foldl]
  have h0 : ∀ v ∈ (FrameDependency.mk d.ref_counter_
      (set_erase (set_erase d.unresolved_
        { type := DependencyType.RASTER, hash := frame.target_hash.output_hash })
        { type := DependencyType.STATE, hash := frame.target_hash.state_hash })).unresolved_,
      1 ≤ d.get_count v.type v.hash := by
    intro v hv
    simp only [mem_set_erase] at hv
    exact h1 v hv.1.1
  obtain ⟨a1, a2⟩ := require_counted _ DependencyType.RASTER cache.raster_cache_.has
    frame.source_hash.last_hash bound (by omega) h0 h2
  obtain ⟨b1, b2⟩ := require_counted _ DependencyType.RASTER cache.raster_cache_.has
    frame.source_hash.golden_hash (bound + 1) (by omega) a1 a2
  obtain ⟨c1, c2⟩ := require_counted _ DependencyType.RASTER cache.raster_cache_.has
    frame.source_hash.alt_hash (bound + 1 + 1) (by omega) b1 b2
  exact require_counted _ DependencyType.STATE cache.state_cache_.has
    frame.source_hash.state_hash (bound + 1 + 1 + 1) (by omega) c1 c2

theorem updates_counted {R S : Type} :
    ∀ (updates : List (FrameInfo × RasterAndStateCache R S)) (d : FrameDependency)
      (bound : Nat), bound + 4 * updates.length < SIZE_MOD →
      (∀ v ∈ d.unresolved_, 1 ≤ d.get_count v.type v.hash) →
      (∀ t2 h2, d.get_count t2 h2 ≤ bound) →
      ∀ v ∈ (updates.foldl (fun acc u => acc.update_dependencies u.1 u.2) d).unresolved_,
        1 ≤ (updates.foldl (fun acc u => acc.update_dependencies u.1 u.2) d).get_count
          v.type v.hash := by
  intro updates
  induction updates with
  | nil => intro d bound _ h1 _; simpa using h1
  | cons u updates ih =>
    intro d bound hb h1 h2
    simp only [List.length_cons] at hb
    obtain ⟨a1, a2⟩ := update_dependencies_counted d u.1 u.2 bound (by omega) h1 h2
    simp only [List.foldl_cons]
    exact ih _ (bound + 4) (by omega) a1 a2

end FrameDependency

theorem frames_down_length (f : Nat → FrameInfo) : ∀ (count top : Nat),
    (frames_down f top count).length = count := by
  intro count
  induction count with
  | zero => intro top; rfl
  | succ count ih => intro top; simp [frames_down, ih]

theorem frames_down_take (f : Nat → FrameInfo) : ∀ (k count top : Nat), k ≤ count →
    (frames_down f top count).take k = frames_down f top k := by
  intro k
  induction k with
  | zero => intro count top _; simp [frames_down]
  | succ k ih =>
    intro count top h
    cases count with
    | zero => omega
    | succ count =>
      simp only [frames_down, List.take_succ_cons]
      rw [ih count (top - 1) (by omega)]

theorem size_add_assoc_mod (cost a b : Nat) :
    size_add (size_add cost a) b = (cost + (a + b)) % SIZE_MOD := by
  unfold size_add
  rw [Nat.add_mod, Nat.mod_mod, ← Nat.add_mod, Nat.add_assoc]

theorem size_add_mod_left (cost a : Nat) :
    size_add (cost % SIZE_MOD) a = (cost + a) % SIZE_MOD := by
  unfold size_add
  rw [Nat.add_mod, Nat.mod_mod, ← Nat.add_mod]

theorem update_all_cons {R S : Type} (d : FrameDependency) (frame : FrameInfo)
    (frames : List FrameInfo) (cache : RasterAndStateCache R S) :
    d.update_all (frame :: frames) cache =
      (d.update_dependencies frame cache).update_all frames cache := rfl

theorem total_length_cons (frame : FrameInfo) (frames : List FrameInfo) :
    total_length (frame :: frames) = frame.length + total_length frames := by
  simp [total_length]

theorem size_add_lt (a b : Nat) : size_add a b < SIZE_MOD := by
  unfold size_add; exact Nat.mod_lt _ (by decide)

theorem size_add_total (cost a rest : Nat) :
    (size_add cost a + rest) % SIZE_MOD = (cost + (a + rest)) % SIZE_MOD := by
  unfold size_add
  rw [Nat.add_mod, Nat.mod_mod, ← Nat.add_mod, Nat.add_assoc]

/-- The batch loop over frames none of whose prefixes resolves: it uses up the
batch. -/
theorem track_seek_batch_unresolved {R S : Type} (cache : RasterAndStateCache R S) :
    ∀ (frames : List FrameInfo) (cur : Int) (d : FrameDependency) (cost : Nat),
      cost < SIZE_MOD →
      (∀ m, m < frames.length → ¬ (d.update_all (frames.take (m + 1)) cache).all_resolved = true) →
      INT_MIN ≤ cur - frames.length →
      track_seek_batch cache frames cur d cost =
        Except.ok (Sum.inr (cur - frames.length, d.update_all frames cache,
          (cost + total_length frames) % SIZE_MOD)) := by
  intro frames
  induction frames with
  | nil =>
    intro cur d cost hcost _ _
    simp only [track_seek_batch, List.length_nil, FrameDependency.update_all, List.foldl_nil,
      total_length, List.map_nil, List.sum_nil, Nat.add_zero, Nat.mod_eq_of_lt hcost]
    simp
  | cons frame frames ih =>
    intro cur d cost hcost hun hub
    have h0 : ¬ (d.update_dependencies frame cache).all_resolved = true := by
      have := hun 0 (by simp)
      simpa [FrameDependency.update_all] using this
    have hub1 : ¬ (cur - 1 < INT_MIN) := by
      simp only [List.length_cons] at hub
      push_cast at hub
      omega
    simp only [track_seek_batch, h0, hub1, if_false]
    have hun2 : ∀ m, m < frames.length →
        ¬ ((d.update_dependencies frame cache).update_all (frames.take (m + 1)) cache).all_resolved
          = true := by
      intro m hm
      have := hun (m + 1) (by simpa using hm)
      simpa [List.take_succ_cons, update_all_cons] using this
    have hub2 : INT_MIN ≤ cur - 1 - frames.length := by
      simp only [List.length_cons] at hub
      push_cast at hub
      omega
    rw [ih (cur - 1) _ (size_add cost frame.length) (size_add_lt _ _) hun2 hub2,
      update_all_cons, total_length_cons, size_add_total]
    simp only [List.length_cons]
    push_cast
    have : cur - 1 - (frames.length : Int) = cur - ((frames.length : Int) + 1) := by omega
    rw [this]

/-- The batch loop over frames whose first resolving prefix has `m + 1` frames:
the `return` at line 288 is taken at that frame. -/
theorem track_seek_batch_resolved {R S : Type} (cache : RasterAndStateCache R S) :
    ∀ (frames : List FrameInfo) (cur : Int) (d : FrameDependency) (cost : Nat) (m : Nat),
      m < frames.length →
      (d.update_all (frames.take (m + 1)) cache).all_resolved = true →
      (∀ k, k < m → ¬ (d.update_all (frames.take (k + 1)) cache).all_resolved = true) →
      INT_MIN ≤ cur - m →
      track_seek_batch cache frames cur d cost =
        Except.ok (Sum.inl (to_size_t (cur - m), d.update_all (frames.take (m + 1)) cache,
          (cost + total_length (frames.take (m + 1))) % SIZE_MOD)) := by
  intro frames
  induction frames with
  | nil => intro cur d cost m hm; simp at hm
  | cons frame frames ih =>
    intro cur d cost m hm hres hun hub
    cases m with
    | zero =>
      have h0 : (d.update_dependencies frame cache).all_resolved = true := by
        simpa [FrameDependency.update_all] using hres
      simp only [track_seek_batch, h0, if_true, List.take_succ_cons, List.take_zero,
        update_all_cons, total_length_cons]
      simp [FrameDependency.update_all, total_length, size_add]
    | succ m =>
      have h0 : ¬ (d.update_dependencies frame cache).all_resolved = true := by
        have := hun 0 (by omega)
        simpa [FrameDependency.update_all] using this
      have hub1 : ¬ (cur - 1 < INT_MIN) := by
        push_cast at hub
        omega
      simp only [track_seek_batch, h0, hub1, if_false]
      have hres2 : ((d.update_dependencies frame cache).update_all (frames.take (m + 1))
          cache).all_resolved = true := by
        simpa [List.take_succ_cons, update_all_cons] using hres
      have hun2 : ∀ k, k < m →
          ¬ ((d.update_dependencies frame cache).update_all (frames.take (k + 1))
            cache).all_resolved = true := by
        intro k hk
        have := hun (k + 1) (by omega)
        simpa [List.take_succ_cons, update_all_cons] using this
      rw [ih (cur - 1) _ (size_add cost frame.length) m (by simpa using hm) hres2 hun2
        (by push_cast at hub; omega)]
      simp only [List.take_succ_cons, update_all_cons, total_length_cons, size_add_total]
      push_cast
      have : cur - 1 - (m : Int) = cur - ((m : Int) + 1) := by omega
      rw [this]

theorem seek_to_frame_index_single (from_frame_index : Nat)
    (h : from_frame_index < MAX_NUM_FRAMES) :
    seek_to_frame_index (from_frame_index : Int) from_frame_index = Except.ok 0 := by
  unfold MAX_NUM_FRAMES at h
  unfold seek_to_frame_index MAX_NUM_FRAMES INT_MIN
  have h1 : ¬ ((from_frame_index : Int) - ((1000 : Nat) : Int) < -2147483648) := by
    push_cast; omega
  simp only [h1, if_false]
  by_cases h9 : from_frame_index = 999
  · subst h9; decide
  · have : ¬ ((from_frame_index : Int) - ((1000 : Nat) : Int) + 1 ≥ 0) := by
      push_cast; omega
    simp only [this, if_false]

theorem get_frames_reverse_to_zero (video : AlfalfaVideoClient) (track_id top : Nat)
    (h : top < video.track_size track_id) :
    video.get_frames_reverse track_id top 0 =
      frames_down (video.frame_at track_id) top (top + 1) := by
  unfold AlfalfaVideoClient.get_frames_reverse
  simp [h]

theorem walk_frames_eq_take (video : AlfalfaVideoClient) (track_id from_frame_index m : Nat)
    (hm : m ≤ from_frame_index) :
    walk_frames video track_id from_frame_index (from_frame_index - m) =
      (frames_down (video.frame_at track_id) from_frame_index (from_frame_index + 1)).take
        (m + 1) := by
  unfold walk_frames
  rw [frames_down_take _ _ _ _ (by omega)]
  congr 1
  omega

/-- The result of a track seek whose single batch resolves: the exact statement
behind C15, for any fuel of at least 1. -/
theorem get_track_seek_single_batch {R S : Type} (fuel : Nat) (video : AlfalfaVideoClient)
    (cache : RasterAndStateCache R S) (track_id from_frame_index : Nat) (d : FrameDependency)
    (hbatch : from_frame_index < MAX_NUM_FRAMES)
    (htrack : from_frame_index < video.track_size track_id)
    (hex : ∃ i, i ≤ from_frame_index ∧
      (d.update_all (walk_frames video track_id from_frame_index i) cache).all_resolved = true) :
    ∃ istar, istar ≤ from_frame_index ∧
      (d.update_all (walk_frames video track_id from_frame_index istar) cache).all_resolved
        = true ∧
      (∀ i, istar < i → i ≤ from_frame_index →
        ¬ (d.update_all (walk_frames video track_id from_frame_index i) cache).all_resolved
          = true) ∧
      get_track_seek (fuel + 1) video cache track_id from_frame_index d =
        Except.ok (istar, d.update_all (walk_frames video track_id from_frame_index istar) cache,
          total_length (walk_frames video track_id from_frame_index istar) % SIZE_MOD) := by
  have hlt : from_frame_index < 1000 := hbatch
  have hexm : ∃ m, m ≤ from_frame_index ∧
      (d.update_all (walk_frames video track_id from_frame_index (from_frame_index - m))
        cache).all_resolved = true := by
    obtain ⟨i, hi, hr⟩ := hex
    refine ⟨from_frame_index - i, by omega, ?_⟩
    have : from_frame_index - (from_frame_index - i) = i := by omega
    rw [this]; exact hr
  obtain ⟨hm1, hm2⟩ := Nat.find_spec hexm
  have hmin : ∀ k, k < Nat.find hexm → ¬ (k ≤ from_frame_index ∧
      (d.update_all (walk_frames video track_id from_frame_index (from_frame_index - k))
        cache).all_resolved = true) := fun k hk => Nat.find_min hexm hk
  refine ⟨from_frame_index - Nat.find hexm, by omega, hm2, ?_, ?_⟩
  · intro i hi1 hi2 hr
    apply hmin (from_frame_index - i) (by omega)
    refine ⟨by omega, ?_⟩
    have : from_frame_index - (from_frame_index - i) = i := by omega
    rw [this]; exact hr
  · unfold get_track_seek
    rw [to_int_of_le _ (by omega)]
    simp only [seek_to_frame_index_single _ hbatch, get_frames_reverse_to_zero _ _ _ htrack,
      frames_down_length]
    have hne : ¬ ((from_frame_index + 1 == 0) = true) := by simp
    simp only [hne, if_false]
    have hge : (from_frame_index : Int) ≥ 0 := by omega
    simp only [track_seek_while, hge, if_true]
    have hbatchres := track_seek_batch_resolved cache
      (frames_down (video.frame_at track_id) from_frame_index (from_frame_index + 1))
      (from_frame_index : Int) d 0 (Nat.find hexm)
      (by rw [frames_down_length]; omega)
      (by rw [← walk_frames_eq_take _ _ _ _ hm1]; exact hm2)
      (by
        intro k hk hr
        apply hmin k hk
        refine ⟨by omega, ?_⟩
        rw [walk_frames_eq_take _ _ _ _ (by omega)]; exact hr)
      (by unfold INT_MIN; omega)
    rw [hbatchres]
    simp only
    rw [← walk_frames_eq_take _ _ _ _ hm1, Nat.zero_add]
    have hcast : (from_frame_index : Int) - (Nat.find hexm : Int) =
        ((from_frame_index - Nat.find hexm : Nat) : Int) := by omega
    rw [hcast, to_size_t_natCast _ (by unfold SIZE_MOD; omega)]
    simp

theorem track_seek_batch_inl_resolved {R S : Type} (cache : RasterAndStateCache R S) :
    ∀ (frames : List FrameInfo) (cur : Int) (d : FrameDependency) (cost : Nat) (r : TrackSeek),
      track_seek_batch cache frames cur d cost = Except.ok (Sum.inl r) →
        r.2.1.all_resolved = true := by
  intro frames
  induction frames with
  | nil => intro cur d cost r h; simp [track_seek_batch] at h
  | cons frame rest ih =>
    intro cur d cost r h
    simp only [track_seek_batch] at h
    split at h
    · rename_i hres
      cases h
      exact hres
    · split at h
      · cases h
      · exact ih _ _ _ r h

theorem track_seek_while_resolved {R S : Type} (video : AlfalfaVideoClient)
    (cache : RasterAndStateCache R S) (track_id from_frame_index : Nat) :
    ∀ (fuel : Nat) (frames : List FrameInfo) (cur : Int) (d : FrameDependency) (cost : Nat)
      (r : TrackSeek),
      track_seek_while video cache track_id from_frame_index fuel frames cur d cost =
        Except.ok r → r.2.2 ≠ SIZE_MAX → r.2.1.all_resolved = true := by
  intro fuel
  induction fuel with
  | zero => intro frames cur d cost r h; simp [track_seek_while] at h
  | succ fuel ih =>
    intro frames cur d cost r h hc
    simp only [track_seek_while] at h
    split at h
    · cases hb : track_seek_batch cache frames cur d cost with
      | error e => rw [hb] at h; cases h
      | ok res =>
        rw [hb] at h
        cases res with
        | inl result =>
          simp only at h
          cases h
          exact track_seek_batch_inl_resolved cache frames cur d cost r hb
        | inr triple =>
          obtain ⟨cur1, d1, c1⟩ := triple
          simp only at h
          split at h
          · cases hs : seek_to_frame_index cur1 from_frame_index with
            | error e => rw [hs] at h; cases h
            | ok to_index =>
              rw [hs] at h
              exact ih _ _ _ _ r h hc
          · exact ih _ _ _ _ r h hc
    · cases h
      exact absurd rfl hc

theorem get_track_seek_resolved {R S : Type} (fuel : Nat) (video : AlfalfaVideoClient)
    (cache : RasterAndStateCache R S) (track_id from_frame_index : Nat) (d : FrameDependency)
    (r : TrackSeek)
    (h : get_track_seek fuel video cache track_id from_frame_index d = Except.ok r)
    (hc : r.2.2 ≠ SIZE_MAX) : r.2.1.all_resolved = true := by
  unfold get_track_seek at h
  simp only at h
  cases hto : seek_to_frame_index (to_int from_frame_index) from_frame_index with
  | error e => rw [hto] at h; cases h
  | ok to_index =>
    rw [hto] at h
    simp only at h
    split at h
    · cases h; exact absurd rfl hc
    · exact track_seek_while_resolved video cache track_id from_frame_index _ _ _ _ _ r h hc

theorem min_track_seek_inner_resolved {R S : Type} (fuel : Nat) (video : AlfalfaVideoClient)
    (cache : RasterAndStateCache R S) :
    ∀ (rest : List TrackData) (st st1 : MinTrackState),
      st.1 ≤ SIZE_MAX → st.2.2.all_resolved = true →
      min_track_seek_inner fuel video cache rest st = Except.ok st1 →
      st1.1 ≤ SIZE_MAX ∧ st1.2.2.all_resolved = true := by
  intro rest
  induction rest with
  | nil =>
    intro st st1 h1 h2 h
    obtain ⟨a, b, c⟩ := st
    simp only [min_track_seek_inner] at h
    cases h
    exact ⟨h1, h2⟩
  | cons td rest ih =>
    intro st st1 h1 h2 h
    obtain ⟨min_cost, path, dep⟩ := st
    simp only [min_track_seek_inner] at h
    cases hr : get_track_seek fuel video cache td.track_id td.frame_index
        FrameDependency.empty with
    | error e => rw [hr] at h; cases h
    | ok seek =>
      rw [hr] at h
      simp only at h h1 h2
      split at h
      · rename_i hlt
        refine ih _ st1 ?_ ?_ h
        · simp only; omega
        · simp only
          exact get_track_seek_resolved fuel video cache _ _ _ seek hr (by omega)
      · exact ih _ st1 h1 h2 h

theorem min_track_seek_outer_resolved {R S : Type} (fuel : Nat) (video : AlfalfaVideoClient)
    (cache : RasterAndStateCache R S) :
    ∀ (frames : List FrameInfo) (st st1 : MinTrackState),
      st.1 ≤ SIZE_MAX → st.2.2.all_resolved = true →
      min_track_seek_outer fuel video cache frames st = Except.ok st1 →
      st1.1 ≤ SIZE_MAX ∧ st1.2.2.all_resolved = true := by
  intro frames
  induction frames with
  | nil =>
    intro st st1 h1 h2 h
    simp only [min_track_seek_outer] at h
    cases h
    exact ⟨h1, h2⟩
  | cons frame frames ih =>
    intro st st1 h1 h2 h
    simp only [min_track_seek_outer] at h
    cases hi : min_track_seek_inner fuel video cache
        (video.track_data_by_frame_id frame.frame_id) st with
    | error e => rw [hi] at h; cases h
    | ok st2 =>
      rw [hi] at h
      obtain ⟨h3, h4⟩ := min_track_seek_inner_resolved fuel video cache _ st st2 h1 h2 hi
      exact ih st2 st1 h3 h4 h

theorem get_min_track_seek_resolved {R S : Type} (fuel : Nat) (video : AlfalfaVideoClient)
    (cache : RasterAndStateCache R S) (output_hash : Nat) (r : TrackPath × FrameDependency)
    (h : get_min_track_seek fuel video cache output_hash = Except.ok r) :
    r.2.all_resolved = true := by
  unfold get_min_track_seek at h
  split at h
  · cases h
  · rename_i st hst
    cases h
    exact (min_track_seek_outer_resolved fuel video cache _
      (SIZE_MAX, { track_id := 0, start_index := 0, end_index := 0, cost := SIZE_MAX },
       FrameDependency.empty) st (le_refl _) rfl hst).2

theorem min_switch_seek_inner_resolved {R S : Type} (fuel : Nat) (video : AlfalfaVideoClient)
    (cache : RasterAndStateCache R S) :
    ∀ (rest : List SwitchInfo) (st st1 : MinSwitchState),
      st.min_dependencies.all_resolved = true →
      min_switch_seek_inner fuel video cache rest st = Except.ok st1 →
      st1.min_dependencies.all_resolved = true := by
  intro rest
  induction rest with
  | nil =>
    intro st st1 h1 h
    simp only [min_switch_seek_inner] at h
    cases h
    exact h1
  | cons sw rest ih =>
    intro st st1 h1 h
    simp only [min_switch_seek_inner] at h
    split at h
    · cases hr : get_track_seek fuel video cache sw.from_track_id sw.from_frame_index
          (switch_walk cache sw.frames 0 FrameDependency.empty sw.switch_start_index).2.1 with
      | error e => rw [hr] at h; cases h
      | ok seek =>
        rw [hr] at h
        simp only at h
        split at h
        · cases h; exact h1
        · rename_i hne
          split at h
          · exact ih _ st1 (get_track_seek_resolved fuel video cache _ _ _ seek hr hne) h
          · exact ih _ st1 h1 h
    · rename_i hres
      split at h
      · refine ih _ st1 ?_ h
        simpa using hres
      · exact ih _ st1 h1 h

theorem min_switch_seek_outer_resolved {R S : Type} (fuel : Nat) (video : AlfalfaVideoClient)
    (cache : RasterAndStateCache R S) :
    ∀ (frames : List FrameInfo) (st st1 : MinSwitchState),
      st.min_dependencies.all_resolved = true →
      min_switch_seek_outer fuel video cache frames st = Except.ok st1 →
      st1.min_dependencies.all_resolved = true := by
  intro frames
  induction frames with
  | nil =>
    intro st st1 h1 h
    simp only [min_switch_seek_outer] at h
    cases h
    exact h1
  | cons frame frames ih =>
    intro st st1 h1 h
    simp only [min_switch_seek_outer] at h
    cases hi : min_switch_seek_inner fuel video cache
        (video.switches_with_frame frame.frame_id) st with
    | error e => rw [hi] at h; cases h
    | ok st2 =>
      rw [hi] at h
      exact ih st2 st1 (min_switch_seek_inner_resolved fuel video cache _ st st2 h1 hi) h

theorem get_min_switch_seek_resolved {R S : Type} (fuel : Nat) (video : AlfalfaVideoClient)
    (cache : RasterAndStateCache R S) (output_hash : Nat)
    (r : SwitchPath × Option TrackPath × FrameDependency)
    (h : get_min_switch_seek fuel video cache output_hash = Except.ok r) :
    r.2.2.all_resolved = true := by
  unfold get_min_switch_seek at h
  split at h
  · cases h
  · rename_i st hst
    cases h
    exact min_switch_seek_outer_resolved fuel video cache _
      { min_cost := SIZE_MAX
        min_switch_path :=
          { from_track_id := 0, to_track_id := 0, from_frame_index := 0, to_frame_index := 0
            switch_start_index := 0, switch_end_index := 0, cost := SIZE_MAX }
        min_track_path := none
        min_dependencies := FrameDependency.empty } st rfl hst

theorem release_unresolved (d : FrameDependency) (dep_type : DependencyType)
    (has : Nat → Bool) (hash : Option Nat) :
    (d.release dep_type has hash).unresolved_ = d.unresolved_ := by
  unfold FrameDependency.release
  cases hash with
  | none => rfl
  | some h =>
    simp only
    split
    · unfold FrameDependency.decrease_count
      simp only
      split
      · split <;> rfl
      · rfl
    · rfl

theorem update_dependencies_forward_unresolved {R S : Type} (d : FrameDependency)
    (frame : FrameInfo) (cache : RasterAndStateCache R S) :
    (d.update_dependencies_forward frame cache).unresolved_ = d.unresolved_ := by
  unfold FrameDependency.update_dependencies_forward
  simp only [List.foldl_cons, List.foldl_nil, release_unresolved]

theorem follow_frames_unresolved {R S K : Type} (ext : Collaborators R S K) :
    ∀ (frames : List FrameInfo) (cache cache1 : RasterAndStateCache R S)
      (d d1 : FrameDependency),
      follow_frames ext frames cache d = Except.ok (cache1, d1) →
        d1.unresolved_ = d.unresolved_ := by
  intro frames
  induction frames with
  | nil =>
    intro cache cache1 d d1 h
    simp only [follow_frames] at h
    cases h
    rfl
  | cons frame rest ih =>
    intro cache cache1 d d1 h
    simp only [follow_frames] at h
    split at h
    · cases h
    · split at h
      · cases h
      · split at h
        · cases h
        · rw [ih _ _ _ _ h, update_dependencies_forward_unresolved]

theorem follow_track_while_unresolved {R S K : Type} (ext : Collaborators R S K)
    (video : AlfalfaVideoClient) (path : TrackPath) :
    ∀ (fuel from_frame_index : Nat) (frames : List FrameInfo)
      (cache cache1 : RasterAndStateCache R S) (d d1 : FrameDependency),
      follow_track_while ext video path fuel from_frame_index frames cache d =
        Except.ok (cache1, d1) → d1.unresolved_ = d.unresolved_ := by
  intro fuel
  induction fuel with
  | zero => intro i frames cache cache1 d d1 h; simp [follow_track_while] at h
  | succ fuel ih =>
    intro i frames cache cache1 d d1 h
    simp only [follow_track_while] at h
    split at h
    · cases hf : follow_frames ext frames cache d with
      | error e => rw [hf] at h; cases h
      | ok res =>
        obtain ⟨c2, d2⟩ := res
        rw [hf] at h
        simp only at h
        have h2 := follow_frames_unresolved ext frames cache c2 d d2 hf
        split at h
        · rw [ih _ _ _ _ _ _ h, h2]
        · rw [ih _ _ _ _ _ _ h, h2]
    · cases h; rfl

theorem all_resolved_of_unresolved_eq (d d1 : FrameDependency)
    (h : d1.unresolved_ = d.unresolved_) (hd : d.all_resolved = true) :
    d1.all_resolved = true := by
  unfold FrameDependency.all_resolved at hd ⊢
  rw [h]; exact hd

theorem require_raster_call_eq {R S : Type} (d : FrameDependency)
    (cache : RasterAndStateCache R S) (hash : Option Nat) :
    d.require_raster_call cache hash =
      (d.require DependencyType.RASTER cache.raster_cache_.has hash, cache) := by
  cases hash with
  | none => rfl
  | some h =>
    simp only [FrameDependency.require_raster_call, FrameDependency.require,
      LRUCache.has_call, LRUCache.has]
    split <;> rfl

theorem require_state_call_eq {R S : Type} (d : FrameDependency)
    (cache : RasterAndStateCache R S) (hash : Option Nat) :
    d.require_state_call cache hash =
      (d.require DependencyType.STATE cache.state_cache_.has hash, cache) := by
  cases hash with
  | none => rfl
  | some h =>
    simp only [FrameDependency.require_state_call, FrameDependency.require,
      LRUCache.has_call, LRUCache.has]
    split <;> rfl

theorem update_dependencies_call_eq {R S : Type} (d : FrameDependency) (frame : FrameInfo)
    (cache : RasterAndStateCache R S) :
    d.update_dependencies_call frame cache = (d.update_dependencies frame cache, cache) := by
  simp only [FrameDependency.update_dependencies_call, FrameDependency.update_dependencies,
    List.foldl_cons, List.foldl_nil, require_raster_call_eq, require_state_call_eq]

theorem track_seek_batch_call_eq {R S : Type} (cache : RasterAndStateCache R S) :
    ∀ (frames : List FrameInfo) (cur : Int) (d : FrameDependency) (cost : Nat),
      track_seek_batch_call frames cur d cost cache =
        (track_seek_batch cache frames cur d cost).map (fun r => (r, cache)) := by
  intro frames
  induction frames with
  | nil => intro cur d cost; rfl
  | cons frame rest ih =>
    intro cur d cost
    simp only [track_seek_batch_call, track_seek_batch, update_dependencies_call_eq]
    split
    · rfl
    · split
      · rfl
      · exact ih _ _ _

theorem track_seek_while_call_eq {R S : Type} (video : AlfalfaVideoClient)
    (cache : RasterAndStateCache R S) (track_id from_frame_index : Nat) :
    ∀ (fuel : Nat) (frames : List FrameInfo) (cur : Int) (d : FrameDependency) (cost : Nat),
      track_seek_while_call video track_id from_frame_index fuel frames cur d cost cache =
        (track_seek_while video cache track_id from_frame_index fuel frames cur d cost).map
          (fun r => (r, cache)) := by
  intro fuel
  induction fuel with
  | zero => intro frames cur d cost; rfl
  | succ fuel ih =>
    intro frames cur d cost
    simp only [track_seek_while_call, track_seek_while, track_seek_batch_call_eq]
    split
    · cases hb : track_seek_batch cache frames cur d cost with
      | error e => rfl
      | ok res =>
        cases res with
        | inl result => rfl
        | inr triple =>
          obtain ⟨cur1, d1, c1⟩ := triple
          simp only [Except.map]
          split
          · cases hs : seek_to_frame_index cur1 from_frame_index with
            | error e => rfl
            | ok to_index => exact ih _ _ _ _
          · exact ih _ _ _ _
    · rfl

theorem get_track_seek_call_eq {R S : Type} (fuel : Nat) (video : AlfalfaVideoClient)
    (cache : RasterAndStateCache R S) (track_id from_frame_index : Nat)
    (d : FrameDependency) :
    get_track_seek_call fuel video cache track_id from_frame_index d =
      (get_track_seek fuel video cache track_id from_frame_index d).map
        (fun r => (r, cache)) := by
  unfold get_track_seek_call get_track_seek
  simp only
  cases hs : seek_to_frame_index (to_int from_frame_index) from_frame_index with
  | error e => rfl
  | ok to_index =>
    simp only
    split
    · rfl
    · exact track_seek_while_call_eq video cache track_id from_frame_index _ _ _ _ _

theorem min_track_seek_inner_call_eq {R S : Type} (fuel : Nat) (video : AlfalfaVideoClient)
    (cache : RasterAndStateCache R S) :
    ∀ (rest : List TrackData) (st : MinTrackState),
      min_track_seek_inner_call fuel video rest st cache =
        (min_track_seek_inner fuel video cache rest st).map (fun r => (r, cache)) := by
  intro rest
  induction rest with
  | nil => intro st; obtain ⟨a, b, c⟩ := st; rfl
  | cons td rest ih =>
    intro st
    obtain ⟨min_cost, path, dep⟩ := st
    simp only [min_track_seek_inner_call, min_track_seek_inner, get_track_seek_call_eq]
    cases hr : get_track_seek fuel video cache td.track_id td.frame_index
        FrameDependency.empty with
    | error e => rfl
    | ok seek =>
      simp only [Except.map]
      split
      · exact ih _
      · exact ih _

theorem min_track_seek_outer_call_eq {R S : Type} (fuel : Nat) (video : AlfalfaVideoClient)
    (cache : RasterAndStateCache R S) :
    ∀ (frames : List FrameInfo) (st : MinTrackState),
      min_track_seek_outer_call fuel video frames st cache =
        (min_track_seek_outer fuel video cache frames st).map (fun r => (r, cache)) := by
  intro frames
  induction frames with
  | nil => intro st; rfl
  | cons frame frames ih =>
    intro st
    simp only [min_track_seek_outer_call, min_track_seek_outer, min_track_seek_inner_call_eq]
    cases hi : min_track_seek_inner fuel video cache
        (video.track_data_by_frame_id frame.frame_id) st with
    | error e => rfl
    | ok st1 =>
      simp only [Except.map]
      exact ih _

theorem get_min_track_seek_call_eq {R S : Type} (fuel : Nat) (video : AlfalfaVideoClient)
    (cache : RasterAndStateCache R S) (output_hash : Nat) :
    get_min_track_seek_call fuel video cache output_hash =
      (get_min_track_seek fuel video cache output_hash).map (fun r => (r, cache)) := by
  unfold get_min_track_seek_call get_min_track_seek
  rw [min_track_seek_outer_call_eq]
  cases min_track_seek_outer fuel video cache (video.frames_by_output_hash output_hash)
      (SIZE_MAX, { track_id := 0, start_index := 0, end_index := 0, cost := SIZE_MAX },
       FrameDependency.empty) with
  | error e => rfl
  | ok st => rfl

theorem switch_walk_call_eq {R S : Type} (cache : RasterAndStateCache R S) :
    ∀ (frames : List FrameInfo) (cost : Nat) (d : FrameDependency) (index : Nat),
      switch_walk_call frames cost d index cache =
        (switch_walk cache frames cost d index, cache) := by
  intro frames
  induction frames with
  | nil => intro cost d index; rfl
  | cons frame rest ih =>
    intro cost d index
    simp only [switch_walk_call, switch_walk, update_dependencies_call_eq]
    split
    · rfl
    · exact ih _ _ _

theorem min_switch_seek_inner_call_eq {R S : Type} (fuel : Nat) (video : AlfalfaVideoClient)
    (cache : RasterAndStateCache R S) :
    ∀ (rest : List SwitchInfo) (st : MinSwitchState),
      min_switch_seek_inner_call fuel video rest st cache =
        (min_switch_seek_inner fuel video cache rest st).map (fun r => (r, cache)) := by
  intro rest
  induction rest with
  | nil => intro st; rfl
  | cons sw rest ih =>
    intro st
    simp only [min_switch_seek_inner_call, min_switch_seek_inner, switch_walk_call_eq,
      get_track_seek_call_eq]
    split
    · cases hr : get_track_seek fuel video cache sw.from_track_id sw.from_frame_index
          (switch_walk cache sw.frames 0 FrameDependency.empty sw.switch_start_index).2.1 with
      | error e => rfl
      | ok seek =>
        simp only [Except.map]
        split
        · rfl
        · split
          · exact ih _
          · exact ih _
    · split
      · exact ih _
      · exact ih _

theorem min_switch_seek_outer_call_eq {R S : Type} (fuel : Nat) (video : AlfalfaVideoClient)
    (cache : RasterAndStateCache R S) :
    ∀ (frames : List FrameInfo) (st : MinSwitchState),
      min_switch_seek_outer_call fuel video frames st cache =
        (min_switch_seek_outer fuel video cache frames st).map (fun r => (r, cache)) := by
  intro frames
  induction frames with
  | nil => intro st; rfl
  | cons frame frames ih =>
    intro st
    simp only [min_switch_seek_outer_call, min_switch_seek_outer,
      min_switch_seek_inner_call_eq]
    cases hi : min_switch_seek_inner fuel video cache
        (video.switches_with_frame frame.frame_id) st with
    | error e => rfl
    | ok st1 =>
      simp only [Except.map]
      exact ih _

theorem get_min_switch_seek_call_eq {R S : Type} (fuel : Nat) (video : AlfalfaVideoClient)
    (cache : RasterAndStateCache R S) (output_hash : Nat) :
    get_min_switch_seek_call fuel video cache output_hash =
      (get_min_switch_seek fuel video cache output_hash).map (fun r => (r, cache)) := by
  unfold get_min_switch_seek_call get_min_switch_seek
  rw [min_switch_seek_outer_call_eq]
  cases min_switch_seek_outer fuel video cache (video.frames_by_output_hash output_hash)
      { min_cost := SIZE_MAX
        min_switch_path :=
          { from_track_id := 0, to_track_id := 0, from_frame_index := 0, to_frame_index := 0
            switch_start_index := 0, switch_end_index := 0, cost := SIZE_MAX }
        min_track_path := none
        min_dependencies := FrameDependency.empty } with
  | error e => rfl
  | ok st => rfl

theorem mem_source_vertices_raster (frame : FrameInfo) (h : Nat)
    (hh : frame.source_hash.last_hash = some h ∨ frame.source_hash.golden_hash = some h ∨
      frame.source_hash.alt_hash = some h) :
    ({ type := DependencyType.RASTER, hash := h } : DependencyVertex) ∈ source_vertices frame := by
  unfold source_vertices
  apply List.mem_append_left
  rw [List.mem_filterMap]
  rcases hh with hh | hh | hh
  · exact ⟨_, List.mem_cons_self _ _, by rw [hh]; rfl⟩
  · exact ⟨_, List.mem_cons_of_mem _ (List.mem_cons_self _ _), by rw [hh]; rfl⟩
  · exact ⟨_, List.mem_cons_of_mem _ (List.mem_cons_of_mem _ (List.mem_cons_self _ _)),
      by rw [hh]; rfl⟩

theorem mem_source_vertices_state (frame : FrameInfo) (h : Nat)
    (hh : frame.source_hash.state_hash = some h) :
    ({ type := DependencyType.STATE, hash := h } : DependencyVertex) ∈ source_vertices frame := by
  unfold source_vertices
  apply List.mem_append_right
  rw [hh]; simp

/-- C1, as stated (any `from_frame_index`): on a track of `2^32 + 1000` frames the
seek from index `2^32 + 999` narrows the index to the `int` 999, resolves at the
first frame and returns start index 999 with cost 3; frame 999 consumes raster
7, which is not cached and which no frame of index in `[999, 999)` produces. -/
theorem track_seek_unsound_beyond_int :
    ∃ s d cost, get_track_seek 1 long_video empty_cache 0 (4294967296 + 999)
        FrameDependency.empty = Except.ok (s, d, cost) ∧ cost ≠ SIZE_MAX ∧
      ∃ j h, s ≤ j ∧ j ≤ 4294967296 + 999 ∧
        (long_video.frame_at 0 j).source_hash.last_hash = some h ∧
        empty_cache.raster_cache_.has h = false ∧
        ¬ ∃ k, s ≤ k ∧ k < j ∧ (long_video.frame_at 0 k).target_hash.output_hash = h :=
  ⟨999, FrameDependency.empty, 3, by decide!, by decide, 999, 7, by decide, by decide, rfl, rfl,
    fun ⟨_, h1, h2, _⟩ => absurd h2 (Nat.not_lt.2 h1)⟩

/-- C1, amended (`from_frame_index` at most `INT_MAX`): if `get_track_seek`,
started with an empty `FrameDependency`, returns start index `s` with a cost
other than `SIZE_MAX`, then `s <= from_frame_index` and, for every index `j` with
`s <= j <= from_frame_index`, every present source raster hash of frame `j` is in
the raster cache or is the output hash of a frame `k` with `s <= k < j`, and the
present source state hash of frame `j` is in the state cache or is the target
state hash of such a frame. -/
theorem track_seek_sound {R S : Type} (fuel : Nat) (video : AlfalfaVideoClient)
    (cache : RasterAndStateCache R S) (track_id from_frame_index : Nat)
    (hint : from_frame_index ≤ 2147483647) (s : Nat) (d : FrameDependency) (cost : Nat)
    (hseek : get_track_seek fuel video cache track_id from_frame_index FrameDependency.empty =
      Except.ok (s, d, cost))
    (hcost : cost ≠ SIZE_MAX) :
    s ≤ from_frame_index ∧
    ∀ j, s ≤ j → j ≤ from_frame_index →
      (∀ h, ((video.frame_at track_id j).source_hash.last_hash = some h ∨
            (video.frame_at track_id j).source_hash.golden_hash = some h ∨
            (video.frame_at track_id j).source_hash.alt_hash = some h) →
          cache.raster_cache_.has h = true ∨
            ∃ k, s ≤ k ∧ k < j ∧ (video.frame_at track_id k).target_hash.output_hash = h) ∧
      (∀ h, (video.frame_at track_id j).source_hash.state_hash = some h →
          cache.state_cache_.has h = true ∨
            ∃ k, s ≤ k ∧ k < j ∧ (video.frame_at track_id k).target_hash.state_hash = h) := by
  unfold get_track_seek at hseek
  rw [to_int_of_le _ hint] at hseek
  simp only at hseek
  cases hto : seek_to_frame_index (from_frame_index : Int) from_frame_index with
  | error e => rw [hto] at hseek; cases hseek
  | ok to_index =>
    rw [hto] at hseek
    simp only at hseek
    by_cases hlen : ((video.get_frames_reverse track_id from_frame_index to_index).length == 0)
        = true
    · simp only [hlen, if_true] at hseek
      cases hseek
      exact absurd rfl hcost
    · simp only [hlen] at hseek
      obtain ⟨count, hcount, hform⟩ :=
        get_frames_reverse_form video track_id from_frame_index to_index
      have hw := track_seek_while_sound video track_id cache from_frame_index hint fuel
        (video.get_frames_reverse track_id from_frame_index to_index) (from_frame_index : Int)
        FrameDependency.empty 0
        (Or.inr ⟨from_frame_index, count, rfl, hcount, le_refl _, hform, by
          intro j hj1 hj2; omega⟩) s d cost hseek hcost
      refine ⟨hw.1, ?_⟩
      intro j hj1 hj2
      constructor
      · intro h hh
        cases hc : cache.raster_cache_.has h with
        | true => exact Or.inl rfl
        | false =>
          right
          rcases hw.2 j hj1 hj2 _ (mem_source_vertices_raster _ h hh)
            (by simpa [RasterAndStateCache.has_vertex] using hc) with hm | ⟨k, hk1, hk2, hk3⟩
          · cases hm
          · refine ⟨k, hk1, hk2, ?_⟩
            simp [target_vertices] at hk3
            exact hk3.symm
      · intro h hh
        cases hc : cache.state_cache_.has h with
        | true => exact Or.inl rfl
        | false =>
          right
          rcases hw.2 j hj1 hj2 _ (mem_source_vertices_state _ h hh)
            (by simpa [RasterAndStateCache.has_vertex] using hc) with hm | ⟨k, hk1, hk2, hk3⟩
          · cases hm
          · refine ⟨k, hk1, hk2, ?_⟩
            simp [target_vertices] at hk3
            exact hk3.symm

/-- Witness for `track_seek_sound`: on the five-frame chain with an empty cache,
the seek from index 3 walks back to the key frame at index 0 at a cost of 25
bytes; the source raster 101 of frame 2 is not cached and is the output of a
frame of index in `[0, 2)`. -/
theorem track_seek_sound_witness :
    ∃ s d cost, get_track_seek 2 chain_video empty_cache 0 3 FrameDependency.empty =
        Except.ok (s, d, cost) ∧ s = 0 ∧ cost = 25 ∧
      (chain_video.frame_at 0 2).source_hash.last_hash = some 101 ∧
      (empty_cache.raster_cache_.has 101 = true ∨
        ∃ k, s ≤ k ∧ k < 2 ∧ (chain_video.frame_at 0 k).target_hash.output_hash = 101) :=
  ⟨0, _, 25, rfl, rfl, rfl, rfl,
    ((track_seek_sound 2 chain_video empty_cache 0 3 (by decide) 0 _ 25 rfl (by decide)).2
      2 (by decide) (by decide)).1 101 (Or.inl rfl)⟩

/-- C2 at the failing input: raster 50 is reached by two switches.  The first
needs a track seek, which fails; the second resolves by itself at a cost of 10
bytes (third conjunct), so the minimum over the feasible candidates is 10.  With
the switches in this order `get_min_switch_seek` returns cost `SIZE_MAX` (the
`break` at line 221 leaves the loop over the switches); with the two switches
exchanged it returns cost 10. -/
theorem min_switch_seek_break_skips_feasible :
    (get_min_switch_seek 2 (switch_video [unresolvable_switch, key_switch]) empty_cache 50).map
        (fun r => r.1.cost) = Except.ok SIZE_MAX ∧
      (get_track_seek 2 (switch_video [unresolvable_switch, key_switch]) empty_cache
          unresolvable_switch.from_track_id unresolvable_switch.from_frame_index
          (switch_walk empty_cache unresolvable_switch.frames 0 FrameDependency.empty
            unresolvable_switch.switch_start_index).2.1).map (fun r => r.2.2) =
        Except.ok SIZE_MAX ∧
      ((switch_walk empty_cache key_switch.frames 0 FrameDependency.empty
          key_switch.switch_start_index).2.1.all_resolved = true ∧
        (switch_walk empty_cache key_switch.frames 0 FrameDependency.empty
          key_switch.switch_start_index).1 = 10) ∧
      (get_min_switch_seek 2 (switch_video [key_switch, unresolvable_switch]) empty_cache 50).map
        (fun r => r.1.cost) = Except.ok 10 := by
  refine ⟨by decide, by decide, ⟨by decide, by decide⟩, by decide⟩

/-- When `get_track_seek` returns for every candidate enumerated for
`output_hash` (the frame indices being `size_t` values), `get_min_track_seek`
returns a path whose cost is at most `SIZE_MAX` and at most the cost of every
candidate, and is `SIZE_MAX` or the cost of a candidate; when it is below
`SIZE_MAX` the path is that of the first candidate in enumeration order that
attains it, with `start_index` the start that candidate's seek resolved and
`end_index` its `frame_index + 1`, and the returned dependencies are those of
that seek. -/
theorem min_track_seek_optimal {R S : Type} (fuel : Nat) (video : AlfalfaVideoClient)
    (cache : RasterAndStateCache R S) (output_hash : Nat)
    (hret : ∀ td ∈ track_seek_candidates video output_hash,
      ∃ r, get_track_seek fuel video cache td.track_id td.frame_index
        FrameDependency.empty = Except.ok r)
    (hsize : ∀ td ∈ track_seek_candidates video output_hash, td.frame_index ≤ SIZE_MAX) :
    ∃ path deps, get_min_track_seek fuel video cache output_hash = Except.ok (path, deps) ∧
      path.cost ≤ SIZE_MAX ∧
      (∀ td ∈ track_seek_candidates video output_hash, ∀ r,
        get_track_seek fuel video cache td.track_id td.frame_index FrameDependency.empty =
          Except.ok r → path.cost ≤ r.2.2) ∧
      (path.cost = SIZE_MAX ∨ ∃ td ∈ track_seek_candidates video output_hash, ∃ r,
        get_track_seek fuel video cache td.track_id td.frame_index FrameDependency.empty =
          Except.ok r ∧ r.2.2 = path.cost) ∧
      (path.cost < SIZE_MAX →
        ∃ before td after r, track_seek_candidates video output_hash = before ++ td :: after ∧
          get_track_seek fuel video cache td.track_id td.frame_index FrameDependency.empty =
            Except.ok r ∧
          r.2.2 = path.cost ∧
          (∀ td1 ∈ before, ∀ r1,
            get_track_seek fuel video cache td1.track_id td1.frame_index
              FrameDependency.empty = Except.ok r1 → path.cost < r1.2.2) ∧
          path = { track_id := td.track_id, start_index := r.1
                   end_index := td.frame_index + 1, cost := r.2.2 } ∧
          deps = r.2.1) := by
  have hinit : MinTrackInv fuel video cache []
      (SIZE_MAX, { track_id := 0, start_index := 0, end_index := 0, cost := SIZE_MAX },
        FrameDependency.empty) :=
    ⟨rfl, le_refl _, by simp, fun h => absurd h (lt_irrefl _)⟩
  obtain ⟨st, hst, hinv⟩ := min_track_seek_outer_inv fuel video cache
    (video.frames_by_output_hash output_hash) [] _ hinit hret
  obtain ⟨min_cost, path, deps⟩ := st
  obtain ⟨h1, h2, h3, h4⟩ := hinv
  simp only [List.nil_append] at h1 h2 h3 h4
  have hfirst : path.cost < SIZE_MAX →
      ∃ before td after r, track_seek_candidates video output_hash = before ++ td :: after ∧
        get_track_seek fuel video cache td.track_id td.frame_index FrameDependency.empty =
          Except.ok r ∧
        r.2.2 = path.cost ∧
        (∀ td1 ∈ before, ∀ r1,
          get_track_seek fuel video cache td1.track_id td1.frame_index
            FrameDependency.empty = Except.ok r1 → path.cost < r1.2.2) ∧
        path = { track_id := td.track_id, start_index := r.1
                 end_index := td.frame_index + 1, cost := r.2.2 } ∧
        deps = r.2.1 := by
    intro hc
    rw [h1] at hc ⊢
    obtain ⟨before, td, after, r, e1, e2, e3, e4, e5, e6⟩ := h4 hc
    refine ⟨before, td, after, r, e1, e2, e3, e4, ?_, e6⟩
    rw [e5]
    have hmem : td ∈ track_seek_candidates video output_hash := by
      unfold track_seek_candidates; rw [e1]; simp
    have hle := hsize td hmem
    have hne : td.frame_index ≠ SIZE_MAX := by
      intro heq
      have hneg : to_int td.frame_index < 0 := by rw [heq]; exact to_int_max_negative
      have := get_track_seek_cost_of_negative fuel video cache _ _ _ r hneg e2
      omega
    have : size_add td.frame_index 1 = td.frame_index + 1 := by
      unfold size_add SIZE_MOD
      unfold SIZE_MAX at hle hne
      exact Nat.mod_eq_of_lt (by omega)
    rw [this]
  refine ⟨path, deps, ?_, ?_, ?_, ?_, hfirst⟩
  · simp only [get_min_track_seek, hst]
  · rw [h1]; exact h2
  · intro td htd r hr
    rw [h1]; exact h3 td htd r hr
  · by_cases hc : path.cost < SIZE_MAX
    · obtain ⟨before, td, after, r, e1, e2, e3, _⟩ := hfirst hc
      exact Or.inr ⟨td, by rw [e1]; simp, r, e2, e3⟩
    · left
      rw [h1] at hc ⊢
      omega

/-- An instance of `min_track_seek_optimal`: on the five-frame chain, raster 103
has the single candidate (track 0, index 3), whose seek returns start 0 at cost
25; `get_min_track_seek` returns the path from 0 to 4 with that cost. -/
theorem min_track_seek_optimal_witness :
    ∃ path deps, get_min_track_seek 2 chain_video empty_cache 103 = Except.ok (path, deps) ∧
      path = { track_id := 0, start_index := 0, end_index := 4, cost := 25 } := by
  obtain ⟨path, deps, h1, _, _, _, h5⟩ := min_track_seek_optimal 2 chain_video empty_cache 103
    (by
      intro td htd
      have : td = { track_id := 0, frame_index := 3 } := by
        simpa [track_seek_candidates, chain_video, inter_frame] using htd
      subst this
      exact ⟨_, rfl⟩)
    (by
      intro td htd
      have : td = { track_id := 0, frame_index := 3 } := by
        simpa [track_seek_candidates, chain_video, inter_frame] using htd
      subst this
      decide)
  refine ⟨path, deps, h1, ?_⟩
  have h6 : (get_min_track_seek 2 chain_video empty_cache 103).map Prod.fst =
      Except.ok { track_id := 0, start_index := 0, end_index := 4, cost := 25 } := by decide
  rw [h1] at h6
  exact Except.ok.inj h6

/-- The returned raster and the final player of `get_raster`, given that both
planners return: those of the case of the `switch` statement, run on the
player's video and cache. -/
theorem get_raster_fst {R S K : Type} (fuel : Nat) (ext : Collaborators R S K)
    (player : AlfalfaPlayer R S K) (output_hash : Nat) (verbose : Bool)
    (t : TrackPath × FrameDependency) (s : SwitchPath × Option TrackPath × FrameDependency)
    (ht : get_min_track_seek fuel player.video_ player.cache_ output_hash = Except.ok t)
    (hs : get_min_switch_seek fuel player.video_ player.cache_ output_hash = Except.ok s) :
    (get_raster fuel ext player output_hash PathType.TRACK_PATH verbose).map Prod.fst =
        (get_raster_case_track fuel ext player.video_ player.cache_ output_hash false).map
          (fun r => (r.1.1, { player with cache_ := r.1.2 })) ∧
    (get_raster fuel ext player output_hash PathType.SWITCH_PATH verbose).map Prod.fst =
        (get_raster_case_switch fuel ext player.video_ player.cache_ output_hash false).map
          (fun r => (r.1.1, { player with cache_ := r.1.2 })) ∧
    (get_raster fuel ext player output_hash PathType.MINIMUM_PATH verbose).map Prod.fst =
        if t.1.cost ≤ s.1.cost then
          (get_raster_case_track fuel ext player.video_ player.cache_ output_hash false).map
            (fun r => (r.1.1, { player with cache_ := r.1.2 }))
        else
          (get_raster_case_switch fuel ext player.video_ player.cache_ output_hash false).map
            (fun r => (r.1.1, { player with cache_ := r.1.2 })) := by
  have hv : ∃ printed, get_raster_verbose fuel player.video_ player.cache_ output_hash verbose =
      Except.ok printed := by
    unfold get_raster_verbose
    cases verbose with
    | false => exact ⟨_, rfl⟩
    | true => simp only [ht, hs, if_true]; exact ⟨_, rfl⟩
  obtain ⟨printed, hp⟩ := hv
  refine ⟨?_, ?_, ?_⟩
  · simp only [get_raster, hp, get_raster_case_track]
    cases get_raster_track_path fuel ext player.video_ player.cache_ output_hash <;> rfl
  · simp only [get_raster, hp, get_raster_case_switch]
    cases get_raster_switch_path fuel ext player.video_ player.cache_ output_hash <;> rfl
  · simp only [get_raster, hp, ht, hs]
    by_cases hc : t.1.cost ≤ s.1.cost
    · simp only [hc, if_true]
      cases get_raster_case_track fuel ext player.video_ player.cache_ output_hash false <;> rfl
    · simp only [hc, if_false]
      cases get_raster_case_switch fuel ext player.video_ player.cache_ output_hash false <;> rfl

/-- C4: when both planners return, `get_raster( output_hash, MINIMUM_PATH )`
yields the same optional raster (or the same failure) and the same final player
as `get_raster( output_hash, TRACK_PATH )` if the cost of the minimum track seek
is at most the cost of the minimum switch seek, and the same as
`get_raster( output_hash, SWITCH_PATH )` otherwise, whatever the `verbose` flags
of the two calls. -/
theorem get_raster_minimum_path {R S K : Type} (fuel : Nat) (ext : Collaborators R S K)
    (player : AlfalfaPlayer R S K) (output_hash : Nat) (verbose1 verbose2 : Bool)
    (t : TrackPath × FrameDependency) (s : SwitchPath × Option TrackPath × FrameDependency)
    (ht : get_min_track_seek fuel player.video_ player.cache_ output_hash = Except.ok t)
    (hs : get_min_switch_seek fuel player.video_ player.cache_ output_hash = Except.ok s) :
    (get_raster fuel ext player output_hash PathType.MINIMUM_PATH verbose1).map Prod.fst =
      (get_raster fuel ext player output_hash
        (if t.1.cost ≤ s.1.cost then PathType.TRACK_PATH else PathType.SWITCH_PATH)
        verbose2).map Prod.fst := by
  obtain ⟨_, _, h3⟩ := get_raster_fst fuel ext player output_hash verbose1 t s ht hs
  obtain ⟨h1, h2, _⟩ := get_raster_fst fuel ext player output_hash verbose2 t s ht hs
  rw [h3]
  by_cases hc : t.1.cost ≤ s.1.cost
  · simp only [hc, if_true]; exact h1.symm
  · simp only [hc, if_false]; exact h2.symm

/-- Witness for `get_raster_minimum_path`: on the five-frame chain with empty
caches, the minimum track seek for raster 103 costs 25 and there is no switch
(cost `SIZE_MAX`), so the minimum path is the track path; it decodes the frames
0 to 3 and returns raster 103. -/
theorem get_raster_minimum_path_witness :
    (get_raster 3 hash_collaborators chain_player 103 PathType.MINIMUM_PATH true).map
        (fun r => r.1.1) = Except.ok (some 103) ∧
      (get_raster 3 hash_collaborators chain_player 103 PathType.MINIMUM_PATH true).map
          Prod.fst =
        (get_raster 3 hash_collaborators chain_player 103 PathType.TRACK_PATH false).map
          Prod.fst :=
  ⟨by decide,
   get_raster_minimum_path 3 hash_collaborators chain_player 103 true false
    ({ track_id := 0, start_index := 0, end_index := 4, cost := 25 },
     { ref_counter_ :=
         [({ type := DependencyType.RASTER, hash := 102 }, 1),
          ({ type := DependencyType.RASTER, hash := 101 }, 1),
          ({ type := DependencyType.RASTER, hash := 100 }, 1)]
       unresolved_ := [] })
    ({ from_track_id := 0, to_track_id := 0, from_frame_index := 0, to_frame_index := 0
       switch_start_index := 0, switch_end_index := 0, cost := SIZE_MAX },
     none, FrameDependency.empty)
    (by decide) (by decide)⟩

theorem size_t_to_double_nonneg (n : Nat) : (0 : ℚ) ≤ size_t_to_double n := by
  unfold size_t_to_double
  simp only
  split <;> exact Nat.cast_nonneg _

/-- The initial `min_ssim` of the `get_frame_seq` overloads, `(double) SIZE_MAX`,
is the conversion of `SIZE_MAX`; small values are converted exactly. -/
theorem size_t_to_double_size_max :
    size_t_to_double SIZE_MAX = SIZE_MAX_AS_DOUBLE ∧ size_t_to_double 0 = 0 ∧
      size_t_to_double 1000 = 1000 ∧
      size_t_to_double 9007199254740993 = 9007199254740992 ∧
      size_t_to_double 9007199254740995 = 9007199254740996 := by
  refine ⟨by decide!, by decide!, by decide!, by decide!, by decide!⟩

/-- Within the range of `size_t` the conversion is the truncation, whatever is
stored outside the range. -/
theorem double_to_size_t_in_range (f g : ℚ → Nat) (x : ℚ) (h0 : 0 ≤ x)
    (h1 : x < SIZE_MAX_AS_DOUBLE) : double_to_size_t f x = double_to_size_t g x := by
  unfold double_to_size_t
  simp only [h0, if_true]
  have hf0 : (0 : Int) ≤ Int.floor x := Int.floor_nonneg.2 h0
  have hf1 : Int.floor x ≤ (SIZE_MAX : Int) := by
    have : Int.floor x < (18446744073709551616 : Int) := by
      rw [Int.floor_lt]
      unfold SIZE_MAX_AS_DOUBLE at h1
      exact_mod_cast h1
    unfold SIZE_MAX
    push_cast
    omega
  simp only [hf0, hf1, and_self, if_true]

/-- The loop at lines 824-829 does not depend on what the conversion stores
outside the range of `size_t` when no option carries a `min_ssim` of `2^64` or
more. -/
theorem optimal_frame_sequence_in_range (f g : ℚ → Nat) :
    ∀ (options : List FrameSequence) (i index cost : Nat),
      (∀ o ∈ options, o.min_ssim < SIZE_MAX_AS_DOUBLE) →
      optimal_frame_sequence f options i index cost =
        optimal_frame_sequence g options i index cost := by
  intro options
  induction options with
  | nil => intro i index cost _; rfl
  | cons option rest ih =>
    intro i index cost hdef
    have hrest : ∀ o ∈ rest, o.min_ssim < SIZE_MAX_AS_DOUBLE :=
      fun o ho => hdef o (List.mem_cons_of_mem _ ho)
    simp only [optimal_frame_sequence]
    by_cases hgt : option.min_ssim > size_t_to_double cost
    · simp only [hgt, if_true]
      have hpos : (0 : ℚ) ≤ option.min_ssim :=
        le_of_lt (lt_of_le_of_lt (size_t_to_double_nonneg cost) hgt)
      rw [double_to_size_t_in_range f g option.min_ssim hpos
        (hdef option (List.mem_cons_self _ _))]
      exact ih (i + 1) i _ hrest
    · simp only [hgt, if_false]
      exact ih (i + 1) index cost hrest

theorem set_current_frame_seq_from_in_range {R S K : Type} (f g : ℚ → Nat)
    (player : AlfalfaPlayer R S K) (options : List FrameSequence) (dri_to_seek : Option Nat)
    (hdef : ∀ o ∈ options, o.min_ssim < SIZE_MAX_AS_DOUBLE) :
    set_current_frame_seq_from f player options dri_to_seek =
      set_current_frame_seq_from g player options dri_to_seek := by
  unfold set_current_frame_seq_from
  rw [optimal_frame_sequence_in_range f g options 0 0 0 hdef]

/-- The index that the loop at lines 824-829 ends with is the initial one or
that of an option. -/
theorem optimal_frame_sequence_index_lt (out_of_range : ℚ → Nat) :
    ∀ (options : List FrameSequence) (i index cost : Nat),
      index < i + options.length →
      (optimal_frame_sequence out_of_range options i index cost).1 < i + options.length := by
  intro options
  induction options with
  | nil => intro i index cost h; exact h
  | cons option rest ih =>
    intro i index cost h
    simp only [optimal_frame_sequence, List.length_cons] at h ⊢
    split
    · have := ih (i + 1) i (double_to_size_t out_of_range option.min_ssim) (by omega)
      omega
    · have := ih (i + 1) index cost (by omega)
      omega

/-- The swap-in of lines 831-851 without `dri_to_seek`, for play options that
are not empty. -/
theorem set_current_frame_seq_from_sequential {R S K : Type} (out_of_range : ℚ → Nat)
    (player : AlfalfaPlayer R S K) (options : List FrameSequence) (hne : options ≠ []) :
    ∃ chosen,
      options[(optimal_frame_sequence out_of_range options 0 0 0).1]? = some chosen ∧
      set_current_frame_seq_from out_of_range player options none =
        Except.ok { player with
          current_frame_seq_ :=
            player.current_frame_seq_.take player.current_download_pt_index_ ++
              chosen.frame_seq } := by
  have hlen : 0 < options.length := List.length_pos.2 hne
  have hidx : (optimal_frame_sequence out_of_range options 0 0 0).1 < options.length := by
    have := optimal_frame_sequence_index_lt out_of_range options 0 0 0 (by omega)
    omega
  refine ⟨options[(optimal_frame_sequence out_of_range options 0 0 0).1],
    List.getElem?_eq_getElem hidx, ?_⟩
  have hl : ¬ options.length = 0 := by omega
  simp only [set_current_frame_seq_from, hl, if_false, List.getElem?_eq_getElem hidx,
    Option.isSome_none, Bool.false_eq_true]

/-- C5 at the failing input: for the options `[A, B]` the loop ends at index 1
(`B`), and for `[B, A]` it also ends at index 1, which is `A`, the option with
the smaller `min_ssim`; `optimal_cost` is 0 at the end of both runs, and
`set_current_frame_seq` adopts the frames of `A` for `[B, A]`.  Both values of
`min_ssim` are within the range of `size_t`, so nothing depends on
`out_of_range`. -/
theorem quality_choice_takes_last_positive (out_of_range : ℚ → Nat) :
    optimal_frame_sequence out_of_range [option_a, option_b] 0 0 0 = (1, 0) ∧
      optimal_frame_sequence out_of_range [option_b, option_a] 0 0 0 = (1, 0) ∧
      (set_current_frame_seq_from out_of_range chain_player [option_b, option_a] none).map
          (fun player => player.current_frame_seq_) = Except.ok option_a.frame_seq ∧
      option_a.min_ssim < option_b.min_ssim := by
  have hab : ∀ o ∈ [option_a, option_b], o.min_ssim < SIZE_MAX_AS_DOUBLE := by decide!
  have hba : ∀ o ∈ [option_b, option_a], o.min_ssim < SIZE_MAX_AS_DOUBLE := by decide!
  rw [optimal_frame_sequence_in_range out_of_range (fun _ => 0) _ 0 0 0 hab,
    optimal_frame_sequence_in_range out_of_range (fun _ => 0) _ 0 0 0 hba,
    set_current_frame_seq_from_in_range out_of_range (fun _ => 0) _ _ _ hba]
  refine ⟨by decide!, by decide!, by decide!, by decide!⟩

theorem feasibility_frames_length_le {R S K : Type} (player : AlfalfaPlayer R S K)
    (P : List FrameInfoWrapper) :
    (feasibility_frames player P).length ≤
      (player.current_download_pt_index_ - player.current_playhead_index_) + P.length := by
  unfold feasibility_frames
  simp only [List.length_append, List.length_map, List.length_take]
  omega

theorem determine_feasibility_eq_scan {R S K : Type} (player : AlfalfaPlayer R S K)
    (P : List FrameInfoWrapper) (t : Nat)
    (hidx : player.current_download_pt_index_ ≤ player.current_frame_seq_.length ∨
      player.current_download_pt_index_ ≤ player.current_playhead_index_) :
    determine_feasibility player P t =
      Except.ok (feasibility_scan player.frame_cache_ t (feasibility_frames player P)
        (to_long player.downloaded_frame_bytes_)) := by
  unfold determine_feasibility
  rw [feasibility_while_eq_scan player P t _ _ _ 0 hidx (by omega)]
  simp [feasibility_frames]

/-- A check that answers `true` has read every queued frame, so the queued part
lies inside `current_frame_seq_`. -/
theorem feasibility_while_true_index {R S K : Type} (player : AlfalfaPlayer R S K)
    (P : List FrameInfoWrapper) (t : Nat) :
    ∀ (fuel : Nat) (b : Int) (ti pi : Nat),
      ti < player.current_download_pt_index_ →
      player.current_frame_seq_.length < player.current_download_pt_index_ →
      feasibility_while player P t fuel b ti pi ≠ Except.ok true := by
  intro fuel
  induction fuel with
  | zero =>
    intro b ti pi _ _ h
    simp [feasibility_while] at h
  | succ fuel ih =>
    intro b ti pi h1 h2 h
    simp only [feasibility_while, h1, true_or, if_true] at h
    cases hget : player.current_frame_seq_[ti]? with
    | none => rw [hget] at h; cases h
    | some w =>
      rw [hget] at h
      simp only at h
      split at h
      · cases h
      · have hlt : ti < player.current_frame_seq_.length := by
          by_contra hc
          rw [List.getElem?_eq_none (by omega)] at hget
          cases hget
        exact ih _ (ti + 1) pi (by omega) h2 h

/-- The answer of `determine_feasibility` against the reference buffer levels,
with the queued part inside `current_frame_seq_` and no overflow. -/
theorem determine_feasibility_iff {R S K : Type} (player : AlfalfaPlayer R S K)
    (P : List FrameInfoWrapper) (t : Nat)
    (hidx : player.current_download_pt_index_ ≤ player.current_frame_seq_.length ∨
      player.current_download_pt_index_ ≤ player.current_playhead_index_)
    (hno : FeasibilityNoOverflow player.frame_cache_ t (player.downloaded_frame_bytes_ : Int)
      (feasibility_frames player P)) :
    ∃ b, determine_feasibility player P t = Except.ok b ∧
      (b = true ↔ ∀ k, 1 ≤ k → k ≤ (feasibility_frames player P).length →
        0 ≤ buffer_after player.frame_cache_ t (player.downloaded_frame_bytes_ : Int)
          (feasibility_frames player P) k) := by
  refine ⟨_, determine_feasibility_eq_scan player P t hidx, ?_⟩
  rw [to_long_natCast _ hno.2.1]
  exact feasibility_scan_iff player.frame_cache_ t _ _ hno

/-- C6: with the queued part inside `current_frame_seq_` and no overflow,
`determine_feasibility( P, t )` returns, and returns `true` exactly when
`downloaded_frame_bytes + k * t - (lengths of the uncached frames among F_1 .. F_k)`
is non-negative for every `k` from 1 to `n`.  And with `downloaded_frame_bytes`
0, throughput 1000, no queued frame and a candidate whose first frame is
uncached and 5000 bytes long, it returns `false`. -/
theorem determine_feasibility_reference {R S K : Type} (player : AlfalfaPlayer R S K)
    (P : List FrameInfoWrapper) (t : Nat) :
    ((player.current_download_pt_index_ ≤ player.current_frame_seq_.length ∨
        player.current_download_pt_index_ ≤ player.current_playhead_index_) →
      FeasibilityNoOverflow player.frame_cache_ t (player.downloaded_frame_bytes_ : Int)
        (feasibility_frames player P) →
      ∃ b, determine_feasibility player P t = Except.ok b ∧
        (b = true ↔ ∀ k, 1 ≤ k → k ≤ (feasibility_frames player P).length →
          0 ≤ buffer_after player.frame_cache_ t (player.downloaded_frame_bytes_ : Int)
            (feasibility_frames player P) k)) ∧
    (player.downloaded_frame_bytes_ = 0 →
      player.current_download_pt_index_ ≤ player.current_playhead_index_ →
      ∀ w rest, P = w :: rest → w.frame_info.length = 5000 →
        player.frame_cache_.has w.frame_info.frame_id = false →
        determine_feasibility player P 1000 = Except.ok false) := by
  constructor
  · exact determine_feasibility_iff player P t
  · intro hd hq w rest hP hlen hhas
    have hn : ¬ player.current_playhead_index_ < player.current_download_pt_index_ := by omega
    subst hP
    have hstep : feasibility_step player.frame_cache_ 1000 (to_long 0) w.frame_info.frame_id
        5000 = -4000 := by
      simp only [feasibility_step, hhas, Bool.not_false, if_true]
      decide
    unfold determine_feasibility
    rw [feasibility_while]
    simp only [hn, List.length_cons, Nat.zero_lt_succ, or_true, if_true, if_false,
      List.getElem?_cons_zero, hlen, hd, hstep]
    rfl

/-- Witness for `determine_feasibility_reference`: with nothing downloaded and
nothing queued, the candidate of 900, 100 and 100 bytes passes the no-overflow
condition at throughput 1000, and the candidate of scenario S4 (5000, 100 and
100 bytes) is rejected. -/
theorem determine_feasibility_reference_witness :
    (∃ b, determine_feasibility chain_player light_candidate 1000 = Except.ok b ∧
      (b = true ↔ ∀ k, 1 ≤ k → k ≤ (feasibility_frames chain_player light_candidate).length →
        0 ≤ buffer_after chain_player.frame_cache_ 1000
          (chain_player.downloaded_frame_bytes_ : Int)
          (feasibility_frames chain_player light_candidate) k)) ∧
      determine_feasibility chain_player heavy_candidate 1000 = Except.ok false :=
  ⟨(determine_feasibility_reference chain_player light_candidate 1000).1 (Or.inl (by decide))
      ⟨by decide, by decide, fun k hk => by
        have h3 : k < 3 := hk
        interval_cases k <;> decide⟩,
    (determine_feasibility_reference chain_player heavy_candidate 1000).2 rfl (by decide)
      _ _ rfl rfl rfl⟩

theorem buffer_after_mono {K : Type} (frame_cache : LRUCache K) (t1 t2 : Nat) (h : t1 ≤ t2)
    (b : Int) (frames : List FrameInfo) (k : Nat) :
    buffer_after frame_cache t1 b frames k ≤ buffer_after frame_cache t2 b frames k := by
  unfold buffer_after
  have h1 : (k : Int) * (t1 : Int) ≤ (k : Int) * (t2 : Int) :=
    Int.mul_le_mul_of_nonneg_left (by exact_mod_cast h) (by positivity)
  omega

/-- C7: if `determine_feasibility( P, t )` is true and `t <= t'`, with no
overflow at either throughput, then `determine_feasibility( P, t' )` is true. -/
theorem determine_feasibility_monotone {R S K : Type} (player : AlfalfaPlayer R S K)
    (P : List FrameInfoWrapper) (t1 t2 : Nat) (hle : t1 ≤ t2)
    (hno1 : FeasibilityNoOverflow player.frame_cache_ t1 (player.downloaded_frame_bytes_ : Int)
      (feasibility_frames player P))
    (hno2 : FeasibilityNoOverflow player.frame_cache_ t2 (player.downloaded_frame_bytes_ : Int)
      (feasibility_frames player P))
    (h : determine_feasibility player P t1 = Except.ok true) :
    determine_feasibility player P t2 = Except.ok true := by
  have hidx : player.current_download_pt_index_ ≤ player.current_frame_seq_.length ∨
      player.current_download_pt_index_ ≤ player.current_playhead_index_ := by
    by_contra hc
    simp only [not_or, not_le] at hc
    exact feasibility_while_true_index player P t1 _ _ _ 0 hc.2 hc.1 h
  obtain ⟨b1, hb1, hiff1⟩ := determine_feasibility_iff player P t1 hidx hno1
  obtain ⟨b2, hb2, hiff2⟩ := determine_feasibility_iff player P t2 hidx hno2
  rw [hb1] at h
  have hb : b1 = true := Except.ok.inj h
  have hall := hiff1.1 hb
  have : b2 = true := by
    rw [hiff2]
    intro k hk1 hk2
    exact le_trans (hall k hk1 hk2) (buffer_after_mono _ _ _ hle _ _ _)
  rw [hb2, this]

/-- Witness for `determine_feasibility_monotone`: the candidate of 900, 100 and
100 bytes is feasible at throughput 1000 and so at throughput 2000. -/
theorem determine_feasibility_monotone_witness :
    determine_feasibility chain_player light_candidate 1000 = Except.ok true ∧
      determine_feasibility chain_player light_candidate 2000 = Except.ok true :=
  ⟨by decide,
    determine_feasibility_monotone chain_player light_candidate 1000 2000 (by decide)
      ⟨by decide, by decide, fun k hk => by
        have h3 : k < 3 := hk
        interval_cases k <;> decide⟩
      ⟨by decide, by decide, fun k hk => by
        have h3 : k < 3 := hk
        interval_cases k <;> decide⟩
      (by decide)⟩

/-- C8, as stated (any capacity): a cache of capacity 0 holds one entry after
its first `put`, so `size() <= capacity` fails. -/
theorem lru_capacity_zero_exceeds :
    ∃ c, (LRUCache.empty 0 : LRUCache Nat).run [LRUOp.put 1 7] = Except.ok c ∧
      ¬ c.size ≤ 0 :=
  ⟨{ cache_capacity := 0, cached_items_ := [], cache_ := [(1, (7, none))], fresh_node_ := 1 },
    rfl, by decide⟩

/-- C8, amended (capacity at least 1): after any sequence of `put` and `get`
operations on an initially empty cache that ran without a `get` of an absent
key, `size()` is at most the capacity; and from there every `put` and every
`get` of a present key succeeds and again leaves `size()` at most the
capacity. -/
theorem lru_size_le_capacity {α : Type} (capacity : Nat) (hcap : 1 ≤ capacity)
    (ops : List (LRUOp α)) (c : LRUCache α)
    (hrun : (LRUCache.empty capacity : LRUCache α).run ops = Except.ok c) :
    c.size ≤ capacity ∧
      (∀ key obj, ∃ c1, c.put key obj = Except.ok c1 ∧ c1.size ≤ capacity) ∧
      (∀ key, c.has key = true → ∃ r, c.get key = Except.ok r ∧ r.2.size ≤ capacity) := by
  obtain ⟨hwf, hc, _⟩ := LRUCache.run_empty_wf capacity hcap ops c hrun
  refine ⟨hc ▸ hwf.size_le, ?_, ?_⟩
  · intro key obj
    obtain ⟨c1, hput, hwf1, hcap1, _⟩ := LRUCache.put_wf c hwf key obj
    exact ⟨c1, hput, by rw [← hc, ← hcap1]; exact hwf1.size_le⟩
  · intro key hkey
    cases hf : map_find c.cache_ key with
    | none => simp [LRUCache.has, hf] at hkey
    | some item =>
      obtain ⟨c1, hget, hwf1, hcap1, _⟩ := LRUCache.get_spec c hwf key item hf
      exact ⟨_, hget, by rw [← hc, ← hcap1]; exact hwf1.size_le⟩

/-- Witness for `lru_size_le_capacity`: capacity 2 and four operations, the
last of which evicts. -/
theorem lru_size_le_capacity_witness :
    ∃ c, (LRUCache.empty 2 : LRUCache Nat).run
        [LRUOp.put 1 10, LRUOp.put 2 20, LRUOp.get 1, LRUOp.put 3 30] = Except.ok c ∧
      c.size ≤ 2 :=
  ⟨{ cache_capacity := 2, cached_items_ := [(3, 3), (2, 1)]
     cache_ := [(1, (10, some 2)), (3, (30, some 3))], fresh_node_ := 4 }, rfl,
   (lru_size_le_capacity 2 (by decide)
      [LRUOp.put 1 10, LRUOp.put 2 20, LRUOp.get 1, LRUOp.put 3 30] _ rfl).1⟩

/-- C9 at the failing input: in a cache of capacity 2, after `put( 5, 10 )` and
`put( 5, 20 )` the call `get( 5 )` returns 10, the value stored first. -/
theorem lru_put_present_keeps_old_value :
    ∃ c1 c2 r, (LRUCache.empty 2 : LRUCache Nat).put 5 10 = Except.ok c1 ∧
      c1.put 5 20 = Except.ok c2 ∧ c2.has 5 = true ∧ c2.get 5 = Except.ok r ∧ r.1 = 10 :=
  ⟨{ cache_capacity := 2, cached_items_ := [(0, 5)], cache_ := [(5, (10, some 0))]
     fresh_node_ := 1 },
   { cache_capacity := 2, cached_items_ := [(1, 5)], cache_ := [(5, (10, some 1))]
     fresh_node_ := 2 },
   (10, { cache_capacity := 2, cached_items_ := [(2, 5)], cache_ := [(5, (10, some 2))]
          fresh_node_ := 3 }),
   rfl, rfl, rfl, rfl, rfl⟩

/-- C10: in a cache of capacity at least 1 reached from the empty cache by the
operations `ops` and holding `capacity` entries, `put( key, obj )` of an absent
key succeeds and evicts exactly the key `lru` at the back of the recency list,
which is the present key whose latest use is the oldest; every other key that
was present stays present with its object, `key` is present with `obj`, nothing
else is present, and the size is again the capacity. -/
theorem lru_put_evicts_least_recently_used {α : Type} (capacity : Nat) (hcap : 1 ≤ capacity)
    (ops : List (LRUOp α)) (c : LRUCache α)
    (hrun : (LRUCache.empty capacity : LRUCache α).run ops = Except.ok c)
    (hsize : c.size = capacity) (key : Nat) (obj : α) (habsent : c.has key = false) :
    ∃ c1 lru, c.put key obj = Except.ok c1 ∧
      c.recency.getLast? = some lru ∧ c.has lru = true ∧ c1.has lru = false ∧
      (∀ k, c.has k = true → k ≠ lru → last_use_age ops k < last_use_age ops lru) ∧
      (∀ k, c.has k = true → k ≠ lru → c1.has k = true ∧ c1.peek k = c.peek k) ∧
      c1.has key = true ∧ c1.peek key = some obj ∧
      (∀ k, c1.has k = true → k = key ∨ (c.has k = true ∧ k ≠ lru)) ∧
      c1.size = capacity := by
  obtain ⟨hwf, hc, haged⟩ := LRUCache.run_empty_wf capacity hcap ops c hrun
  have hf : map_find c.cache_ key = none := by
    cases hm : map_find c.cache_ key with
    | none => rfl
    | some item => simp [LRUCache.has, hm] at habsent
  have hfull : c.cached_items_.length = c.cache_capacity := by
    rw [← hwf.size_eq, hsize, hc]
  obtain ⟨c1, lru, hput, hwf1, hcap1, hlast, hne, hlru, hrec, hkeys, hpeek⟩ :=
    LRUCache.put_absent_full c hwf key obj hf hfull
  have hhas : ∀ k, c1.has k = (if k = key then true else if k = lru then false else c.has k) := by
    intro k
    rw [← LRUCache.peek_isSome, hpeek k]
    by_cases h1 : k = key
    · simp [h1]
    · by_cases h2 : k = lru
      · subst h2
        simp [h1]
      · simp [h1, h2, LRUCache.peek_isSome]
  have hsplit : c.recency.dropLast ++ [lru] = c.recency :=
    List.dropLast_append_getLast? lru (by rw [hlast]; exact rfl)
  refine ⟨c1, lru, hput, hlast, (LRUCache.has_iff_mem_keys c lru).2 hlru, ?_, ?_, ?_, ?_, ?_, ?_, ?_⟩
  · rw [hhas]; simp [hne]
  · intro k hk hkl
    have hmem : k ∈ c.recency :=
      (hwf.mem_recency_iff k).2 ((LRUCache.has_iff_mem_keys c k).1 hk)
    rw [← hsplit] at hmem haged
    have hinit : k ∈ c.recency.dropLast := by
      rcases List.mem_append.1 hmem with hm | hm
      · exact hm
      · exact absurd (by simpa using hm) hkl
    exact (List.pairwise_append.1 haged).2.2 k hinit lru (by simp)
  · intro k hk hkl
    have hkk : k ≠ key := by
      intro e; rw [e, habsent] at hk; cases hk
    constructor
    · rw [hhas]; simp [hkk, hkl, hk]
    · rw [hpeek]; simp [hkk, hkl]
  · rw [hhas]; simp
  · rw [hpeek]; simp
  · intro k hk
    rw [hhas] at hk
    by_cases h1 : k = key
    · exact Or.inl h1
    · by_cases h2 : k = lru
      · subst h2
        simp [h1] at hk
      · simp only [h1, h2, if_false] at hk
        exact Or.inr ⟨hk, h2⟩
  · have h1 := hwf1.size_eq
    have h2 : c1.cached_items_.length = c1.recency.length := by simp [LRUCache.recency]
    have h3 : c.recency.length = c.cached_items_.length := by simp [LRUCache.recency]
    have h4 : c.recency.dropLast.length = c.recency.length - 1 := List.length_dropLast _
    rw [h1, h2, hrec, List.length_cons, h4, h3, hfull, hc]
    omega

/-- Witness for `lru_put_evicts_least_recently_used`: capacity 2, after
`put( 1 )`, `put( 2 )`, `get( 1 )` the key 2 is the least recently used, and
`put( 3 )` evicts it. -/
theorem lru_put_evicts_least_recently_used_witness :
    ∃ c c1, (LRUCache.empty 2 : LRUCache Nat).run
        [LRUOp.put 1 10, LRUOp.put 2 20, LRUOp.get 1] = Except.ok c ∧
      c.put 3 30 = Except.ok c1 ∧ c.recency.getLast? = some 2 ∧ c1.has 2 = false ∧
      c1.has 1 = true ∧ c1.has 3 = true ∧ c1.size = 2 := by
  have h := lru_put_evicts_least_recently_used 2 (by decide)
    [LRUOp.put 1 10, LRUOp.put 2 20, LRUOp.get 1]
    { cache_capacity := 2, cached_items_ := [(2, 1), (1, 2)]
      cache_ := [(1, (10, some 2)), (2, (20, some 1))], fresh_node_ := 3 }
    rfl rfl 3 30 rfl
  obtain ⟨c1, lru, h1, h2, _, h4, _, h6, h7, _, _, h10⟩ := h
  have hl : lru = 2 := by
    have : some lru = some 2 := h2.symm.trans rfl
    exact Option.some.inj this
  subst hl
  exact ⟨_, c1, rfl, h1, h2, h4, (h6 1 rfl (by decide)).1, h7, h10⟩

/-- C11: in a cache of capacity at least 1, `put( key, obj )` succeeds and leaves
`key` at the front of the recency list, followed by the other keys that remain,
in their old order; `get( key )` of a present key succeeds, returns the object
stored under `key`, leaves `key` at the front followed by the other keys in their
old order, and changes neither the set of keys nor any stored object. -/
theorem lru_recency_postcondition {α : Type} (capacity : Nat) (hcap : 1 ≤ capacity)
    (c : LRUCache α) (hreach : LRUCache.Reachable capacity c) (key : Nat) :
    (∀ obj, ∃ c1, c.put key obj = Except.ok c1 ∧
      c1.recency = key :: c.recency.filter (fun k => decide (k ≠ key) && c1.has k)) ∧
    (c.has key = true → ∃ obj c1, c.get key = Except.ok (obj, c1) ∧
      c.peek key = some obj ∧
      c1.recency = key :: c.recency.filter (fun k => decide (k ≠ key)) ∧
      (∀ k, c1.has k = c.has k) ∧ (∀ k, c1.peek k = c.peek k)) := by
  have hwf := (hreach.wf hcap).1
  constructor
  · intro obj
    obtain ⟨c1, hput, _, hrec⟩ := LRUCache.put_recency c hwf key obj
    exact ⟨c1, hput, hrec⟩
  · intro hhas
    cases hf : map_find c.cache_ key with
    | none => simp [LRUCache.has, hf] at hhas
    | some item =>
      obtain ⟨c1, hget, _, _, hrec, _, hpeek⟩ := LRUCache.get_spec c hwf key item hf
      refine ⟨item.1, c1, hget, by simp [LRUCache.peek, hf], hrec, ?_, hpeek⟩
      intro k
      rw [← LRUCache.peek_isSome, ← LRUCache.peek_isSome, hpeek]

/-- Witness for `lru_recency_postcondition`: in the cache of capacity 2 reached
by `put( 1 )`, `put( 2 )`, whose recency list is `[2, 1]`, a `put` of key 1
leaves the list `[1, 2]`. -/
theorem lru_recency_postcondition_witness :
    ∃ c c1 : LRUCache Nat,
      (LRUCache.empty 2 : LRUCache Nat).run [LRUOp.put 1 10, LRUOp.put 2 20] = Except.ok c ∧
      c.recency = [2, 1] ∧ c.put 1 11 = Except.ok c1 ∧ c1.recency = [1, 2] := by
  have hreach : LRUCache.Reachable 2
      ({ cache_capacity := 2, cached_items_ := [(1, 2), (0, 1)]
         cache_ := [(1, (10, some 0)), (2, (20, some 1))], fresh_node_ := 2 } : LRUCache Nat) :=
    LRUCache.Reachable.put _ _ 2 20
      (LRUCache.Reachable.put _ _ 1 10 LRUCache.Reachable.empty rfl) rfl
  obtain ⟨c1, hput, hrec⟩ := (lru_recency_postcondition 2 (by decide) _ hreach 1).1 11
  refine ⟨_, c1, rfl, rfl, hput, ?_⟩
  have hc1 : c1 = { cache_capacity := 2, cached_items_ := [(2, 1), (1, 2)]
                    cache_ := [(1, (10, some 2)), (2, (20, some 1))], fresh_node_ := 3 } :=
    (Except.ok.inj (hput.symm.trans rfl))
  rw [hc1]
  rfl

/-- C12: in a cache of capacity at least 1, `put( key, obj )` followed by
`put( key, obj )` succeeds and leaves the same recency order, the same keys and
the same stored objects as the first `put` alone. -/
theorem lru_put_idempotent {α : Type} (capacity : Nat) (hcap : 1 ≤ capacity)
    (c : LRUCache α) (hreach : LRUCache.Reachable capacity c) (key : Nat) (obj : α) :
    ∃ c1 c2, c.put key obj = Except.ok c1 ∧ c1.put key obj = Except.ok c2 ∧
      c2.recency = c1.recency ∧ c2.keys = c1.keys ∧ (∀ k, c2.has k = c1.has k) ∧
      (∀ k, c2.peek k = c1.peek k) ∧ c2.size = c1.size := by
  have hwf := (hreach.wf hcap).1
  obtain ⟨c1, hput, hwf1, _, rest, hrec, _, hnot⟩ := LRUCache.put_wf c hwf key obj
  have hmem : key ∈ c1.keys := by
    rw [← hwf1.mem_recency_iff, hrec]; simp
  cases hf : map_find c1.cache_ key with
  | none => exact absurd hmem ((map_find_eq_none_iff _ _).1 hf)
  | some item =>
    obtain ⟨c2, hget, _, _, hrec2, hkeys, hpeek⟩ := LRUCache.get_spec c1 hwf1 key item hf
    refine ⟨c1, c2, hput, ?_, ?_, hkeys, ?_, hpeek, ?_⟩
    · rw [LRUCache.put_of_present c1 key obj item hf]
      simp only [LRUOp.apply, hget]
    · rw [hrec2, hrec]
      congr 1
      simp only [List.filter_cons, ne_eq, not_true_eq_false, decide_False, Bool.false_eq_true,
        if_false]
      rw [List.filter_eq_self]
      intro k hk
      have : k ≠ key := fun e => hnot (e ▸ hk)
      simp [this]
    · intro k
      rw [← LRUCache.peek_isSome, ← LRUCache.peek_isSome, hpeek]
    · have : c2.keys.length = c1.keys.length := by rw [hkeys]
      simpa [LRUCache.keys, LRUCache.size] using this

/-- Witness for `lru_put_idempotent`: `put( 5, 10 )` twice on the empty cache of
capacity 2. -/
theorem lru_put_idempotent_witness :
    ∃ c1 c2 : LRUCache Nat, (LRUCache.empty 2 : LRUCache Nat).put 5 10 = Except.ok c1 ∧
      c1.put 5 10 = Except.ok c2 ∧ c2.recency = c1.recency ∧ c2.keys = c1.keys ∧
      c2.peek 5 = c1.peek 5 := by
  obtain ⟨c1, c2, h1, h2, h3, h4, _, h6, _⟩ :=
    lru_put_idempotent 2 (by decide) (LRUCache.empty 2 : LRUCache Nat)
      LRUCache.Reachable.empty 5 10
  exact ⟨c1, c2, h1, h2, h3, h4, h6 5⟩

/-- C13, as stated (every cache): in a cache of capacity 0 that has seen
`put( 1, 7 )`, the key 1 has an entry whose iterator is past-the-end, so
`has( 1 )` is true and `get( 1 )` erases through that iterator and fails. -/
theorem lru_get_present_fails_capacity_zero :
    ∃ c : LRUCache Nat, (LRUCache.empty 0 : LRUCache Nat).put 1 7 = Except.ok c ∧
      c.has 1 = true ∧ c.get 1 = Except.error Fault.undefined_behaviour :=
  ⟨{ cache_capacity := 0, cached_items_ := [], cache_ := [(1, (7, none))], fresh_node_ := 1 },
    rfl, rfl, rfl⟩

/-- C13, amended (the second half for capacity at least 1): in every cache,
`get( key )` of a key with `has( key )` false throws `out_of_range` and leaves
the cache as it was; in a cache of capacity at least 1, `get( key )` of a key
with `has( key )` true returns the stored object. -/
theorem lru_get_absent_fails {α : Type} (c : LRUCache α) (key : Nat) :
    (c.has key = false →
      c.get key = Except.error Fault.out_of_range ∧
      c.get_effect key = (Except.error Fault.out_of_range, c)) ∧
    (∀ capacity, 1 ≤ capacity → LRUCache.Reachable capacity c → c.has key = true →
      ∃ obj c1, c.get key = Except.ok (obj, c1) ∧ c.get_effect key = (Except.ok obj, c1) ∧
        c.peek key = some obj) := by
  constructor
  · intro h
    have hf : map_find c.cache_ key = none := by
      cases hm : map_find c.cache_ key with
      | none => rfl
      | some item => simp [LRUCache.has, hm] at h
    simp only [LRUCache.get, LRUCache.get_effect, hf, and_self]
  · intro capacity hcap hreach hhas
    have hwf := (hreach.wf hcap).1
    cases hf : map_find c.cache_ key with
    | none => simp [LRUCache.has, hf] at hhas
    | some item =>
      obtain ⟨c1, hget, _⟩ := LRUCache.get_spec c hwf key item hf
      refine ⟨item.1, c1, hget, ?_, by simp [LRUCache.peek, hf]⟩
      have := LRUCache.get_eq_get_effect c key
      rw [hget] at this
      cases he : (c.get_effect key).1 with
      | error e => rw [he] at this; cases this
      | ok obj =>
        rw [he] at this
        simp only [Except.ok.injEq, Prod.mk.injEq] at this
        rw [Prod.ext_iff]
        exact ⟨by rw [he, this.1], this.2.symm⟩

/-- Witness for `lru_get_absent_fails`: in the cache of capacity 2 holding key 5,
`get( 6 )` throws and `get( 5 )` returns the stored 10. -/
theorem lru_get_absent_fails_witness :
    ∃ c : LRUCache Nat, (LRUCache.empty 2 : LRUCache Nat).put 5 10 = Except.ok c ∧
      c.get 6 = Except.error Fault.out_of_range ∧
      c.get_effect 6 = (Except.error Fault.out_of_range, c) ∧
      ∃ r, c.get 5 = Except.ok r ∧ r.1 = 10 := by
  have hreach : LRUCache.Reachable 2
      ({ cache_capacity := 2, cached_items_ := [(0, 5)], cache_ := [(5, (10, some 0))]
         fresh_node_ := 1 } : LRUCache Nat) :=
    LRUCache.Reachable.put _ _ 5 10 LRUCache.Reachable.empty rfl
  have h1 := (lru_get_absent_fails
    ({ cache_capacity := 2, cached_items_ := [(0, 5)], cache_ := [(5, (10, some 0))]
       fresh_node_ := 1 } : LRUCache Nat) 6).1 rfl
  obtain ⟨obj, c1, h2, _, h4⟩ := (lru_get_absent_fails
    ({ cache_capacity := 2, cached_items_ := [(0, 5)], cache_ := [(5, (10, some 0))]
       fresh_node_ := 1 } : LRUCache Nat) 5).2 2 (by decide) hreach rfl
  refine ⟨_, rfl, h1.1, h1.2, (obj, c1), h2, ?_⟩
  have : some obj = some 10 := h4.symm.trans rfl
  exact Option.some.inj this

/-- C14, as stated: after `update_dependencies` with a frame that needs the
uncached raster 7 and then with a key frame that produces raster 7, the vertex
(RASTER, 7) has count 1 and is not in the unresolved set; after
`update_dependencies` and then `update_dependencies_forward` with the first
frame, the vertex is in the unresolved set and has count 0. -/
theorem frame_dependency_count_not_iff :
    (¬ (({ type := DependencyType.RASTER, hash := 7 } : DependencyVertex) ∈
          ((FrameDependency.empty.update_dependencies (inter_frame 1 5 7 8 9)
            empty_cache).update_dependencies (key_frame 2 5 7 10) empty_cache).unresolved_ ↔
        0 < ((FrameDependency.empty.update_dependencies (inter_frame 1 5 7 8 9)
            empty_cache).update_dependencies (key_frame 2 5 7 10) empty_cache).get_count
          DependencyType.RASTER 7)) ∧
    (¬ (({ type := DependencyType.RASTER, hash := 7 } : DependencyVertex) ∈
          ((FrameDependency.empty.update_dependencies (inter_frame 1 5 7 8 9)
            empty_cache).update_dependencies_forward (inter_frame 1 5 7 8 9)
            empty_cache).unresolved_ ↔
        0 < ((FrameDependency.empty.update_dependencies (inter_frame 1 5 7 8 9)
            empty_cache).update_dependencies_forward (inter_frame 1 5 7 8 9)
            empty_cache).get_count DependencyType.RASTER 7)) := by
  constructor <;> decide

/-- C14, amended (one direction, backward updates only): for every
`FrameDependency` reached from the empty one by a sequence of
`update_dependencies` calls (any frames, any cache contents; fewer than `2^62`
calls, so that no counter wraps), every vertex in the unresolved set has a ref
counter greater than 0. -/
theorem frame_dependency_unresolved_counted {R S : Type}
    (updates : List (FrameInfo × RasterAndStateCache R S))
    (hlen : updates.length < 4611686018427387904) (v : DependencyVertex)
    (hv : v ∈ (updates.foldl (fun acc u => acc.update_dependencies u.1 u.2)
      FrameDependency.empty).unresolved_) :
    0 < (updates.foldl (fun acc u => acc.update_dependencies u.1 u.2)
      FrameDependency.empty).get_count v.type v.hash :=
  FrameDependency.updates_counted updates FrameDependency.empty 0
    (by unfold SIZE_MOD; omega) (by simp [FrameDependency.empty])
    (by intro t h; simp [FrameDependency.empty, FrameDependency.get_count, map_find]) v hv

/-- Witness for `frame_dependency_unresolved_counted`: after one backward update
with a frame that needs the uncached raster 7, the vertex (RASTER, 7) is
unresolved and has count 1. -/
theorem frame_dependency_unresolved_counted_witness :
    ({ type := DependencyType.RASTER, hash := 7 } : DependencyVertex) ∈
        (FrameDependency.empty.update_dependencies (inter_frame 1 5 7 8 9)
          empty_cache).unresolved_ ∧
      0 < (FrameDependency.empty.update_dependencies (inter_frame 1 5 7 8 9)
          empty_cache).get_count DependencyType.RASTER 7 :=
  ⟨by decide,
    frame_dependency_unresolved_counted [(inter_frame 1 5 7 8 9, empty_cache)] (by decide)
      { type := DependencyType.RASTER, hash := 7 } (by decide)⟩

/-- C15, as stated (cost equal to the sum of the lengths): on a track of two
frames of `2^63` bytes each, the seek from index 1 resolves at index 0 within one
batch and returns cost 0, while the lengths of the frames 0 to 1 add up to
`2^64`. -/
theorem track_seek_cost_wraps :
    1 < MAX_NUM_FRAMES ∧ 1 < huge_video.track_size 0 ∧
      (FrameDependency.empty.update_all (walk_frames huge_video 0 1 0)
        empty_cache).all_resolved = true ∧
      (get_track_seek 1 huge_video empty_cache 0 1 FrameDependency.empty).map
          (fun r => (r.1, r.2.2)) = Except.ok (0, 0) ∧
      total_length (walk_frames huge_video 0 1 0) = 18446744073709551616 := by
  refine ⟨by decide, by decide, by decide, by decide, by decide⟩

/-- C15, amended (the cost is the `size_t` sum): for `from_frame_index` below
`MAX_NUM_FRAMES` and inside the track and any initial dependencies `d`, if after
`update_dependencies` with the frames `from_frame_index, ..., i` everything is
resolved for some `i`, then `get_track_seek` returns `(i*, d*, cost)`, where `i*`
is the largest such `i`, `d*` is `d` after the updates down to `i*`, and `cost`
is the sum of the lengths of the frames `i*` to `from_frame_index` modulo `2^64`,
which is the sum itself when that is below `2^64`. -/
theorem track_seek_single_batch_success {R S : Type} (fuel : Nat)
    (video : AlfalfaVideoClient) (cache : RasterAndStateCache R S)
    (track_id from_frame_index : Nat) (d : FrameDependency)
    (hbatch : from_frame_index < MAX_NUM_FRAMES)
    (htrack : from_frame_index < video.track_size track_id)
    (hex : ∃ i, i ≤ from_frame_index ∧
      (d.update_all (walk_frames video track_id from_frame_index i) cache).all_resolved = true) :
    ∃ istar cost, istar ≤ from_frame_index ∧
      (d.update_all (walk_frames video track_id from_frame_index istar) cache).all_resolved
        = true ∧
      (∀ i, istar < i → i ≤ from_frame_index →
        ¬ (d.update_all (walk_frames video track_id from_frame_index i) cache).all_resolved
          = true) ∧
      get_track_seek (fuel + 1) video cache track_id from_frame_index d =
        Except.ok (istar, d.update_all (walk_frames video track_id from_frame_index istar) cache,
          cost) ∧
      cost = total_length (walk_frames video track_id from_frame_index istar) % SIZE_MOD ∧
      (total_length (walk_frames video track_id from_frame_index istar) < SIZE_MOD →
        cost = total_length (walk_frames video track_id from_frame_index istar)) := by
  obtain ⟨istar, h1, h2, h3, h4⟩ := get_track_seek_single_batch fuel video cache track_id
    from_frame_index d hbatch htrack hex
  exact ⟨istar, _, h1, h2, h3, h4, rfl, fun h => Nat.mod_eq_of_lt h⟩

/-- Witness for `track_seek_single_batch_success`: on the five-frame chain with
an empty cache the seek from index 3 resolves first at index 0, at a cost of
5 + 5 + 5 + 10 = 25 bytes. -/
theorem track_seek_single_batch_success_witness :
    (get_track_seek 1 chain_video empty_cache 0 3 FrameDependency.empty).map
        (fun r => (r.1, r.2.2)) = Except.ok (0, 25) ∧
      ∃ istar cost, get_track_seek 1 chain_video empty_cache 0 3 FrameDependency.empty =
        Except.ok (istar,
          FrameDependency.empty.update_all (walk_frames chain_video 0 3 istar) empty_cache,
          cost) ∧
        cost = total_length (walk_frames chain_video 0 3 istar) % SIZE_MOD := by
  obtain ⟨istar, cost, _, _, _, h4, h5, _⟩ :=
    track_seek_single_batch_success 0 chain_video empty_cache 0 3 FrameDependency.empty
      (by decide) (by decide) ⟨0, by decide, by decide⟩
  exact ⟨by decide, istar, cost, h4, h5⟩

theorem update_all_stuck {R S : Type} (cache : RasterAndStateCache R S) :
    ∀ (frames : List FrameInfo) (d : FrameDependency), frames ≠ [] →
      (∀ x ∈ frames, ∃ v ∈ source_vertices x, cache.has_vertex v = false) →
      ¬ (d.update_all frames cache).all_resolved = true := by
  intro frames
  induction frames with
  | nil => intro d h; exact absurd rfl h
  | cons x rest ih =>
    intro d _ hall
    cases rest with
    | nil =>
      obtain ⟨v, hv1, hv2⟩ := hall x (by simp)
      intro hres
      rw [all_resolved_iff] at hres
      have : v ∈ (d.update_dependencies x cache).unresolved_ :=
        (FrameDependency.mem_update_dependencies d x cache v).2 (Or.inr ⟨hv1, hv2⟩)
      simp only [FrameDependency.update_all, List.foldl_cons, List.foldl_nil] at hres
      rw [hres] at this
      cases this
    | cons y rest =>
      rw [update_all_cons]
      exact ih _ (by simp) (fun z hz => hall z (List.mem_cons_of_mem _ hz))

theorem frames_down_const (f : FrameInfo) : ∀ (count top : Nat),
    ∀ x ∈ frames_down (fun _ => f) top count, x = f := by
  intro count
  induction count with
  | zero => intro top x hx; simp [frames_down] at hx
  | succ count ih =>
    intro top x hx
    simp only [frames_down, List.mem_cons] at hx
    rcases hx with hx | hx
    · exact hx
    · exact ih _ x hx

theorem stuck_frames_unresolved (d : FrameDependency) (top count : Nat) :
    ¬ (d.update_all (frames_down (stuck_video.frame_at 0) top (count + 1))
      empty_cache).all_resolved = true := by
  apply update_all_stuck
  · simp [frames_down]
  · intro x hx
    have : x = inter_frame 1 5 7 8 9 := frames_down_const _ _ _ x hx
    subst this
    exact ⟨{ type := DependencyType.RASTER, hash := 7 }, by decide, by decide⟩

/-- Once the paging has asked for the inverted range, the loop of
`get_track_seek` on `stuck_video` never ends. -/
theorem stuck_loop : ∀ (fuel : Nat) (d : FrameDependency) (cost : Nat),
    track_seek_while stuck_video empty_cache 0 1999 fuel [] 999 d cost =
      Except.error Fault.out_of_fuel := by
  intro fuel
  induction fuel with
  | zero => intro d cost; rfl
  | succ fuel ih =>
    intro d cost
    have h1 : seek_to_frame_index 999 1999 = Except.ok 1000 := by decide
    have h2 : to_size_t 999 = 999 := by decide
    have h3 : stuck_video.get_frames_reverse 0 999 1000 = [] := by decide
    have hge : (999 : Int) ≥ 0 := by decide
    simp only [track_seek_while, hge, if_true, track_seek_batch, h1, h2, h3]
    exact ih d cost

/-- C16 at the failing input: on a track of 2000 frames none of which can be
resolved, no prefix of the backward walk from index 1999 resolves, and
`get_track_seek` from index 1999 does not return, whatever the fuel: after the
first batch of 1000 frames it asks for the frames from index 999 down to index
1000, gets none, and asks again. -/
theorem track_seek_paging_never_returns :
    (∀ count, ¬ (FrameDependency.empty.update_all
        (frames_down (stuck_video.frame_at 0) 1999 (count + 1)) empty_cache).all_resolved
          = true) ∧
    1999 < stuck_video.track_size 0 ∧
    ∀ fuel, get_track_seek fuel stuck_video empty_cache 0 1999 FrameDependency.empty =
      Except.error Fault.out_of_fuel := by
  refine ⟨fun count => stuck_frames_unresolved _ _ _, by decide, ?_⟩
  intro fuel
  have h0 : to_int 1999 = 1999 := by decide
  have h1 : seek_to_frame_index 1999 1999 = Except.ok 1000 := by decide
  have h2 : stuck_video.get_frames_reverse 0 1999 1000 =
      frames_down (stuck_video.frame_at 0) 1999 1000 := by
    unfold AlfalfaVideoClient.get_frames_reverse
    simp [stuck_video]
  unfold get_track_seek
  simp only [h0, h1, h2, frames_down_length]
  have hne : ¬ (((1000 : Nat) == 0) = true) := by decide
  simp only [hne, if_false]
  cases fuel with
  | zero => rfl
  | succ fuel =>
    have hge : (1999 : Int) ≥ 0 := by decide
    have hb := track_seek_batch_unresolved empty_cache
      (frames_down (stuck_video.frame_at 0) 1999 1000) 1999 FrameDependency.empty 0
      (by decide)
      (by
        intro m hm
        rw [frames_down_length] at hm
        rw [frames_down_take _ _ _ _ (by omega)]
        exact stuck_frames_unresolved _ _ _)
      (by rw [frames_down_length]; decide)
    rw [frames_down_length] at hb
    have h3 : ((1999 : Int) - ((1000 : Nat) : Int)) = 999 := by decide
    rw [h3] at hb
    have h4 : seek_to_frame_index 999 1999 = Except.ok 1000 := by decide
    have h5 : to_size_t 999 = 999 := by decide
    have h6 : stuck_video.get_frames_reverse 0 999 1000 = [] := by decide
    have hge2 : (999 : Int) ≥ 0 := by decide
    simp only [track_seek_while, hge, if_true, hb, hge2, h4, h5, h6]
    exact stuck_loop fuel _ _

/-- C17 at the failing input: with empty caches and a switch whose first frame
consumes raster 60 and whose second frame, a key frame, produces it,
`get_min_switch_seek( 60 )` returns a plan of cost 10 without a track path that
covers both switch frames; the first frame of its execution order consumes raster
60, which is not in the cache and which no earlier frame produces, so the plan
is not decodable in that order, and `get_raster_switch_path( 60 )` ends in the
`out_of_range` of `cache_.at` in `LRUCache::get`. -/
theorem switch_plan_not_decodable :
    (get_min_switch_seek 1 backward_switch_video empty_cache 60).map
        (fun r => (r.1.cost, r.1.switch_start_index, r.1.switch_end_index, r.2.1)) =
      Except.ok (10, 0, 2, none) ∧
    (get_min_switch_seek 1 backward_switch_video empty_cache 60).map
        (fun r => plan_frames backward_switch_video r.1 r.2.1) =
      Except.ok [inter_frame 20 4 60 61 71, key_frame 21 6 60 70] ∧
    empty_cache.raster_cache_.has 60 = false ∧
    (get_min_switch_seek 1 backward_switch_video empty_cache 60).map
        (fun r => decodable_after empty_cache [] (plan_frames backward_switch_video r.1 r.2.1)) =
      Except.ok false ∧
    (get_raster_switch_path 1 hash_collaborators backward_switch_video empty_cache 60).map
        Prod.fst = Except.error Fault.out_of_range := by
  refine ⟨by decide, by decide, by decide, by decide, by decide⟩

/-- C18: for every plan returned by `get_min_track_seek` or `get_min_switch_seek`
with a cost below `SIZE_MAX`, the `FrameDependency` returned with the plan
satisfies `all_resolved()`, and so does the `FrameDependency` that
`follow_track_path` and `follow_switch_path` return after they have applied
`update_dependencies_forward` to every frame of the plan, whatever the caches
at the time of the execution; for a switch plan the track path, if there is
one, is followed first, as in `get_raster_switch_path`. -/
theorem plan_dependencies_resolved {R S K : Type} (fuel : Nat) (ext : Collaborators R S K)
    (video : AlfalfaVideoClient) (cache : RasterAndStateCache R S) (output_hash : Nat) :
    (∀ path d, get_min_track_seek fuel video cache output_hash = Except.ok (path, d) →
      path.cost < SIZE_MAX →
      d.all_resolved = true ∧
      ∀ fuel1 cache0 cache1 d1,
        follow_track_path fuel1 ext video cache0 path d = Except.ok (cache1, d1) →
        d1.all_resolved = true) ∧
    (∀ switch_path track_path d,
      get_min_switch_seek fuel video cache output_hash =
        Except.ok (switch_path, track_path, d) →
      switch_path.cost < SIZE_MAX →
      d.all_resolved = true ∧
      ∀ fuel1 cache0 cache1 d1,
        (match track_path with
         | some extra_track_seek => follow_track_path fuel1 ext video cache0 extra_track_seek d
         | none => Except.ok (cache0, d)) = Except.ok (cache1, d1) →
        d1.all_resolved = true ∧
        ∀ cache2 d2,
          follow_switch_path ext video cache1 switch_path d1 = Except.ok (cache2, d2) →
          d2.all_resolved = true) := by
  constructor
  · intro path d h _
    have hd := get_min_track_seek_resolved fuel video cache output_hash (path, d) h
    refine ⟨hd, ?_⟩
    intro fuel1 cache0 cache1 d1 hf
    exact all_resolved_of_unresolved_eq d d1
      (follow_track_while_unresolved ext video path _ _ _ _ _ _ _ hf) hd
  · intro switch_path track_path d h _
    have hd := get_min_switch_seek_resolved fuel video cache output_hash
      (switch_path, track_path, d) h
    refine ⟨hd, ?_⟩
    intro fuel1 cache0 cache1 d1 hf
    have hd1 : d1.all_resolved = true := by
      cases track_path with
      | none =>
        simp only at hf
        cases hf
        exact hd
      | some extra =>
        simp only at hf
        exact all_resolved_of_unresolved_eq d d1
          (follow_track_while_unresolved ext video extra _ _ _ _ _ _ _ hf) hd
    refine ⟨hd1, ?_⟩
    intro cache2 d2 hs
    exact all_resolved_of_unresolved_eq d1 d2
      (follow_frames_unresolved ext _ _ _ _ _ hs) hd1

/-- Witness for `plan_dependencies_resolved`: on the five-frame chain with empty
caches the minimum track seek for raster 103 returns the plan over the frames 0
to 3 at cost 25; its dependencies are resolved, `follow_track_path` returns on
it, and the dependencies it returns are resolved. -/
theorem plan_dependencies_resolved_witness :
    (get_min_track_seek 1 chain_video empty_cache 103).map (fun r => r.1.cost) =
        Except.ok 25 ∧
      ((get_min_track_seek 1 chain_video empty_cache 103).bind
          (fun r => follow_track_path 2 hash_collaborators chain_video empty_cache r.1 r.2)).map
        (fun r => r.2.all_resolved) = Except.ok true ∧
      FrameDependency.all_resolved
        { ref_counter_ :=
            [({ type := DependencyType.RASTER, hash := 102 }, 1),
             ({ type := DependencyType.RASTER, hash := 101 }, 1),
             ({ type := DependencyType.RASTER, hash := 100 }, 1)]
          unresolved_ := [] } = true :=
  ⟨by decide, by decide,
   ((plan_dependencies_resolved 1 hash_collaborators chain_video empty_cache 103).1
      { track_id := 0, start_index := 0, end_index := 4, cost := 25 }
      { ref_counter_ :=
          [({ type := DependencyType.RASTER, hash := 102 }, 1),
           ({ type := DependencyType.RASTER, hash := 101 }, 1),
           ({ type := DependencyType.RASTER, hash := 100 }, 1)]
        unresolved_ := [] }
      (by decide) (by decide)).1⟩

/-- C19: run as calls that hand the cache object on, `get_track_seek`,
`get_min_track_seek` and `get_min_switch_seek` return what they return on a
cache that is only read, together with the raster cache and the state cache
they were started with, unchanged as objects (same keys, same values, same
recency list); and `update_dependencies` returns the updated `FrameDependency`
together with the unchanged cache. -/
theorem planners_leave_caches_unchanged {R S : Type} (fuel : Nat)
    (video : AlfalfaVideoClient) (cache : RasterAndStateCache R S)
    (track_id from_frame_index output_hash : Nat) (d : FrameDependency) (frame : FrameInfo) :
    get_track_seek_call fuel video cache track_id from_frame_index d =
        (get_track_seek fuel video cache track_id from_frame_index d).map
          (fun r => (r, cache)) ∧
      get_min_track_seek_call fuel video cache output_hash =
        (get_min_track_seek fuel video cache output_hash).map (fun r => (r, cache)) ∧
      get_min_switch_seek_call fuel video cache output_hash =
        (get_min_switch_seek fuel video cache output_hash).map (fun r => (r, cache)) ∧
      d.update_dependencies_call frame cache = (d.update_dependencies frame cache, cache) :=
  ⟨get_track_seek_call_eq fuel video cache track_id from_frame_index d,
   get_min_track_seek_call_eq fuel video cache output_hash,
   get_min_switch_seek_call_eq fuel video cache output_hash,
   update_dependencies_call_eq d frame cache⟩

theorem get_raster_track_path_no_plan {R S K : Type} (fuel : Nat) (ext : Collaborators R S K)
    (video : AlfalfaVideoClient) (cache : RasterAndStateCache R S) (output_hash : Nat)
    (t : TrackPath × FrameDependency)
    (ht : get_min_track_seek fuel video cache output_hash = Except.ok t)
    (hcost : t.1.cost = SIZE_MAX) :
    get_raster_track_path fuel ext video cache output_hash = Except.ok (none, cache) := by
  unfold get_raster_track_path
  rw [ht]
  simp only [hcost, if_true]

theorem get_raster_switch_path_no_plan {R S K : Type} (fuel : Nat)
    (ext : Collaborators R S K) (video : AlfalfaVideoClient)
    (cache : RasterAndStateCache R S) (output_hash : Nat)
    (s : SwitchPath × Option TrackPath × FrameDependency)
    (hs : get_min_switch_seek fuel video cache output_hash = Except.ok s)
    (hcost : s.1.cost = SIZE_MAX) :
    get_raster_switch_path fuel ext video cache output_hash = Except.ok (none, cache) := by
  unfold get_raster_switch_path
  rw [hs]
  simp only [hcost, if_true]

/-- C20: if `get_min_track_seek( output_hash )` returns a cost of `SIZE_MAX`,
then `get_raster( output_hash, TRACK_PATH )` returns an empty optional and
leaves the player, and with it both caches, unchanged; if
`get_min_switch_seek( output_hash )` returns a cost of `SIZE_MAX`, the same
holds of `get_raster( output_hash, SWITCH_PATH )`; and if both costs are
`SIZE_MAX`, of `get_raster( output_hash, MINIMUM_PATH )`.  With `verbose` set
the call runs both planners before it prints, so the other planner has to
return as well. -/
theorem get_raster_no_plan {R S K : Type} (fuel : Nat) (ext : Collaborators R S K)
    (player : AlfalfaPlayer R S K) (output_hash : Nat) (verbose : Bool) :
    (∀ t, get_min_track_seek fuel player.video_ player.cache_ output_hash = Except.ok t →
      t.1.cost = SIZE_MAX →
      (verbose = true →
        ∃ s, get_min_switch_seek fuel player.video_ player.cache_ output_hash = Except.ok s) →
      (get_raster fuel ext player output_hash PathType.TRACK_PATH verbose).map Prod.fst =
        Except.ok (none, player)) ∧
    (∀ s, get_min_switch_seek fuel player.video_ player.cache_ output_hash = Except.ok s →
      s.1.cost = SIZE_MAX →
      (verbose = true →
        ∃ t, get_min_track_seek fuel player.video_ player.cache_ output_hash = Except.ok t) →
      (get_raster fuel ext player output_hash PathType.SWITCH_PATH verbose).map Prod.fst =
        Except.ok (none, player)) ∧
    (∀ t s, get_min_track_seek fuel player.video_ player.cache_ output_hash = Except.ok t →
      get_min_switch_seek fuel player.video_ player.cache_ output_hash = Except.ok s →
      t.1.cost = SIZE_MAX → s.1.cost = SIZE_MAX →
      (get_raster fuel ext player output_hash PathType.MINIMUM_PATH verbose).map Prod.fst =
        Except.ok (none, player)) := by
  refine ⟨?_, ?_, ?_⟩
  · intro t ht hcost hv
    have hp := get_raster_track_path_no_plan fuel ext player.video_ player.cache_
      output_hash t ht hcost
    cases verbose with
    | false =>
      simp only [get_raster, get_raster_verbose, get_raster_case_track, hp]
      rfl
    | true =>
      obtain ⟨s, hs⟩ := hv rfl
      simp only [get_raster, get_raster_verbose, get_raster_case_track, hp, ht, hs]
      rfl
  · intro s hs hcost hv
    have hp := get_raster_switch_path_no_plan fuel ext player.video_ player.cache_
      output_hash s hs hcost
    cases verbose with
    | false =>
      simp only [get_raster, get_raster_verbose, get_raster_case_switch, hp]
      rfl
    | true =>
      obtain ⟨t, ht⟩ := hv rfl
      simp only [get_raster, get_raster_verbose, get_raster_case_switch, hp, ht, hs]
      rfl
  · intro t s ht hs hct hcs
    have hp := get_raster_track_path_no_plan fuel ext player.video_ player.cache_
      output_hash t ht hct
    have hle : t.1.cost ≤ s.1.cost := by rw [hct, hcs]
    cases verbose with
    | false =>
      simp only [get_raster, get_raster_verbose, get_raster_case_track, hp, ht, hs, hle]
      rfl
    | true =>
      simp only [get_raster, get_raster_verbose, get_raster_case_track, hp, ht, hs, hle]
      rfl

/-- Witness for `get_raster_no_plan`: no frame of the five-frame chain has the
output hash 999, so both planners return a cost of `SIZE_MAX`, and `get_raster`
returns an empty optional and the unchanged player for each of the three path
types. -/
theorem get_raster_no_plan_witness :
    (get_min_track_seek 1 chain_player.video_ chain_player.cache_ 999).map
        (fun t => t.1.cost) = Except.ok SIZE_MAX ∧
      (get_min_switch_seek 1 chain_player.video_ chain_player.cache_ 999).map
        (fun s => s.1.cost) = Except.ok SIZE_MAX ∧
      (get_raster 1 hash_collaborators chain_player 999 PathType.TRACK_PATH true).map
        Prod.fst = Except.ok (none, chain_player) ∧
      (get_raster 1 hash_collaborators chain_player 999 PathType.SWITCH_PATH true).map
        Prod.fst = Except.ok (none, chain_player) ∧
      (get_raster 1 hash_collaborators chain_player 999 PathType.MINIMUM_PATH true).map
        Prod.fst = Except.ok (none, chain_player) :=
  ⟨by decide, by decide,
   (get_raster_no_plan 1 hash_collaborators chain_player 999 true).1
     ({ track_id := 0, start_index := 0, end_index := 0, cost := SIZE_MAX },
      FrameDependency.empty)
     (by decide) rfl
     (fun _ => ⟨({ from_track_id := 0, to_track_id := 0, from_frame_index := 0
                   to_frame_index := 0, switch_start_index := 0, switch_end_index := 0
                   cost := SIZE_MAX }, none, FrameDependency.empty), by decide⟩),
   (get_raster_no_plan 1 hash_collaborators chain_player 999 true).2.1
     ({ from_track_id := 0, to_track_id := 0, from_frame_index := 0, to_frame_index := 0
        switch_start_index := 0, switch_end_index := 0, cost := SIZE_MAX },
      none, FrameDependency.empty)
     (by decide) rfl
     (fun _ => ⟨({ track_id := 0, start_index := 0, end_index := 0, cost := SIZE_MAX },
                 FrameDependency.empty), by decide⟩),
   (get_raster_no_plan 1 hash_collaborators chain_player 999 true).2.2
     ({ track_id := 0, start_index := 0, end_index := 0, cost := SIZE_MAX },
      FrameDependency.empty)
     ({ from_track_id := 0, to_track_id := 0, from_frame_index := 0, to_frame_index := 0
        switch_start_index := 0, switch_end_index := 0, cost := SIZE_MAX },
      none, FrameDependency.empty)
     (by decide) (by decide) rfl rfl⟩

theorem list_erase_fault (l : List (Nat × Nat)) (it : ListIter) (e : Fault)
    (h : LRUCache.list_erase l it = Except.error e) : e = Fault.undefined_behaviour := by
  unfold LRUCache.list_erase at h
  split at h
  · cases h; rfl
  · split at h
    · cases h
    · cases h; rfl

theorem lru_get_fault {α : Type} (c : LRUCache α) (key : Nat) (e : Fault)
    (h : c.get key = Except.error e) : e ≠ Fault.runtime_error := by
  unfold LRUCache.get at h
  split at h
  · cases h; decide
  · rename_i item _
    cases hl : LRUCache.list_erase c.cached_items_ item.2 with
    | error e1 =>
      rw [hl] at h
      cases h
      rw [list_erase_fault _ _ _ hl]; decide
    | ok erased => rw [hl] at h; cases h

theorem lru_put_fault {α : Type} (c : LRUCache α) (key : Nat) (obj : α) (e : Fault)
    (h : c.put key obj = Except.error e) : e ≠ Fault.runtime_error := by
  unfold LRUCache.put at h
  split at h
  · rename_i item _
    cases hl : LRUCache.list_erase c.cached_items_ item.2 with
    | error e1 =>
      rw [hl] at h
      cases h
      rw [list_erase_fault _ _ _ hl]; decide
    | ok erased => rw [hl] at h; cases h
  · simp only at h
    split at h
    · split at h
      · cases h; decide
      · cases h
    · cases h

theorem fetch_reference_fault {α : Type} (c : LRUCache α) (hash : Option Nat) (fresh : α)
    (e : Fault) (h : fetch_reference c hash fresh = Except.error e) :
    e ≠ Fault.runtime_error := by
  unfold fetch_reference at h
  cases hash with
  | none => cases h
  | some k => exact lru_get_fault c k e h

theorem get_decoder_fault {R S K : Type} (ext : Collaborators R S K)
    (cache : RasterAndStateCache R S) (frame : FrameInfo) (e : Fault)
    (h : get_decoder ext cache frame = Except.error e) : e ≠ Fault.runtime_error := by
  unfold get_decoder at h
  cases h1 : fetch_reference cache.raster_cache_ frame.source_hash.last_hash
      ext.fresh_raster with
  | error e1 => rw [h1] at h; cases h; exact fetch_reference_fault _ _ _ _ h1
  | ok p1 =>
    obtain ⟨last, r1⟩ := p1
    rw [h1] at h
    simp only at h
    cases h2 : fetch_reference r1 frame.source_hash.golden_hash ext.fresh_raster with
    | error e2 => rw [h2] at h; cases h; exact fetch_reference_fault _ _ _ _ h2
    | ok p2 =>
      obtain ⟨golden, r2⟩ := p2
      rw [h2] at h
      simp only at h
      cases h3 : fetch_reference r2 frame.source_hash.alt_hash ext.fresh_raster with
      | error e3 => rw [h3] at h; cases h; exact fetch_reference_fault _ _ _ _ h3
      | ok p3 =>
        obtain ⟨alt, r3⟩ := p3
        rw [h3] at h
        simp only at h
        cases h4 : fetch_reference cache.state_cache_ frame.source_hash.state_hash
            ext.fresh_state with
        | error e4 => rw [h4] at h; cases h; exact fetch_reference_fault _ _ _ _ h4
        | ok p4 =>
          obtain ⟨state, s1⟩ := p4
          rw [h4] at h
          cases h

theorem cache_put_fault {R S K : Type} (ext : Collaborators R S K)
    (cache : RasterAndStateCache R S) (decoder : Decoder R S) (e : Fault)
    (h : cache.put ext decoder = Except.error e) : e ≠ Fault.runtime_error := by
  unfold RasterAndStateCache.put at h
  cases h1 : cache.raster_cache_.put (ext.raster_hash decoder.last) decoder.last with
  | error e1 => rw [h1] at h; cases h; exact lru_put_fault _ _ _ _ h1
  | ok r1 =>
    rw [h1] at h
    simp only at h
    cases h2 : r1.put (ext.raster_hash decoder.golden) decoder.golden with
    | error e2 => rw [h2] at h; cases h; exact lru_put_fault _ _ _ _ h2
    | ok r2 =>
      rw [h2] at h
      simp only at h
      cases h3 : r2.put (ext.raster_hash decoder.alternative_reference)
          decoder.alternative_reference with
      | error e3 => rw [h3] at h; cases h; exact lru_put_fault _ _ _ _ h3
      | ok r3 =>
        rw [h3] at h
        simp only at h
        cases h4 : cache.state_cache_.put (ext.state_hash decoder.state) decoder.state with
        | error e4 => rw [h4] at h; cases h; exact lru_put_fault _ _ _ _ h4
        | ok s1 => rw [h4] at h; cases h

theorem decode_and_publish_fault {R S K : Type} (ext : Collaborators R S K)
    (cache : RasterAndStateCache R S) (frame : FrameInfo) (e : Fault)
    (h : decode_and_publish ext cache frame = Except.error e) : e ≠ Fault.runtime_error := by
  unfold decode_and_publish at h
  cases h1 : get_decoder ext cache frame with
  | error e1 => rw [h1] at h; cases h; exact get_decoder_fault _ _ _ _ h1
  | ok p1 =>
    obtain ⟨decoder, cache1⟩ := p1
    rw [h1] at h
    simp only at h
    cases h2 : cache1.put ext (ext.get_frame_output decoder (ext.get_chunk frame)).2 with
    | error e2 => rw [h2] at h; cases h; exact cache_put_fault _ _ _ _ h2
    | ok cache2 =>
      rw [h2] at h
      simp only at h
      cases h3 : cache2.raster_cache_.put
          (ext.raster_hash (ext.get_frame_output decoder (ext.get_chunk frame)).1.2)
          (ext.get_frame_output decoder (ext.get_chunk frame)).1.2 with
      | error e3 => rw [h3] at h; cases h; exact lru_put_fault _ _ _ _ h3
      | ok r => rw [h3] at h; cases h

theorem raster_sequential_while_fault {R S K : Type} (ext : Collaborators R S K) (dri : Nat) :
    ∀ (fuel : Nat) (player : AlfalfaPlayer R S K) (wrapper : FrameInfoWrapper),
      (raster_sequential_while ext dri fuel player wrapper).1 ≠
        Except.error Fault.runtime_error := by
  intro fuel
  induction fuel with
  | zero => intro player wrapper; simp [raster_sequential_while]
  | succ fuel ih =>
    intro player wrapper
    simp only [raster_sequential_while]
    split
    · cases hd : decode_and_publish ext player.cache_ wrapper.frame_info with
      | error e =>
        simp only
        intro h
        exact decode_and_publish_fault _ _ _ _ hd (Except.error.inj h)
      | ok p =>
        obtain ⟨raster, cache1⟩ := p
        simp only
        split
        · simp
        · exact ih _ _
    · cases hd : decode_and_publish ext player.cache_ wrapper.frame_info with
      | error e =>
        simp only
        intro h
        exact decode_and_publish_fault _ _ _ _ hd (Except.error.inj h)
      | ok p =>
        obtain ⟨raster, cache1⟩ := p
        simp

theorem mem_take_filter {β : Type} (p : β → Bool) (k : β) (hp : p k = true) :
    ∀ (l : List β) (n : Nat), k ∈ l.take n → k ∈ (l.filter p).take n := by
  intro l
  induction l with
  | nil => intro n h; simp at h
  | cons x rest ih =>
    intro n h
    cases n with
    | zero => simp at h
    | succ n =>
      simp only [List.take_succ_cons, List.mem_cons] at h
      by_cases hx : p x = true
      · simp only [List.filter_cons, hx, if_true, List.take_succ_cons, List.mem_cons]
        rcases h with h | h
        · exact Or.inl h
        · exact Or.inr (ih n h)
      · simp only [List.filter_cons, hx, if_false]
        rcases h with h | h
        · rw [h] at hp; exact absurd hp hx
        · have h3 : (List.take n (List.filter p rest)).Sublist
              (List.take (n + 1) (List.filter p rest)) := by
            rw [show List.take n (List.filter p rest) =
              List.take n (List.take (n + 1) (List.filter p rest)) by
                rw [List.take_take]; simp]
            exact List.take_sublist _ _
          exact h3.subset (ih n h)

/-- A key among the `n` most recently used of a cache, with `n` below the
capacity, is among the `n + 1` most recently used after a `put`. -/
theorem LRUCache.put_take {α : Type} (c : LRUCache α) (h : c.WF) (key : Nat) (obj : α)
    (k : Nat) (n : Nat) (hn : n < c.cache_capacity) (hk : k ∈ c.recency.take n) :
    ∃ c1, c.put key obj = Except.ok c1 ∧ c1.WF ∧ c1.cache_capacity = c.cache_capacity ∧
      key ∈ c1.recency.take 1 ∧ k ∈ c1.recency.take (n + 1) := by
  cases hf : map_find c.cache_ key with
  | some item =>
    obtain ⟨c1, hget, hwf, hcap, hrec, _, _⟩ := LRUCache.get_spec c h key item hf
    refine ⟨c1, ?_, hwf, hcap, by rw [hrec]; simp, ?_⟩
    · rw [LRUCache.put_of_present c key obj item hf]
      simp only [LRUOp.apply, hget]
    · rw [hrec, List.take_succ_cons, List.mem_cons]
      by_cases hkk : k = key
      · exact Or.inl hkk
      · exact Or.inr (mem_take_filter _ k (by simp [hkk]) _ n hk)
  | none =>
    by_cases hroom : c.cached_items_.length < c.cache_capacity
    · obtain ⟨c1, hput, hwf, hcap, hrec, _, _⟩ := LRUCache.put_absent_room c h key obj hf hroom
      refine ⟨c1, hput, hwf, hcap, by rw [hrec]; simp, ?_⟩
      rw [hrec, List.take_succ_cons, List.mem_cons]
      exact Or.inr hk
    · have hfull : c.cached_items_.length = c.cache_capacity := by
        have := h.bounded; omega
      obtain ⟨c1, lru, hput, hwf, hcap, _, _, _, hrec, _, _⟩ :=
        LRUCache.put_absent_full c h key obj hf hfull
      refine ⟨c1, hput, hwf, hcap, by rw [hrec]; simp, ?_⟩
      rw [hrec, List.take_succ_cons, List.mem_cons]
      right
      have hlen : c.recency.length = c.cache_capacity := by
        simp only [LRUCache.recency, List.length_map]; exact hfull
      rw [List.dropLast_eq_take, List.take_take]
      have : min n (c.recency.length - 1) = n := by omega
      rw [this]
      exact hk

theorem LRUCache.has_of_mem_recency {α : Type} (c : LRUCache α) (h : c.WF) (k : Nat)
    (hk : k ∈ c.recency) : c.has k = true := by
  rw [LRUCache.has_iff_mem_keys]
  exact (h.mem_recency_iff k).1 hk

/-- A `put` on a cache of capacity at least 1 leaves the key at the front. -/
theorem LRUCache.put_front {α : Type} (c : LRUCache α) (h : c.WF) (key : Nat) (obj : α) :
    ∃ c1, c.put key obj = Except.ok c1 ∧ c1.WF ∧ c1.cache_capacity = c.cache_capacity ∧
      key ∈ c1.recency.take 1 := by
  obtain ⟨c1, hput, hwf, hcap, rest, hrec, _, _⟩ := LRUCache.put_wf c h key obj
  exact ⟨c1, hput, hwf, hcap, by rw [hrec]; simp⟩

theorem seek_to_frame_index_page (cur from_frame_index : Nat) (hcur : 999 ≤ cur)
    (hfrom : 999 ≤ from_frame_index)
    (hint : from_frame_index ≤ 2147483647) :
    seek_to_frame_index (cur : Int) from_frame_index = Except.ok (from_frame_index - 999) := by
  unfold seek_to_frame_index MAX_NUM_FRAMES INT_MIN
  have h1 : ¬ ((cur : Int) - ((1000 : Nat) : Int) < -2147483648) := by push_cast; omega
  have h2 : (cur : Int) - ((1000 : Nat) : Int) + 1 ≥ 0 := by push_cast; omega
  simp only [h1, if_false, h2, if_true]
  have hval : size_add (size_sub from_frame_index 1000) 1 = from_frame_index - 999 := by
    unfold size_add size_sub SIZE_MOD
    omega
  rw [hval]

/-- Once the loop of `get_track_seek` holds no frames, with `cur_frame_index`
at least 999 and below `from_frame_index - 999`, every pass asks for the
inverted range from `cur_frame_index` down to `from_frame_index - 999`, gets no
frames and changes nothing. -/
theorem track_seek_while_stuck {R S : Type} (video : AlfalfaVideoClient)
    (cache : RasterAndStateCache R S) (track_id from_frame_index cur : Nat)
    (hcur : 999 ≤ cur) (hlt : cur < from_frame_index - 999)
    (hint : from_frame_index ≤ 2147483647) :
    ∀ (fuel : Nat) (d : FrameDependency) (cost : Nat),
      track_seek_while video cache track_id from_frame_index fuel [] (cur : Int) d cost =
        Except.error Fault.out_of_fuel := by
  intro fuel
  induction fuel with
  | zero => intro d cost; rfl
  | succ fuel ih =>
    intro d cost
    have hge : (cur : Int) ≥ 0 := by omega
    have hseek := seek_to_frame_index_page cur from_frame_index hcur (by omega) hint
    have hsz : to_size_t (cur : Int) = cur := to_size_t_natCast cur (by unfold SIZE_MOD; omega)
    have hempty : video.get_frames_reverse track_id cur (from_frame_index - 999) = [] := by
      unfold AlfalfaVideoClient.get_frames_reverse
      have : ¬ (from_frame_index - 999 ≤ cur ∧ cur < video.track_size track_id) := by omega
      simp only [this, if_false]
    simp only [track_seek_while, hge, if_true, track_seek_batch, hseek, hsz, hempty]
    exact ih d cost

/-- From index 1999 on, `get_track_seek` does not return when the first batch of
1000 frames does not resolve. -/
theorem get_track_seek_second_page {R S : Type} (video : AlfalfaVideoClient)
    (cache : RasterAndStateCache R S) (track_id from_frame_index : Nat)
    (d : FrameDependency) (hfrom : 1999 ≤ from_frame_index)
    (hint : from_frame_index ≤ 2147483647)
    (htrack : from_frame_index < video.track_size track_id)
    (hun : ∀ m, m < 1000 →
      ¬ (d.update_all (frames_down (video.frame_at track_id) from_frame_index (m + 1))
        cache).all_resolved = true) :
    ∀ fuel, get_track_seek fuel video cache track_id from_frame_index d =
      Except.error Fault.out_of_fuel := by
  intro fuel
  have h0 : to_int from_frame_index = (from_frame_index : Int) := to_int_of_le _ hint
  have h1 := seek_to_frame_index_page from_frame_index from_frame_index (by omega)
    (by omega) hint
  have h2 : video.get_frames_reverse track_id from_frame_index (from_frame_index - 999) =
      frames_down (video.frame_at track_id) from_frame_index 1000 := by
    unfold AlfalfaVideoClient.get_frames_reverse
    have : from_frame_index - 999 ≤ from_frame_index ∧
        from_frame_index < video.track_size track_id := ⟨by omega, htrack⟩
    simp only [this, and_self, if_true]
    have hcount : from_frame_index - (from_frame_index - 999) + 1 = 1000 := by omega
    rw [hcount]
  unfold get_track_seek
  simp only [h0, h1, h2, frames_down_length]
  have hne : ¬ (((1000 : Nat) == 0) = true) := by decide
  simp only [hne, if_false]
  cases fuel with
  | zero => rfl
  | succ fuel =>
    have hge : (from_frame_index : Int) ≥ 0 := by omega
    have hb := track_seek_batch_unresolved cache
      (frames_down (video.frame_at track_id) from_frame_index 1000) (from_frame_index : Int)
      d 0 (by decide)
      (by
        intro m hm
        rw [frames_down_length] at hm
        rw [frames_down_take _ _ _ _ (by omega)]
        exact hun m hm)
      (by rw [frames_down_length]; unfold INT_MIN; omega)
    rw [frames_down_length] at hb
    have h3 : ((from_frame_index : Int) - ((1000 : Nat) : Int)) =
        ((from_frame_index - 1000 : Nat) : Int) := by omega
    rw [h3] at hb
    have hge2 : ((from_frame_index - 1000 : Nat) : Int) ≥ 0 := by omega
    have h4 := seek_to_frame_index_page (from_frame_index - 1000) from_frame_index (by omega)
      (by omega) hint
    have h5 : to_size_t ((from_frame_index - 1000 : Nat) : Int) = from_frame_index - 1000 :=
      to_size_t_natCast _ (by unfold SIZE_MOD; omega)
    have h6 : video.get_frames_reverse track_id (from_frame_index - 1000)
        (from_frame_index - 999) = [] := by
      unfold AlfalfaVideoClient.get_frames_reverse
      have : ¬ (from_frame_index - 999 ≤ from_frame_index - 1000 ∧
          from_frame_index - 1000 < video.track_size track_id) := by omega
      simp only [this, if_false]
    simp only [track_seek_while, hge, if_true, hb, hge2, h4, h5, h6]
    exact track_seek_while_stuck video cache track_id from_frame_index
      (from_frame_index - 1000) (by omega) (by omega) hint fuel _ _

theorem paged_frames_unresolved (d : FrameDependency) (m : Nat) (hm : m < 1000) :
    ¬ (d.update_all (frames_down (paged_video.frame_at 0) 1999 (m + 1))
      empty_cache).all_resolved = true := by
  apply update_all_stuck
  · simp [frames_down]
  · intro x hx
    have hx2 : ∀ (count top : Nat), count ≤ top →
        ∀ y ∈ frames_down (paged_video.frame_at 0) top count, y = inter_frame 1 5 7 8 9 := by
      intro count
      induction count with
      | zero => intro top _ y hy; simp [frames_down] at hy
      | succ count ih =>
        intro top htop y hy
        simp only [frames_down, List.mem_cons] at hy
        rcases hy with hy | hy
        · have : top ≠ 0 := by omega
          rw [hy]
          simp [paged_video, this]
        · exact ih (top - 1) (by omega) y hy
    have := hx2 (m + 1) 1999 (by omega) x hx
    subst this
    exact ⟨{ type := DependencyType.RASTER, hash := 7 }, by decide, by decide⟩

theorem initial_track_options_infeasible {R S K : Type} (fuel : Nat)
    (player : AlfalfaPlayer R S K) (throughput_estimate : Nat) :
    ∀ (track_ids : List Nat) (options : List FrameSequence)
      (tested : List (List FrameInfoWrapper)),
      initial_track_options fuel player throughput_estimate track_ids =
        Except.ok (options, tested) →
      (∀ c ∈ tested, determine_feasibility player c throughput_estimate = Except.ok false) →
      options = [] := by
  intro track_ids
  induction track_ids with
  | nil =>
    intro options tested h _
    simp only [initial_track_options] at h
    cases h; rfl
  | cons track_id rest ih =>
    intro options tested h hinf
    simp only [initial_track_options] at h
    cases hc : get_frame_seq_of_track fuel player track_id 0 with
    | error e => rw [hc] at h; cases h
    | ok frame_seq =>
      rw [hc] at h
      simp only at h
      cases hf : determine_feasibility player frame_seq.frame_seq throughput_estimate with
      | error e => rw [hf] at h; cases h
      | ok feasible =>
        rw [hf] at h
        simp only at h
        cases hr : initial_track_options fuel player throughput_estimate rest with
        | error e => rw [hr] at h; cases h
        | ok p =>
          obtain ⟨options1, tested1⟩ := p
          rw [hr] at h
          simp only [Except.ok.injEq, Prod.mk.injEq] at h
          obtain ⟨h1, h2⟩ := h
          have hfalse : feasible = false := by
            have := hinf frame_seq.frame_seq (by rw [← h2]; exact List.mem_cons_self _ _)
            rw [hf] at this
            exact Except.ok.inj this
          have hrest := ih options1 tested1 hr
            (fun c hcm => hinf c (by rw [← h2]; exact List.mem_cons_of_mem _ hcm))
          rw [← h1, hfalse, hrest]
          rfl

theorem track_jump_options_infeasible {R S K : Type} (fuel : Nat)
    (player : AlfalfaPlayer R S K) (throughput_estimate dri cur_track_id : Nat) :
    ∀ (track_ids : List Nat) (options : List FrameSequence)
      (tested : List (List FrameInfoWrapper)),
      track_jump_options fuel player throughput_estimate dri cur_track_id track_ids =
        Except.ok (options, tested) →
      (∀ c ∈ tested, determine_feasibility player c throughput_estimate = Except.ok false) →
      options = [] := by
  intro track_ids
  induction track_ids with
  | nil =>
    intro options tested h _
    simp only [track_jump_options] at h
    cases h; rfl
  | cons track_id rest ih =>
    intro options tested h hinf
    simp only [track_jump_options] at h
    split at h
    · cases hc : get_frame_seq_of_track fuel player track_id dri with
      | error e => rw [hc] at h; cases h
      | ok frame_seq =>
        rw [hc] at h
        simp only at h
        cases hf : determine_feasibility player frame_seq.frame_seq throughput_estimate with
        | error e => rw [hf] at h; cases h
        | ok feasible =>
          rw [hf] at h
          simp only at h
          cases hr : track_jump_options fuel player throughput_estimate dri cur_track_id
              rest with
          | error e => rw [hr] at h; cases h
          | ok p =>
            obtain ⟨options1, tested1⟩ := p
            rw [hr] at h
            simp only [Except.ok.injEq, Prod.mk.injEq] at h
            obtain ⟨h1, h2⟩ := h
            have hfalse : feasible = false := by
              have := hinf frame_seq.frame_seq (by rw [← h2]; exact List.mem_cons_self _ _)
              rw [hf] at this
              exact Except.ok.inj this
            have hrest := ih options1 tested1 hr
              (fun c hcm => hinf c (by rw [← h2]; exact List.mem_cons_of_mem _ hcm))
            rw [← h1, hfalse, hrest]
            rfl
    · exact ih options tested h hinf

theorem vector_range_to_end {α : Type} (v : List α) (first : Nat) (r : List α)
    (h : vector_range v first v.length = Except.ok r) : r = v.drop first := by
  unfold vector_range at h
  split at h
  · cases h
    apply List.take_of_length_le
    simp
  · cases h

theorem get_frame_seq_frames {R S K : Type} (player : AlfalfaPlayer R S K)
    (stay : FrameSequence) (h : get_frame_seq player = Except.ok stay) :
    stay.frame_seq = player.current_frame_seq_.drop player.current_download_pt_index_ := by
  unfold get_frame_seq at h
  cases hv : vector_range player.current_frame_seq_ player.current_download_pt_index_
      player.current_frame_seq_.length with
  | error e => rw [hv] at h; cases h
  | ok r =>
    rw [hv] at h
    cases h
    exact vector_range_to_end _ _ _ hv

theorem track_jump_options_filter {R S K : Type} (fuel : Nat) (player : AlfalfaPlayer R S K)
    (throughput_estimate dri cur_track_id : Nat) (candidate : Nat → FrameSequence)
    (feasible : Nat → Bool) :
    ∀ (track_ids : List Nat),
      (∀ t ∈ track_ids, t ≠ cur_track_id →
        get_frame_seq_of_track fuel player t dri = Except.ok (candidate t)) →
      (∀ t ∈ track_ids, t ≠ cur_track_id →
        determine_feasibility player (candidate t).frame_seq throughput_estimate =
          Except.ok (feasible t)) →
      track_jump_options fuel player throughput_estimate dri cur_track_id track_ids =
        Except.ok
          (((track_ids.filter (fun t => decide (t ≠ cur_track_id))).filter feasible).map
              candidate,
           (track_ids.filter (fun t => decide (t ≠ cur_track_id))).map
              (fun t => (candidate t).frame_seq)) := by
  intro track_ids
  induction track_ids with
  | nil => intro _ _; rfl
  | cons t rest ih =>
    intro hc hf
    have ih1 := ih (fun u hu => hc u (List.mem_cons_of_mem _ hu))
      (fun u hu => hf u (List.mem_cons_of_mem _ hu))
    simp only [track_jump_options]
    by_cases ht : t ≠ cur_track_id
    · have hfil : (t :: rest).filter (fun t => decide (t ≠ cur_track_id)) =
          t :: rest.filter (fun t => decide (t ≠ cur_track_id)) :=
        List.filter_cons_of_pos (by simpa using ht)
      rw [hfil, if_pos ht, hc t (List.mem_cons_self _ _) ht]
      simp only []
      rw [hf t (List.mem_cons_self _ _) ht]
      simp only []
      rw [ih1]
      simp only []
      cases hft : feasible t
      · rw [List.filter_cons_of_neg (by simp [hft])]
        simp only [Bool.false_eq_true, if_false, List.map_cons]
      · rw [List.filter_cons_of_pos hft]
        simp only [if_true, List.map_cons]
    · have hfil : (t :: rest).filter (fun t => decide (t ≠ cur_track_id)) =
          rest.filter (fun t => decide (t ≠ cur_track_id)) :=
        List.filter_cons_of_neg (by simpa using ht)
      rw [hfil, if_neg ht, ih1]

theorem player_eta {R S K : Type} (player : AlfalfaPlayer R S K) :
    ({ player with
        current_frame_seq_ :=
          player.current_frame_seq_.take player.current_download_pt_index_ ++
            player.current_frame_seq_.drop player.current_download_pt_index_ } :
      AlfalfaPlayer R S K) = player := by
  cases player
  simp only [List.take_append_drop]

theorem set_current_frame_seq_from_stay {R S K : Type} (out_of_range : ℚ → Nat)
    (player : AlfalfaPlayer R S K) (stay : FrameSequence)
    (hstay : get_frame_seq player = Except.ok stay) :
    set_current_frame_seq_from out_of_range player [stay] none = Except.ok player := by
  obtain ⟨chosen, h2, h3⟩ :=
    set_current_frame_seq_from_sequential out_of_range player [stay] (by simp)
  have hidx : (optimal_frame_sequence out_of_range [stay] 0 0 0).1 = 0 := by
    have := optimal_frame_sequence_index_lt out_of_range [stay] 0 0 0 (by simp)
    simp only [List.length_singleton] at this
    omega
  rw [hidx] at h2
  simp only [List.getElem?_cons_zero, Option.some.injEq] at h2
  subst h2
  rw [h3, get_frame_seq_frames player _ hstay, player_eta]

/-- C21: when `set_current_frame_seq` is called without `dri_to_seek` and the
play options are not empty, the call returns, whatever the conversion at line
827 stores for a `min_ssim` outside the range of `size_t`, and afterwards
`current_frame_seq` is the old one up to the download point followed by the
frames of the adopted option, the option at the index that the loop at lines
824-829 ends with, and the download point, the playhead and
`downloaded_frame_bytes` are unchanged. -/
theorem sequential_swap_in {R S K : Type} (out_of_range : ℚ → Nat) (fuel : Nat)
    (player : AlfalfaPlayer R S K) (throughput_estimate : Nat) (options : List FrameSequence)
    (hopt : get_sequential_play_options fuel player throughput_estimate = Except.ok options)
    (hne : options ≠ []) :
    ∃ chosen player1,
      options[(optimal_frame_sequence out_of_range options 0 0 0).1]? = some chosen ∧
      set_current_frame_seq out_of_range fuel player none throughput_estimate =
        Except.ok player1 ∧
      player1.current_frame_seq_ =
        player.current_frame_seq_.take player.current_download_pt_index_ ++
          chosen.frame_seq ∧
      player1.current_download_pt_index_ = player.current_download_pt_index_ ∧
      player1.current_playhead_index_ = player.current_playhead_index_ ∧
      player1.downloaded_frame_bytes_ = player.downloaded_frame_bytes_ := by
  obtain ⟨chosen, h2, h3⟩ :=
    set_current_frame_seq_from_sequential out_of_range player options hne
  refine ⟨chosen,
    { player with
      current_frame_seq_ :=
        player.current_frame_seq_.take player.current_download_pt_index_ ++
          chosen.frame_seq }, h2, ?_, rfl, rfl, rfl, rfl⟩
  simp only [set_current_frame_seq, hopt, h3]

/-- Witness for `sequential_swap_in`.  For `rated_player`, on track 0 with
frame 0 downloaded, the options are the rest of track 0 (`min_ssim` 0.5) and the
jump to track 1 (`min_ssim` 0.9); index 1, the jump, is adopted, and the new
sequence is frame 0 followed by the five frames of the jump.  For
`hidden_tail_player` the only option is the rest of its sequence, one frame that
is not shown and a `min_ssim` of `(double) SIZE_MAX = 2^64`; the call returns
and the sequence is the two frames it was. -/
theorem sequential_swap_in_witness :
    (get_sequential_play_options 1 rated_player 1000).map
        (fun options => options.map (fun o => o.min_ssim)) = Except.ok [1 / 2, 9 / 10] ∧
    (set_current_frame_seq (fun _ => 0) 1 rated_player none 1000).map
        (fun player => player.current_frame_seq_.map
          (fun w => (w.frame_info.frame_id, w.track_id, w.dri))) =
      Except.ok [(0, 0, 0), (0, 1, 1), (1, 1, 2), (2, 1, 3), (3, 1, 4), (4, 1, 5)] ∧
    (get_sequential_play_options 1 hidden_tail_player 0).map
        (fun options => options.map (fun o => (o.frame_seq.length, o.min_ssim))) =
      Except.ok [(1, 18446744073709551616)] ∧
    (∃ options player1,
      get_sequential_play_options 1 hidden_tail_player 0 = Except.ok options ∧
      set_current_frame_seq (fun _ => 0) 1 hidden_tail_player none 0 = Except.ok player1 ∧
      player1.current_frame_seq_.length = 2 ∧
      player1.current_download_pt_index_ = 1 ∧ player1.current_playhead_index_ = 0 ∧
      player1.downloaded_frame_bytes_ = 0) := by
  have hmins : (get_sequential_play_options 1 hidden_tail_player 0).map
      (fun options => options.map (fun o => (o.frame_seq.length, o.min_ssim))) =
      Except.ok [(1, 18446744073709551616)] := by
    decide!
  refine ⟨by decide!, by decide!, hmins, ?_⟩
  cases hopt : get_sequential_play_options 1 hidden_tail_player 0 with
  | error e => rw [hopt] at hmins; cases hmins
  | ok options =>
    rw [hopt] at hmins
    have hmin : options.map (fun o => (o.frame_seq.length, o.min_ssim)) =
        [(1, 18446744073709551616)] := Except.ok.inj hmins
    have hne : options ≠ [] := by
      intro e; rw [e] at hmin; cases hmin
    obtain ⟨chosen, player1, h1, h3, h4, h5, h6, h7⟩ :=
      sequential_swap_in (fun _ => 0) 1 hidden_tail_player 0 options hopt hne
    have hmem : (chosen.frame_seq.length, chosen.min_ssim) ∈
        options.map (fun o => (o.frame_seq.length, o.min_ssim)) :=
      List.mem_map_of_mem _ (List.getElem?_mem h1)
    rw [hmin] at hmem
    simp only [List.mem_singleton, Prod.mk.injEq] at hmem
    refine ⟨options, player1, rfl, h3, ?_, h5, h6, h7⟩
    rw [h4, List.length_append, hmem.1]
    rfl

/-- C22: if `determine_feasibility` has returned false for every candidate it
was applied to during the call of `get_sequential_play_options`, then
`set_current_frame_seq` called without `dri_to_seek` returns, whatever the
conversion at line 827 stores for a `min_ssim` outside the range of `size_t`,
and leaves the player as it was, and with it `current_frame_seq`, the download
point and the playhead. -/
theorem infeasible_keeps_plan {R S K : Type} (out_of_range : ℚ → Nat) (fuel : Nat)
    (player : AlfalfaPlayer R S K) (throughput_estimate : Nat) (options : List FrameSequence)
    (tested : List (List FrameInfoWrapper))
    (hrun : sequential_play_options_run fuel player throughput_estimate =
      Except.ok (options, tested))
    (hinf : ∀ c ∈ tested,
      determine_feasibility player c throughput_estimate = Except.ok false) :
    set_current_frame_seq out_of_range fuel player none throughput_estimate =
      Except.ok player := by
  have hopt : get_sequential_play_options fuel player throughput_estimate =
      Except.ok options := by
    unfold get_sequential_play_options
    rw [hrun]; rfl
  have hset : set_current_frame_seq out_of_range fuel player none throughput_estimate =
      set_current_frame_seq_from out_of_range player options none := by
    simp only [set_current_frame_seq, hopt]
  rw [hset]
  have hnil : options = [] →
      set_current_frame_seq_from out_of_range player options none = Except.ok player := by
    intro e; subst e; rfl
  unfold sequential_play_options_run at hrun
  split at hrun
  · exact hnil (initial_track_options_infeasible fuel player throughput_estimate _ _ _
      hrun hinf)
  · split at hrun
    · cases hrun; rfl
    · cases hw : player.current_frame_seq_[player.current_download_pt_index_]? with
      | none => rw [hw] at hrun; cases hrun
      | some wrapper =>
        rw [hw] at hrun
        simp only at hrun
        cases hstay : get_frame_seq player with
        | error e => rw [hstay] at hrun; cases hrun
        | ok stay =>
          rw [hstay] at hrun
          simp only at hrun
          cases hj : track_jump_options fuel player throughput_estimate wrapper.dri
              wrapper.track_id player.video_.track_ids with
          | error e => rw [hj] at hrun; cases hrun
          | ok p =>
            obtain ⟨jumps, tested_jumps⟩ := p
            rw [hj] at hrun
            simp only at hrun
            have key : ∀ tested_more, options = stay :: jumps →
                tested = tested_jumps ++ tested_more →
                set_current_frame_seq_from out_of_range player options none =
                  Except.ok player := by
              intro tested_more ho ht
              have hjn : jumps = [] :=
                track_jump_options_infeasible fuel player throughput_estimate _ _ _ _ _ hj
                  (fun c hc => hinf c (by rw [ht]; exact List.mem_append_left _ hc))
              subst hjn
              subst ho
              exact set_current_frame_seq_from_stay out_of_range player stay hstay
            split at hrun
            · simp only [Except.ok.injEq, Prod.mk.injEq] at hrun
              exact key [] hrun.1.symm (by rw [List.append_nil]; exact hrun.2.symm)
            · cases hp : player.current_frame_seq_[player.current_download_pt_index_ - 1]? with
              | none => rw [hp] at hrun; cases hrun
              | some previous =>
                rw [hp] at hrun
                simp only at hrun
                split at hrun
                · simp only [Except.ok.injEq, Prod.mk.injEq] at hrun
                  exact key [] hrun.1.symm (by rw [List.append_nil]; exact hrun.2.symm)
                · cases hs : switch_options player throughput_estimate wrapper.dri
                      previous.track_id
                      (player.video_.connected_track_ids previous.track_id) with
                  | error e => rw [hs] at hrun; cases hrun
                  | ok tested_switches =>
                    rw [hs] at hrun
                    simp only [Except.ok.injEq, Prod.mk.injEq] at hrun
                    exact key tested_switches hrun.1.symm hrun.2.symm

/-- Witness for `infeasible_keeps_plan`.  For `unpaid_player`, on track 0 with
frame 0 queued and no byte downloaded, and a throughput of 0: the jump to track 1
and the switch candidate are tested and rejected, the only option is the rest of
track 0, and `set_current_frame_seq` leaves the sequence of five frames, the
download point 1 and the playhead 0.  For `hidden_tail_player` the one candidate
tested is rejected and the only option has a `min_ssim` of `2^64`; the call
returns and leaves the two frames, the download point 1 and the playhead 0. -/
theorem infeasible_keeps_plan_witness :
    (sequential_play_options_run 1 unpaid_player 0).map
      (fun r => (r.1.map (fun o => o.min_ssim),
        r.2.map (fun c => determine_feasibility unpaid_player c 0))) =
      Except.ok ([0], [Except.ok false, Except.ok false]) ∧
    (set_current_frame_seq (fun _ => 0) 1 unpaid_player none 0).map
      (fun player => (player.current_frame_seq_.length, player.current_download_pt_index_,
        player.current_playhead_index_)) = Except.ok (5, 1, 0) ∧
    (sequential_play_options_run 1 hidden_tail_player 0).map
      (fun r => (r.1.map (fun o => o.min_ssim),
        r.2.map (fun c => determine_feasibility hidden_tail_player c 0))) =
      Except.ok ([18446744073709551616], [Except.ok false]) ∧
    (set_current_frame_seq (fun _ => 0) 1 hidden_tail_player none 0).map
      (fun player => (player.current_frame_seq_.length, player.current_download_pt_index_,
        player.current_playhead_index_)) = Except.ok (2, 1, 0) := by
  have hrun : (sequential_play_options_run 1 hidden_tail_player 0).map
      (fun r => (r.1.map (fun o => o.min_ssim),
        r.2.map (fun c => determine_feasibility hidden_tail_player c 0))) =
      Except.ok ([18446744073709551616], [Except.ok false]) := by decide!
  refine ⟨by decide!, by decide!, hrun, ?_⟩
  cases hr : sequential_play_options_run 1 hidden_tail_player 0 with
  | error e => rw [hr] at hrun; cases hrun
  | ok r =>
    obtain ⟨options, tested⟩ := r
    rw [hr] at hrun
    have h2 := Except.ok.inj hrun
    simp only [Prod.mk.injEq] at h2
    have hinf : ∀ c ∈ tested,
        determine_feasibility hidden_tail_player c 0 = Except.ok false := by
      intro c hc
      have : determine_feasibility hidden_tail_player c 0 ∈
          tested.map (fun c => determine_feasibility hidden_tail_player c 0) :=
        List.mem_map_of_mem _ hc
      rw [h2.2] at this
      simp only [List.mem_singleton] at this
      exact this
    rw [infeasible_keeps_plan (fun _ => 0) 1 _ 0 options tested hr hinf]
    rfl

/-- C23 at the failing input: for `on_track_player`, on track 0 with the
download point at index 1 and the wrapper before it on track 0, track 1 is
connected to track 0 by a switch that leaves track 0 at index 2, inside the
window; `get_frame_seqs_with_switch` builds the candidate of that switch (frame
1 of track 0, the switch frame, frames 3 and 4 of track 1) and
`determine_feasibility` accepts it, but the vector that
`get_sequential_play_options` returns holds the stay candidate and the jump to
track 1 only: no option has a frame with the track id `SIZE_MAX` of a switch
frame. -/
theorem switch_candidate_not_emitted :
    on_track_player.current_download_pt_index_ = 1 ∧
    (on_track_player.current_frame_seq_[0]?).map (fun w => w.track_id) = some 0 ∧
    on_track_player.video_.connected_track_ids 0 = [1] ∧
    (get_frame_seqs_with_switch on_track_player 0 1 1).map
        (fun seqs => seqs.map (fun o => o.frame_seq.map
          (fun w => (w.frame_info.frame_id, w.track_id, w.dri)))) =
      Except.ok [[(1, 0, 1), (40, SIZE_MAX, 2), (3, 1, 3), (4, 1, 4)]] ∧
    ((get_frame_seqs_with_switch on_track_player 0 1 1).bind
        (fun seqs => switch_options_scan on_track_player 1000 seqs seqs)).map
        (fun r => (r.1.length, r.2.map
          (fun c => determine_feasibility on_track_player c 1000))) =
      Except.ok (2, [Except.ok true]) ∧
    (get_sequential_play_options 1 on_track_player 1000).map
        (fun options => options.map (fun o => o.frame_seq.map
          (fun w => (w.frame_info.frame_id, w.track_id, w.dri)))) =
      Except.ok [[(1, 0, 1), (2, 0, 2), (3, 0, 3), (4, 0, 4)],
        [(0, 1, 1), (1, 1, 2), (2, 1, 3), (3, 1, 4), (4, 1, 5)]] ∧
    (get_sequential_play_options 1 on_track_player 1000).map
        (fun options => options.any (fun o => o.frame_seq.any
          (fun w => decide (w.track_id = SIZE_MAX)))) = Except.ok false := by
  refine ⟨rfl, by decide, by decide, by decide!, by decide!, by decide!, by decide!⟩

/-- When every track jump candidate is computed and tested and the wrapper
before the download point has the track id `SIZE_MAX`,
`get_sequential_play_options` returns the stay candidate, the rest
of the current sequence from the download point, followed by the candidates of
the tracks other than that of the wrapper at the download point, in the order of
the track ids, that `determine_feasibility` accepts, and nothing else; here
`candidate t` is what `get_frame_seq( t, dri )` returns for such a track and
`feasible t` what `determine_feasibility` returns for it. -/
theorem no_switch_after_switch {R S K : Type} (fuel : Nat) (player : AlfalfaPlayer R S K)
    (throughput_estimate : Nat) (wrapper previous : FrameInfoWrapper)
    (candidate : Nat → FrameSequence) (feasible : Nat → Bool)
    (hcur : player.current_frame_seq_[player.current_download_pt_index_]? = some wrapper)
    (hprev : player.current_frame_seq_[player.current_download_pt_index_ - 1]? =
      some previous)
    (hswitch : previous.track_id = SIZE_MAX)
    (hcand : ∀ t ∈ player.video_.track_ids, t ≠ wrapper.track_id →
      get_frame_seq_of_track fuel player t wrapper.dri = Except.ok (candidate t))
    (hfeas : ∀ t ∈ player.video_.track_ids, t ≠ wrapper.track_id →
      determine_feasibility player (candidate t).frame_seq throughput_estimate =
        Except.ok (feasible t)) :
    ∃ stay, get_frame_seq player = Except.ok stay ∧
      stay.frame_seq = player.current_frame_seq_.drop player.current_download_pt_index_ ∧
      get_sequential_play_options fuel player throughput_estimate =
        Except.ok (stay ::
          ((player.video_.track_ids.filter (fun t => decide (t ≠ wrapper.track_id))).filter
            feasible).map candidate) := by
  have hlt : player.current_download_pt_index_ < player.current_frame_seq_.length := by
    by_contra hge
    rw [List.getElem?_eq_none (by omega)] at hcur
    cases hcur
  have hvr : vector_range player.current_frame_seq_ player.current_download_pt_index_
      player.current_frame_seq_.length =
      Except.ok ((player.current_frame_seq_.drop player.current_download_pt_index_).take
        (player.current_frame_seq_.length - player.current_download_pt_index_)) := by
    unfold vector_range
    have : player.current_download_pt_index_ ≤ player.current_frame_seq_.length ∧
        player.current_frame_seq_.length ≤ player.current_frame_seq_.length :=
      ⟨by omega, le_refl _⟩
    simp only [this, and_self, if_true]
  have hstay : get_frame_seq player = Except.ok
      { frame_seq := (player.current_frame_seq_.drop player.current_download_pt_index_).take
          (player.current_frame_seq_.length - player.current_download_pt_index_)
        min_ssim := stay_min_ssim player.quality_data_
          ((player.current_frame_seq_.drop player.current_download_pt_index_).take
            (player.current_frame_seq_.length - player.current_download_pt_index_))
          SIZE_MAX_AS_DOUBLE } := by
    unfold get_frame_seq
    rw [hvr]
  refine ⟨_, hstay, get_frame_seq_frames player _ hstay, ?_⟩
  have hj := track_jump_options_filter fuel player throughput_estimate wrapper.dri
    wrapper.track_id candidate feasible player.video_.track_ids hcand hfeas
  have hlen : ¬ ((player.current_frame_seq_.length == 0) = true) := by
    simp only [beq_iff_eq]; omega
  have hge : ¬ (player.current_download_pt_index_ ≥ player.current_frame_seq_.length) := by
    omega
  unfold get_sequential_play_options sequential_play_options_run
  rw [if_neg hlen, if_neg hge]
  simp only [hcur, hstay, hj]
  split
  · rfl
  · simp only [hprev, hswitch, if_true]
    rfl

/-- An instance of `no_switch_after_switch`: for `in_switch_player`, whose frame
before the download point is a switch frame and whose frame at the download
point is frame 3 of track 1, the options are the rest of the sequence, frames 3
and 4, and the jump to track 0, which is feasible. -/
theorem no_switch_after_switch_witness :
    (get_sequential_play_options 1 in_switch_player 1000).map
        (fun options => options.map (fun o => o.frame_seq.map
          (fun w => (w.frame_info.frame_id, w.track_id, w.dri)))) =
      Except.ok [[(3, 1, 1), (4, 1, 2)], [(0, 0, 1), (1, 0, 2), (2, 0, 3), (3, 0, 4), (4, 0, 5)]] ∧
    ∃ stay, get_frame_seq in_switch_player = Except.ok stay ∧
      get_sequential_play_options 1 in_switch_player 1000 =
        Except.ok [stay, { frame_seq := wrappers_from 0 1 chain_frames, min_ssim := 0 }] := by
  obtain ⟨stay, h1, _, h3⟩ := no_switch_after_switch 1 in_switch_player 1000
    { frame_info := chain_video.frame_at 0 3, track_id := 1, dri := 1 }
    { frame_info := key_frame 40 6 150 250, track_id := SIZE_MAX, dri := 0 }
    (fun _ => { frame_seq := wrappers_from 0 1 chain_frames, min_ssim := 0 })
    (fun _ => true) (by decide) (by decide) rfl
    (by
      intro t ht hne
      have ht2 : t = 0 ∨ t = 1 := by simpa [in_switch_player, two_track_player,
        two_track_video] using ht
      rcases ht2 with h | h
      · subst h; decide!
      · exact absurd h hne)
    (by
      intro t _ _
      have h : determine_feasibility in_switch_player (wrappers_from 0 1 chain_frames) 1000 =
          Except.ok true := by decide!
      exact h)
  exact ⟨by decide!, stay, h1, h3⟩

/-- C25 at the failing input: with the playhead at index 0 of the chain, whose
wrapper is shown and has displayed raster index 0, `get_raster_sequential( 1 )`
does not enter the loop, decodes frame 0 only, returns its raster 100 and leaves
the playhead at 1; the shown frame with displayed raster index 1 is frame 1,
whose raster is 101. -/
theorem get_raster_sequential_returns_first_shown :
    (get_raster_sequential hash_collaborators (playing_player 0) 1).1 = Except.ok 100 ∧
      (get_raster_sequential hash_collaborators (playing_player 0) 1).2.map
          (fun p => (p.current_playhead_index_, p.cache_.raster_cache_.keys)) =
        some (1, [100, 0]) ∧
      (playing_player 0).current_frame_seq_.map
          (fun w => (w.dri, w.frame_info.shown, w.frame_info.target_hash.output_hash)) =
        [(0, true, 100), (1, true, 101), (2, true, 102), (3, true, 103)] := by
  refine ⟨by decide, by decide, by decide⟩

/-- C26: when the playhead is inside the current frame sequence,
`get_raster_sequential( dri )` ends in the `runtime_error` of line 521 exactly
when the wrapper at the playhead has a displayed raster index above `dri`; it
then leaves a player that differs from the one before the call in the playhead
only, which is advanced by one: no frame is decoded and both caches are as they
were. -/
theorem get_raster_sequential_invalid_dri {R S K : Type} (ext : Collaborators R S K)
    (player : AlfalfaPlayer R S K) (dri : Nat) (wrapper : FrameInfoWrapper)
    (hat : player.current_frame_seq_[player.current_playhead_index_]? = some wrapper) :
    ((get_raster_sequential ext player dri).1 = Except.error Fault.runtime_error ↔
      wrapper.dri > dri) ∧
    (wrapper.dri > dri →
      get_raster_sequential ext player dri =
        (Except.error Fault.runtime_error,
         some { player with
           current_playhead_index_ := size_add player.current_playhead_index_ 1 })) := by
  have hfail : wrapper.dri > dri →
      get_raster_sequential ext player dri =
        (Except.error Fault.runtime_error,
         some { player with
           current_playhead_index_ := size_add player.current_playhead_index_ 1 }) := by
    intro hgt
    simp only [get_raster_sequential, hat, hgt, if_true]
  refine ⟨⟨?_, fun hgt => by rw [hfail hgt]⟩, hfail⟩
  intro h
  by_contra hle
  simp only [get_raster_sequential, hat, hle, if_false] at h
  exact raster_sequential_while_fault ext dri _ _ _ h

/-- Witness for `get_raster_sequential_invalid_dri`: with the playhead at index
1 of the chain, whose wrapper has displayed raster index 1, the request for
index 0 ends in the `runtime_error`, with the playhead at 2 and empty caches;
with the playhead at index 0 the request for index 0 returns raster 100. -/
theorem get_raster_sequential_invalid_dri_witness :
    (get_raster_sequential hash_collaborators (playing_player 1) 0).1 =
        Except.error Fault.runtime_error ∧
      (get_raster_sequential hash_collaborators (playing_player 1) 0).2.map
          (fun p => (p.current_playhead_index_, p.cache_.size)) = some (2, 0) ∧
      (get_raster_sequential hash_collaborators (playing_player 0) 0).1 = Except.ok 100 := by
  have h := get_raster_sequential_invalid_dri hash_collaborators (playing_player 1) 0
    { frame_info := inter_frame 1 5 100 101 201, track_id := 0, dri := 1 } rfl
  refine ⟨h.1.2 (by decide), ?_, by decide⟩
  rw [h.2 (by decide)]
  decide

/-- C27: for a cache whose raster LRU has capacity at least 3 and whose state
LRU has capacity at least 1, `put( decoder )` succeeds, and afterwards the
raster cache has the hashes of the decoder's last, golden and alternative
reference rasters and the state cache has the hash of the decoder's state;
`size()` is the sum of the sizes of the two caches, which as numbers of objects
in memory add up to less than `2^64`. -/
theorem raster_and_state_cache_put {R S K : Type} (ext : Collaborators R S K)
    (cache : RasterAndStateCache R S) (raster_capacity state_capacity : Nat)
    (hraster : 3 ≤ raster_capacity) (hstate : 1 ≤ state_capacity)
    (hr : LRUCache.Reachable raster_capacity cache.raster_cache_)
    (hs : LRUCache.Reachable state_capacity cache.state_cache_)
    (decoder : Decoder R S) :
    (∃ cache1, cache.put ext decoder = Except.ok cache1 ∧
      cache1.raster_cache_.has (ext.raster_hash decoder.last) = true ∧
      cache1.raster_cache_.has (ext.raster_hash decoder.golden) = true ∧
      cache1.raster_cache_.has (ext.raster_hash decoder.alternative_reference) = true ∧
      cache1.state_cache_.has (ext.state_hash decoder.state) = true ∧
      LRUCache.Reachable raster_capacity cache1.raster_cache_ ∧
      LRUCache.Reachable state_capacity cache1.state_cache_) ∧
    (cache.raster_cache_.size + cache.state_cache_.size < SIZE_MOD →
      cache.size = cache.raster_cache_.size + cache.state_cache_.size) := by
  constructor
  · obtain ⟨hwr, hcr⟩ := hr.wf (by omega : 1 ≤ raster_capacity)
    obtain ⟨hws, _⟩ := hs.wf hstate
    obtain ⟨r1, hp1, hw1, hc1, hl1⟩ :=
      LRUCache.put_front cache.raster_cache_ hwr (ext.raster_hash decoder.last) decoder.last
    obtain ⟨r2, hp2, hw2, hc2, hg2, hl2⟩ :=
      LRUCache.put_take r1 hw1 (ext.raster_hash decoder.golden) decoder.golden
        (ext.raster_hash decoder.last) 1 (by omega) hl1
    have hg2' : ext.raster_hash decoder.golden ∈ r2.recency.take 2 :=
      (List.take_subset_take_left _ (by omega : 1 ≤ 2)) hg2
    obtain ⟨r3, hp3, hw3, _, ha3, hl3⟩ :=
      LRUCache.put_take r2 hw2 (ext.raster_hash decoder.alternative_reference)
        decoder.alternative_reference (ext.raster_hash decoder.last) 2 (by omega) hl2
    obtain ⟨r3', hp3', _, _, _, hg3⟩ :=
      LRUCache.put_take r2 hw2 (ext.raster_hash decoder.alternative_reference)
        decoder.alternative_reference (ext.raster_hash decoder.golden) 2 (by omega) hg2'
    rw [hp3] at hp3'
    cases hp3'
    obtain ⟨s1, hq1, hv1, _, hs1⟩ :=
      LRUCache.put_front cache.state_cache_ hws (ext.state_hash decoder.state) decoder.state
    refine ⟨{ raster_cache_ := r3, state_cache_ := s1 }, ?_, ?_, ?_, ?_, ?_, ?_, ?_⟩
    · simp only [RasterAndStateCache.put, hp1, hp2, hp3, hq1]
    · exact LRUCache.has_of_mem_recency r3 hw3 _ (List.mem_of_mem_take hl3)
    · exact LRUCache.has_of_mem_recency r3 hw3 _ (List.mem_of_mem_take hg3)
    · exact LRUCache.has_of_mem_recency r3 hw3 _ (List.mem_of_mem_take ha3)
    · exact LRUCache.has_of_mem_recency s1 hv1 _ (List.mem_of_mem_take hs1)
    · exact LRUCache.Reachable.put _ _ _ _
        (LRUCache.Reachable.put _ _ _ _ (LRUCache.Reachable.put _ _ _ _ hr hp1) hp2) hp3
    · exact LRUCache.Reachable.put _ _ _ _ hs hq1
  · intro hsum
    unfold RasterAndStateCache.size size_add
    exact Nat.mod_eq_of_lt hsum

/-- Witness for `raster_and_state_cache_put`: on empty caches of capacity 8 the
`put` of a decoder with the references 11, 12, 13 and the state 21 leaves the
rasters 11, 12, 13 and the state 21 cached, and `size()` is 4. -/
theorem raster_and_state_cache_put_witness :
    ((empty_cache.put hash_collaborators
        { state := 21, last := 11, golden := 12, alternative_reference := 13 }).map
      (fun c => (c.raster_cache_.recency, c.state_cache_.recency, c.size))) =
        Except.ok ([13, 12, 11], [21], 4) ∧
    ∃ cache1, empty_cache.put hash_collaborators
        { state := 21, last := 11, golden := 12, alternative_reference := 13 } =
          Except.ok cache1 ∧
      cache1.raster_cache_.has 11 = true ∧ cache1.raster_cache_.has 12 = true ∧
      cache1.raster_cache_.has 13 = true ∧ cache1.state_cache_.has 21 = true := by
  obtain ⟨cache1, h1, h2, h3, h4, h5, _⟩ :=
    (raster_and_state_cache_put hash_collaborators empty_cache 8 8 (by decide) (by decide)
      LRUCache.Reachable.empty LRUCache.Reachable.empty
      { state := 21, last := 11, golden := 12, alternative_reference := 13 }).1
  exact ⟨by decide, cache1, h1, h2, h3, h4, h5⟩

theorem mem_source_vertices_iff (frame : FrameInfo) (v : DependencyVertex) :
    v ∈ source_vertices frame ↔
      (∃ h, (frame.source_hash.last_hash = some h ∨ frame.source_hash.golden_hash = some h ∨
          frame.source_hash.alt_hash = some h) ∧
        v = { type := DependencyType.RASTER, hash := h }) ∨
      (∃ s, frame.source_hash.state_hash = some s ∧
        v = { type := DependencyType.STATE, hash := s }) := by
  unfold source_vertices
  rw [List.mem_append, List.mem_filterMap]
  constructor
  · rintro (⟨o, ho, hv⟩ | hs)
    · left
      cases o with
      | none => simp at hv
      | some h =>
        simp only [Option.map_some', Option.some.injEq] at hv
        simp only [List.mem_cons, List.mem_singleton, List.not_mem_nil, or_false] at ho
        exact ⟨h, by rcases ho with ho | ho | ho <;> simp [ho], hv.symm⟩
    · right
      cases hst : frame.source_hash.state_hash with
      | none => rw [hst] at hs; simp at hs
      | some s =>
        rw [hst] at hs
        simp only [List.mem_singleton] at hs
        exact ⟨s, rfl, hs⟩
  · rintro (⟨h, hh, hv⟩ | ⟨s, hs, hv⟩)
    · left
      refine ⟨some h, ?_, by rw [hv]; rfl⟩
      simp only [List.mem_cons, List.mem_singleton, List.not_mem_nil, or_false]
      rcases hh with hh | hh | hh <;> simp [hh]
    · right
      rw [hs, hv]; simp

/-- C28: after `update_dependencies( frame, cache )` a vertex is in the
unresolved set exactly when it was in the set before and is neither target
vertex of the frame, or it is `(RASTER, h)` for a present source hash `h`
(last, golden or alt) that the raster cache does not have, or it is
`(STATE, s)` for the present source state hash `s` that the state cache does
not have; `all_resolved()` is true exactly when the set is empty; and an
uncached source hash that equals the frame's own target hash is unresolved
afterwards. -/
theorem update_dependencies_unresolved_set {R S : Type} (d : FrameDependency)
    (frame : FrameInfo) (cache : RasterAndStateCache R S) :
    (∀ v : DependencyVertex, v ∈ (d.update_dependencies frame cache).unresolved_ ↔
      (v ∈ d.unresolved_ ∧
        v ≠ { type := DependencyType.RASTER, hash := frame.target_hash.output_hash } ∧
        v ≠ { type := DependencyType.STATE, hash := frame.target_hash.state_hash }) ∨
      (∃ h, (frame.source_hash.last_hash = some h ∨ frame.source_hash.golden_hash = some h ∨
          frame.source_hash.alt_hash = some h) ∧
        cache.raster_cache_.has h = false ∧
        v = { type := DependencyType.RASTER, hash := h }) ∨
      (∃ s, frame.source_hash.state_hash = some s ∧ cache.state_cache_.has s = false ∧
        v = { type := DependencyType.STATE, hash := s })) ∧
    ((d.update_dependencies frame cache).all_resolved = true ↔
      (d.update_dependencies frame cache).unresolved_ = []) ∧
    ((frame.source_hash.last_hash = some frame.target_hash.output_hash ∨
        frame.source_hash.golden_hash = some frame.target_hash.output_hash ∨
        frame.source_hash.alt_hash = some frame.target_hash.output_hash) →
      cache.raster_cache_.has frame.target_hash.output_hash = false →
      ({ type := DependencyType.RASTER, hash := frame.target_hash.output_hash } :
        DependencyVertex) ∈ (d.update_dependencies frame cache).unresolved_) ∧
    (frame.source_hash.state_hash = some frame.target_hash.state_hash →
      cache.state_cache_.has frame.target_hash.state_hash = false →
      ({ type := DependencyType.STATE, hash := frame.target_hash.state_hash } :
        DependencyVertex) ∈ (d.update_dependencies frame cache).unresolved_) := by
  have key : ∀ v : DependencyVertex, v ∈ (d.update_dependencies frame cache).unresolved_ ↔
      (v ∈ d.unresolved_ ∧
        v ≠ { type := DependencyType.RASTER, hash := frame.target_hash.output_hash } ∧
        v ≠ { type := DependencyType.STATE, hash := frame.target_hash.state_hash }) ∨
      (∃ h, (frame.source_hash.last_hash = some h ∨ frame.source_hash.golden_hash = some h ∨
          frame.source_hash.alt_hash = some h) ∧
        cache.raster_cache_.has h = false ∧
        v = { type := DependencyType.RASTER, hash := h }) ∨
      (∃ s, frame.source_hash.state_hash = some s ∧ cache.state_cache_.has s = false ∧
        v = { type := DependencyType.STATE, hash := s }) := by
    intro v
    rw [FrameDependency.mem_update_dependencies, mem_source_vertices_iff]
    constructor
    · rintro (⟨h1, h2⟩ | ⟨hs, hc⟩)
      · left
        simp only [target_vertices, List.mem_cons, List.mem_singleton, List.not_mem_nil,
          or_false, not_or] at h2
        exact ⟨h1, h2.1, h2.2⟩
      · rcases hs with ⟨h, hh, hv⟩ | ⟨s, hs, hv⟩
        · right; left
          refine ⟨h, hh, ?_, hv⟩
          rw [hv] at hc
          exact hc
        · right; right
          refine ⟨s, hs, ?_, hv⟩
          rw [hv] at hc
          exact hc
    · rintro (⟨h1, h2, h3⟩ | ⟨h, hh, hc, hv⟩ | ⟨s, hs, hc, hv⟩)
      · left
        refine ⟨h1, ?_⟩
        simp only [target_vertices, List.mem_cons, List.mem_singleton, List.not_mem_nil,
          or_false, not_or]
        exact ⟨h2, h3⟩
      · right
        refine ⟨Or.inl ⟨h, hh, hv⟩, ?_⟩
        rw [hv]; exact hc
      · right
        refine ⟨Or.inr ⟨s, hs, hv⟩, ?_⟩
        rw [hv]; exact hc
  refine ⟨key, all_resolved_iff _, ?_, ?_⟩
  · intro hh hc
    exact (key _).2 (Or.inr (Or.inl ⟨_, hh, hc, rfl⟩))
  · intro hs hc
    exact (key _).2 (Or.inr (Or.inr ⟨_, hs, hc, rfl⟩))

set_option maxRecDepth 100000 in
/-- C29 at the failing input: on a track of 2000 frames whose frame 0 produces
the raster that all other frames need, the single unbatched backward walk from
index 1999 resolves at index 0 with cost 1999 * 5 + 10 = 10005, while
`get_track_seek` from index 1999 does not return, whatever the fuel: after the
first batch it computes the next batch boundary from `from_frame_index`, so its
second query asks for the range from index 999 down to index 1000, which is
inverted and holds no frame. -/
theorem track_seek_paging_not_transparent :
    1999 < paged_video.track_size 0 ∧
    (fun r : TrackSeek => (r.1, r.2.1.all_resolved, r.2.2))
        (unbatched_track_seek paged_video empty_cache 0 1999 FrameDependency.empty) =
      (0, true, 10005) ∧
    (∀ fuel, get_track_seek fuel paged_video empty_cache 0 1999 FrameDependency.empty =
      Except.error Fault.out_of_fuel) ∧
    seek_to_frame_index 1999 1999 = Except.ok 1000 ∧
    seek_to_frame_index 999 1999 = Except.ok 1000 ∧
    paged_video.get_frames_reverse 0 999 1000 = [] := by
  refine ⟨by decide, by decide!, ?_, by decide, by decide, by decide⟩
  exact get_track_seek_second_page paged_video empty_cache 0 1999 FrameDependency.empty
    (by decide) (by decide) (by decide) (fun m hm => paged_frames_unresolved _ m hm)

/-- C30 at the failing input: the switch has one frame, at index 0, which needs
the uncached raster 100, so the walk applies `update_dependencies` to that frame,
stays unresolved and uses up the frames with `cur_switch_frame_index` at 1; the
track seek from index 0 of track 0 resolves at cost 10 and the candidate is
adopted with `switch_end_index = 2`, one more than the last index touched plus
one, and more than the start index plus the number of switch frames. -/
theorem switch_end_index_past_frames :
    residual_switch.switch_start_index = 0 ∧ residual_switch.frames.length = 1 ∧
    (switch_walk empty_cache residual_switch.frames 0 FrameDependency.empty
        residual_switch.switch_start_index).2.1.all_resolved = false ∧
    (switch_walk empty_cache residual_switch.frames 0 FrameDependency.empty
        residual_switch.switch_start_index).2.2 = 1 ∧
    (get_min_switch_seek 1 residual_switch_video empty_cache 70).map
        (fun r => (r.1.cost, r.1.switch_start_index, r.1.switch_end_index, r.2.1)) =
      Except.ok (14, 0, 2, some { track_id := 0, start_index := 0, end_index := 1, cost := 10 }) := by
  refine ⟨rfl, rfl, by decide, by decide, by decide⟩

/-- C31 at the failing input: raster 70 is reached by two switches.  The walk of
the first stays unresolved, the track seek from index 0 of track 0 resolves it,
and the candidate is adopted at cost 4 + 10 = 14 with the track path `[0, 1)` of
cost 10.  The walk of the second resolves by itself at cost 3 and the candidate
is adopted, and the track path of the first is still there: the returned
`Optional<TrackPath>` is initialised although the track planner was not invoked
for the adopted candidate, its `end_index` is 1 where the adopted switch leaves
track 0 at index 2, and the cost 3 of the `SwitchPath` is not the switch cost
plus the cost 10 of the track path. -/
theorem residual_track_path_is_stale :
    (get_min_switch_seek 1 stale_path_video empty_cache 70).map
        (fun r => (r.1.cost, r.1.from_frame_index, r.2.1)) =
      Except.ok (3, 2, some { track_id := 0, start_index := 0, end_index := 1, cost := 10 }) ∧
    cheap_switch.from_frame_index = 2 ∧
    (switch_walk empty_cache cheap_switch.frames 0 FrameDependency.empty
        cheap_switch.switch_start_index).2.1.all_resolved = true ∧
    (switch_walk empty_cache cheap_switch.frames 0 FrameDependency.empty
        cheap_switch.switch_start_index).1 = 3 ∧
    (switch_walk empty_cache residual_switch.frames 0 FrameDependency.empty
        residual_switch.switch_start_index).2.1.all_resolved = false ∧
    (get_track_seek 1 stale_path_video empty_cache 0 0
        (switch_walk empty_cache residual_switch.frames 0 FrameDependency.empty
          residual_switch.switch_start_index).2.1).map (fun r => (r.1, r.2.2)) =
      Except.ok (0, 10) := by
  refine ⟨by decide, rfl, by decide, by decide, by decide, by decide⟩

theorem map_find_mem {κ β : Type} [DecidableEq κ] (m : List (κ × β)) (key : κ) (b : β)
    (h : map_find m key = some b) : (key, b) ∈ m := by
  induction m with
  | nil => simp [map_find] at h
  | cons e m ih =>
    obtain ⟨k, v⟩ := e
    simp only [map_find] at h
    split at h
    · rename_i hk
      cases h
      subst hk
      exact List.mem_cons_self _ _
    · exact List.mem_cons_of_mem _ (ih h)

theorem quality_at_le (quality_data : List (Nat × List (Nat × ℚ)))
    (hq : quality_bounded quality_data) (output_hash dri : Nat) :
    quality_at quality_data output_hash dri ≤ SIZE_MAX_AS_DOUBLE := by
  unfold quality_at
  cases hrow : map_find quality_data output_hash with
  | none => simp only [SIZE_MAX_AS_DOUBLE]; norm_num
  | some row =>
    simp only
    cases he : map_find row dri with
    | none => simp only [SIZE_MAX_AS_DOUBLE]; norm_num
    | some quality =>
      exact hq (output_hash, row) (map_find_mem _ _ _ hrow) (dri, quality)
        (map_find_mem _ _ _ he)

/-- The running minimum of `get_frame_seq()` is the fold of `min` over the
qualities of the shown frames. -/
theorem stay_min_ssim_eq_foldl (quality_data : List (Nat × List (Nat × ℚ))) :
    ∀ (frame_seq : List FrameInfoWrapper) (min_ssim : ℚ),
      stay_min_ssim quality_data frame_seq min_ssim =
        (shown_qualities quality_data frame_seq).foldl min min_ssim := by
  intro frame_seq
  induction frame_seq with
  | nil => intro min_ssim; rfl
  | cons w rest ih =>
    intro min_ssim
    simp only [stay_min_ssim, shown_qualities]
    cases hs : w.frame_info.shown with
    | false =>
      simp only [Bool.false_eq_true, if_false]
      rw [List.filter_cons_of_neg (by simp [hs])]
      exact ih min_ssim
    | true =>
      simp only [if_true]
      rw [List.filter_cons_of_pos (by simp [hs])]
      simp only [List.map_cons, List.foldl_cons]
      have hmin : (if quality_at quality_data w.frame_info.target_hash.output_hash w.dri <
            min_ssim then
            quality_at quality_data w.frame_info.target_hash.output_hash w.dri
          else min_ssim) =
          min min_ssim (quality_at quality_data w.frame_info.target_hash.output_hash w.dri) := by
        split
        · rename_i hlt
          exact (min_eq_right (le_of_lt hlt)).symm
        · rename_i hge
          exact (min_eq_left (not_lt.1 hge)).symm
      rw [hmin]
      exact ih _

theorem stay_min_ssim_append (quality_data : List (Nat × List (Nat × ℚ))) :
    ∀ (a b : List FrameInfoWrapper) (min_ssim : ℚ),
      stay_min_ssim quality_data (a ++ b) min_ssim =
        stay_min_ssim quality_data b (stay_min_ssim quality_data a min_ssim) := by
  intro a
  induction a with
  | nil => intro b min_ssim; rfl
  | cons w rest ih =>
    intro b min_ssim
    simp only [List.cons_append, stay_min_ssim]
    split
    · exact ih b _
    · exact ih b _

/-- The running minimum of the wrapping loops is that of `get_frame_seq()` on
the wrappers they build. -/
theorem wrap_frames_min_ssim (quality_data : List (Nat × List (Nat × ℚ))) (track_id : Nat) :
    ∀ (frames : List FrameInfo) (dri : Nat) (min_ssim : ℚ),
      (wrap_frames quality_data track_id frames dri min_ssim).2.2 =
        stay_min_ssim quality_data
          (wrap_frames quality_data track_id frames dri SIZE_MAX_AS_DOUBLE).1 min_ssim ∧
      (wrap_frames quality_data track_id frames dri min_ssim).1 =
        (wrap_frames quality_data track_id frames dri SIZE_MAX_AS_DOUBLE).1 ∧
      (wrap_frames quality_data track_id frames dri min_ssim).2.1 =
        (wrap_frames quality_data track_id frames dri SIZE_MAX_AS_DOUBLE).2.1 := by
  intro frames
  induction frames with
  | nil => intro dri min_ssim; exact ⟨rfl, rfl, rfl⟩
  | cons frame rest ih =>
    intro dri min_ssim
    simp only [wrap_frames]
    cases hs : frame.shown with
    | false =>
      simp only [Bool.false_eq_true, if_false, stay_min_ssim, hs]
      obtain ⟨h1, h2, h3⟩ := ih dri min_ssim
      exact ⟨h1, by rw [h2], h3⟩
    | true =>
      simp only [if_true, stay_min_ssim, hs]
      obtain ⟨h1, h2, h3⟩ := ih (size_add dri 1)
        (if quality_at quality_data frame.target_hash.output_hash dri < min_ssim then
          quality_at quality_data frame.target_hash.output_hash dri else min_ssim)
      obtain ⟨_, k2, k3⟩ := ih (size_add dri 1)
        (if quality_at quality_data frame.target_hash.output_hash dri < SIZE_MAX_AS_DOUBLE then
          quality_at quality_data frame.target_hash.output_hash dri else SIZE_MAX_AS_DOUBLE)
      refine ⟨?_, ?_, ?_⟩
      · rw [h1, k2]
      · rw [h2, k2]
      · rw [h3, k3]

/-- The fold of `min` over a nonempty list of values, none of them above the
initial value, is the least element of the list. -/
theorem foldl_min_least (qualities : List ℚ) (bound : ℚ) (hne : qualities ≠ [])
    (hle : ∀ x ∈ qualities, x ≤ bound) :
    qualities.foldl min bound ∈ qualities ∧ ∀ x ∈ qualities, qualities.foldl min bound ≤ x := by
  have gen : ∀ (l : List ℚ) (m : ℚ),
      (l.foldl min m = m ∨ l.foldl min m ∈ l) ∧ l.foldl min m ≤ m ∧
        ∀ x ∈ l, l.foldl min m ≤ x := by
    intro l
    induction l with
    | nil => intro m; exact ⟨Or.inl rfl, le_refl _, fun x hx => by cases hx⟩
    | cons a rest ih =>
      intro m
      simp only [List.foldl_cons]
      obtain ⟨h1, h2, h3⟩ := ih (min m a)
      refine ⟨?_, le_trans h2 (min_le_left _ _), ?_⟩
      · rcases h1 with h1 | h1
        · rcases min_choice m a with hc | hc
          · left; rw [h1, hc]
          · right; rw [h1, hc]; exact List.mem_cons_self _ _
        · right; exact List.mem_cons_of_mem _ h1
      · intro x hx
        rcases List.mem_cons.1 hx with hx | hx
        · subst hx; exact le_trans h2 (min_le_right _ _)
        · exact h3 x hx
  obtain ⟨h1, h2, h3⟩ := gen qualities bound
  refine ⟨?_, h3⟩
  rcases h1 with h1 | h1
  · cases qualities with
    | nil => exact absurd rfl hne
    | cons a rest =>
      have ha : List.foldl min bound (a :: rest) ≤ a := h3 a (List.mem_cons_self _ _)
      have hb : a ≤ bound := hle a (List.mem_cons_self _ _)
      have hab : a = bound := le_antisymm hb (by rw [h1] at ha; exact ha)
      rw [h1, ← hab]
      exact List.mem_cons_self _ _
  · exact h1

theorem get_frame_seq_min_ssim {R S K : Type} (player : AlfalfaPlayer R S K)
    (seq : FrameSequence) (h : get_frame_seq player = Except.ok seq) :
    seq.min_ssim = stay_min_ssim player.quality_data_ seq.frame_seq SIZE_MAX_AS_DOUBLE := by
  unfold get_frame_seq at h
  cases hv : vector_range player.current_frame_seq_ player.current_download_pt_index_
      player.current_frame_seq_.length with
  | error e => rw [hv] at h; cases h
  | ok r =>
    rw [hv] at h
    cases h
    rfl

theorem get_frame_seq_of_track_min_ssim {R S K : Type} (fuel : Nat)
    (player : AlfalfaPlayer R S K) (track_id dri : Nat)
    (seq : FrameSequence) (h : get_frame_seq_of_track fuel player track_id dri = Except.ok seq) :
    seq.min_ssim = stay_min_ssim player.quality_data_ seq.frame_seq SIZE_MAX_AS_DOUBLE := by
  unfold get_frame_seq_of_track at h
  simp only at h
  cases hs : get_track_seek fuel player.video_ player.cache_ track_id
      (player.video_.frame_index_by_displayed_raster_index track_id dri)
      FrameDependency.empty with
  | error e => rw [hs] at h; cases h
  | ok track_seek =>
    rw [hs] at h
    simp only at h
    cases hv : vector_range (track_frames_at player.track_frames_ track_id) track_seek.1
        (track_frames_at player.track_frames_ track_id).length with
    | error e => rw [hv] at h; cases h
    | ok r =>
      rw [hv] at h
      cases h
      exact (wrap_frames_min_ssim _ _ _ _ _).1

theorem get_frame_seq_of_switch_min_ssim {R S K : Type} (player : AlfalfaPlayer R S K)
    (switch_info : SwitchInfo) (seq : FrameSequence)
    (h : get_frame_seq_of_switch player switch_info = Except.ok seq) :
    seq.min_ssim = stay_min_ssim player.quality_data_ seq.frame_seq SIZE_MAX_AS_DOUBLE := by
  unfold get_frame_seq_of_switch at h
  simp only at h
  cases hv : vector_range (track_frames_at player.track_frames_ switch_info.from_track_id)
      player.current_download_pt_index_ switch_info.from_frame_index with
  | error e => rw [hv] at h; cases h
  | ok before =>
    rw [hv] at h
    simp only at h
    cases hw : player.current_frame_seq_[player.current_download_pt_index_]? with
    | none => rw [hw] at h; cases h
    | some wrapper =>
      rw [hw] at h
      simp only at h
      cases hn : vector_range (track_frames_at player.track_frames_ switch_info.to_track_id)
          switch_info.to_frame_index
          (track_frames_at player.track_frames_ switch_info.to_track_id).length with
      | error e => rw [hn] at h; cases h
      | ok after =>
        rw [hn] at h
        cases h
        simp only
        rw [stay_min_ssim_append, stay_min_ssim_append]
        obtain ⟨a1, a2, a3⟩ := wrap_frames_min_ssim player.quality_data_
          switch_info.to_track_id after
          (wrap_frames player.quality_data_ SIZE_MAX switch_info.frames
            (wrap_frames player.quality_data_ switch_info.from_track_id before wrapper.dri
              SIZE_MAX_AS_DOUBLE).2.1
            (wrap_frames player.quality_data_ switch_info.from_track_id before wrapper.dri
              SIZE_MAX_AS_DOUBLE).2.2).2.1
          (wrap_frames player.quality_data_ SIZE_MAX switch_info.frames
            (wrap_frames player.quality_data_ switch_info.from_track_id before wrapper.dri
              SIZE_MAX_AS_DOUBLE).2.1
            (wrap_frames player.quality_data_ switch_info.from_track_id before wrapper.dri
              SIZE_MAX_AS_DOUBLE).2.2).2.2
        obtain ⟨b1, b2, b3⟩ := wrap_frames_min_ssim player.quality_data_ SIZE_MAX
          switch_info.frames
          (wrap_frames player.quality_data_ switch_info.from_track_id before wrapper.dri
            SIZE_MAX_AS_DOUBLE).2.1
          (wrap_frames player.quality_data_ switch_info.from_track_id before wrapper.dri
            SIZE_MAX_AS_DOUBLE).2.2
        obtain ⟨c1, _, _⟩ := wrap_frames_min_ssim player.quality_data_
          switch_info.from_track_id before wrapper.dri SIZE_MAX_AS_DOUBLE
        rw [a1, a2, b1, b2, ← c1]

/-- C32: for a frame sequence built by any of the three `get_frame_seq`
overloads that has a shown frame, over a quality table whose entries do not
exceed the initial `(double) SIZE_MAX`, `min_ssim` is the minimum of
`quality_data[ output_hash ][ dri ]` over the shown frames of the sequence, a
missing entry reading as 0: it is one of these qualities and none of them is
below it.  Frames that are not shown do not take part. -/
theorem min_ssim_is_minimum_over_shown {R S K : Type} (fuel : Nat)
    (player : AlfalfaPlayer R S K) (switch_info : SwitchInfo) (track_id dri : Nat)
    (seq : FrameSequence)
    (hq : quality_bounded player.quality_data_)
    (hbuilt : get_frame_seq_of_switch player switch_info = Except.ok seq ∨
      get_frame_seq player = Except.ok seq ∨
      get_frame_seq_of_track fuel player track_id dri = Except.ok seq)
    (hshown : ∃ w ∈ seq.frame_seq, w.frame_info.shown = true) :
    seq.min_ssim ∈ shown_qualities player.quality_data_ seq.frame_seq ∧
    ∀ x ∈ shown_qualities player.quality_data_ seq.frame_seq, seq.min_ssim ≤ x := by
  have hmin : seq.min_ssim =
      stay_min_ssim player.quality_data_ seq.frame_seq SIZE_MAX_AS_DOUBLE := by
    rcases hbuilt with h | h | h
    · exact get_frame_seq_of_switch_min_ssim player switch_info seq h
    · exact get_frame_seq_min_ssim player seq h
    · exact get_frame_seq_of_track_min_ssim fuel player track_id dri seq h
  rw [hmin, stay_min_ssim_eq_foldl]
  apply foldl_min_least
  · obtain ⟨w, hw, hs⟩ := hshown
    intro hnil
    have hm : quality_at player.quality_data_ w.frame_info.target_hash.output_hash w.dri ∈
        shown_qualities player.quality_data_ seq.frame_seq := by
      unfold shown_qualities
      exact List.mem_map.2 ⟨w, List.mem_filter.2 ⟨hw, by simpa using hs⟩, rfl⟩
    rw [hnil] at hm
    cases hm
  · intro x hx
    unfold shown_qualities at hx
    obtain ⟨w, _, hwx⟩ := List.mem_map.1 hx
    rw [← hwx]
    exact quality_at_le _ hq _ _

/-- Witness for `min_ssim_is_minimum_over_shown`: on `rated_player` the switch
candidate of `track_switch`, whose switch frame has no table entry, scores 0,
the rest of track 0 scores 1/2 and the jump to track 1 scores 9/10. -/
theorem min_ssim_is_minimum_over_shown_witness :
    quality_bounded rated_player.quality_data_ ∧
    (get_frame_seq_of_switch rated_player track_switch).map
        (fun s => (s.min_ssim, shown_qualities rated_player.quality_data_ s.frame_seq)) =
      Except.ok (0, [1 / 2, 0, 1 / 2, 1 / 2]) ∧
    (get_frame_seq rated_player).map
        (fun s => (s.min_ssim, shown_qualities rated_player.quality_data_ s.frame_seq)) =
      Except.ok (1 / 2, [1 / 2, 1 / 2, 1 / 2, 1 / 2]) ∧
    (get_frame_seq_of_track 1 rated_player 1 1).map
        (fun s => (s.min_ssim, shown_qualities rated_player.quality_data_ s.frame_seq)) =
      Except.ok (9 / 10, [9 / 10, 9 / 10, 9 / 10, 9 / 10, 9 / 10]) ∧
    ∃ seq, get_frame_seq rated_player = Except.ok seq ∧
      seq.min_ssim ∈ shown_qualities rated_player.quality_data_ seq.frame_seq ∧
      ∀ x ∈ shown_qualities rated_player.quality_data_ seq.frame_seq, seq.min_ssim ≤ x := by
  have hstay : (get_frame_seq rated_player).map
        (fun s => (s.min_ssim, shown_qualities rated_player.quality_data_ s.frame_seq)) =
      Except.ok (1 / 2, [1 / 2, 1 / 2, 1 / 2, 1 / 2]) := by decide!
  refine ⟨by decide!, by decide!, hstay, by decide!, ?_⟩
  cases hseq : get_frame_seq rated_player with
  | error e => rw [hseq] at hstay; cases hstay
  | ok seq =>
    rw [hseq] at hstay
    have hq : shown_qualities rated_player.quality_data_ seq.frame_seq =
        [1 / 2, 1 / 2, 1 / 2, 1 / 2] := by
      have := Except.ok.inj hstay
      exact (Prod.mk.inj this).2
    have hfr : seq.frame_seq ≠ [] := by
      intro hnil
      rw [hnil] at hq
      cases hq
    refine ⟨seq, rfl, min_ssim_is_minimum_over_shown 1 rated_player track_switch 1 1 seq
      (by decide!) (Or.inr (Or.inl hseq)) ?_⟩
    by_contra hno
    have hempty : shown_qualities rated_player.quality_data_ seq.frame_seq = [] := by
      unfold shown_qualities
      rw [List.map_eq_nil_iff, List.filter_eq_nil_iff]
      intro w hw hs
      exact hno ⟨w, hw, hs⟩
    rw [hempty] at hq
    cases hq

theorem wrap_frames_shape (quality_data : List (Nat × List (Nat × ℚ))) (track_id : Nat) :
    ∀ (frames : List FrameInfo) (dri : Nat) (min_ssim : ℚ),
      (wrap_frames quality_data track_id frames dri min_ssim).1.map
          (fun w => (w.frame_info, w.track_id)) = frames.map (fun f => (f, track_id)) ∧
      (wrap_frames quality_data track_id frames dri min_ssim).1.map (fun w => w.dri) =
        running_dri frames dri ∧
      (wrap_frames quality_data track_id frames dri min_ssim).2.1 = final_dri frames dri := by
  intro frames
  induction frames with
  | nil => intro dri min_ssim; exact ⟨rfl, rfl, rfl⟩
  | cons frame rest ih =>
    intro dri min_ssim
    simp only [wrap_frames, running_dri, final_dri]
    cases hs : frame.shown with
    | false =>
      simp only [Bool.false_eq_true, if_false, List.map_cons]
      obtain ⟨h1, h2, h3⟩ := ih dri min_ssim
      exact ⟨by rw [h1], by rw [h2], h3⟩
    | true =>
      simp only [if_true, List.map_cons]
      obtain ⟨h1, h2, h3⟩ := ih (size_add dri 1)
        (if quality_at quality_data frame.target_hash.output_hash dri < min_ssim then
          quality_at quality_data frame.target_hash.output_hash dri else min_ssim)
      exact ⟨by rw [h1], by rw [h2], h3⟩

theorem running_dri_append :
    ∀ (a b : List FrameInfo) (dri : Nat),
      running_dri (a ++ b) dri = running_dri a dri ++ running_dri b (final_dri a dri) := by
  intro a
  induction a with
  | nil => intro b dri; rfl
  | cons frame rest ih =>
    intro b dri
    show running_dri (frame :: (rest ++ b)) dri = _
    simp only [running_dri, final_dri, ih, List.cons_append]

theorem final_dri_append :
    ∀ (a b : List FrameInfo) (dri : Nat),
      final_dri (a ++ b) dri = final_dri b (final_dri a dri) := by
  intro a
  induction a with
  | nil => intro b dri; rfl
  | cons frame rest ih =>
    intro b dri
    show final_dri (frame :: (rest ++ b)) dri = _
    simp only [final_dri, ih]

/-- A list of wrappers whose indices are the running indices of its frames
starts at the initial index and steps by one after a shown frame only. -/
theorem running_dri_steps :
    ∀ (wrappers : List FrameInfoWrapper) (dri : Nat),
      wrappers.map (fun w => w.dri) =
        running_dri (wrappers.map (fun w => w.frame_info)) dri →
      (∀ first, wrappers[0]? = some first → first.dri = dri) ∧
      ∀ (i : Nat) (previous next : FrameInfoWrapper),
        wrappers[i]? = some previous → wrappers[i + 1]? = some next →
        next.dri = if previous.frame_info.shown then size_add previous.dri 1
          else previous.dri := by
  intro wrappers
  induction wrappers with
  | nil =>
    intro dri _
    exact ⟨fun first h => (by cases h), fun i previous next h => (by cases h)⟩
  | cons w rest ih =>
    intro dri h
    simp only [List.map_cons, running_dri, List.cons.injEq] at h
    obtain ⟨hd, hrest⟩ := h
    obtain ⟨ih0, ihs⟩ := ih _ hrest
    refine ⟨?_, ?_⟩
    · intro first hf
      simp only [List.getElem?_cons_zero, Option.some.injEq] at hf
      rw [← hf]; exact hd
    · intro i previous next hp hn
      cases i with
      | zero =>
        simp only [List.getElem?_cons_zero, Option.some.injEq] at hp
        simp only [zero_add, List.getElem?_cons_succ] at hn
        rw [ih0 next hn, ← hp, hd]
      | succ j =>
        simp only [List.getElem?_cons_succ] at hp hn
        exact ihs j previous next hp hn

/-- C33: when the download point is at most `sw.from_frame_index`, which lies
within the source track, `sw.to_frame_index` lies within the target track and
the current frame sequence has a wrapper at the download point,
`get_frame_seq( sw )` returns the frames
`from_track[ current_download_pt_index .. sw.from_frame_index )` labelled
`sw.from_track_id`, then `sw.frames` labelled `SIZE_MAX`, then
`to_track[ sw.to_frame_index .. end )` labelled `sw.to_track_id`.  The first
wrapper has the dri of the wrapper at the download point, and every later
wrapper has the dri of the wrapper before it, advanced by one (`dri++` on a
`size_t`) exactly when the frame before it is shown; below `SIZE_MAX` that is
the dri plus 1. -/
theorem switch_candidate_structure {R S K : Type} (player : AlfalfaPlayer R S K)
    (sw : SwitchInfo) (wrapper : FrameInfoWrapper)
    (hfrom : player.current_download_pt_index_ ≤ sw.from_frame_index)
    (hsource : sw.from_frame_index ≤
      (track_frames_at player.track_frames_ sw.from_track_id).length)
    (htarget : sw.to_frame_index ≤ (track_frames_at player.track_frames_ sw.to_track_id).length)
    (hcur : player.current_frame_seq_[player.current_download_pt_index_]? = some wrapper) :
    ∃ seq, get_frame_seq_of_switch player sw = Except.ok seq ∧
      seq.frame_seq.map (fun w => (w.frame_info, w.track_id)) =
        (((track_frames_at player.track_frames_ sw.from_track_id).drop
            player.current_download_pt_index_).take
            (sw.from_frame_index - player.current_download_pt_index_)).map
          (fun f => (f, sw.from_track_id)) ++
        sw.frames.map (fun f => (f, SIZE_MAX)) ++
        ((track_frames_at player.track_frames_ sw.to_track_id).drop sw.to_frame_index).map
          (fun f => (f, sw.to_track_id)) ∧
      (∀ first, seq.frame_seq[0]? = some first → first.dri = wrapper.dri) ∧
      (∀ (i : Nat) (previous next : FrameInfoWrapper),
        seq.frame_seq[i]? = some previous → seq.frame_seq[i + 1]? = some next →
        next.dri = if previous.frame_info.shown then size_add previous.dri 1
          else previous.dri) ∧
      ∀ (i : Nat) (previous next : FrameInfoWrapper),
        seq.frame_seq[i]? = some previous → seq.frame_seq[i + 1]? = some next →
        previous.dri < SIZE_MAX →
        next.dri = previous.dri + (if previous.frame_info.shown then 1 else 0) := by
  have hbefore : vector_range (track_frames_at player.track_frames_ sw.from_track_id)
      player.current_download_pt_index_ sw.from_frame_index =
      Except.ok (((track_frames_at player.track_frames_ sw.from_track_id).drop
        player.current_download_pt_index_).take
        (sw.from_frame_index - player.current_download_pt_index_)) := by
    unfold vector_range
    rw [if_pos ⟨hfrom, hsource⟩]
  have hafter : vector_range (track_frames_at player.track_frames_ sw.to_track_id)
      sw.to_frame_index (track_frames_at player.track_frames_ sw.to_track_id).length =
      Except.ok ((track_frames_at player.track_frames_ sw.to_track_id).drop
        sw.to_frame_index) := by
    unfold vector_range
    rw [if_pos ⟨htarget, le_refl _⟩, ← List.length_drop, List.take_length]
  obtain ⟨a1, a2, a3⟩ := wrap_frames_shape player.quality_data_ sw.from_track_id
    (((track_frames_at player.track_frames_ sw.from_track_id).drop
      player.current_download_pt_index_).take
      (sw.from_frame_index - player.current_download_pt_index_)) wrapper.dri
    SIZE_MAX_AS_DOUBLE
  generalize hbw : wrap_frames player.quality_data_ sw.from_track_id
    (((track_frames_at player.track_frames_ sw.from_track_id).drop
      player.current_download_pt_index_).take
      (sw.from_frame_index - player.current_download_pt_index_)) wrapper.dri
    SIZE_MAX_AS_DOUBLE = before at a1 a2 a3
  obtain ⟨b1, b2, b3⟩ := wrap_frames_shape player.quality_data_ SIZE_MAX sw.frames
    before.2.1 before.2.2
  generalize hdw : wrap_frames player.quality_data_ SIZE_MAX sw.frames
    before.2.1 before.2.2 = during at b1 b2 b3
  obtain ⟨c1, c2, _⟩ := wrap_frames_shape player.quality_data_ sw.to_track_id
    ((track_frames_at player.track_frames_ sw.to_track_id).drop sw.to_frame_index)
    during.2.1 during.2.2
  generalize haw : wrap_frames player.quality_data_ sw.to_track_id
    ((track_frames_at player.track_frames_ sw.to_track_id).drop sw.to_frame_index)
    during.2.1 during.2.2 = after at c1 c2
  have hval : get_frame_seq_of_switch player sw =
      Except.ok { frame_seq := before.1 ++ during.1 ++ after.1, min_ssim := after.2.2 } := by
    unfold get_frame_seq_of_switch
    simp only [hbefore, hafter, hcur, hbw, hdw, haw]
  have hshape : (before.1 ++ during.1 ++ after.1).map (fun w => (w.frame_info, w.track_id)) =
      (((track_frames_at player.track_frames_ sw.from_track_id).drop
          player.current_download_pt_index_).take
          (sw.from_frame_index - player.current_download_pt_index_)).map
        (fun f => (f, sw.from_track_id)) ++
      sw.frames.map (fun f => (f, SIZE_MAX)) ++
      ((track_frames_at player.track_frames_ sw.to_track_id).drop sw.to_frame_index).map
        (fun f => (f, sw.to_track_id)) := by
    rw [List.map_append, List.map_append, a1, b1, c1]
  have hframes : ∀ (l : List FrameInfoWrapper) (fs : List FrameInfo) (t : Nat),
      l.map (fun w => (w.frame_info, w.track_id)) = fs.map (fun f => (f, t)) →
      l.map (fun w => w.frame_info) = fs := by
    intro l fs t h
    have := congrArg (List.map Prod.fst) h
    simpa [List.map_map, Function.comp_def] using this
  have hdri : (before.1 ++ during.1 ++ after.1).map (fun w => w.dri) =
      running_dri ((before.1 ++ during.1 ++ after.1).map (fun w => w.frame_info))
        wrapper.dri := by
    rw [List.map_append, List.map_append, List.map_append, List.map_append,
      hframes _ _ _ a1, hframes _ _ _ b1, hframes _ _ _ c1, List.append_assoc,
      running_dri_append, running_dri_append, a2, b2, c2, b3, a3, List.append_assoc]
    rw [final_dri_append]
  obtain ⟨h0, hstep⟩ := running_dri_steps _ _ hdri
  refine ⟨_, hval, hshape, h0, hstep, ?_⟩
  intro i previous next hp hn hlt
  rw [hstep i previous next hp hn]
  split
  · unfold size_add
    unfold SIZE_MAX at hlt
    rw [Nat.mod_eq_of_lt (by unfold SIZE_MOD; omega)]
  · rfl

/-- Witness for `switch_candidate_structure`: on `on_track_player`, with the
download point 1, the candidate of `track_switch` is frame 1 of track 0, the
switch frame 40, and the frames 3 and 4 of track 1, with the displayed raster
indices 1, 2, 3 and 4. -/
theorem switch_candidate_structure_witness :
    (get_frame_seq_of_switch on_track_player track_switch).map
        (fun s => s.frame_seq.map (fun w => (w.frame_info.frame_id, w.track_id, w.dri))) =
      Except.ok [(1, 0, 1), (40, SIZE_MAX, 2), (3, 1, 3), (4, 1, 4)] ∧
    ∃ seq, get_frame_seq_of_switch on_track_player track_switch = Except.ok seq ∧
      ∀ first, seq.frame_seq[0]? = some first → first.dri = 1 := by
  refine ⟨by decide!, ?_⟩
  obtain ⟨seq, h1, _, h3, _⟩ := switch_candidate_structure on_track_player track_switch
    { frame_info := chain_video.frame_at 0 1, track_id := 0, dri := 1 }
    (by decide) (by decide) (by decide) (by decide)
  exact ⟨seq, h1, h3⟩

/-- C34 at the failing input: for `on_track_player` the frame of track 1 at the
displayed raster index 1 is frame 1, and the track seek from it starts at frame
0, the key frame.  `get_frame_seq( 1, 1 )` returns the frames 0 to 4 of track 1,
all shown, with the displayed raster indices 1 to 5: the numbering starts with
the requested index at the first frame of the sequence, so every wrapper carries
one more than the number of shown frames that precede its frame on the track,
and the wrapper of frame 1 carries 2, not the requested 1. -/
theorem track_jump_dri_shifted :
    on_track_player.video_.frame_index_by_displayed_raster_index 1 1 = 1 ∧
    (get_track_seek 1 on_track_player.video_ on_track_player.cache_ 1 1
        FrameDependency.empty).map (fun r => r.1) = Except.ok 0 ∧
    (track_frames_at on_track_player.track_frames_ 1).map
        (fun f => (f.frame_id, f.shown)) =
      [(0, true), (1, true), (2, true), (3, true), (4, true)] ∧
    (get_frame_seq_of_track 1 on_track_player 1 1).map
        (fun o => o.frame_seq.map (fun w => (w.frame_info.frame_id, w.track_id, w.dri))) =
      Except.ok [(0, 1, 1), (1, 1, 2), (2, 1, 3), (3, 1, 4), (4, 1, 5)] := by
  refine ⟨rfl, by decide, by decide, by decide!⟩

theorem track_jump_options_mem {R S K : Type} (fuel : Nat) (player : AlfalfaPlayer R S K)
    (throughput_estimate dri cur_track_id : Nat) :
    ∀ (track_ids : List Nat) (options : List FrameSequence)
      (tested : List (List FrameInfoWrapper)),
      track_jump_options fuel player throughput_estimate dri cur_track_id track_ids =
        Except.ok (options, tested) →
      ∀ o ∈ options, ∃ t ∈ track_ids, t ≠ cur_track_id ∧
        get_frame_seq_of_track fuel player t dri = Except.ok o ∧
        determine_feasibility player o.frame_seq throughput_estimate = Except.ok true := by
  intro track_ids
  induction track_ids with
  | nil =>
    intro options tested h o ho
    simp only [track_jump_options] at h
    cases h
    cases ho
  | cons track_id rest ih =>
    intro options tested h o ho
    simp only [track_jump_options] at h
    split at h
    · rename_i hne
      cases hc : get_frame_seq_of_track fuel player track_id dri with
      | error e => rw [hc] at h; cases h
      | ok frame_seq =>
        rw [hc] at h
        simp only at h
        cases hf : determine_feasibility player frame_seq.frame_seq throughput_estimate with
        | error e => rw [hf] at h; cases h
        | ok feasible =>
          rw [hf] at h
          simp only at h
          cases hr : track_jump_options fuel player throughput_estimate dri cur_track_id
              rest with
          | error e => rw [hr] at h; cases h
          | ok p =>
            obtain ⟨options1, tested1⟩ := p
            rw [hr] at h
            simp only [Except.ok.injEq, Prod.mk.injEq] at h
            obtain ⟨h1, _⟩ := h
            have hrest : o ∈ options1 → ∃ t ∈ track_id :: rest, t ≠ cur_track_id ∧
                get_frame_seq_of_track fuel player t dri = Except.ok o ∧
                determine_feasibility player o.frame_seq throughput_estimate =
                  Except.ok true := by
              intro hm
              obtain ⟨t, ht, g⟩ := ih options1 tested1 hr o hm
              exact ⟨t, List.mem_cons_of_mem _ ht, g⟩
            cases feasible with
            | false =>
              simp only [Bool.false_eq_true, if_false] at h1
              rw [← h1] at ho
              exact hrest ho
            | true =>
              simp only [if_true] at h1
              rw [← h1] at ho
              rcases List.mem_cons.1 ho with ho | ho
              · subst ho
                exact ⟨track_id, List.mem_cons_self _ _, hne, hc, hf⟩
              · exact hrest ho
    · obtain ⟨t, ht, g⟩ := ih options tested h o ho
      exact ⟨t, List.mem_cons_of_mem _ ht, g⟩

/-- When the download point is inside the current frame sequence and
`get_sequential_play_options` returns, the vector it returns, for any throughput
estimate, starts with the candidate of `get_frame_seq()`, whose frames are those of the
current sequence from the download point on, whether `determine_feasibility`
accepts it or not; every later element is the candidate `get_frame_seq( t, dri )`
of a track `t` other than the track of the wrapper at the download point, and
`determine_feasibility` accepts it. -/
theorem stay_candidate_first {R S K : Type} (fuel : Nat) (player : AlfalfaPlayer R S K)
    (throughput_estimate : Nat) (wrapper : FrameInfoWrapper) (options : List FrameSequence)
    (hcur : player.current_frame_seq_[player.current_download_pt_index_]? = some wrapper)
    (hopt : get_sequential_play_options fuel player throughput_estimate = Except.ok options) :
    ∃ stay rest, options = stay :: rest ∧ get_frame_seq player = Except.ok stay ∧
      stay.frame_seq = player.current_frame_seq_.drop player.current_download_pt_index_ ∧
      ∀ o ∈ rest, ∃ t ∈ player.video_.track_ids, t ≠ wrapper.track_id ∧
        get_frame_seq_of_track fuel player t wrapper.dri = Except.ok o ∧
        determine_feasibility player o.frame_seq throughput_estimate = Except.ok true := by
  have hlt : player.current_download_pt_index_ < player.current_frame_seq_.length := by
    by_contra hge
    rw [List.getElem?_eq_none (by omega)] at hcur
    cases hcur
  have hlen : ¬ ((player.current_frame_seq_.length == 0) = true) := by
    simp only [beq_iff_eq]; omega
  have hge : ¬ (player.current_download_pt_index_ ≥ player.current_frame_seq_.length) := by
    omega
  unfold get_sequential_play_options sequential_play_options_run at hopt
  rw [if_neg hlen, if_neg hge] at hopt
  simp only [hcur] at hopt
  cases hstay : get_frame_seq player with
  | error e => rw [hstay] at hopt; cases hopt
  | ok stay =>
    rw [hstay] at hopt
    simp only at hopt
    cases hj : track_jump_options fuel player throughput_estimate wrapper.dri
        wrapper.track_id player.video_.track_ids with
    | error e => rw [hj] at hopt; cases hopt
    | ok p =>
      obtain ⟨jumps, tested⟩ := p
      rw [hj] at hopt
      simp only at hopt
      have hmem := track_jump_options_mem fuel player throughput_estimate wrapper.dri
        wrapper.track_id player.video_.track_ids jumps tested hj
      have key : options = stay :: jumps → ∃ stay1 rest, options = stay1 :: rest ∧
          (Except.ok stay : Except Fault FrameSequence) = Except.ok stay1 ∧
          stay1.frame_seq =
            player.current_frame_seq_.drop player.current_download_pt_index_ ∧
          ∀ o ∈ rest, ∃ t ∈ player.video_.track_ids, t ≠ wrapper.track_id ∧
            get_frame_seq_of_track fuel player t wrapper.dri = Except.ok o ∧
            determine_feasibility player o.frame_seq throughput_estimate = Except.ok true :=
        fun ho => ⟨stay, jumps, ho, rfl, get_frame_seq_frames player stay hstay, hmem⟩
      split at hopt
      · exact key (Except.ok.inj hopt).symm
      · cases hp : player.current_frame_seq_[player.current_download_pt_index_ - 1]? with
        | none => rw [hp] at hopt; cases hopt
        | some previous =>
          rw [hp] at hopt
          simp only at hopt
          split at hopt
          · exact key (Except.ok.inj hopt).symm
          · cases hs : switch_options player throughput_estimate wrapper.dri
                previous.track_id (player.video_.connected_track_ids previous.track_id) with
            | error e => rw [hs] at hopt; cases hopt
            | ok tested_switches =>
              rw [hs] at hopt
              exact key (Except.ok.inj hopt).symm

/-- An instance of `stay_candidate_first`: for `unpaid_player` and a throughput of
0, `determine_feasibility` rejects the rest of track 0, and that rest, the frames
1 to 4, is the only element returned. -/
theorem stay_candidate_first_witness :
    (get_sequential_play_options 1 unpaid_player 0).map
        (fun options => options.map (fun o =>
          (o.frame_seq.map (fun w => (w.frame_info.frame_id, w.track_id, w.dri)),
           determine_feasibility unpaid_player o.frame_seq 0))) =
      Except.ok [([(1, 0, 1), (2, 0, 2), (3, 0, 3), (4, 0, 4)], Except.ok false)] ∧
    ∃ options stay rest, get_sequential_play_options 1 unpaid_player 0 = Except.ok options ∧
      options = stay :: rest ∧
      stay.frame_seq = unpaid_player.current_frame_seq_.drop 1 := by
  have hval : (get_sequential_play_options 1 unpaid_player 0).map
        (fun options => options.map (fun o =>
          (o.frame_seq.map (fun w => (w.frame_info.frame_id, w.track_id, w.dri)),
           determine_feasibility unpaid_player o.frame_seq 0))) =
      Except.ok [([(1, 0, 1), (2, 0, 2), (3, 0, 3), (4, 0, 4)], Except.ok false)] := by
    decide!
  refine ⟨hval, ?_⟩
  cases hopt : get_sequential_play_options 1 unpaid_player 0 with
  | error e => rw [hopt] at hval; cases hval
  | ok options =>
    obtain ⟨stay, rest, h1, _, h3, _⟩ := stay_candidate_first 1 unpaid_player 0
      { frame_info := chain_video.frame_at 0 1, track_id := 0, dri := 1 } options
      (by decide) hopt
    exact ⟨options, stay, rest, rfl, h1, h3⟩

/-- C36: in a cache of capacity at least 1 reached from a newly constructed one
by `put`, `get` of present keys and `clear`, the recency list holds no key twice
and the map has no key twice, the keys of the list are the keys of the map,
`size()` is the length of the list, and `has( k )` holds exactly for the keys of
the list; after `clear()`, `size()` is 0 and `has( k )` is false for every `k`. -/
theorem lru_representation_invariant {α : Type} (capacity : Nat) (hcap : 1 ≤ capacity)
    (c : LRUCache α) (hreach : LRUCache.Reachable capacity c) :
    c.recency.Nodup ∧ c.keys.Nodup ∧ (∀ k, k ∈ c.recency ↔ k ∈ c.keys) ∧
      c.size = c.cached_items_.length ∧ (∀ k, c.has k = true ↔ k ∈ c.recency) ∧
      c.clear.size = 0 ∧ (∀ k, c.clear.has k = false) ∧ c.clear.recency = [] := by
  have hwf := (hreach.wf hcap).1
  refine ⟨hwf.recency_nodup, hwf.keys_nodup, hwf.mem_recency_iff, hwf.size_eq, ?_, rfl,
    fun k => rfl, rfl⟩
  intro k
  rw [LRUCache.has_iff_mem_keys, hwf.mem_recency_iff]

/-- Witness for `lru_representation_invariant`: the cache of capacity 2 after
`put( 1 )`, `put( 2 )`, `get( 1 )`, `put( 3 )`, whose recency list is `[3, 1]`. -/
theorem lru_representation_invariant_witness :
    ∃ c : LRUCache Nat,
      (LRUCache.empty 2 : LRUCache Nat).run
        [LRUOp.put 1 10, LRUOp.put 2 20, LRUOp.get 1, LRUOp.put 3 30] = Except.ok c ∧
      c.recency = [3, 1] ∧ c.size = 2 ∧ c.recency.Nodup ∧
      (∀ k, c.has k = true ↔ k ∈ c.recency) := by
  have h1 : LRUCache.Reachable 2
      ({ cache_capacity := 2, cached_items_ := [(0, 1)], cache_ := [(1, (10, some 0))]
         fresh_node_ := 1 } : LRUCache Nat) :=
    LRUCache.Reachable.put _ _ 1 10 LRUCache.Reachable.empty rfl
  have h2 := LRUCache.Reachable.put _
    ({ cache_capacity := 2, cached_items_ := [(1, 2), (0, 1)]
       cache_ := [(1, (10, some 0)), (2, (20, some 1))], fresh_node_ := 2 } : LRUCache Nat)
    2 20 h1 rfl
  have h3 := LRUCache.Reachable.get _
    ({ cache_capacity := 2, cached_items_ := [(2, 1), (1, 2)]
       cache_ := [(1, (10, some 2)), (2, (20, some 1))], fresh_node_ := 3 } : LRUCache Nat)
    1 10 h2 rfl
  have h4 := LRUCache.Reachable.put _
    ({ cache_capacity := 2, cached_items_ := [(3, 3), (2, 1)]
       cache_ := [(1, (10, some 2)), (3, (30, some 3))], fresh_node_ := 4 } : LRUCache Nat)
    3 30 h3 rfl
  obtain ⟨g1, _, _, _, g5, _⟩ := lru_representation_invariant 2 (by decide) _ h4
  exact ⟨_, rfl, rfl, rfl, g1, g5⟩

theorem get_count_decrease (d : FrameDependency) (t : DependencyType) (h : Nat)
    (v : DependencyVertex) :
    (d.decrease_count t h).2.get_count v.type v.hash =
      if v = { type := t, hash := h } then d.get_count t h - 1
      else d.get_count v.type v.hash := by
  obtain ⟨vt, vh⟩ := v
  unfold FrameDependency.decrease_count FrameDependency.get_count
  simp only
  cases hf : map_find d.ref_counter_ { type := t, hash := h } with
  | some n =>
    simp only
    by_cases hn : n > 0
    · simp only [hn, if_true, map_find_set, hf]
      by_cases hv : ({ type := vt, hash := vh } : DependencyVertex) = { type := t, hash := h }
      · simp only [hv, if_true, Option.map_some']
      · simp only [hv, if_false]
    · simp only [hn, if_false, map_find_erase]
      by_cases hv : ({ type := vt, hash := vh } : DependencyVertex) = { type := t, hash := h }
      · simp only [hv, if_true]
        omega
      · simp only [hv, if_false]
  | none =>
    simp only [map_find_erase]
    by_cases hv : ({ type := vt, hash := vh } : DependencyVertex) = { type := t, hash := h }
    · simp only [hv, if_true]
    · simp only [hv, if_false]

theorem get_count_release (d : FrameDependency) (t : DependencyType) (has : Nat → Bool)
    (hash : Option Nat) (v : DependencyVertex) :
    (d.release t has hash).get_count v.type v.hash =
      d.get_count v.type v.hash - (uncached_slot t has hash).count v := by
  cases hash with
  | none => simp [FrameDependency.release, uncached_slot]
  | some h =>
    by_cases hh : has h = true
    · simp [FrameDependency.release, uncached_slot, hh]
    · have hh2 : has h = false := by simpa using hh
      simp only [FrameDependency.release, uncached_slot, hh2, Bool.not_false, if_true]
      rw [get_count_decrease]
      by_cases hv : v = { type := t, hash := h }
      · subst hv
        simp
      · have hv2 : ¬ ({ type := t, hash := h } : DependencyVertex) = v := fun e => hv e.symm
        simp [hv, List.count_cons, hv2]

theorem get_count_update_dependencies_forward {R S : Type} (d : FrameDependency)
    (frame : FrameInfo) (cache : RasterAndStateCache R S) (v : DependencyVertex) :
    (d.update_dependencies_forward frame cache).get_count v.type v.hash =
      d.get_count v.type v.hash - (uncached_source_slots frame cache).count v := by
  unfold FrameDependency.update_dependencies_forward uncached_source_slots
  simp only [List.foldl_cons, List.foldl_nil, get_count_release, List.count_append]
  omega

/-- C37: `update_dependencies_forward` leaves the unresolved set as it is, so
`all_resolved()` has the same value before and after; the counter of every
vertex is lowered by the number of present source slots of the frame that hold
this vertex and that the cache does not have, stopping at 0, so the counter of
a vertex that is not such a source vertex is unchanged. -/
theorem update_dependencies_forward_effect {R S : Type} (d : FrameDependency)
    (frame : FrameInfo) (cache : RasterAndStateCache R S) :
    (d.update_dependencies_forward frame cache).unresolved_ = d.unresolved_ ∧
    (d.update_dependencies_forward frame cache).all_resolved = d.all_resolved ∧
    (∀ v : DependencyVertex,
      (d.update_dependencies_forward frame cache).get_count v.type v.hash =
        d.get_count v.type v.hash - (uncached_source_slots frame cache).count v) ∧
    (∀ v : DependencyVertex, v ∉ uncached_source_slots frame cache →
      (d.update_dependencies_forward frame cache).get_count v.type v.hash =
        d.get_count v.type v.hash) ∧
    (∀ v ∈ uncached_source_slots frame cache,
      v ∈ source_vertices frame ∧ cache.has_vertex v = false) := by
  have hu := update_dependencies_forward_unresolved d frame cache
  refine ⟨hu, ?_, get_count_update_dependencies_forward d frame cache, ?_, ?_⟩
  · unfold FrameDependency.all_resolved
    rw [hu]
  · intro v hv
    rw [get_count_update_dependencies_forward, List.count_eq_zero_of_not_mem hv]
    rfl
  · intro v hv
    have hslot : ∀ (t : DependencyType) (has : Nat → Bool) (hash : Option Nat),
        v ∈ uncached_slot t has hash → ∃ h, hash = some h ∧ has h = false ∧
          v = { type := t, hash := h } := by
      intro t has hash hm
      cases hash with
      | none => simp [uncached_slot] at hm
      | some h =>
        by_cases hh : has h = true
        · simp [uncached_slot, hh] at hm
        · have hh2 : has h = false := by simpa using hh
          simp only [uncached_slot, hh2, Bool.not_false, if_true, List.mem_singleton] at hm
          exact ⟨h, rfl, hh2, hm⟩
    simp only [uncached_source_slots, List.mem_append] at hv
    rcases hv with ((hv | hv) | hv) | hv
    · obtain ⟨h, h1, h2, h3⟩ := hslot _ _ _ hv
      subst h3
      exact ⟨mem_source_vertices_raster frame h (Or.inl h1), h2⟩
    · obtain ⟨h, h1, h2, h3⟩ := hslot _ _ _ hv
      subst h3
      exact ⟨mem_source_vertices_raster frame h (Or.inr (Or.inl h1)), h2⟩
    · obtain ⟨h, h1, h2, h3⟩ := hslot _ _ _ hv
      subst h3
      exact ⟨mem_source_vertices_raster frame h (Or.inr (Or.inr h1)), h2⟩
    · obtain ⟨h, h1, h2, h3⟩ := hslot _ _ _ hv
      subst h3
      exact ⟨mem_source_vertices_state frame h h1, h2⟩

/-- C38: when the playhead `p` is inside the current frame sequence, whose size
is a `size_t`, and the wrapper at `p` has a displayed raster index above the
requested one, `get_raster_sequential` ends in the `runtime_error` of line 521
and leaves the playhead at `p + 1`, with the frame sequence, the download point
and `downloaded_frame_bytes` as they were. -/
theorem get_raster_sequential_failure_advances {R S K : Type} (ext : Collaborators R S K)
    (player : AlfalfaPlayer R S K) (dri : Nat) (wrapper : FrameInfoWrapper)
    (hsize : player.current_frame_seq_.length < SIZE_MOD)
    (hat : player.current_frame_seq_[player.current_playhead_index_]? = some wrapper)
    (hgt : wrapper.dri > dri) :
    (get_raster_sequential ext player dri).1 = Except.error Fault.runtime_error ∧
    ∃ player1, (get_raster_sequential ext player dri).2 = some player1 ∧
      player1.current_playhead_index_ = player.current_playhead_index_ + 1 ∧
      player1.current_frame_seq_ = player.current_frame_seq_ ∧
      player1.current_download_pt_index_ = player.current_download_pt_index_ ∧
      player1.downloaded_frame_bytes_ = player.downloaded_frame_bytes_ := by
  have hlt : player.current_playhead_index_ < player.current_frame_seq_.length := by
    by_contra hge
    rw [List.getElem?_eq_none (by omega)] at hat
    cases hat
  have hrun : get_raster_sequential ext player dri =
      (Except.error Fault.runtime_error,
       some { player with
         current_playhead_index_ := size_add player.current_playhead_index_ 1 }) := by
    simp only [get_raster_sequential, hat, hgt, if_true]
  rw [hrun]
  refine ⟨rfl, _, rfl, ?_, rfl, rfl, rfl⟩
  show size_add player.current_playhead_index_ 1 = player.current_playhead_index_ + 1
  unfold size_add
  exact Nat.mod_eq_of_lt (by omega)

/-- Witness for `get_raster_sequential_failure_advances`: with the playhead at
index 2 of the chain, whose wrapper has the displayed raster index 2, the
request for index 1 fails and leaves the playhead at 3. -/
theorem get_raster_sequential_failure_advances_witness :
    (get_raster_sequential hash_collaborators (playing_player 2) 1).1 =
        Except.error Fault.runtime_error ∧
      ∃ player1, (get_raster_sequential hash_collaborators (playing_player 2) 1).2 =
          some player1 ∧
        player1.current_playhead_index_ = 3 ∧ player1.current_frame_seq_.length = 4 := by
  obtain ⟨h1, player1, h2, h3, h4, _⟩ :=
    get_raster_sequential_failure_advances hash_collaborators (playing_player 2) 1
      { frame_info := inter_frame 2 5 101 102 202, track_id := 0, dri := 2 }
      (by decide) rfl (by decide)
  exact ⟨h1, player1, h2, h3, by rw [h4]; rfl⟩

theorem cost_bit_le (prob : Nat) (h : prob < 256) (b : Bool) : cost_bit prob b ≤ 2047 := by
  have all : ∀ p < 256, ∀ b : Bool, cost_bit p b ≤ 2047 := by decide!
  exact all prob h b

theorem int16_exact (cost : Nat) (h : cost ≤ 32767) :
    to_int16 (cost : Int) = (cost : Int) ∧ to_uint16 (cost : Int) = cost := by
  unfold to_int16 to_uint16
  constructor <;> omega

theorem assign_eq_assign_exact (run : CostRun) (tree_entry : Int) (current_cost bit : Nat)
    (h : current_cost + bit ≤ 32767) :
    run.assign tree_entry (to_int16 ((current_cost : Int) + (bit : Int))) =
      run.assign_exact tree_entry (current_cost + bit) := by
  obtain ⟨h1, h2⟩ := int16_exact (current_cost + bit) h
  unfold CostRun.assign CostRun.assign_exact
  rw [← Nat.cast_add, h1, h2]

/-- While the sums stay within an `int16_t`, the conversions of `compute_cost`
change nothing. -/
theorem compute_cost_run_exact (probabilities : List Nat)
    (hbyte : ∀ p ∈ probabilities, p < 256) :
    ∀ (fuel : Nat) (run : CostRun) (tree_index current_cost : Nat),
      current_cost + 2047 * fuel ≤ 32767 →
      compute_cost_run fuel run probabilities tree_index current_cost =
        compute_cost_exact fuel run probabilities tree_index current_cost := by
  intro fuel
  induction fuel with
  | zero => intro run tree_index current_cost _; rfl
  | succ fuel ih =>
    intro run tree_index current_cost hcost
    unfold compute_cost_run compute_cost_exact
    cases hp : probabilities[tree_index / 2]? with
    | none => rfl
    | some prob =>
      have hprob : prob < 256 := hbyte prob (List.getElem?_mem hp)
      have hf := cost_bit_le prob hprob false
      have ht := cost_bit_le prob hprob true
      have conv : ∀ bit : Nat, bit ≤ 2047 →
          to_uint16 (to_int16 ((current_cost : Int) + (bit : Int))) = current_cost + bit := by
        intro bit hb
        obtain ⟨h1, h2⟩ := int16_exact (current_cost + bit) (by omega)
        rw [← Nat.cast_add, h1, h2]
      simp only
      cases h0 : vp8_coef_tree[size_add tree_index 0]? with
      | none => rfl
      | some tree_entry =>
        simp only
        rw [assign_eq_assign_exact run tree_entry current_cost _ (by omega), conv _ hf,
          ih run (to_size_t tree_entry) (current_cost + cost_bit prob false) (by omega)]
        cases hfirst : (if tree_entry ≤ 0 then
            run.assign_exact tree_entry (current_cost + cost_bit prob false)
          else compute_cost_exact fuel run probabilities (to_size_t tree_entry)
            (current_cost + cost_bit prob false)) with
        | error e => rfl
        | ok run1 =>
          simp only
          cases h1 : vp8_coef_tree[size_add tree_index 1]? with
          | none => rfl
          | some tree_entry1 =>
            simp only
            rw [assign_eq_assign_exact run1 tree_entry1 current_cost _ (by omega), conv _ ht,
              ih run1 (to_size_t tree_entry1) (current_cost + cost_bit prob true) (by omega)]

theorem path_cost_le (probabilities : List Nat) (hbyte : ∀ p ∈ probabilities, p < 256) :
    ∀ path : List (Nat × Bool), path_cost probabilities path ≤ 2047 * path.length := by
  intro path
  induction path with
  | nil => exact le_refl _
  | cons step rest ih =>
    have hp : probabilities.getD step.1 0 < 256 := by
      rw [List.getD_eq_getElem?_getD]
      cases hg : probabilities[step.1]? with
      | none => simp
      | some p => exact hbyte p (List.getElem?_mem hg)
    have hb := cost_bit_le _ hp step.2
    unfold path_cost at ih ⊢
    simp only [List.map_cons, List.sum_cons, List.length_cons]
    omega

theorem list_length_eleven {α : Type} (l : List α) (h : l.length = 11) :
    ∃ a0 a1 a2 a3 a4 a5 a6 a7 a8 a9 a10, l = [a0, a1, a2, a3, a4, a5, a6, a7, a8, a9, a10] := by
  rcases l with _ | ⟨a0, _ | ⟨a1, _ | ⟨a2, _ | ⟨a3, _ | ⟨a4, _ | ⟨a5, _ | ⟨a6, _ | ⟨a7, _ |
    ⟨a8, _ | ⟨a9, _ | ⟨a10, _ | ⟨a11, l⟩⟩⟩⟩⟩⟩⟩⟩⟩⟩⟩⟩ <;>
    first
    | exact ⟨a0, a1, a2, a3, a4, a5, a6, a7, a8, a9, a10, rfl⟩
    | (simp only [List.length_cons, List.length_nil] at h; omega)

theorem list_length_twelve {α : Type} (l : List α) (h : l.length = 12) :
    ∃ a0 a1 a2 a3 a4 a5 a6 a7 a8 a9 a10 a11,
      l = [a0, a1, a2, a3, a4, a5, a6, a7, a8, a9, a10, a11] := by
  rcases l with _ | ⟨a0, l⟩
  · simp at h
  · obtain ⟨a1, a2, a3, a4, a5, a6, a7, a8, a9, a10, a11, rfl⟩ :=
      list_length_eleven l (by simpa using h)
    exact ⟨a0, a1, a2, a3, a4, a5, a6, a7, a8, a9, a10, a11, rfl⟩

/-- The paths from the root of `vp8_coef_tree` to its leaves. -/
theorem leaf_paths_root :
    leaf_paths 7 0 [] =
      [(11, [(0, false)]),
       (0, [(0, true), (1, false)]),
       (1, [(0, true), (1, true), (2, false)]),
       (2, [(0, true), (1, true), (2, true), (3, false), (4, false)]),
       (3, [(0, true), (1, true), (2, true), (3, false), (4, true), (5, false)]),
       (4, [(0, true), (1, true), (2, true), (3, false), (4, true), (5, true)]),
       (5, [(0, true), (1, true), (2, true), (3, true), (6, false), (7, false)]),
       (6, [(0, true), (1, true), (2, true), (3, true), (6, false), (7, true)]),
       (7, [(0, true), (1, true), (2, true), (3, true), (6, true), (8, false), (9, false)]),
       (8, [(0, true), (1, true), (2, true), (3, true), (6, true), (8, false), (9, true)]),
       (9, [(0, true), (1, true), (2, true), (3, true), (6, true), (8, true), (10, false)]),
       (10, [(0, true), (1, true), (2, true), (3, true), (6, true), (8, true), (10, true)])] := by
  decide!

/-- The paths from node 1 of `vp8_coef_tree` to the leaves below it. -/
theorem leaf_paths_node_one :
    leaf_paths 7 2 [] =
      [(0, [(1, false)]),
       (1, [(1, true), (2, false)]),
       (2, [(1, true), (2, true), (3, false), (4, false)]),
       (3, [(1, true), (2, true), (3, false), (4, true), (5, false)]),
       (4, [(1, true), (2, true), (3, false), (4, true), (5, true)]),
       (5, [(1, true), (2, true), (3, true), (6, false), (7, false)]),
       (6, [(1, true), (2, true), (3, true), (6, false), (7, true)]),
       (7, [(1, true), (2, true), (3, true), (6, true), (8, false), (9, false)]),
       (8, [(1, true), (2, true), (3, true), (6, true), (8, false), (9, true)]),
       (9, [(1, true), (2, true), (3, true), (6, true), (8, true), (10, false)]),
       (10, [(1, true), (2, true), (3, true), (6, true), (8, true), (10, true)])] := by
  decide!

/-- The run of `compute_cost` from the root, on symbolic probabilities. -/
theorem compute_cost_exact_root (c0 c1 c2 c3 c4 c5 c6 c7 c8 c9 c10 c11 : Nat)
    (p0 p1 p2 p3 p4 p5 p6 p7 p8 p9 p10 : Nat) :
    compute_cost_exact 7
        { costs_nodes := [c0, c1, c2, c3, c4, c5, c6, c7, c8, c9, c10, c11], written := [] }
        [p0, p1, p2, p3, p4, p5, p6, p7, p8, p9, p10] 0 0 =
      Except.ok
        { costs_nodes :=
            [0 + cost_bit p0 true + cost_bit p1 false,
             0 + cost_bit p0 true + cost_bit p1 true + cost_bit p2 false,
             0 + cost_bit p0 true + cost_bit p1 true + cost_bit p2 true + cost_bit p3 false +
               cost_bit p4 false,
             0 + cost_bit p0 true + cost_bit p1 true + cost_bit p2 true + cost_bit p3 false +
               cost_bit p4 true + cost_bit p5 false,
             0 + cost_bit p0 true + cost_bit p1 true + cost_bit p2 true + cost_bit p3 false +
               cost_bit p4 true + cost_bit p5 true,
             0 + cost_bit p0 true + cost_bit p1 true + cost_bit p2 true + cost_bit p3 true +
               cost_bit p6 false + cost_bit p7 false,
             0 + cost_bit p0 true + cost_bit p1 true + cost_bit p2 true + cost_bit p3 true +
               cost_bit p6 false + cost_bit p7 true,
             0 + cost_bit p0 true + cost_bit p1 true + cost_bit p2 true + cost_bit p3 true +
               cost_bit p6 true + cost_bit p8 false + cost_bit p9 false,
             0 + cost_bit p0 true + cost_bit p1 true + cost_bit p2 true + cost_bit p3 true +
               cost_bit p6 true + cost_bit p8 false + cost_bit p9 true,
             0 + cost_bit p0 true + cost_bit p1 true + cost_bit p2 true + cost_bit p3 true +
               cost_bit p6 true + cost_bit p8 true + cost_bit p10 false,
             0 + cost_bit p0 true + cost_bit p1 true + cost_bit p2 true + cost_bit p3 true +
               cost_bit p6 true + cost_bit p8 true + cost_bit p10 true,
             0 + cost_bit p0 false]
          written := [11, 0, 1, 2, 3, 4, 5, 6, 7, 8, 9, 10] } := by
  rfl

/-- The run of `compute_cost` from node 1, on symbolic probabilities. -/
theorem compute_cost_exact_node_one (c0 c1 c2 c3 c4 c5 c6 c7 c8 c9 c10 c11 : Nat)
    (p0 p1 p2 p3 p4 p5 p6 p7 p8 p9 p10 : Nat) :
    compute_cost_exact 7
        { costs_nodes := [c0, c1, c2, c3, c4, c5, c6, c7, c8, c9, c10, c11], written := [] }
        [p0, p1, p2, p3, p4, p5, p6, p7, p8, p9, p10] 2 0 =
      Except.ok
        { costs_nodes :=
            [0 + cost_bit p1 false,
             0 + cost_bit p1 true + cost_bit p2 false,
             0 + cost_bit p1 true + cost_bit p2 true + cost_bit p3 false + cost_bit p4 false,
             0 + cost_bit p1 true + cost_bit p2 true + cost_bit p3 false + cost_bit p4 true +
               cost_bit p5 false,
             0 + cost_bit p1 true + cost_bit p2 true + cost_bit p3 false + cost_bit p4 true +
               cost_bit p5 true,
             0 + cost_bit p1 true + cost_bit p2 true + cost_bit p3 true + cost_bit p6 false +
               cost_bit p7 false,
             0 + cost_bit p1 true + cost_bit p2 true + cost_bit p3 true + cost_bit p6 false +
               cost_bit p7 true,
             0 + cost_bit p1 true + cost_bit p2 true + cost_bit p3 true + cost_bit p6 true +
               cost_bit p8 false + cost_bit p9 false,
             0 + cost_bit p1 true + cost_bit p2 true + cost_bit p3 true + cost_bit p6 true +
               cost_bit p8 false + cost_bit p9 true,
             0 + cost_bit p1 true + cost_bit p2 true + cost_bit p3 true + cost_bit p6 true +
               cost_bit p8 true + cost_bit p10 false,
             0 + cost_bit p1 true + cost_bit p2 true + cost_bit p3 true + cost_bit p6 true +
               cost_bit p8 true + cost_bit p10 true,
             c11]
          written := [0, 1, 2, 3, 4, 5, 6, 7, 8, 9, 10] } := by
  rfl

/-- C39: for every array of 11 node probabilities (bytes) and every array of 12
token costs, `compute_cost` returns.  Started at `tree_index` 0 with
`current_cost` 0 it assigns the 12 token entries once each, in the order
`DCT_EOB_TOKEN`, `ZERO_TOKEN`, ..., `DCT_VAL_CATEGORY6`, and the entry of each
token is the sum of `cost_bit( prob[ node ], branch )` over the path from the
root of `vp8_coef_tree` to the leaf of the token.  Started at `tree_index` 2 it
assigns the 11 tokens other than `DCT_EOB_TOKEN`, with the sums over the paths
from node 1, and leaves the entry of `DCT_EOB_TOKEN` as it was.  Every path has
at most 7 nodes and every sum is at most 7 * 2047, so that the conversions to
`int16_t` and `uint16_t` keep every value. -/
theorem token_costs_are_path_sums (probabilities costs_nodes : List Nat)
    (hprob : probabilities.length = 11) (hbyte : ∀ p ∈ probabilities, p < 256)
    (hcosts : costs_nodes.length = 12) :
    (∃ run, compute_cost_run 7 { costs_nodes := costs_nodes, written := [] }
        probabilities 0 0 = Except.ok run ∧
      compute_cost 7 costs_nodes probabilities 0 0 = Except.ok run.costs_nodes ∧
      run.written = [11, 0, 1, 2, 3, 4, 5, 6, 7, 8, 9, 10] ∧
      run.written = (leaf_paths 7 0 []).map Prod.fst ∧
      run.costs_nodes.length = 12 ∧
      ∀ leaf ∈ leaf_paths 7 0 [],
        run.costs_nodes[leaf.1]? = some (path_cost probabilities leaf.2) ∧
        leaf.2.length ≤ 7 ∧ path_cost probabilities leaf.2 ≤ 7 * 2047) ∧
    (∃ run, compute_cost_run 7 { costs_nodes := costs_nodes, written := [] }
        probabilities 2 0 = Except.ok run ∧
      compute_cost 7 costs_nodes probabilities 2 0 = Except.ok run.costs_nodes ∧
      run.written = [0, 1, 2, 3, 4, 5, 6, 7, 8, 9, 10] ∧
      run.written = (leaf_paths 7 2 []).map Prod.fst ∧
      run.costs_nodes.length = 12 ∧
      run.costs_nodes[DCT_EOB_TOKEN.toNat]? = costs_nodes[DCT_EOB_TOKEN.toNat]? ∧
      ∀ leaf ∈ leaf_paths 7 2 [],
        run.costs_nodes[leaf.1]? = some (path_cost probabilities leaf.2) ∧
        leaf.2.length ≤ 7 ∧ path_cost probabilities leaf.2 ≤ 7 * 2047) ∧
    (∀ leaf ∈ leaf_paths 7 0 [], leaf.1 ≠ DCT_EOB_TOKEN.toNat →
      ∃ below ∈ leaf_paths 7 2 [], below.1 = leaf.1 ∧ leaf.2 = (0, true) :: below.2) ∧
    (∀ (prob : Nat), cost_bit prob false = vp8_prob_cost.getD prob 0) ∧
    (∀ (prob : Nat), prob < 256 → cost_bit prob true = vp8_prob_cost.getD (255 - prob) 0) := by
  have hbound : ∀ path : List (Nat × Bool), path.length ≤ 7 →
      path_cost probabilities path ≤ 7 * 2047 := by
    intro path hlen
    have := path_cost_le probabilities hbyte path
    omega
  obtain ⟨p0, p1, p2, p3, p4, p5, p6, p7, p8, p9, p10, rfl⟩ :=
    list_length_eleven probabilities hprob
  obtain ⟨c0, c1, c2, c3, c4, c5, c6, c7, c8, c9, c10, c11, rfl⟩ :=
    list_length_twelve costs_nodes hcosts
  have hroot := compute_cost_run_exact _ hbyte 7
    { costs_nodes := [c0, c1, c2, c3, c4, c5, c6, c7, c8, c9, c10, c11], written := [] } 0 0
    (by omega)
  rw [compute_cost_exact_root] at hroot
  have hone := compute_cost_run_exact _ hbyte 7
    { costs_nodes := [c0, c1, c2, c3, c4, c5, c6, c7, c8, c9, c10, c11], written := [] } 2 0
    (by omega)
  rw [compute_cost_exact_node_one] at hone
  refine ⟨⟨_, hroot, ?_, rfl, ?_, rfl, ?_⟩, ⟨_, hone, ?_, rfl, ?_, rfl, rfl, ?_⟩, ?_, ?_, ?_⟩
  · unfold compute_cost
    rw [hroot]
    rfl
  · rw [leaf_paths_root]
    rfl
  · rw [leaf_paths_root]
    intro leaf hleaf
    simp only [List.mem_cons, List.mem_singleton, List.not_mem_nil, or_false] at hleaf
    rcases hleaf with h | h | h | h | h | h | h | h | h | h | h | h <;> subst h <;>
      refine ⟨?_, by decide, hbound _ (by decide)⟩ <;>
      simp [path_cost] <;> omega
  · unfold compute_cost
    rw [hone]
    rfl
  · rw [leaf_paths_node_one]
    rfl
  · rw [leaf_paths_node_one]
    intro leaf hleaf
    simp only [List.mem_cons, List.mem_singleton, List.not_mem_nil, or_false] at hleaf
    rcases hleaf with h | h | h | h | h | h | h | h | h | h | h <;> subst h <;>
      refine ⟨?_, by decide, hbound _ (by decide)⟩ <;>
      simp [path_cost] <;> omega
  · rw [leaf_paths_root, leaf_paths_node_one]
    decide
  · intro prob
    rfl
  · intro prob hp
    have all : ∀ p < 256, cost_bit p true = vp8_prob_cost.getD (255 - p) 0 := by decide!
    exact all prob hp

/-- Witness for `token_costs_are_path_sums`: with every probability 128 and
every cost 0 before the call, a branch to the first child costs 255 and one to
the second child 257; the run from the root gives 512 for `ZERO_TOKEN`, 1799 for
`DCT_VAL_CATEGORY6` and 255 for `DCT_EOB_TOKEN`. -/
theorem token_costs_are_path_sums_witness :
    compute_cost 7 (List.replicate 12 0) (List.replicate 11 128) 0 0 =
      Except.ok [512, 769, 1281, 1538, 1540, 1538, 1540, 1795, 1797, 1797, 1799, 255] ∧
    ∃ run, compute_cost_run 7 { costs_nodes := List.replicate 12 0, written := [] }
        (List.replicate 11 128) 0 0 = Except.ok run ∧
      run.written = [11, 0, 1, 2, 3, 4, 5, 6, 7, 8, 9, 10] := by
  refine ⟨by decide!, ?_⟩
  obtain ⟨⟨run, h1, _, h3, _⟩, _⟩ := token_costs_are_path_sums (List.replicate 11 128)
    (List.replicate 12 0) (by decide) (by decide) (by decide)
  exact ⟨run, h1, h3⟩

theorem dct_value_cost_length : dct_value_cost.length = 4096 := by decide!

/-- The costs of the negative coefficients, read from -1 down to -2047, are
those of the positive coefficients from 1 up to 2047, each plus 2. -/
theorem dct_value_cost_mirror :
    ((dct_value_cost.take 2048).reverse).take 2047 =
      (dct_value_cost.drop 2049).map (fun cost => cost + 2) := by
  decide!

theorem dct_value_cost_sign (c : Nat) (h1 : 1 ≤ c) (h2 : c ≤ 2047) :
    dct_value_cost[2048 - c]? = (dct_value_cost[2048 + c]?).map (fun cost => cost + 2) := by
  have h := congrArg (fun l => l[c - 1]?) dct_value_cost_mirror
  simp only at h
  have hlen : (dct_value_cost.take 2048).length = 2048 := by
    rw [List.length_take, dct_value_cost_length]; rfl
  rw [List.getElem?_take_of_lt (by omega), List.getElem?_reverse (by rw [hlen]; omega), hlen,
    List.getElem?_take_of_lt (by omega), List.getElem?_map, List.getElem?_drop] at h
  have e1 : 2048 - 1 - (c - 1) = 2048 - c := by omega
  have e2 : 2049 + (c - 1) = 2048 + c := by omega
  rw [e1, e2] at h
  exact h

/-- C40: `coeff_base_cost` is defined for every `coeff` in [-2048, 2047]: the
assertion holds and the index `2048 + coeff` lies within the 4096 entries of
`dct_value_cost`; `coeff_base_cost( 0 )` is 0; and for every `c` in [1, 2047]
`coeff_base_cost( -c )` is `coeff_base_cost( c ) + 2`, the difference of
`vp8_prob_cost[ 127 ] = 257` and `vp8_prob_cost[ 128 ] = 255`, which are the
costs of the coefficients -1 and 1. -/
theorem coeff_base_cost_table :
    dct_value_cost.length = 4096 ∧
    (∀ coeff : Int, -2048 ≤ coeff → coeff ≤ 2047 →
      (2048 + coeff).toNat < dct_value_cost.length ∧
      ∃ cost, coeff_base_cost coeff = some cost) ∧
    coeff_base_cost 0 = some 0 ∧
    (∀ c : Int, 1 ≤ c → c ≤ 2047 →
      ∃ cost, coeff_base_cost c = some cost ∧ coeff_base_cost (-c) = some (cost + 2)) ∧
    vp8_prob_cost[127]? = some 257 ∧ vp8_prob_cost[128]? = some 255 ∧
    coeff_base_cost (-1) = some 257 ∧ coeff_base_cost 1 = some 255 := by
  have hdef : ∀ coeff : Int, -2048 ≤ coeff → coeff ≤ 2047 →
      (2048 + coeff).toNat < dct_value_cost.length ∧
      ∃ cost, coeff_base_cost coeff = some cost := by
    intro coeff h1 h2
    have hlt : (2048 + coeff).toNat < dct_value_cost.length := by
      rw [dct_value_cost_length]; omega
    refine ⟨hlt, dct_value_cost.get ⟨(2048 + coeff).toNat, hlt⟩, ?_⟩
    unfold coeff_base_cost
    rw [if_pos ⟨h1, h2⟩, List.getElem?_eq_getElem hlt]
    rfl
  refine ⟨dct_value_cost_length, hdef, by decide!, ?_, by decide!, by decide!, by decide!,
    by decide!⟩
  intro c h1 h2
  obtain ⟨_, cost, hcost⟩ := hdef c (by omega) h2
  refine ⟨cost, hcost, ?_⟩
  have hsign := dct_value_cost_sign c.toNat (by omega) (by omega)
  have e1 : (2048 + c).toNat = 2048 + c.toNat := by omega
  have e2 : (2048 + -c).toNat = 2048 - c.toNat := by omega
  unfold coeff_base_cost at hcost ⊢
  rw [if_pos ⟨by omega, h2⟩, e1] at hcost
  rw [if_pos ⟨by omega, by omega⟩, e2, hsign, hcost]
  rfl

/-- On a track with the frames of `paged_video`, `get_track_seek` from index
1999 does not return, whatever the fuel. -/
theorem get_track_seek_paged_track (video : AlfalfaVideoClient) (track_id : Nat)
    (hsize : video.track_size track_id = 2000)
    (hframes : video.frame_at track_id = paged_video.frame_at 0) :
    ∀ fuel, get_track_seek fuel video empty_cache track_id 1999 FrameDependency.empty =
      Except.error Fault.out_of_fuel := by
  apply get_track_seek_second_page video empty_cache track_id 1999 FrameDependency.empty
    (by decide) (by decide) (by rw [hsize]; decide)
  intro m hm
  rw [hframes]
  exact paged_frames_unresolved _ m hm

theorem get_frame_seq_of_track_fault {R S K : Type} (fuel : Nat)
    (player : AlfalfaPlayer R S K) (track_id dri : Nat) (e : Fault)
    (h : get_track_seek fuel player.video_ player.cache_ track_id
      (player.video_.frame_index_by_displayed_raster_index track_id dri)
      FrameDependency.empty = Except.error e) :
    get_frame_seq_of_track fuel player track_id dri = Except.error e := by
  unfold get_frame_seq_of_track
  simp only [h]

/-- A track jump whose candidate is not computed ends the enumeration of the
jumps: the tracks before it are the current one. -/
theorem track_jump_options_fault {R S K : Type} (fuel : Nat) (player : AlfalfaPlayer R S K)
    (throughput_estimate dri cur_track_id track_id : Nat) (e : Fault)
    (hne : track_id ≠ cur_track_id)
    (h : get_frame_seq_of_track fuel player track_id dri = Except.error e) :
    ∀ (before after : List Nat), (∀ t ∈ before, t = cur_track_id) →
      track_jump_options fuel player throughput_estimate dri cur_track_id
        (before ++ track_id :: after) = Except.error e := by
  intro before
  induction before with
  | nil =>
    intro after _
    simp only [List.nil_append, track_jump_options, if_pos hne, h]
  | cons t rest ih =>
    intro after hb
    have ht : ¬ t ≠ cur_track_id := fun hn => hn (hb t (List.mem_cons_self _ _))
    simp only [List.cons_append, track_jump_options, if_neg ht]
    exact ih after (fun u hu => hb u (List.mem_cons_of_mem _ hu))

/-- With the download point inside the current sequence,
`get_sequential_play_options` does not return when the enumeration of the track
jumps does not. -/
theorem sequential_play_options_fault {R S K : Type} (fuel : Nat)
    (player : AlfalfaPlayer R S K) (throughput_estimate : Nat) (wrapper : FrameInfoWrapper)
    (e : Fault)
    (hcur : player.current_frame_seq_[player.current_download_pt_index_]? = some wrapper)
    (hjump : track_jump_options fuel player throughput_estimate wrapper.dri wrapper.track_id
      player.video_.track_ids = Except.error e) :
    get_sequential_play_options fuel player throughput_estimate = Except.error e := by
  have hlt : player.current_download_pt_index_ < player.current_frame_seq_.length := by
    by_contra hge
    rw [List.getElem?_eq_none (by omega)] at hcur
    cases hcur
  have hlen : ¬ ((player.current_frame_seq_.length == 0) = true) := by
    simp only [beq_iff_eq]; omega
  have hge : ¬ (player.current_download_pt_index_ ≥ player.current_frame_seq_.length) := by
    omega
  have hvr : vector_range player.current_frame_seq_ player.current_download_pt_index_
      player.current_frame_seq_.length =
      Except.ok ((player.current_frame_seq_.drop player.current_download_pt_index_).take
        (player.current_frame_seq_.length - player.current_download_pt_index_)) := by
    unfold vector_range
    rw [if_pos ⟨by omega, le_refl _⟩]
  unfold get_sequential_play_options sequential_play_options_run
  rw [if_neg hlen, if_neg hge]
  simp only [hcur, get_frame_seq, hvr, hjump]
  rfl

/-- C3 at the failing input: raster 8 is the output of one frame, which sits at
index 1999 of a track of 2000 frames whose frame 0 produces the raster that all
other frames need.  `get_track_seek` from index 1999 does not return, whatever
the fuel, and so `get_min_track_seek` returns no path for this output hash. -/
theorem min_track_seek_never_returns :
    paged_candidate_video.frames_by_output_hash 8 = [inter_frame 1 5 7 8 9] ∧
    paged_candidate_video.track_data_by_frame_id (inter_frame 1 5 7 8 9).frame_id =
      [{ track_id := 0, frame_index := 1999 }] ∧
    1999 < paged_candidate_video.track_size 0 ∧
    (∀ fuel, get_track_seek fuel paged_candidate_video empty_cache 0 1999
      FrameDependency.empty = Except.error Fault.out_of_fuel) ∧
    ∀ fuel, get_min_track_seek fuel paged_candidate_video empty_cache 8 =
      Except.error Fault.out_of_fuel := by
  have hseek := get_track_seek_paged_track paged_candidate_video 0 rfl rfl
  refine ⟨by decide, by decide, by decide, hseek, ?_⟩
  intro fuel
  have hframes : paged_candidate_video.frames_by_output_hash 8 = [inter_frame 1 5 7 8 9] := by
    decide
  have hdata : paged_candidate_video.track_data_by_frame_id (inter_frame 1 5 7 8 9).frame_id =
      [{ track_id := 0, frame_index := 1999 }] := by decide
  unfold get_min_track_seek
  rw [hframes]
  simp only [min_track_seek_outer, hdata, min_track_seek_inner, hseek fuel]

/-- C35 at the failing input: the sequence of `last_frame_player` is one
wrapper, on track 0 with the displayed raster index 1999, and the download point
0 is inside it.  The jump to track 1 asks `get_track_seek` for index 1999 of a
track of 2000 frames, which does not return, whatever the fuel:
`get_sequential_play_options` returns nothing, and so no first element, for
every throughput estimate. -/
theorem stay_candidate_never_returned :
    (last_frame_player.current_frame_seq_.map (fun w => (w.track_id, w.dri))) =
      [(0, 1999)] ∧
    last_frame_player.current_download_pt_index_ = 0 ∧
    last_frame_player.video_.track_ids = [0, 1] ∧
    last_frame_player.video_.frame_index_by_displayed_raster_index 1 1999 = 1999 ∧
    (∀ fuel, get_track_seek fuel last_frame_player.video_ last_frame_player.cache_ 1 1999
      FrameDependency.empty = Except.error Fault.out_of_fuel) ∧
    ∀ fuel throughput_estimate,
      get_sequential_play_options fuel last_frame_player throughput_estimate =
        Except.error Fault.out_of_fuel := by
  have hseek := get_track_seek_paged_track paged_jump_video 1 rfl rfl
  refine ⟨by decide, rfl, rfl, rfl, hseek, ?_⟩
  intro fuel throughput_estimate
  apply sequential_play_options_fault fuel last_frame_player throughput_estimate
    { frame_info := inter_frame 1 5 7 8 9, track_id := 0, dri := 1999 } _ rfl
  exact track_jump_options_fault fuel last_frame_player throughput_estimate
    1999 0 1 _ (by decide)
    (get_frame_seq_of_track_fault fuel last_frame_player 1 1999 _ (hseek fuel))
    [0] [] (by simp)

end Alfalfa
